import Mathlib

/-!
# OpenFLUID `landr`: polygon graph, relationship classifier, dataset repair

A shallow embedding of `PolygonGraph.cpp`, `PolygonEntity.cpp`, `LandREntity.cpp`
and `VectorDataset.cpp`.

* Objects that the C++ code handles through pointers (`PolygonEdge*`,
  `PolygonEntity*`, `geos::planargraph::Node*`, `OGRFeature*`) are modelled by
  the index at which they were allocated; the tables of allocated objects are
  explicit fields of the state.
* The geometry kernel (GEOS / OGR) is external to the repository: it is a
  record of functions `Kernel G` over an arbitrary geometry type `G`.
  Every general theorem quantifies over all kernels; concrete kernels on a
  unit lattice are used to run the code on explicit inputs.
* `double` values are exact rationals.
* A C++ exception is `Fault.exception`; dereferencing a null pointer, reading
  a deleted object, an out-of-range vector access and a failed `assert` are
  `Fault.undefinedBehaviour`.  Every stateful function returns its outcome
  together with the state it leaves behind, also when it raises.
-/

namespace Landr

/-! ## Basic types -/

/-- Identity (address) of a `PolygonEntity` object. -/
abbrev FaceId := Nat
/-- Identity (address) of a `PolygonEdge` object: its index in the edge table. -/
abbrev EdgeId := Nat
/-- Identity of a `geos::planargraph::Node`: its index in `m_NewNodes`. -/
abbrev NodeId := Nat
/-- Identity of a `geos::planargraph::DirectedEdge`: its index in `m_NewDirEdges`. -/
abbrev DirEdgeId := Nat
/-- Identity (address) of a `LineStringEntity` object. -/
abbrev LineId := Nat

/-- Abnormal outcomes of a call. -/
inductive Fault where
  | exception (location : String) (message : String)
  | undefinedBehaviour (what : String)
deriving DecidableEq, Repr

/-- The class `geos::geom::Coordinate`, restricted to x and y. -/
structure Coordinate where
  x : ℚ
  y : ℚ
deriving DecidableEq, Repr

/-- The enumeration `geos::geom::GeometryTypeId`. -/
inductive GeometryTypeId where
  | GEOS_POINT
  | GEOS_LINESTRING
  | GEOS_LINEARRING
  | GEOS_POLYGON
  | GEOS_MULTIPOINT
  | GEOS_MULTILINESTRING
  | GEOS_MULTIPOLYGON
  | GEOS_GEOMETRYCOLLECTION
deriving DecidableEq, Repr

/-- The enumeration `LandRTools::Relationship`. -/
inductive Relationship where
  | CONTAINS
  | INTERSECTS
  | TOUCHES
deriving DecidableEq, Repr

/-- The geometry kernel (GEOS), as used by the polygon graph and the
classifier.  Each field is the GEOS member function of the same name. -/
structure Kernel (G : Type) where
  getGeometryTypeId : G → GeometryTypeId
  isEmpty : G → Bool
  isValid : G → Bool
  /-- Result of `getDimension()`; `Dimension::L` is 1. -/
  getDimension : G → Int
  /-- Evaluates `a->relate(b, pattern)` for a DE-9IM pattern. -/
  relate : G → G → String → Bool
  intersection : G → G → G
  difference : G → G → G
  getExteriorRing : G → G
  getBoundary : G → G
  buffer : G → ℚ → G
  within : G → G → Bool
  intersects : G → G → Bool
  covers : G → G → Bool
  equals : G → G → Bool
  getLength : G → ℚ
  getCoordinatesRO : G → List Coordinate
  /-- The components `getGeometryN(0) .. getGeometryN(getNumGeometries()-1)`. -/
  getGeometries : G → List G
  /-- Evaluates `GeometryFactory::createMultiLineString`. -/
  createMultiLineString : List G → G
  /-- Evaluates `LineMerger::add(g)` followed by `getMergedLineStrings()`. -/
  getMergedLineStrings : G → List G

/-- The constant `Dimension::L`. -/
def Dimension.L : Int := 1

/-- The function `CoordinateSequence::removeRepeatedPoints`: consecutive equal coordinates
are dropped. -/
def removeRepeatedPoints : List Coordinate → List Coordinate
  | [] => []
  | [c] => [c]
  | c :: d :: rest =>
    if c = d then removeRepeatedPoints (d :: rest)
    else c :: removeRepeatedPoints (d :: rest)

/-! ## Edges, faces, line entities -/

/-- Modelled from the spec: the class `PolygonEdge` (`PolygonEdge.cpp` is not
among the sources).  An edge is a line geometry together with the
back-references to the faces it was attached to. -/
structure PolygonEdge (G : Type) where
  line : G
  m_Faces : List FaceId

/-- Modelled from the spec: `PolygonEdge::addFace` records the face
back-reference. -/
def PolygonEdge.addFace {G : Type} (e : PolygonEdge G) (f : FaceId) : PolygonEdge G :=
  { e with m_Faces := e.m_Faces ++ [f] }

/-- The table of all `PolygonEdge` objects ever allocated (indexed by
`EdgeId`) and the set of those whose storage was released by `delete`. -/
structure EdgeHeap (G : Type) where
  objects : List (PolygonEdge G)
  freed : List EdgeId

/-- Reads a live edge object; `none` for a dangling or invalid pointer. -/
def EdgeHeap.read {G : Type} (h : EdgeHeap G) (e : EdgeId) : Option (PolygonEdge G) :=
  if e ∈ h.freed then none else h.objects[e]?

/-- Allocates a new edge object (`new PolygonEdge(line)`). -/
def EdgeHeap.alloc {G : Type} (h : EdgeHeap G) (line : G) : EdgeId × EdgeHeap G :=
  (h.objects.length, { h with objects := h.objects ++ [⟨line, []⟩] })

/-- Updates the object stored at `e`. -/
def EdgeHeap.update {G : Type} (h : EdgeHeap G) (e : EdgeId)
    (f : PolygonEdge G → PolygonEdge G) : EdgeHeap G :=
  { h with objects := h.objects.modify f e }

/-- Releases the object (`delete Edge`). -/
def EdgeHeap.delete {G : Type} (h : EdgeHeap G) (e : EdgeId) : EdgeHeap G :=
  { h with freed := e :: h.freed }

/-- A reference to a `LandREntity`: a polygon face or a line entity. -/
inductive EntityRef where
  | face (f : FaceId)
  | line (l : LineId)
deriving DecidableEq, Repr

/-- The type `PolygonEntity::NeighboursMap_t`
(`std::map<PolygonEntity*, std::vector<PolygonEdge*>>`), kept in key order. -/
abbrev NeighboursMap := List (FaceId × List EdgeId)

/-- The type `PolygonEntity::LineStringNeighboursMap_t`
(`std::map<LineStringEntity*, PolygonEdge*>`), kept in key order; the edge
pointer may be null. -/
abbrev LineStringNeighboursMap := List (LineId × Option EdgeId)

/-- The feature handed to `addPolygon`, reduced to its `SELF_ID` field (absent
when the feature has no such field). -/
structure OGRFeature where
  SELF_ID : Option Nat
deriving DecidableEq, Repr

/-- A `boost::any` value of the attribute table: empty (default constructed) or
holding a value. -/
inductive BoostAny where
  | empty
  | int (v : Int)
  | text (s : String)
deriving DecidableEq, Repr

/-- The class `PolygonEntity` (with the members of `LandREntity` it uses);
`m_Attributes` is the attribute table of `LandREntity`, empty at
construction. -/
structure PolygonEntity (G : Type) where
  ptr : FaceId
  mp_Feature : OGRFeature
  mp_Polygon : G
  m_PolyEdges : List EdgeId
  mp_Neighbours : Option (List EntityRef)
  mp_NeighboursMap : Option NeighboursMap
  mp_LineStringNeighboursMap : Option LineStringNeighboursMap
  m_Attributes : List (String × BoostAny) := []

/-- A `LineStringEntity` of the line graph: identity and line geometry. -/
structure LineStringEntity (G : Type) where
  ptr : LineId
  line : G

/-- A `LineStringGraph`, reduced to `getEntities()`. -/
structure LineStringGraph (G : Type) where
  entities : List (LineStringEntity G)

/-- The statement `(*m)[key].push_back(e)` on a `NeighboursMap_t`. -/
def NeighboursMap.pushBack : NeighboursMap → FaceId → EdgeId → NeighboursMap
  | [], f, e => [(f, [e])]
  | (g, es) :: rest, f, e =>
    if f = g then (g, es ++ [e]) :: rest
    else if f < g then (f, [e]) :: (g, es) :: rest
    else (g, es) :: NeighboursMap.pushBack rest f e

/-- The call `m->insert(std::make_pair(key, e))`: an existing entry is kept. -/
def LineStringNeighboursMap.insert :
    LineStringNeighboursMap → LineId → Option EdgeId → LineStringNeighboursMap
  | [], l, e => [(l, e)]
  | (l', e') :: rest, l, e =>
    if l = l' then (l', e') :: rest
    else if l < l' then (l, e) :: (l', e') :: rest
    else (l', e') :: LineStringNeighboursMap.insert rest l e

/-- The call `std::set::insert` on `mp_Neighbours`. -/
def setInsert (s : List EntityRef) (x : EntityRef) : List EntityRef :=
  if x ∈ s then s else s ++ [x]

/-- The call `std::set::erase` on `mp_Neighbours`. -/
def setErase (s : List EntityRef) (x : EntityRef) : List EntityRef :=
  s.filter (fun y => y ≠ x)

/-- The call `m->erase(key)` on a `NeighboursMap_t`. -/
def NeighboursMap.erase (m : NeighboursMap) (f : FaceId) : NeighboursMap :=
  m.filter (fun p => p.1 ≠ f)

/-- Outcome of a call together with the state it leaves behind. -/
abbrev Res (σ α : Type) := Except Fault α × σ

/-! ## `PolygonEntity` -/

section Entity
variable {G : Type}

/-- The constructor `PolygonEntity::PolygonEntity(const geos::geom::Geometry*,
unsigned int OfldId)` of `PolygonEntity.cpp`, used by `PolygonEntity::clone`;
`ptr` is the address of the new object.  The identifier is kept as the
`SELF_ID` of the feature of the model, from which `getOfldId` reads it. -/
def PolygonEntity.new (k : Kernel G) (ptr : FaceId) (NewPolygon : G) (OfldId : Nat) :
    Except Fault (PolygonEntity G) :=
  if k.getGeometryTypeId NewPolygon ≠ GeometryTypeId.GEOS_POLYGON then
    .error (.exception "PolygonEntity::PolygonEntity" "Geometry is not a Polygon")
  else if !k.isValid NewPolygon then
    .error (.exception "PolygonEntity::PolygonEntity" "Polygon is not valid")
  else
    .ok { ptr := ptr, mp_Feature := ⟨some OfldId⟩, mp_Polygon := NewPolygon, m_PolyEdges := [],
          mp_Neighbours := none, mp_NeighboursMap := none,
          mp_LineStringNeighboursMap := none }

/-- Modelled from the spec: the constructor
`PolygonEntity(const geos::geom::Polygon*, OGRFeature*)` that
`PolygonGraph::addPolygon` calls.  `PolygonEntity.cpp` defines the constructor
from an identifier only, to which this call cannot bind; the base constructor
`LandREntity::LandREntity(OGRFeature*)` of `LandREntity.cpp` stores the
feature and sets the cached identifier to null.  The entity takes the polygon
and the feature as they are and has no edge; nothing is tested.  `ptr` is the
address of the new object. -/
def PolygonEntity.ofFeature (ptr : FaceId) (NewPolygon : G) (Feat : OGRFeature) :
    PolygonEntity G :=
  { ptr := ptr, mp_Feature := Feat, mp_Polygon := NewPolygon, m_PolyEdges := [],
    mp_Neighbours := none, mp_NeighboursMap := none, mp_LineStringNeighboursMap := none }

/-- The function `LandREntity::getSelfId`. -/
def PolygonEntity.getSelfId (F : PolygonEntity G) : Except Fault Nat :=
  match F.mp_Feature.SELF_ID with
  | some id => .ok id
  | none => .error (.exception "LandREntity::getSelfId" "Cannot get SELF_ID field.")

/-- The accessor `getOfldId()` used by `PolygonEntity.cpp`: the identifier of the
entity (0 when its feature carries none). -/
def PolygonEntity.getOfldId (F : PolygonEntity G) : Nat :=
  F.mp_Feature.SELF_ID.getD 0

/-- The function `PolygonEntity::addEdge`. -/
def PolygonEntity.addEdge (F : PolygonEntity G) (h : EdgeHeap G) (Edge : EdgeId) :
    PolygonEntity G × EdgeHeap G :=
  ({ F with m_PolyEdges := F.m_PolyEdges ++ [Edge],
            mp_NeighboursMap := none,
            mp_LineStringNeighboursMap := none },
   h.update Edge (fun E => E.addFace F.ptr))

/-- The function `PolygonEntity::removeEdge`. -/
def PolygonEntity.removeEdge (F : PolygonEntity G) (h : EdgeHeap G) (Edge : EdgeId) :
    Res (PolygonEntity G × EdgeHeap G) Unit :=
  if Edge ∈ F.m_PolyEdges then
    (.ok (), ({ F with m_PolyEdges := F.m_PolyEdges.erase Edge,
                       mp_NeighboursMap := none,
                       mp_LineStringNeighboursMap := none },
              h.delete Edge))
  else
    (.error (.exception "PolygonEntity::removeEdge" "Edge doesn't exist in Edge vector."),
     (F, h))

/-- The function `PolygonGraph::getMergedLineStringsFromGeometry` (the same
helper is called `LandRTools::computeMergedLineStringsFromGeometry` in
`PolygonEntity.cpp`); `none` is the null pointer. -/
def getMergedLineStringsFromGeometry (k : Kernel G) (Geom : G) : Option (List G) :=
  match k.getGeometryTypeId Geom with
  | .GEOS_LINESTRING => some [Geom]
  | .GEOS_MULTILINESTRING => some (k.getMergedLineStrings Geom)
  | .GEOS_LINEARRING => some (k.getMergedLineStrings Geom)
  | .GEOS_GEOMETRYCOLLECTION => some (k.getMergedLineStrings Geom)
  | _ => none

/-- The function `PolygonGraph::getMergedLineStringFromGeometry` (called
`LandRTools::computeMergedLineStringFromGeometry` in `PolygonEntity.cpp`). -/
def getMergedLineStringFromGeometry (k : Kernel G) (Geom : G) : Except Fault (Option G) :=
  match getMergedLineStringsFromGeometry k Geom with
  | none => .error (.undefinedBehaviour "Lines->size() on a null pointer")
  | some Lines => if Lines.length ≠ 1 then .ok none else .ok Lines.head?

/-- The function `PolygonEntity::computeLineIntersectionsWith` (called
`getLineIntersectionsWith` by `PolygonGraph::addPolygon`). -/
def PolygonEntity.computeLineIntersectionsWith (k : Kernel G) (F Other : PolygonEntity G) :
    Except Fault (List G) :=
  if k.relate F.mp_Polygon Other.mp_Polygon "FFTF1****" then
    match getMergedLineStringsFromGeometry k (k.intersection F.mp_Polygon Other.mp_Polygon) with
    | none => .error (.undefinedBehaviour "null vector dereferenced")
    | some Lines => .ok Lines
  else .ok []

/-- The loop of `PolygonEntity::findEdgeLineIntersectingWith`. -/
def findEdgeLoop (k : Kernel G) (h : EdgeHeap G) (Segment : G) :
    List EdgeId → Except Fault (Option EdgeId)
  | [] => .ok none
  | e :: rest =>
    match h.read e with
    | none => .error (.undefinedBehaviour "deleted edge read")
    | some E =>
      if k.relate Segment E.line "1********" then .ok (some e)
      else findEdgeLoop k h Segment rest

/-- The function `PolygonEntity::findEdgeLineIntersectingWith` (called
`findEdgeIntersecting` by `PolygonGraph::removeSegment`). -/
def PolygonEntity.findEdgeLineIntersectingWith (k : Kernel G) (h : EdgeHeap G)
    (F : PolygonEntity G) (Segment : G) : Except Fault (Option EdgeId) :=
  findEdgeLoop k h Segment F.m_PolyEdges

/-- The loop of `PolygonEntity::computeNeighbours` over `m_PolyEdges`. -/
def computeNeighboursLoop (h : EdgeHeap G) (self : FaceId) :
    List EdgeId → List EntityRef × NeighboursMap → Res (List EntityRef × NeighboursMap) Unit
  | [], st => (.ok (), st)
  | Edge :: rest, (nb, m) =>
    match h.read Edge with
    | none => (.error (.undefinedBehaviour "deleted edge read"), (nb, m))
    | some E =>
      if E.m_Faces.length > 1 then
        match E.m_Faces[0]?, E.m_Faces[1]? with
        | some f0, some f1 =>
          let OtherFace := if f0 = self then f1 else f0
          computeNeighboursLoop h self rest
            (setInsert nb (.face OtherFace), NeighboursMap.pushBack m OtherFace Edge)
        | _, _ => computeNeighboursLoop h self rest (nb, m)
      else computeNeighboursLoop h self rest (nb, m)

/-- The function `PolygonEntity::computeNeighbours`. -/
def PolygonEntity.computeNeighbours (h : EdgeHeap G) (F : PolygonEntity G) :
    Res (PolygonEntity G) Unit :=
  match computeNeighboursLoop h F.ptr F.m_PolyEdges ([], []) with
  | (r, (nb, m)) => (r, { F with mp_Neighbours := some nb, mp_NeighboursMap := some m })

/-- The guard `if (!mp_NeighboursMap) computeNeighbours();`. -/
def PolygonEntity.ensureNeighbours (h : EdgeHeap G) (F : PolygonEntity G) :
    Res (PolygonEntity G) Unit :=
  match F.mp_NeighboursMap with
  | some _ => (.ok (), F)
  | none => F.computeNeighbours h

/-- The function `PolygonEntity::neighboursAndEdges`. -/
def PolygonEntity.neighboursAndEdges (h : EdgeHeap G) (F : PolygonEntity G) :
    Res (PolygonEntity G) NeighboursMap :=
  match F.ensureNeighbours h with
  | (.error f, F1) => (.error f, F1)
  | (.ok (), F1) => (.ok (F1.mp_NeighboursMap.getD []), F1)

/-- The function `PolygonEntity::getCommonEdgesWith`. -/
def PolygonEntity.getCommonEdgesWith (h : EdgeHeap G) (F : PolygonEntity G) (Other : FaceId) :
    Res (PolygonEntity G) (List EdgeId) :=
  match F.ensureNeighbours h with
  | (.error f, F1) => (.error f, F1)
  | (.ok (), F1) =>
    match (F1.mp_NeighboursMap.getD []).find? (fun p => p.1 = Other) with
    | some p => (.ok p.2, F1)
    | none => (.ok [], F1)

/-- Reads the lines of the edges of a list (`Edge->line()` for each). -/
def edgeLines (h : EdgeHeap G) : List EdgeId → Except Fault (List G)
  | [] => .ok []
  | e :: rest =>
    match h.read e with
    | none => .error (.undefinedBehaviour "deleted edge read")
    | some E =>
      match edgeLines h rest with
      | .error f => .error f
      | .ok ls => .ok (E.line :: ls)

/-- The function `PolygonEntity::isComplete`. -/
def PolygonEntity.isComplete (k : Kernel G) (h : EdgeHeap G) (F : PolygonEntity G) :
    Except Fault Bool :=
  match edgeLines h F.m_PolyEdges with
  | .error f => .error f
  | .ok Geoms =>
    match getMergedLineStringFromGeometry k (k.createMultiLineString Geoms) with
    | .error f => .error f
    | .ok none => .ok false
    | .ok (some LS) => .ok (k.equals LS (k.getExteriorRing F.mp_Polygon))

/-- The function `PolygonEntity::getBufferedBoundary`. -/
def PolygonEntity.getBufferedBoundary (k : Kernel G) (F : PolygonEntity G)
    (BufferDistance : ℚ) : G :=
  k.buffer (k.getBoundary F.mp_Polygon) BufferDistance

end Entity

/-! ## `PolygonGraph` -/

/-- A `geos::planargraph::DirectedEdge` as built by `createEdge`. -/
structure DirectedEdge where
  fromNode : NodeId
  toNode : NodeId
  directionPt : Coordinate
  edgeDirection : Bool
  parentEdge : EdgeId
deriving DecidableEq, Repr

/-- The class `PolygonGraph`.  The first three fields are the state of the base
class `geos::planargraph::PlanarGraph` (its edge list, directed-edge list and
node map); `heap` is the table of edge objects and `allocatedEntities` lists
the features of the `PolygonEntity` objects constructed so far (the index is
the address of the object). -/
structure PolygonGraph (G : Type) where
  edges : List EdgeId
  dirEdges : List DirEdgeId
  nodeMap : List (Coordinate × NodeId)
  m_NewNodes : List Coordinate
  m_NewDirEdges : List DirectedEdge
  m_Entities : List (PolygonEntity G)
  m_EntitiesBySelfId : List (Nat × FaceId)
  heap : EdgeHeap G
  allocatedEntities : List OGRFeature

section Graph
variable {G : Type}

/-- The constructor `PolygonGraph::PolygonGraph()`. -/
def PolygonGraph.empty : PolygonGraph G :=
  { edges := [], dirEdges := [], nodeMap := [], m_NewNodes := [], m_NewDirEdges := [],
    m_Entities := [], m_EntitiesBySelfId := [], heap := ⟨[], []⟩, allocatedEntities := [] }

/-- The call `PlanarGraph::findNode`. -/
def PolygonGraph.findNode (gr : PolygonGraph G) (c : Coordinate) : Option NodeId :=
  (gr.nodeMap.find? (fun p => p.1 = c)).map Prod.snd

/-- The function `PolygonGraph::getNode`. -/
def PolygonGraph.getNode (gr : PolygonGraph G) (c : Coordinate) : NodeId × PolygonGraph G :=
  match gr.findNode c with
  | some n => (n, gr)
  | none =>
    (gr.m_NewNodes.length,
     { gr with m_NewNodes := gr.m_NewNodes ++ [c],
               nodeMap := gr.nodeMap ++ [(c, gr.m_NewNodes.length)] })

/-- The function `PolygonGraph::createEdge`; `none` is the null pointer. -/
def PolygonGraph.createEdge (k : Kernel G) (gr : PolygonGraph G) (LineString : G) :
    Res (PolygonGraph G) (Option EdgeId) :=
  if k.isEmpty LineString then (.ok none, gr)
  else
    let Coordinates := removeRepeatedPoints (k.getCoordinatesRO LineString)
    match Coordinates[0]? with
    | none => (.error (.undefinedBehaviour "Coordinates->getAt(0)"), gr)
    | some StartCoordinate =>
      let EndCoordinate := Coordinates.getLastD StartCoordinate
      let gs := gr.getNode StartCoordinate
      let ge := gs.2.getNode EndCoordinate
      match Coordinates[1]? with
      | none => (.error (.undefinedBehaviour "Coordinates->getAt(1)"), ge.2)
      | some d0 =>
        let d1 := (Coordinates[Coordinates.length - 2]?).getD d0
        let NewEdge := ge.2.heap.objects.length
        let DirectedEdge0 : DirectedEdge := ⟨gs.1, ge.1, d0, true, NewEdge⟩
        let DirectedEdge1 : DirectedEdge := ⟨ge.1, gs.1, d1, false, NewEdge⟩
        let i0 := ge.2.m_NewDirEdges.length
        (.ok (some NewEdge),
         { ge.2 with
             m_NewDirEdges := ge.2.m_NewDirEdges ++ [DirectedEdge0, DirectedEdge1],
             heap := (ge.2.heap.alloc LineString).2,
             edges := ge.2.edges ++ [NewEdge],
             dirEdges := ge.2.dirEdges ++ [i0, i0 + 1] })

/-- The call `PlanarGraph::remove(Edge*)`: the edge and its two directed edges
leave the graph. -/
def PolygonGraph.remove (gr : PolygonGraph G) (Edge : EdgeId) : PolygonGraph G :=
  { gr with
      edges := gr.edges.filter (fun e => e ≠ Edge),
      dirEdges := gr.dirEdges.filter
        (fun d => (gr.m_NewDirEdges[d]?.map DirectedEdge.parentEdge) ≠ some Edge) }

/-- The loop of `removeSegment` over `DiffGeoms` and the loop of `addPolygon`
over `NewLines` (the two have the same body): one edge per line, attached to
`Entity` when `createEdge` returns one. -/
def createEdgesLoop (k : Kernel G) :
    List G → PolygonGraph G × PolygonEntity G → Res (PolygonGraph G × PolygonEntity G) Unit
  | [], st => (.ok (), st)
  | Piece :: rest, (gr, Entity) =>
    match gr.createEdge k Piece with
    | (.error f, gr1) => (.error f, (gr1, Entity))
    | (.ok none, gr1) => createEdgesLoop k rest (gr1, Entity)
    | (.ok (some NewEdge), gr1) =>
      let r := Entity.addEdge gr1.heap NewEdge
      createEdgesLoop k rest ({ gr1 with heap := r.2 }, r.1)

/-- The last two statements of `removeSegment`: `remove(OldEdge)` and
`Entity->removeEdge(OldEdge)`. -/
def removeOldEdge (st : PolygonGraph G × PolygonEntity G) (OldEdge : EdgeId) :
    Res (PolygonGraph G × PolygonEntity G) Unit :=
  let gr2 := st.1.remove OldEdge
  match st.2.removeEdge gr2.heap OldEdge with
  | (r, (Entity2, h2)) => (r, ({ gr2 with heap := h2 }, Entity2))

/-- The function `PolygonGraph::removeSegment`. -/
def PolygonGraph.removeSegment (k : Kernel G) (gr : PolygonGraph G) (Entity : PolygonEntity G)
    (Segment : G) : Res (PolygonGraph G × PolygonEntity G) Unit :=
  match Entity.findEdgeLineIntersectingWith k gr.heap Segment with
  | .error f => (.error f, (gr, Entity))
  | .ok none =>
    (.error (.exception "PolygonGraph::removeSegment"
      "Problem when removing segment: doesn't find edge intersection."), (gr, Entity))
  | .ok (some OldEdge) =>
    match gr.heap.read OldEdge with
    | none => (.error (.undefinedBehaviour "deleted edge read"), (gr, Entity))
    | some Old =>
      let DiffGeom := k.difference Old.line Segment
      if !k.isEmpty DiffGeom then
        if k.getDimension DiffGeom = Dimension.L then
          match getMergedLineStringsFromGeometry k DiffGeom with
          | none => (.error (.undefinedBehaviour "DiffGeoms->size() on a null pointer"),
                     (gr, Entity))
          | some DiffGeoms =>
            match createEdgesLoop k DiffGeoms (gr, Entity) with
            | (.error f, st) => (.error f, st)
            | (.ok (), st) => removeOldEdge st OldEdge
        else
          (.error (.exception "PolygonGraph::removeSegment"
            "Error when removing segment: difference geometry is not \"Line\" typed."),
           (gr, Entity))
      else removeOldEdge (gr, Entity) OldEdge

/-- The state of one `addPolygon` call while it runs: the graph (whose
`m_Entities` field is written back when the loop over the entities ends), the
entity under construction and the local vector `SharedGeoms`. -/
structure Insertion (G : Type) where
  graph : PolygonGraph G
  NewEntity : PolygonEntity G
  SharedGeoms : List G

/-- The body of the loop over `SharedLines` in `addPolygon`, for one shared
line of the new entity with `OtherEntity`. -/
def sharedLineStep (k : Kernel G) (st : Insertion G) (OtherEntity : PolygonEntity G)
    (SharedLine : G) : Res (Insertion G × PolygonEntity G) Unit :=
  match st.graph.createEdge k SharedLine with
  | (.error f, gr1) => (.error f, ({ st with graph := gr1 }, OtherEntity))
  | (.ok none, gr1) =>
    (.error (.undefinedBehaviour "null SharedEdge dereferenced"),
     ({ st with graph := gr1 }, OtherEntity))
  | (.ok (some SharedEdge), gr1) =>
    let rn := st.NewEntity.addEdge gr1.heap SharedEdge
    let ro := OtherEntity.addEdge rn.2 SharedEdge
    match PolygonGraph.removeSegment k { gr1 with heap := ro.2 } ro.1 SharedLine with
    | (.error f, (gr2, Other2)) =>
      (.error f, ({ graph := gr2, NewEntity := rn.1, SharedGeoms := st.SharedGeoms }, Other2))
    | (.ok (), (gr2, Other2)) =>
      (.ok (), ({ graph := gr2, NewEntity := rn.1,
                  SharedGeoms := st.SharedGeoms ++ [SharedLine] }, Other2))

/-- The loop over `SharedLines` in `addPolygon`. -/
def sharedLinesLoop (k : Kernel G) :
    List G → Insertion G × PolygonEntity G → Res (Insertion G × PolygonEntity G) Unit
  | [], st => (.ok (), st)
  | SharedLine :: rest, (st, OtherEntity) =>
    match sharedLineStep k st OtherEntity SharedLine with
    | (.error f, st1) => (.error f, st1)
    | (.ok (), st1) => sharedLinesLoop k rest st1

/-- The body of the loop over `m_Entities` in `addPolygon`. -/
def otherEntityStep (k : Kernel G) (st : Insertion G) (OtherEntity : PolygonEntity G) :
    Res (Insertion G × PolygonEntity G) Unit :=
  match st.NewEntity.computeLineIntersectionsWith k OtherEntity with
  | .error f => (.error f, (st, OtherEntity))
  | .ok SharedLines => sharedLinesLoop k SharedLines (st, OtherEntity)

/-- The loop over `m_Entities` in `addPolygon`; the entities are updated in
place, the result lists them in the same order. -/
def entitiesLoop (k : Kernel G) :
    List (PolygonEntity G) → Insertion G → Res (Insertion G × List (PolygonEntity G)) Unit
  | [], st => (.ok (), (st, []))
  | OtherEntity :: rest, st =>
    match otherEntityStep k st OtherEntity with
    | (.error f, (st1, Other1)) => (.error f, (st1, Other1 :: rest))
    | (.ok (), (st1, Other1)) =>
      match entitiesLoop k rest st1 with
      | (r, (st2, rest2)) => (r, (st2, Other1 :: rest2))

/-- The assignment `m_EntitiesBySelfId[key] = value`. -/
def mapAssign (m : List (Nat × FaceId)) (key : Nat) (value : FaceId) : List (Nat × FaceId) :=
  if m.any (fun p => p.1 = key) then m.map (fun p => if p.1 = key then (key, value) else p)
  else m ++ [(key, value)]

/-- The end of `addPolygon`: the edges of the unshared part of the ring, then
the registration of the new entity. -/
def addPolygonFinish (k : Kernel G) (Polygon : G) (st : Insertion G) :
    Res (PolygonGraph G) FaceId :=
  let NewMultiShared := k.createMultiLineString st.SharedGeoms
  let DiffGeom := k.difference (k.getExteriorRing Polygon) NewMultiShared
  let register := fun (s : PolygonGraph G × PolygonEntity G) =>
    match s.2.getSelfId with
    | .error f => (Except.error f, s.1)
    | .ok id =>
      (Except.ok s.2.ptr,
       { s.1 with m_EntitiesBySelfId := mapAssign s.1.m_EntitiesBySelfId id s.2.ptr,
                  m_Entities := s.1.m_Entities ++ [s.2] })
  if !k.isEmpty DiffGeom then
    match getMergedLineStringsFromGeometry k DiffGeom with
    | none => (.error (.undefinedBehaviour "assert(NewLines)"), st.graph)
    | some NewLines =>
      match createEdgesLoop k NewLines (st.graph, st.NewEntity) with
      | (.error f, s) => (.error f, s.1)
      | (.ok (), s) => register s
  else register (st.graph, st.NewEntity)

/-- The `try` block of `PolygonGraph::addPolygon` and the `return` that
follows it, for the entity `NewEntity` under construction: the loop over the
entities of the graph, then the edges of the unshared part of the ring and
the registration. -/
def PolygonGraph.addPolygonTry (k : Kernel G) (gr0 : PolygonGraph G) (Polygon : G)
    (NewEntity : PolygonEntity G) : Res (PolygonGraph G) FaceId :=
  match entitiesLoop k gr0.m_Entities ⟨gr0, NewEntity, []⟩ with
  | (.error f, (st, ents)) => (.error f, { st.graph with m_Entities := ents })
  | (.ok (), (st, ents)) =>
    addPolygonFinish k Polygon { st with graph := { st.graph with m_Entities := ents } }

/-- The statement of `PolygonGraph::addPolygon` between the construction of the
entity and the `try` block: for a polygon that is not valid a warning is
written to `std::cerr`; the result is the identifier printed in it, read
with `getSelfId`, or nothing when no warning is written. -/
def addPolygonWarning (k : Kernel G) (Polygon : G) (NewEntity : PolygonEntity G) :
    Except Fault (Option Nat) :=
  if !k.isValid Polygon then NewEntity.getSelfId.map some else .ok none

/-- The function `PolygonGraph::addPolygon`; the result is the address of the
new entity.  The entity is constructed from the polygon and the feature; the
warning is written for a polygon that is not valid; then the `try` block
runs. -/
def PolygonGraph.addPolygon (k : Kernel G) (gr : PolygonGraph G) (Polygon : G)
    (Feat : OGRFeature) : Res (PolygonGraph G) FaceId :=
  let NewEntity : PolygonEntity G :=
    PolygonEntity.ofFeature gr.allocatedEntities.length Polygon Feat
  let gr0 := { gr with allocatedEntities := gr.allocatedEntities ++ [Feat] }
  match addPolygonWarning k Polygon NewEntity with
  | .error f => (.error f, gr0)
  | .ok _ => PolygonGraph.addPolygonTry k gr0 Polygon NewEntity

/-- The function `PolygonGraph::getSize`. -/
def PolygonGraph.getSize (gr : PolygonGraph G) : Nat := gr.m_Entities.length

/-- The function `PolygonGraph::getEntity`; `none` is the null pointer. -/
def PolygonGraph.getEntity (gr : PolygonGraph G) (SelfId : Nat) : Option (PolygonEntity G) :=
  match gr.m_EntitiesBySelfId.find? (fun p => p.1 = SelfId) with
  | some p => gr.m_Entities.find? (fun F => F.ptr = p.2)
  | none => none

/-- The function `PolygonGraph::getEntities`. -/
def PolygonGraph.getEntities (gr : PolygonGraph G) : List (PolygonEntity G) := gr.m_Entities

/-- The loop of `PolygonGraph::isComplete`. -/
def isCompleteLoop (k : Kernel G) (h : EdgeHeap G) : List (PolygonEntity G) → Except Fault Bool
  | [] => .ok true
  | F :: rest =>
    match F.isComplete k h with
    | .error f => .error f
    | .ok false => .ok false
    | .ok true => isCompleteLoop k h rest

/-- The function `PolygonGraph::isComplete`. -/
def PolygonGraph.isComplete (k : Kernel G) (gr : PolygonGraph G) : Except Fault Bool :=
  isCompleteLoop k gr.heap gr.m_Entities

end Graph

/-! ## Neighbour queries and the relationship classifier -/

section Classifier
variable {G : Type}

/-- The function `PolygonEntity::getOrderedNeighbourOfldIds`; `features` is the
table of the features of the allocated entities. -/
def PolygonEntity.getOrderedNeighbourOfldIds (h : EdgeHeap G) (features : List OGRFeature)
    (F : PolygonEntity G) : Res (PolygonEntity G) (List Nat) :=
  match F.ensureNeighbours h with
  | (.error f, F1) => (.error f, F1)
  | (.ok (), F1) =>
    let Ids := (F1.mp_NeighboursMap.getD []).map
      (fun p => ((features[p.1]?).bind OGRFeature.SELF_ID).getD 0)
    (.ok (Ids.insertionSort (fun a b => a ≤ b)), F1)

/-- Sum of the lengths of the lines of a list of edges. -/
def edgesLength (k : Kernel G) (h : EdgeHeap G) : List EdgeId → Except Fault ℚ
  | [] => .ok 0
  | e :: rest =>
    match h.read e with
    | none => .error (.undefinedBehaviour "deleted edge read")
    | some E =>
      match edgesLength k h rest with
      | .error f => .error f
      | .ok l => .ok (k.getLength E.line + l)

/-- The call `std::multimap::insert`: the new pair goes after the pairs whose
key is not greater. -/
def multimapInsert (m : List (ℚ × FaceId)) (key : ℚ) (f : FaceId) : List (ℚ × FaceId) :=
  m.filter (fun p => p.1 ≤ key) ++ (key, f) :: m.filter (fun p => ¬ p.1 ≤ key)

/-- The loop of `PolygonEntity::getOrderedNeighboursByLengthBoundary`. -/
def lengthBoundaryLoop (k : Kernel G) (h : EdgeHeap G) :
    NeighboursMap → List (ℚ × FaceId) → Except Fault (List (ℚ × FaceId))
  | [], acc => .ok acc
  | (f, es) :: rest, acc =>
    match edgesLength k h es with
    | .error e => .error e
    | .ok length => lengthBoundaryLoop k h rest (multimapInsert acc length f)

/-- The function `PolygonEntity::getOrderedNeighboursByLengthBoundary`. -/
def PolygonEntity.getOrderedNeighboursByLengthBoundary (k : Kernel G) (h : EdgeHeap G)
    (F : PolygonEntity G) : Res (PolygonEntity G) (List (ℚ × FaceId)) :=
  match F.ensureNeighbours h with
  | (.error f, F1) => (.error f, F1)
  | (.ok (), F1) => (lengthBoundaryLoop k h (F1.mp_NeighboursMap.getD []) [], F1)

/-- The two statements that record a line entity as a neighbour:
`mp_LineStringNeighboursMap->insert(...)` and `mp_Neighbours->insert(...)`. -/
def PolygonEntity.recordLineNeighbour (F : PolygonEntity G) (LS : LineId)
    (Edge : Option EdgeId) : Res (PolygonEntity G) Unit :=
  match F.mp_LineStringNeighboursMap with
  | none => (.error (.undefinedBehaviour "null mp_LineStringNeighboursMap"), F)
  | some m =>
    let F1 := { F with mp_LineStringNeighboursMap := some (LineStringNeighboursMap.insert m LS Edge) }
    match F1.mp_Neighbours with
    | none => (.error (.undefinedBehaviour "null mp_Neighbours"), F1)
    | some nb => (.ok (), { F1 with mp_Neighbours := some (setInsert nb (.line LS)) })

/-- The accumulation of `lengthInter` over the components of `Inter`, each
cast to a `LineString`. -/
def lengthInterLoop (k : Kernel G) : List G → ℚ → Except Fault ℚ
  | [], acc => .ok acc
  | g :: rest, acc =>
    if k.getGeometryTypeId g = .GEOS_LINESTRING ∨ k.getGeometryTypeId g = .GEOS_LINEARRING then
      lengthInterLoop k rest (acc + k.getLength g)
    else .error (.undefinedBehaviour "null LineIntersect dereferenced")

/-- The loop over the edges in the `CONTAINS` branch of
`computeLineStringNeighbours`. -/
def containsEdgesLoop (k : Kernel G) (h : EdgeHeap G) (LS : LineStringEntity G)
    (BufferDistance : ℚ) : List EdgeId → PolygonEntity G → Res (PolygonEntity G) Unit
  | [], F => (.ok (), F)
  | e :: rest, F =>
    match h.read e with
    | none => (.error (.undefinedBehaviour "deleted edge read"), F)
    | some E =>
      if k.within LS.line (k.buffer E.line BufferDistance) then
        match F.recordLineNeighbour LS.ptr (some e) with
        | (.error f, F1) => (.error f, F1)
        | (.ok (), F1) => containsEdgesLoop k h LS BufferDistance rest F1
      else containsEdgesLoop k h LS BufferDistance rest F

/-- The loop over the edges in the `TOUCHES` branch of
`computeLineStringNeighbours`. -/
def touchesEdgesLoop (k : Kernel G) (h : EdgeHeap G) (LS : LineStringEntity G)
    (BufferDistance ContactLength : ℚ) :
    List EdgeId → PolygonEntity G → Res (PolygonEntity G) Unit
  | [], F => (.ok (), F)
  | e :: rest, F =>
    match h.read e with
    | none => (.error (.undefinedBehaviour "deleted edge read"), F)
    | some E =>
      let Inter := k.intersection LS.line (k.buffer E.line BufferDistance)
      match lengthInterLoop k (k.getGeometries Inter) 0 with
      | .error f => (.error f, F)
      | .ok lengthInter =>
        if lengthInter > ContactLength then
          match F.recordLineNeighbour LS.ptr (some e) with
          | (.error f, F1) => (.error f, F1)
          | (.ok (), F1) => touchesEdgesLoop k h LS BufferDistance ContactLength rest F1
        else touchesEdgesLoop k h LS BufferDistance ContactLength rest F

/-- The loop over the line entities in `computeLineStringNeighbours`. -/
def lineEntitiesLoop (k : Kernel G) (h : EdgeHeap G) (Relation : Relationship)
    (BufferDistance ContactLength : ℚ) (PolyBuff : G) :
    List (LineStringEntity G) → PolygonEntity G → Res (PolygonEntity G) Unit
  | [], F => (.ok (), F)
  | LS :: rest, F =>
    let next := lineEntitiesLoop k h Relation BufferDistance ContactLength PolyBuff rest
    if Relation = .CONTAINS ∧ k.within LS.line PolyBuff then
      match containsEdgesLoop k h LS BufferDistance F.m_PolyEdges F with
      | (.error f, F1) => (.error f, F1)
      | (.ok (), F1) => next F1
    else if Relation = .INTERSECTS ∧ k.intersects LS.line PolyBuff then
      match F.recordLineNeighbour LS.ptr none with
      | (.error f, F1) => (.error f, F1)
      | (.ok (), F1) => next F1
    else if Relation = .TOUCHES ∧ k.intersects LS.line PolyBuff then
      match touchesEdgesLoop k h LS BufferDistance ContactLength F.m_PolyEdges F with
      | (.error f, F1) => (.error f, F1)
      | (.ok (), F1) => next F1
    else next F

/-- The function `PolygonEntity::computeLineStringNeighbours`. -/
def PolygonEntity.computeLineStringNeighbours (k : Kernel G) (h : EdgeHeap G)
    (F : PolygonEntity G) (Graph : LineStringGraph G) (Relation : Relationship)
    (BufferDistance ContactLength : ℚ) : Res (PolygonEntity G) Unit :=
  if Relation = .TOUCHES ∧ ContactLength = 0 then
    (.error (.exception "PolygonEntity::computeLineStringNeighbours"
      "ContactLength must be greater than 0 for LandRTools::TOUCHES relationship"), F)
  else
    match F.ensureNeighbours h with
    | (.error f, F1) => (.error f, F1)
    | (.ok (), F1) =>
      let F2 := { F1 with mp_LineStringNeighboursMap := some [] }
      let PolyBuff := F2.getBufferedBoundary k BufferDistance
      lineEntitiesLoop k h Relation BufferDistance ContactLength PolyBuff Graph.entities F2

/-- The function `PolygonEntity::neighbourWithCommonEdge`; `none` is the null
pointer. -/
def PolygonEntity.neighbourWithCommonEdge (h : EdgeHeap G) (F : PolygonEntity G)
    (Edge : EdgeId) : Res (PolygonEntity G) (Option FaceId) :=
  match F.ensureNeighbours h with
  | (.error f, F1) => (.error f, F1)
  | (.ok (), F1) =>
    (.ok (((F1.mp_NeighboursMap.getD []).find? (fun p => Edge ∈ p.2)).map Prod.fst), F1)

/-- The two statements of `computeNeighboursWithBarriers` that sever a
neighbour: `mp_Neighbours->erase(neighbourWithCommonEdge(e))` and
`mp_NeighboursMap->erase(neighbourWithCommonEdge(e))`. -/
def PolygonEntity.eraseNeighbourOf (h : EdgeHeap G) (F : PolygonEntity G) (Edge : EdgeId) :
    Res (PolygonEntity G) Unit :=
  match F.neighbourWithCommonEdge h Edge with
  | (.error f, F1) => (.error f, F1)
  | (.ok n1, F1) =>
    match F1.mp_Neighbours with
    | none => (.error (.undefinedBehaviour "null mp_Neighbours"), F1)
    | some nb =>
      let nb2 := match n1 with
        | some g => setErase nb (.face g)
        | none => nb
      let F2 := { F1 with mp_Neighbours := some nb2 }
      match F2.neighbourWithCommonEdge h Edge with
      | (.error f, F3) => (.error f, F3)
      | (.ok n2, F3) =>
        match F3.mp_NeighboursMap with
        | none => (.error (.undefinedBehaviour "null mp_NeighboursMap"), F3)
        | some m =>
          let m2 := match n2 with
            | some g => NeighboursMap.erase m g
            | none => m
          (.ok (), { F3 with mp_NeighboursMap := some m2 })

/-- The loop over the edges in the `CONTAINS` branch of
`computeNeighboursWithBarriers`. -/
def barrierContainsLoop (k : Kernel G) (h : EdgeHeap G) (LS : LineStringEntity G)
    (BufferDistance : ℚ) : List EdgeId → PolygonEntity G → Res (PolygonEntity G) Unit
  | [], F => (.ok (), F)
  | e :: rest, F =>
    match h.read e with
    | none => (.error (.undefinedBehaviour "deleted edge read"), F)
    | some E =>
      if k.within LS.line (k.buffer E.line BufferDistance) then
        match F.eraseNeighbourOf h e with
        | (.error f, F1) => (.error f, F1)
        | (.ok (), F1) => barrierContainsLoop k h LS BufferDistance rest F1
      else barrierContainsLoop k h LS BufferDistance rest F

/-- The loop over the edges in the `TOUCHES` branch of
`computeNeighboursWithBarriers`. -/
def barrierTouchesLoop (k : Kernel G) (h : EdgeHeap G) (LS : LineStringEntity G)
    (BufferDistance ContactLength : ℚ) :
    List EdgeId → PolygonEntity G → Res (PolygonEntity G) Unit
  | [], F => (.ok (), F)
  | e :: rest, F =>
    match h.read e with
    | none => (.error (.undefinedBehaviour "deleted edge read"), F)
    | some E =>
      let Inter := k.intersection LS.line (k.buffer E.line BufferDistance)
      match lengthInterLoop k (k.getGeometries Inter) 0 with
      | .error f => (.error f, F)
      | .ok lengthInter =>
        if lengthInter > ContactLength then
          match F.eraseNeighbourOf h e with
          | (.error f, F1) => (.error f, F1)
          | (.ok (), F1) => barrierTouchesLoop k h LS BufferDistance ContactLength rest F1
        else barrierTouchesLoop k h LS BufferDistance ContactLength rest F

/-- The loop over the line entities in `computeNeighboursWithBarriers`. -/
def barrierLinesLoop (k : Kernel G) (h : EdgeHeap G) (Relation : Relationship)
    (BufferDistance ContactLength : ℚ) (PolyBuff : G) :
    List (LineStringEntity G) → PolygonEntity G → Res (PolygonEntity G) Unit
  | [], F => (.ok (), F)
  | LS :: rest, F =>
    let next := barrierLinesLoop k h Relation BufferDistance ContactLength PolyBuff rest
    if Relation = .CONTAINS ∧ k.within LS.line PolyBuff then
      match barrierContainsLoop k h LS BufferDistance F.m_PolyEdges F with
      | (.error f, F1) => (.error f, F1)
      | (.ok (), F1) => next F1
    else if Relation = .TOUCHES ∧ k.intersects LS.line PolyBuff then
      match barrierTouchesLoop k h LS BufferDistance ContactLength F.m_PolyEdges F with
      | (.error f, F1) => (.error f, F1)
      | (.ok (), F1) => next F1
    else next F

/-- The function `PolygonEntity::computeNeighboursWithBarriers`. -/
def PolygonEntity.computeNeighboursWithBarriers (k : Kernel G) (h : EdgeHeap G)
    (F : PolygonEntity G) (Graph : LineStringGraph G) (Relation : Relationship)
    (BufferDistance ContactLength : ℚ) : Res (PolygonEntity G) Unit :=
  if Relation = .TOUCHES ∧ ContactLength = 0 then
    (.error (.exception "PolygonEntity::computeNeighboursWithBarriers"
      "ContactLength must be greater than 0 for LandRTools::Relationship TOUCHES "), F)
  else if Relation = .INTERSECTS then
    (.error (.exception "PolygonEntity::computeNeighboursWithBarriers"
      "LandRTools::Relationship INTERSECTS is not allowed"), F)
  else
    match F.ensureNeighbours h with
    | (.error f, F1) => (.error f, F1)
    | (.ok (), F1) =>
      let PolyBuff := F1.getBufferedBoundary k BufferDistance
      barrierLinesLoop k h Relation BufferDistance ContactLength PolyBuff Graph.entities F1

end Classifier

/-! ## `VectorDataset` -/

/-- The OGR geometry types tested by `isPolygonType`, `isLineType` and
`isPointType`. -/
inductive OGRwkbGeometryType where
  | wkbUnknown
  | wkbPoint
  | wkbLineString
  | wkbPolygon
deriving DecidableEq, Repr

/-- The part of the GEOS kernel read by the snapping loops of
`snapPolygonVertices`. -/
structure VertexKernel (G : Type) where
  /-- Evaluates `geos::geom::Geometry::equals`. -/
  equals : G → G → Bool
  /-- Tells whether `dynamic_cast<geos::geom::Polygon*>` succeeds. -/
  isPolygon : G → Bool
  /-- Evaluates `getCoordinates()`. -/
  getCoordinates : G → List Coordinate

/-- The geometry kernel as used by `VectorDataset` (OGR predicates on the
geometry of a feature, GEOS functions on the parsed geometries).  A geometry
and its conversion between the two libraries are the same value of `G`. -/
structure DatasetKernel (G : Type) extends VertexKernel G where
  /-- Evaluates `OGRGeometry::Equals`. -/
  Equals : G → G → Bool
  /-- Evaluates `OGRGeometry::Overlaps`. -/
  Overlaps : G → G → Bool
  /-- Evaluates `OGRGeometry::Touches`. -/
  Touches : G → G → Bool
  /-- Evaluates the comparison `a->Distance(b) < Threshold`. -/
  distanceLessThan : G → G → ℚ → Bool
  /-- Evaluates `getGeometryType() == wkbPolygon`. -/
  isWkbPolygon : G → Bool
  /-- Evaluates `getExteriorRing()->getNumPoints()` of an OGR polygon. -/
  exteriorRingNumPoints : G → Nat
  /-- Evaluates `IsValidOp(g).isValid()`. -/
  isValid : G → Bool
  /-- Evaluates `GeometryFactory::createGeometryCollection`. -/
  createGeometryCollection : List G → G

/-- A feature object held in `m_Features` (a clone made by `parse`): its
address, its FID and its geometry. -/
structure Feature (G : Type) where
  ptr : Nat
  FID : Nat
  geometry : G

/-- A layer of the data source: its geometry type and its features (FID and
geometry) in reading order. -/
structure OGRLayer (G : Type) where
  GeomType : OGRwkbGeometryType
  features : List (Nat × G)

/-- The type `VectorDataset::FeaturesList_t`: pairs of a feature and its parsed
geometry. -/
abbrev FeaturesList (G : Type) := List (Feature G × G)

/-- The class `VectorDataset`: the layers of `mp_DataSource`, the two caches and
the number of feature objects cloned so far.  Two more fields follow the
geometry objects made by `parse`, where the geometry clone made with the
feature clone of address `p` is the geometry object `p`: `components` gives,
for the collection last cached for a layer, its components (object and
value), and `deleted` lists the geometry objects that were deleted. -/
structure VectorDataset (G : Type) where
  mp_DataSource : List (OGRLayer G)
  m_Features : List (Nat × FeaturesList G)
  m_Geometries : List (Nat × G)
  allocated : Nat
  components : List (Nat × List (Nat × G)) := []
  deleted : List Nat := []

section Dataset
variable {G : Type}

/-- The function `VectorDataset::isPolygonType`; a missing layer is a null
pointer. -/
def VectorDataset.isPolygonType (ds : VectorDataset G) (LayerIndex : Nat) : Except Fault Bool :=
  match ds.mp_DataSource[LayerIndex]? with
  | none => .error (.undefinedBehaviour "null layer dereferenced")
  | some Layer => .ok (decide (Layer.GeomType = .wkbPolygon))

/-- The call `m.at(key)` on one of the caches. -/
def cacheAt {α : Type} (m : List (Nat × α)) (key : Nat) : Option α :=
  (m.find? (fun p => p.1 = key)).map Prod.snd

/-- The call `m.count(key)` on one of the caches. -/
def cacheCount {α : Type} (m : List (Nat × α)) (key : Nat) : Bool :=
  m.any (fun p => p.1 = key)

/-- The call `m.insert(std::make_pair(key, v))`: an existing entry is kept. -/
def cacheInsert {α : Type} (m : List (Nat × α)) (key : Nat) (v : α) : List (Nat × α) :=
  if cacheCount m key then m else m ++ [(key, v)]

/-- The assignment `m[key] = v` on a table of the model. -/
def cacheAssign {α : Type} (m : List (Nat × α)) (key : Nat) (v : α) : List (Nat × α) :=
  if cacheCount m key then m.map (fun p => if p.1 = key then (key, v) else p)
  else m ++ [(key, v)]

/-- The statement `m_Features.at(LayerIndex).push_back(x)`. -/
def cachePushBack {α : Type} (m : List (Nat × List α)) (key : Nat) (x : α) :
    List (Nat × List α) :=
  m.map (fun p => if p.1 = key then (p.1, p.2 ++ [x]) else p)

/-- The loop of `VectorDataset::parse` over the features of the layer; the
accumulator `Geoms` is the local vector of geometries. -/
def parseLoop (k : DatasetKernel G) (LayerIndex : Nat) :
    List (Nat × G) → VectorDataset G × List G → Res (VectorDataset G × List G) Unit
  | [], st => (.ok (), st)
  | (fid, OGRGeom) :: rest, (ds, Geoms) =>
    if k.isWkbPolygon OGRGeom ∧ k.exteriorRingNumPoints OGRGeom < 4 then
      (.error (.exception "VectorDataset::parse" "Unable to build the polygon"), (ds, Geoms))
    else if !k.isValid OGRGeom then
      (.error (.exception "VectorDataset::parse" "invalid geometry"), (ds, Geoms))
    else
      let FeatClone : Feature G := ⟨ds.allocated, fid, OGRGeom⟩
      parseLoop k LayerIndex rest
        ({ ds with allocated := ds.allocated + 1,
                   m_Features := cachePushBack ds.m_Features LayerIndex (FeatClone, OGRGeom) },
         Geoms ++ [OGRGeom])

/-- The function `VectorDataset::parse`.  The collection takes the geometry
clones of the loop as its components; when the layer has a cached collection
already, `insert` keeps it and the new collection is lost. -/
def VectorDataset.parse (k : DatasetKernel G) (ds : VectorDataset G) (LayerIndex : Nat) :
    Res (VectorDataset G) Unit :=
  match ds.mp_DataSource[LayerIndex]? with
  | none => (.error (.undefinedBehaviour "null layer dereferenced"), ds)
  | some Layer =>
    let ds1 := { ds with m_Features := cacheInsert ds.m_Features LayerIndex [] }
    match parseLoop k LayerIndex Layer.features (ds1, []) with
    | (.error f, (ds2, _)) => (.error f, ds2)
    | (.ok (), (ds2, Geoms)) =>
      let GTMP := k.createGeometryCollection Geoms
      let ds3 := { ds2 with
        m_Geometries := cacheInsert ds2.m_Geometries LayerIndex GTMP,
        components :=
          if cacheCount ds2.m_Geometries LayerIndex then ds2.components
          else cacheAssign ds2.components LayerIndex
            ((List.range' ds.allocated Geoms.length).zip Geoms) }
      match cacheAt ds3.m_Geometries LayerIndex with
      | none => (.error (.undefinedBehaviour "m_Geometries.at"), ds3)
      | some Coll =>
        if !k.isValid Coll then
          (.error (.exception "VectorDataset::parse" "invalid collection"), ds3)
        else (.ok (), ds3)

/-- The function `VectorDataset::features`. -/
def VectorDataset.features (k : DatasetKernel G) (ds : VectorDataset G) (LayerIndex : Nat) :
    Res (VectorDataset G) (FeaturesList G) :=
  let r := if !cacheCount ds.m_Features LayerIndex then ds.parse k LayerIndex else (.ok (), ds)
  match r with
  | (.error f, ds1) => (.error f, ds1)
  | (.ok (), ds1) =>
    match cacheAt ds1.m_Features LayerIndex with
    | none => (.error (.exception "std::out_of_range" "m_Features.at"), ds1)
    | some l => (.ok l, ds1)

/-- The function `VectorDataset::geometries`. -/
def VectorDataset.geometries (k : DatasetKernel G) (ds : VectorDataset G) (LayerIndex : Nat) :
    Res (VectorDataset G) G :=
  let r := if !cacheCount ds.m_Geometries LayerIndex then ds.parse k LayerIndex else (.ok (), ds)
  match r with
  | (.error f, ds1) => (.error f, ds1)
  | (.ok (), ds1) =>
    match cacheAt ds1.m_Geometries LayerIndex with
    | none => (.error (.exception "std::out_of_range" "m_Geometries.at"), ds1)
    | some g => (.ok g, ds1)

/-- The list type of the results of `findOverlap` and `findGap`: pairs of
features, compared by address. -/
abbrev FeaturePairs (G : Type) := List (Feature G × Feature G)

/-- The call `std::find(l.begin(), l.end(), pair) != l.end()` on pairs of
feature pointers. -/
def pairFound (l : FeaturePairs G) (a b : Feature G) : Bool :=
  l.any (fun p => p.1.ptr = a.ptr ∧ p.2.ptr = b.ptr)

/-- The body shared by the inner loops of `findOverlap` and `findGap`: when the
test holds and neither orientation of the pair is in the list, `pair1` is
appended. -/
def pairStep (test : G → G → Bool) (l : FeaturePairs G) (it jt : Feature G) : FeaturePairs G :=
  if test it.geometry jt.geometry then
    if !pairFound l it jt ∧ !pairFound l jt it then l ++ [(it, jt)] else l
  else l

/-- The inner loop of `findOverlap` and `findGap` over `FeaturesToTest`. -/
def pairInnerLoop (test : G → G → Bool) (it : Feature G) :
    FeaturesList G → FeaturePairs G → FeaturePairs G
  | [], l => l
  | jt :: rest, l => pairInnerLoop test it rest (pairStep test l it jt.1)

/-- The outer loop of `findOverlap` and `findGap` over `Features`; every
iteration reads `features(LayerIndex)` again. -/
def pairOuterLoop (k : DatasetKernel G) (test : G → G → Bool) (LayerIndex : Nat) :
    FeaturesList G → VectorDataset G × FeaturePairs G → Res (VectorDataset G) (FeaturePairs G)
  | [], (ds, l) => (.ok l, ds)
  | it :: rest, (ds, l) =>
    match ds.features k LayerIndex with
    | (.error f, ds1) => (.error f, ds1)
    | (.ok FeaturesToTest, ds1) =>
      pairOuterLoop k test LayerIndex rest (ds1, pairInnerLoop test it.1 FeaturesToTest l)

/-- The test of `findOverlap` on two geometries. -/
def overlapTest (k : DatasetKernel G) (a b : G) : Bool :=
  !k.Equals a b && k.Overlaps a b

/-- The test of `findGap` on two geometries. -/
def gapTest (k : DatasetKernel G) (Threshold : ℚ) (a b : G) : Bool :=
  !k.Equals a b && !k.Touches a b && !k.Overlaps a b && k.distanceLessThan a b Threshold

/-- The common shape of `findOverlap` and `findGap`. -/
def findPairs (k : DatasetKernel G) (test : G → G → Bool) (ds : VectorDataset G)
    (LayerIndex : Nat) : Res (VectorDataset G) (FeaturePairs G) :=
  match ds.isPolygonType LayerIndex with
  | .error f => (.error f, ds)
  | .ok false =>
    (.error (.exception "VectorDataset" "the VectorDataset is not Polygon type."), ds)
  | .ok true =>
    let ds0 := { ds with m_Features := [], m_Geometries := [] }
    match ds0.features k LayerIndex with
    | (.error f, ds1) => (.error f, ds1)
    | (.ok Features, ds1) => pairOuterLoop k test LayerIndex Features (ds1, [])

/-- The function `VectorDataset::findOverlap`. -/
def VectorDataset.findOverlap (k : DatasetKernel G) (ds : VectorDataset G) (LayerIndex : Nat) :
    Res (VectorDataset G) (FeaturePairs G) :=
  findPairs k (overlapTest k) ds LayerIndex

/-- The function `VectorDataset::findGap`. -/
def VectorDataset.findGap (k : DatasetKernel G) (ds : VectorDataset G) (Threshold : ℚ)
    (LayerIndex : Nat) : Res (VectorDataset G) (FeaturePairs G) :=
  findPairs k (gapTest k Threshold) ds LayerIndex

/-- The function `Coordinate::equals` (comparison of x and y). -/
def Coordinate.equals (a b : Coordinate) : Bool := decide (a.x = b.x ∧ a.y = b.y)

/-- The square of `Coordinate::distance`. -/
def Coordinate.distanceSq (a b : Coordinate) : ℚ :=
  (a.x - b.x) * (a.x - b.x) + (a.y - b.y) * (a.y - b.y)

/-- The comparison `a.distance(b) > 0`: the distance is the square root of
`distanceSq`, positive exactly when `distanceSq` is. -/
def Coordinate.distancePositive (a b : Coordinate) : Bool := decide (0 < a.distanceSq b)

/-- The comparison `a.distance(b) < Threshold`: a non-negative number is below
`Threshold` exactly when `Threshold` is positive and its square is below the
square of `Threshold`. -/
def Coordinate.distanceBelow (a b : Coordinate) (Threshold : ℚ) : Bool :=
  decide (0 < Threshold ∧ a.distanceSq b < Threshold * Threshold)

/-- The first loop of `snapPolygonVertices` for one feature: the vector `vCoor`
of the coordinates of the polygons of the collection that are not equal to the
geometry of the current feature. -/
def otherVertices (k : VertexKernel G) (Current : G) : List G → List Coordinate → List Coordinate
  | [], vCoor => vCoor
  | g :: rest, vCoor =>
    if !k.equals g Current then
      if k.isPolygon g then otherVertices k Current rest (vCoor ++ k.getCoordinates g)
      else otherVertices k Current rest vCoor
    else otherVertices k Current rest vCoor

/-- The test of the snapping loop on the vertex `v` of the current feature and
the vertex `w` of `vCoor`. -/
def snapTest (Threshold : ℚ) (v w : Coordinate) : Bool :=
  !v.equals w && v.distancePositive w && v.distanceBelow w Threshold

/-- The loop over `h` in `snapPolygonVertices`, for the vertex of index `j`
whose original value is `v`. -/
def snapInnerLoop (Threshold : ℚ) (v : Coordinate) (j : Nat) :
    List Coordinate → List Coordinate → List Coordinate
  | [], CoordSeq => CoordSeq
  | w :: rest, CoordSeq =>
    if snapTest Threshold v w then snapInnerLoop Threshold v j rest (CoordSeq.set j w)
    else snapInnerLoop Threshold v j rest CoordSeq

/-- The loop over `j` in `snapPolygonVertices`: `todo` is what is left of
`vCoorCurrentGeom` from index `j` on. -/
def snapOuterLoop (Threshold : ℚ) (vCoor : List Coordinate) :
    List Coordinate → Nat → List Coordinate → List Coordinate
  | [], _, CoordSeq => CoordSeq
  | v :: todo, j, CoordSeq =>
    snapOuterLoop Threshold vCoor todo (j + 1) (snapInnerLoop Threshold v j vCoor CoordSeq)

/-- The snapping step of `snapPolygonVertices` for one feature: the coordinate
sequence from which the new polygon of the feature is built. -/
def snapStep (k : VertexKernel G) (Threshold : ℚ) (Geom : List G) (CurrentPolygon : G) :
    List Coordinate :=
  let vCoor := otherVertices k CurrentPolygon Geom []
  let vCoorCurrentGeom := k.getCoordinates CurrentPolygon
  snapOuterLoop Threshold vCoor vCoorCurrentGeom 0 vCoorCurrentGeom

end Dataset

/-! ## A geometry kernel on the unit lattice

Geometries whose vertices are lattice points and whose lines run along the
lattice: a polygon is a set of unit cells (a filled shell without a set of
hole cells strictly inside it), a line is a set of unit segments.  On such
geometries the kernel functions are computed exactly. -/

namespace Lattice

/-- A lattice point. -/
abbrev Pt := Nat × Nat

/-- A unit cell, named by its lower left corner. -/
abbrev Cell := Nat × Nat

/-- A unit segment: from `(x, y)` to `(x + 1, y)` when horizontal, to
`(x, y + 1)` otherwise. -/
structure Seg where
  x : Nat
  y : Nat
  horizontal : Bool
deriving DecidableEq, Repr

/-- Geometries of the lattice. -/
inductive Geom where
  | empty
  | polygon (shell : List Cell) (holes : List Cell)
  | lineString (pts : List Pt)
  | linearRing (pts : List Pt)
  | multiLineString (lines : List (List Pt))
  | buffered (segs : List Seg)
deriving DecidableEq, Repr

/-- First end of a segment. -/
def Seg.p (s : Seg) : Pt := (s.x, s.y)

/-- Second end of a segment. -/
def Seg.q (s : Seg) : Pt := if s.horizontal then (s.x + 1, s.y) else (s.x, s.y + 1)

/-- The unit segment between two neighbouring lattice points. -/
def segOf (a b : Pt) : Option Seg :=
  if b = (a.1 + 1, a.2) then some ⟨a.1, a.2, true⟩
  else if a = (b.1 + 1, b.2) then some ⟨b.1, b.2, true⟩
  else if b = (a.1, a.2 + 1) then some ⟨a.1, a.2, false⟩
  else if a = (b.1, b.2 + 1) then some ⟨b.1, b.2, false⟩
  else none

/-- The segments of a path through neighbouring lattice points. -/
def pathSegs : List Pt → List Seg
  | [] => []
  | [_] => []
  | a :: b :: rest => (segOf a b).toList ++ pathSegs (b :: rest)

/-- Union of two segment sets. -/
def segUnion (s t : List Seg) : List Seg := s ++ t.filter (fun x => x ∉ s)

/-- The four sides of a cell. -/
def cellSides (c : Cell) : List Seg :=
  [⟨c.1, c.2, true⟩, ⟨c.1 + 1, c.2, false⟩, ⟨c.1, c.2 + 1, true⟩, ⟨c.1, c.2, false⟩]

/-- The boundary of a set of cells: the sides that belong to exactly one cell. -/
def cellsBoundary (cells : List Cell) : List Seg :=
  let sides := cells.flatMap cellSides
  (sides.filter (fun s => sides.count s = 1))

/-- The cells of a polygon. -/
def cellsOf : Geom → List Cell
  | .polygon shell holes => shell.filter (fun c => c ∉ holes)
  | _ => []

/-- The segments of a line geometry, the boundary segments of a polygon. -/
def segsOf : Geom → List Seg
  | .empty => []
  | .polygon shell holes => cellsBoundary (shell.filter (fun c => c ∉ holes))
  | .lineString pts => (pathSegs pts).dedup
  | .linearRing pts => (pathSegs pts).dedup
  | .multiLineString lines => (lines.flatMap pathSegs).dedup
  | .buffered segs => segs

/-- Number of segments of the set that end at the point. -/
def degree (all : List Seg) (a : Pt) : Nat :=
  (all.filter (fun s => s.p = a ∨ s.q = a)).length

/-- The other end of a segment. -/
def otherEnd (s : Seg) (a : Pt) : Pt := if s.p = a then s.q else s.p

/-- Follows unused segments from the point `a` until a point whose degree is
not 2 is reached or no unused segment continues; `acc` is the path so far, in
reverse. -/
def walk (all : List Seg) : Nat → List Seg → Pt → List Pt → List Pt × List Seg
  | 0, unused, _, acc => (acc.reverse, unused)
  | fuel + 1, unused, a, acc =>
    match unused.find? (fun s => s.p = a ∨ s.q = a) with
    | none => (acc.reverse, unused)
    | some s =>
      let b := otherEnd s a
      if degree all b = 2 then walk all fuel (unused.erase s) b (b :: acc)
      else ((b :: acc).reverse, unused.erase s)

/-- Merges a segment set into maximal lines: every line starts at a point of
degree other than 2 when the unused segments have one, and runs through points
of degree 2. -/
def mergeLoop (all : List Seg) : Nat → List Seg → List (List Pt)
  | 0, _ => []
  | fuel + 1, unused =>
    match unused with
    | [] => []
    | s :: _ =>
      let ends := unused.flatMap (fun t => [t.p, t.q])
      let start := (ends.find? (fun a => degree all a ≠ 2)).getD s.p
      let r := walk all unused.length unused start [start]
      r.1 :: mergeLoop all fuel r.2

/-- The maximal lines of a segment set. -/
def mergeSegs (segs : List Seg) : List (List Pt) := mergeLoop segs segs.length segs

/-- Builds the line geometry of a segment set, one component per segment. -/
def linesOfSegs (segs : List Seg) : Geom :=
  match segs with
  | [] => .empty
  | [s] => .lineString [s.p, s.q]
  | _ => .multiLineString (segs.map (fun s => [s.p, s.q]))

/-- Tells whether the geometry is a polygon. -/
def isPolygon : Geom → Bool
  | .polygon _ _ => true
  | _ => false

/-- The coordinates of a lattice point. -/
def coordinateOf (a : Pt) : Coordinate := ⟨(a.1 : ℚ), (a.2 : ℚ)⟩

/-- The vertices of a geometry. -/
def ptsOf : Geom → List Pt
  | .lineString pts => pts
  | .linearRing pts => pts
  | .multiLineString lines => lines.flatten
  | .polygon shell holes =>
    (mergeSegs (cellsBoundary shell)).flatten ++ (mergeSegs (cellsBoundary holes)).flatten
  | _ => []

/-- The exterior ring of a polygon: the boundary of its shell. -/
def exteriorRing : Geom → Geom
  | .polygon shell _ => .linearRing ((mergeSegs (cellsBoundary shell)).headD [])
  | _ => .empty

/-- The boundary of a polygon: all its rings. -/
def boundary : Geom → Geom
  | .polygon shell holes =>
    match holes with
    | [] => .linearRing ((mergeSegs (cellsBoundary shell)).headD [])
    | _ => .multiLineString (mergeSegs (cellsBoundary shell) ++ mergeSegs (cellsBoundary holes))
  | _ => .empty

/-- Validity of a polygon: the boundary of the shell is one ring, the holes are
cells of the shell and their boundary does not meet the boundary of the
shell. -/
def isValid : Geom → Bool
  | .polygon shell holes =>
    (mergeSegs (cellsBoundary shell)).length = 1 ∧
    holes.all (fun c => c ∈ shell) ∧
    (cellsBoundary holes).all (fun s =>
      (cellsBoundary shell).all (fun t => s.p ≠ t.p ∧ s.p ≠ t.q ∧ s.q ≠ t.p ∧ s.q ≠ t.q))
  | _ => true

/-- Intersection of two geometries: common cells of two polygons, or else their
common boundary segments; common segments of lines. -/
def intersection (a b : Geom) : Geom :=
  if isPolygon a ∧ isPolygon b ∧ (cellsOf a).any (fun c => c ∈ cellsOf b) then
    .polygon ((cellsOf a).filter (fun c => c ∈ cellsOf b)) []
  else linesOfSegs ((segsOf a).filter (fun s => s ∈ segsOf b))

/-- Difference of two line geometries (or boundaries). -/
def difference (a b : Geom) : Geom :=
  linesOfSegs ((segsOf a).filter (fun s => s ∉ segsOf b))

/-- The relate patterns used by the code: `FFTF1****` on two polygons
(no common cell, a common boundary segment) and `1********` on two lines (a
common segment). -/
def relate (a b : Geom) (pattern : String) : Bool :=
  if pattern = "FFTF1****" then
    isPolygon a ∧ isPolygon b ∧ cellsOf a ≠ [] ∧
    ¬ (cellsOf a).any (fun c => c ∈ cellsOf b) ∧
    (segsOf a).any (fun s => s ∈ segsOf b)
  else if pattern = "1********" then
    ¬ isPolygon a ∧ ¬ isPolygon b ∧ (segsOf a).any (fun s => s ∈ segsOf b)
  else false

/-- The type of a geometry. -/
def typeId : Geom → GeometryTypeId
  | .empty => .GEOS_GEOMETRYCOLLECTION
  | .polygon _ _ => .GEOS_POLYGON
  | .lineString _ => .GEOS_LINESTRING
  | .linearRing _ => .GEOS_LINEARRING
  | .multiLineString _ => .GEOS_MULTILINESTRING
  | .buffered _ => .GEOS_POLYGON

/-- The dimension of a geometry. -/
def dimension : Geom → Int
  | .empty => -1
  | .polygon _ _ => 2
  | .buffered _ => 2
  | _ => 1

/-- Emptiness of a geometry. -/
def isEmpty (g : Geom) : Bool :=
  match g with
  | .polygon _ _ => cellsOf g = []
  | _ => segsOf g = []

/-- Equality of the point sets of two geometries. -/
def equals (a b : Geom) : Bool :=
  if isPolygon a ∨ isPolygon b then
    isPolygon a ∧ isPolygon b ∧
    (cellsOf a).all (fun c => c ∈ cellsOf b) ∧ (cellsOf b).all (fun c => c ∈ cellsOf a)
  else
    (segsOf a).all (fun s => s ∈ segsOf b) ∧ (segsOf b).all (fun s => s ∈ segsOf a)

/-- Inclusion of a line geometry: in another line geometry, in the boundary or
the cells of a polygon, or in the buffer of a segment set, for a buffer
distance positive and below one half (a lattice line is within such a buffer
exactly when each of its segments is one of the buffered segments). -/
def within (a b : Geom) : Bool :=
  (segsOf a).all (fun s => s ∈ segsOf b ∨
    (cellsOf b).any (fun c => s ∈ cellSides c))

/-- Tells whether two line geometries have a common point. -/
def intersects (a b : Geom) : Bool :=
  (segsOf a).any (fun s =>
    (segsOf b).any (fun t => s.p = t.p ∨ s.p = t.q ∨ s.q = t.p ∨ s.q = t.q))

/-- The components of a geometry. -/
def components : Geom → List Geom
  | .empty => []
  | .multiLineString lines => lines.map Geom.lineString
  | g => [g]

/-- The lattice kernel. -/
def kernel : Kernel Geom where
  getGeometryTypeId := typeId
  isEmpty := isEmpty
  isValid := isValid
  getDimension := dimension
  relate := relate
  intersection := intersection
  difference := difference
  getExteriorRing := exteriorRing
  getBoundary := boundary
  buffer := fun g _ => .buffered (segsOf g)
  within := within
  intersects := intersects
  covers := fun a b => within b a
  equals := equals
  getLength := fun g => ((segsOf g).length : ℚ)
  getCoordinatesRO := fun g => (ptsOf g).map coordinateOf
  getGeometries := components
  createMultiLineString := fun gs => .multiLineString (gs.flatMap (fun g =>
    match g with
    | .lineString pts => [pts]
    | .linearRing pts => [pts]
    | .multiLineString lines => lines
    | _ => []))
  getMergedLineStrings := fun g => (mergeSegs (segsOf g)).map Geom.lineString

/-- The unit square whose lower left corner is `(x, y)`. -/
def square (x y : Nat) : Geom := .polygon [(x, y)] []

end Lattice

/-! ## Predicates used in the statements -/

section Predicates
variable {G : Type}

/-- The graphs produced by `addPolygon` calls, starting from the empty graph
(the graph left by a call that raised is one of them). -/
inductive Built (k : Kernel G) : PolygonGraph G → Prop where
  | empty : Built k PolygonGraph.empty
  | addPolygon (gr : PolygonGraph G) (Polygon : G) (Feat : OGRFeature) :
      Built k gr → Built k (gr.addPolygon k Polygon Feat).2

/-- The graph `gr'` is `gr` with the edge objects `added` allocated after the
existing ones; released edges stay released; the entity tables are the same. -/
structure Extends (gr gr' : PolygonGraph G) (added : List (PolygonEdge G)) : Prop where
  objects : gr'.heap.objects = gr.heap.objects ++ added
  freed : ∀ e ∈ gr.heap.freed, e ∈ gr'.heap.freed
  entities : gr'.m_Entities = gr.m_Entities
  bySelfId : gr'.m_EntitiesBySelfId = gr.m_EntitiesBySelfId
  allocated : gr'.allocatedEntities = gr.allocatedEntities

/-- The records `E` and `E'` are states of the same entity object. -/
structure SameFace (E E' : PolygonEntity G) : Prop where
  ptr : E'.ptr = E.ptr
  polygon : E'.mp_Polygon = E.mp_Polygon
  feature : E'.mp_Feature = E.mp_Feature

/-- Every edge of the list `l` is in the edge list of `E'` or was released. -/
def Kept (l : List EdgeId) (E' : PolygonEntity G) (gr' : PolygonGraph G) : Prop :=
  ∀ e ∈ l, e ∈ E'.m_PolyEdges ∨ e ∈ gr'.heap.freed

/-- The shared lines of the new entity with another one, none when
`computeLineIntersectionsWith` fails. -/
def sharedLinesOf (k : Kernel G) (New Other : PolygonEntity G) : List G :=
  match New.computeLineIntersectionsWith k Other with
  | .ok Ls => Ls
  | .error _ => []

/-- What the loop over the shared lines `Ls` of the new entity with the entity
`O` does (`st`, `O` before, `st'`, `O'` after, `r` the outcome, `added` the edge
objects allocated): each allocated edge carries either the face of `O` alone or
the faces of the new entity and of `O`, in this order, and then its line is
one of `Ls`; each edge with two faces is in the edge list of the new entity,
and in the edge list of `O` unless it was released; when the loop ends
normally the edges with two faces are those of `Ls`, one for each line, in
the same order; without shared line the entity `O` is unchanged. -/
def SharedOutcome (st st' : Insertion G) (O O' : PolygonEntity G) (Ls : List G)
    (r : Except Fault Unit) (added : List (PolygonEdge G)) : Prop :=
  Extends st.graph st'.graph added ∧ SameFace O O' ∧ SameFace st.NewEntity st'.NewEntity ∧
  Kept O.m_PolyEdges O' st'.graph ∧
  (∃ ids, st'.NewEntity.m_PolyEdges = st.NewEntity.m_PolyEdges ++ ids) ∧
  (∀ a ∈ added, a.m_Faces = [O.ptr] ∨ (a.m_Faces = [st.NewEntity.ptr, O.ptr] ∧ a.line ∈ Ls)) ∧
  (∀ j a, added[j]? = some a → a.m_Faces.length = 2 →
    st.graph.heap.objects.length + j ∈ st'.NewEntity.m_PolyEdges ∧
    (st.graph.heap.objects.length + j ∈ O'.m_PolyEdges ∨
      st.graph.heap.objects.length + j ∈ st'.graph.heap.freed)) ∧
  (r = .ok () →
    (added.filter (fun a => a.m_Faces.length = 2)).map PolygonEdge.line = Ls ∧
    st'.SharedGeoms = st.SharedGeoms ++ Ls) ∧
  (Ls = [] → O' = O)

/-- What the loop of `addPolygon` over the entities `ents` does (`ents'` are
the same entities after the loop): each allocated edge carries the face of one
entity `O` of the graph, alone or after the face of the new entity, and in
the second case its line is a shared line of the two; it is in the edge list of the new entity,
and in the edge list of `O` unless it was released; when the loop ends normally,
the edges carrying the faces of the new entity and of the entity at the
address `g` are those of the shared lines with that entity, one for each line,
and an entity without shared line is unchanged. -/
def EntitiesOutcome (k : Kernel G) (st st' : Insertion G) (ents ents' : List (PolygonEntity G))
    (r : Except Fault Unit) (added : List (PolygonEdge G)) : Prop :=
  Extends st.graph st'.graph added ∧ SameFace st.NewEntity st'.NewEntity ∧
  List.Forall₂ SameFace ents ents' ∧
  (∃ ids, st'.NewEntity.m_PolyEdges = st.NewEntity.m_PolyEdges ++ ids) ∧
  (∀ a ∈ added, (∃ O ∈ ents, a.m_Faces = [O.ptr]) ∨
    ∃ O ∈ ents, ∃ Ls, st.NewEntity.computeLineIntersectionsWith k O = .ok Ls ∧
      a.m_Faces = [st.NewEntity.ptr, O.ptr] ∧ a.line ∈ Ls) ∧
  (∀ j a, added[j]? = some a → a.m_Faces.length = 2 →
    st.graph.heap.objects.length + j ∈ st'.NewEntity.m_PolyEdges ∧
    ∃ O' ∈ ents', a.m_Faces = [st.NewEntity.ptr, O'.ptr] ∧
      (st.graph.heap.objects.length + j ∈ O'.m_PolyEdges ∨
        st.graph.heap.objects.length + j ∈ st'.graph.heap.freed)) ∧
  (r = .ok () →
    (∀ g, (added.filter (fun a => a.m_Faces = [st.NewEntity.ptr, g])).map PolygonEdge.line
        = (ents.filter (fun O => O.ptr = g)).flatMap (sharedLinesOf k st.NewEntity)) ∧
    List.Forall₂ (fun O O' => ∃ Ls, st.NewEntity.computeLineIntersectionsWith k O = .ok Ls ∧
      (Ls = [] → O' = O)) ents ents')

/-- What a call of `addPolygon` does (`New` is the entity as constructed,
`New'` the entity at the end, `ents'` the entities of the graph after the
call, `added` the edge objects allocated).  Each allocated edge carries the face of the new entity alone,
the face of one entity of the graph alone, or the faces of the new entity and
of an entity `O` of the graph, and then its line is a shared line of the two.
When the call returns, the new entity is registered after the others; the
edges carrying the faces of the new entity and of the entity at the address
`g` are those of the shared lines with that entity, one for each line; each
of them is in the edge list of the new entity, and in the edge list of the
other entity unless it was released; an entity without shared line is
unchanged. -/
def AddOutcome (k : Kernel G) (gr : PolygonGraph G) (Polygon : G) (Feat : OGRFeature)
    (r : Except Fault FaceId) (gr' : PolygonGraph G) (New New' : PolygonEntity G)
    (ents' : List (PolygonEntity G)) (added : List (PolygonEdge G)) : Prop :=
  New = PolygonEntity.ofFeature gr.allocatedEntities.length Polygon Feat ∧
  SameFace New New' ∧
  gr'.heap.objects = gr.heap.objects ++ added ∧
  (∀ e ∈ gr.heap.freed, e ∈ gr'.heap.freed) ∧
  gr'.allocatedEntities = gr.allocatedEntities ++ [Feat] ∧
  List.Forall₂ SameFace gr.m_Entities ents' ∧
  (∀ a ∈ added, a.m_Faces = [New.ptr] ∨ (∃ O ∈ gr.m_Entities, a.m_Faces = [O.ptr]) ∨
    ∃ O ∈ gr.m_Entities, ∃ Ls, New.computeLineIntersectionsWith k O = .ok Ls ∧
      a.m_Faces = [New.ptr, O.ptr] ∧ a.line ∈ Ls) ∧
  ((∃ f, r = .error f ∧ gr'.m_Entities = ents') ∨
   (r = .ok New.ptr ∧ gr'.m_Entities = ents' ++ [New'] ∧
    (∀ g, (added.filter (fun a => a.m_Faces = [New.ptr, g])).map PolygonEdge.line
        = (gr.m_Entities.filter (fun O => O.ptr = g)).flatMap (sharedLinesOf k New)) ∧
    (∀ j a, added[j]? = some a → a.m_Faces.length = 2 →
      gr.heap.objects.length + j ∈ New'.m_PolyEdges ∧
      ∃ O' ∈ ents', a.m_Faces = [New.ptr, O'.ptr] ∧
        (gr.heap.objects.length + j ∈ O'.m_PolyEdges ∨
          gr.heap.objects.length + j ∈ gr'.heap.freed)) ∧
    List.Forall₂ (fun O O' => ∃ Ls, New.computeLineIntersectionsWith k O = .ok Ls ∧
      (Ls = [] → O' = O)) gr.m_Entities ents'))

/-- Invariant of the graphs produced by `addPolygon`: the entities are distinct
objects allocated earlier; every edge object carries one face, or two faces of
which the first was allocated after the second; the faces were allocated
earlier; the line of an edge that carries the faces of two entities of the
graph is one of the shared lines computed for them. -/
structure WellFormed (k : Kernel G) (gr : PolygonGraph G) : Prop where
  ptrs : ∀ F ∈ gr.m_Entities, F.ptr < gr.allocatedEntities.length
  nodup : (gr.m_Entities.map PolygonEntity.ptr).Nodup
  shape : ∀ a ∈ gr.heap.objects, (∃ p, a.m_Faces = [p]) ∨ (∃ p q, a.m_Faces = [p, q] ∧ q < p)
  faces : ∀ a ∈ gr.heap.objects, ∀ p ∈ a.m_Faces, p < gr.allocatedEntities.length
  shared : ∀ a ∈ gr.heap.objects, ∀ F ∈ gr.m_Entities, ∀ O ∈ gr.m_Entities,
    a.m_Faces = [F.ptr, O.ptr] →
    ∃ Ls, F.computeLineIntersectionsWith k O = .ok Ls ∧ a.line ∈ Ls

end Predicates

/-! ## Scenarios on the lattice -/

namespace Lattice

deriving instance DecidableEq for Except

/-- The graph holding the unit square at `(0, 0)`, with identifier 1. -/
def oneSquare : PolygonGraph Geom :=
  (PolygonGraph.addPolygon kernel PolygonGraph.empty (square 0 0) ⟨some 1⟩).2

/-- The graph `oneSquare` after the insertion of the unit square at `(1, 0)`,
with identifier 2: the two squares share the side from `(1, 0)` to `(1, 1)`. -/
def twoSquares : PolygonGraph Geom :=
  (PolygonGraph.addPolygon kernel oneSquare (square 1 0) ⟨some 2⟩).2

/-- The square frame: the block of 3 by 3 cells at `(0, 0)` without its central
cell, a polygon with one hole. -/
def frame : Geom :=
  .polygon [(0, 0), (1, 0), (2, 0), (0, 1), (1, 1), (2, 1), (0, 2), (1, 2), (2, 2)] [(1, 1)]

/-- The unit square that fills the hole of `frame`. -/
def island : Geom := square 1 1

/-- The graph holding `island`, with identifier 1. -/
def islandOnly : PolygonGraph Geom :=
  (PolygonGraph.addPolygon kernel PolygonGraph.empty island ⟨some 1⟩).2

/-- The graph `islandOnly` after the insertion of `frame`, with identifier 2. -/
def islandThenFrame : PolygonGraph Geom :=
  (PolygonGraph.addPolygon kernel islandOnly frame ⟨some 2⟩).2

/-- The graph holding `frame`, with identifier 2. -/
def frameOnly : PolygonGraph Geom :=
  (PolygonGraph.addPolygon kernel PolygonGraph.empty frame ⟨some 2⟩).2

/-- The graph `frameOnly` after the insertion of `island`, with identifier 1. -/
def frameThenIsland : PolygonGraph Geom :=
  (PolygonGraph.addPolygon kernel frameOnly island ⟨some 1⟩).2

/-- The unit segments that a geometry covers: the segments of a line geometry,
the sides of the cells of a polygon. -/
def covered : Geom → List Seg
  | .polygon shell holes => (shell.filter (fun c => c ∉ holes)).flatMap cellSides
  | g => segsOf g

/-- Inclusion of the covered segments (point set inclusion, for line
geometries in line geometries or polygons). -/
def subset (a b : Geom) : Bool := (covered a).all (fun s => s ∈ covered b)

/-- The three unit squares of the L shape: the corner square at `(0, 0)`
(number 0), the square at `(1, 0)` (number 1) and the square at `(0, 1)`
(number 2). -/
def lSquare : Nat → Geom
  | 0 => square 0 0
  | 1 => square 1 0
  | _ => square 0 1

/-- The graph obtained by inserting the squares of the L shape in the given
order, each with its number as identifier. -/
def lShape (order : List Nat) : PolygonGraph Geom :=
  order.foldl (fun gr n => (PolygonGraph.addPolygon kernel gr (lSquare n) ⟨some n⟩).2)
    PolygonGraph.empty

/-- The outcomes of the insertions of the squares of the L shape in the given
order. -/
def lShapeOutcomes : List Nat → PolygonGraph Geom → List (Except Fault FaceId)
  | [], _ => []
  | n :: rest, gr =>
    (PolygonGraph.addPolygon kernel gr (lSquare n) ⟨some n⟩).1 ::
      lShapeOutcomes rest (PolygonGraph.addPolygon kernel gr (lSquare n) ⟨some n⟩).2

/-- For each entity of a graph, in identifier order: its identifier, the sorted
identifiers of its neighbours, and the lengths of the boundaries it shares with
its neighbours, with the address of the neighbour. -/
def neighbourTable (gr : PolygonGraph Geom) :
    List (Nat × Except Fault (List Nat) × Except Fault (List (ℚ × FaceId))) :=
  (gr.m_Entities.map (fun F =>
    (F.getOfldId, (F.getOrderedNeighbourOfldIds gr.heap gr.allocatedEntities).1,
      (F.getOrderedNeighboursByLengthBoundary kernel gr.heap).1))).insertionSort
    (fun a b => a.1 ≤ b.1)

/-- The six insertion orders of the three squares. -/
def lOrders : List (List Nat) :=
  [[0, 1, 2], [0, 2, 1], [1, 0, 2], [1, 2, 0], [2, 0, 1], [2, 1, 0]]

/-- The side shared by the squares at `(0, 0)` and `(1, 0)`. -/
def sharedSide : Geom := .lineString [(1, 0), (1, 1)]

/-- The state of the graph `oneSquare` in the middle of the insertion of the
square at `(1, 0)`, when `addPolygon` calls `removeSegment`: the shared edge
was created from `sharedSide` and attached to the new entity and to the entity
of the square at `(0, 0)`.  The result is that entity and the edge table. -/
def midInsertion : PolygonEntity Geom × EdgeHeap Geom :=
  let created := oneSquare.createEdge kernel sharedSide
  let New : PolygonEntity Geom :=
    { ptr := 1, mp_Feature := ⟨some 2⟩, mp_Polygon := square 1 0, m_PolyEdges := [],
      mp_Neighbours := none, mp_NeighboursMap := none, mp_LineStringNeighboursMap := none }
  match created.1, oneSquare.m_Entities with
  | .ok (some SharedEdge), [Other] =>
    Other.addEdge (New.addEdge created.2.heap SharedEdge).2 SharedEdge
  | _, _ => (New, created.2.heap)

end Lattice

section DatasetPredicates
variable {G : Type}

/-- No pair of features occurs twice in the list, be it in the same or in the
opposite orientation (features are compared by address). -/
def NoRepeat (l : FeaturePairs G) : Prop :=
  l.Pairwise (fun p q =>
    ¬ (p.1.ptr = q.1.ptr ∧ p.2.ptr = q.2.ptr) ∧ ¬ (p.1.ptr = q.2.ptr ∧ p.2.ptr = q.1.ptr))

/-- Number of entries of the list that hold the two features, in either
orientation. -/
def pairCount (l : FeaturePairs G) (a b : Feature G) : Nat :=
  (l.filter (fun p => decide ((p.1.ptr = a.ptr ∧ p.2.ptr = b.ptr) ∨
    (p.1.ptr = b.ptr ∧ p.2.ptr = a.ptr)))).length

end DatasetPredicates

namespace Lattice

/-- Geometries of a layer of the lattice: a single geometry or a collection. -/
abbrev LayerGeom := Geom ⊕ List Geom

/-- Squared distance between two unit cells. -/
def cellGapSq (c d : Cell) : Nat :=
  let dx := (max c.1 d.1 - min c.1 d.1) - 1
  let dy := (max c.2 d.2 - min c.2 d.2) - 1
  dx * dx + dy * dy

/-- Tells whether two polygons overlap: they share a cell and each has a cell
outside the other. -/
def overlaps (a b : Geom) : Bool :=
  isPolygon a && isPolygon b && (cellsOf a).any (fun c => c ∈ cellsOf b) &&
    (cellsOf a).any (fun c => c ∉ cellsOf b) && (cellsOf b).any (fun c => c ∉ cellsOf a)

/-- Tells whether two polygons touch: they share no cell and their boundaries
share a point. -/
def touches (a b : Geom) : Bool :=
  isPolygon a && isPolygon b && (cellsOf a).all (fun c => c ∉ cellsOf b) &&
    (segsOf a).any (fun s => (segsOf b).any (fun t =>
      s.p = t.p ∨ s.p = t.q ∨ s.q = t.p ∨ s.q = t.q))

/-- Tells whether the distance between two polygons is below the threshold. -/
def distanceLessThan (a b : Geom) (Threshold : ℚ) : Bool :=
  decide (0 < Threshold) && (cellsOf a).any (fun c => (cellsOf b).any (fun d =>
    decide (((cellGapSq c d : Nat) : ℚ) < Threshold * Threshold)))

/-- The kernel of the lattice as seen by `VectorDataset`. -/
def datasetKernel : DatasetKernel LayerGeom where
  equals a b :=
    match a, b with
    | .inl x, .inl y => equals x y
    | _, _ => decide (a = b)
  isPolygon g :=
    match g with
    | .inl x => isPolygon x
    | .inr _ => false
  getCoordinates g :=
    match g with
    | .inl x => (ptsOf x).map coordinateOf
    | .inr _ => []
  Equals a b := decide (a = b)
  Overlaps a b :=
    match a, b with
    | .inl x, .inl y => overlaps x y
    | _, _ => false
  Touches a b :=
    match a, b with
    | .inl x, .inl y => touches x y
    | _, _ => false
  distanceLessThan a b Threshold :=
    match a, b with
    | .inl x, .inl y => distanceLessThan x y Threshold
    | _, _ => false
  isWkbPolygon g :=
    match g with
    | .inl x => isPolygon x
    | .inr _ => false
  exteriorRingNumPoints g :=
    match g with
    | .inl x => (ptsOf (exteriorRing x)).length
    | .inr _ => 0
  isValid g :=
    match g with
    | .inl x => isValid x
    | .inr xs => xs.all isValid
  createGeometryCollection gs :=
    .inr (gs.filterMap (fun g => match g with | .inl x => some x | .inr _ => none))

/-- A data source with one polygon layer holding the given polygons, with the
FIDs 0, 1, 2 and so on; nothing is parsed yet. -/
def layerOf (polys : List Geom) : VectorDataset LayerGeom :=
  { mp_DataSource := [⟨.wkbPolygon, (List.range polys.length).zip (polys.map Sum.inl)⟩],
    m_Features := [], m_Geometries := [], allocated := 0 }

/-- Three polygons: two rectangles of two cells that share the cell `(1, 0)`, and
a square away from both. -/
def overlapping : VectorDataset LayerGeom :=
  layerOf [.polygon [(0, 0), (1, 0)] [], .polygon [(1, 0), (2, 0)] [], square 4 0]

/-- Two features with the same square as geometry. -/
def duplicates : VectorDataset LayerGeom :=
  layerOf [square 0 0, square 0 0]

/-- Three squares in a row: the first two are one unit apart, the third is far
from both. -/
def spaced : VectorDataset LayerGeom :=
  layerOf [square 0 0, square 2 0, square 9 0]

deriving instance DecidableEq for Feature

/-- The dataset `overlapping` after `findOverlap`. -/
def overlappingParsed : VectorDataset LayerGeom := (overlapping.findOverlap datasetKernel 0).2

/-- The dataset `spaced` after `findGap` with the threshold 2. -/
def spacedParsed : VectorDataset LayerGeom := (spaced.findGap datasetKernel 2 0).2

end Lattice

section ClassifierPredicates
variable {G : Type}

/-- The call `m->find(l)` on a line-neighbour map: the edge pointer recorded
with the line entity, when the line entity is a key of the map. -/
def lineEdgeOf (m : LineStringNeighboursMap) (l : LineId) : Option (Option EdgeId) :=
  (m.find? (fun p => p.1 = l)).map Prod.snd

/-- The keys of a line-neighbour map are in ascending order. -/
def KeysAscending (m : LineStringNeighboursMap) : Prop :=
  m.Pairwise (fun a b => a.1 < b.1)

/-- The edges of the list, in order, whose buffer contains the line. -/
def edgesAround (k : Kernel G) (h : EdgeHeap G) (BufferDistance : ℚ) (line : G)
    (es : List EdgeId) : List EdgeId :=
  es.filter (fun e =>
    match h.read e with
    | some E => k.within line (k.buffer E.line BufferDistance)
    | none => false)

end ClassifierPredicates

namespace Lattice

deriving instance DecidableEq for PolygonEntity

/-- The entity of the square at `(0, 0)` in the graph `twoSquares`. -/
def westFace : PolygonEntity Geom :=
  twoSquares.m_Entities.headD
    { ptr := 0, mp_Feature := ⟨some 1⟩, mp_Polygon := square 0 0, m_PolyEdges := [],
      mp_Neighbours := none, mp_NeighboursMap := none, mp_LineStringNeighboursMap := none }

/-- A line along two sides of the square at `(0, 0)`: the side shared with the
square at `(1, 0)` and the bottom side. -/
def cornerLine : Geom := .lineString [(1, 1), (1, 0), (0, 0)]

/-- A line graph with the single entity `cornerLine`. -/
def cornerGraph : LineStringGraph Geom := ⟨[⟨0, cornerLine⟩]⟩

/-- A line graph with two entities: the side shared by the two squares and the
bottom side of the square at `(0, 0)`. -/
def sidesGraph : LineStringGraph Geom := ⟨[⟨0, sharedSide⟩, ⟨1, .lineString [(0, 0), (1, 0)]⟩]⟩

/-- The entity `westFace` after `computeLineStringNeighbours` on `sidesGraph`. -/
def westFaceClassified : PolygonEntity Geom :=
  (westFace.computeLineStringNeighbours kernel twoSquares.heap sidesGraph .CONTAINS (1 / 10) 0).2

end Lattice

/-! ## Polygons given by the coordinates of their ring -/

namespace Plane

/-- A polygon without hole, given by the coordinate sequence of its ring. -/
abbrev Ring := List Coordinate

/-- The kernel read by the snapping loops, on rings: two rings with the same
coordinate sequence are equal (the scenarios below hold no two different
coordinate sequences of the same polygon). -/
def kernel : VertexKernel Ring where
  equals a b := decide (a = b)
  isPolygon _ := true
  getCoordinates a := a

/-- A triangle with the vertices `(0, 0)`, `(1, 0)` and `(0, 1)`. -/
def triangle : Ring := [⟨0, 0⟩, ⟨1, 0⟩, ⟨0, 1⟩, ⟨0, 0⟩]

/-- A neighbour of `triangle`, beyond its longest side: its vertex
`(1.005, 0)` is 0.005 away from the vertex `(1, 0)` of the triangle, its vertex
`(0, 1.02)` is 0.02 away from the vertex `(0, 1)` of the triangle. -/
def neighbour : Ring :=
  [⟨201 / 200, 0⟩, ⟨2, 0⟩, ⟨2, 2⟩, ⟨0, 2⟩, ⟨0, 51 / 50⟩, ⟨201 / 200, 0⟩]

/-- A thin triangle whose vertices `(0, 0)` and `(0.005, 0)` are 0.005 apart. -/
def sliver : Ring := [⟨0, 0⟩, ⟨1 / 200, 0⟩, ⟨1, 1⟩, ⟨0, 0⟩]

end Plane

namespace Lattice

/-- A rectangle of two cells with a hole that takes the whole cell `(1, 0)`: the
ring of the hole runs along the ring of the shell, the polygon is not valid. -/
def pinched : Geom := .polygon [(0, 0), (1, 0)] [(1, 0)]

/-- An entity for the square at `(0, 0)` to which the same edge, the edge 0 of
the table, was attached twice with `addEdge`. -/
def twiceAttached : PolygonEntity Geom × EdgeHeap Geom :=
  let F0 : PolygonEntity Geom :=
    { ptr := 0, mp_Feature := ⟨some 1⟩, mp_Polygon := square 0 0, m_PolyEdges := [],
      mp_Neighbours := none, mp_NeighboursMap := none, mp_LineStringNeighboursMap := none }
  let h0 : EdgeHeap Geom := (EdgeHeap.alloc ⟨[], []⟩ sharedSide).2
  let r1 := F0.addEdge h0 0
  r1.1.addEdge r1.2 0

end Lattice

namespace Lattice

/-- A kernel that differs from the lattice kernel in one answer: it reports the
dimension 2 for every geometry, as the kernel does for a difference that is
not line-typed.  With it `removeSegment` reaches its second exception. -/
def areaKernel : Kernel Geom := { kernel with getDimension := fun _ => 2 }

/-- The entity of the square at `(0, 0)` in the graph `oneSquare`. -/
def loneFace : PolygonEntity Geom :=
  oneSquare.m_Entities.headD
    { ptr := 0, mp_Feature := ⟨some 1⟩, mp_Polygon := square 0 0, m_PolyEdges := [],
      mp_Neighbours := none, mp_NeighboursMap := none, mp_LineStringNeighboursMap := none }

/-- The entity constructed by `addPolygon` for the square at `(1, 0)`. -/
def eastFace : PolygonEntity Geom :=
  { ptr := 1, mp_Feature := ⟨some 2⟩, mp_Polygon := square 1 0, m_PolyEdges := [],
    mp_Neighbours := none, mp_NeighboursMap := none, mp_LineStringNeighboursMap := none }

/-- The state of the insertion of the square at `(1, 0)` into `oneSquare` when
the loop over the entities starts. -/
def eastInsertion : Insertion Geom :=
  ⟨{ oneSquare with allocatedEntities := oneSquare.allocatedEntities ++ [⟨some 2⟩] }, eastFace, []⟩

end Lattice

section ClassifierPredicates2
variable {G : Type}

/-- The value of `lengthInter` for a line and an edge: the sum of the lengths of
the components of the intersection of the line with the buffer of the edge. -/
def contactLength (k : Kernel G) (BufferDistance : ℚ) (line : G) (E : PolygonEdge G) : ℚ :=
  ((k.getGeometries (k.intersection line (k.buffer E.line BufferDistance))).map k.getLength).sum

/-- The edges of the list, in order, for which the intersection of the line with
the buffer of the edge is longer than the contact length. -/
def edgesInContact (k : Kernel G) (h : EdgeHeap G) (BufferDistance ContactLength : ℚ)
    (line : G) (es : List EdgeId) : List EdgeId :=
  es.filter (fun e =>
    match h.read e with
    | some E => decide (ContactLength < contactLength k BufferDistance line E)
    | none => false)

end ClassifierPredicates2

namespace Lattice

/-- A line graph with two entities: a line along the side shared by the two
squares and the bottom side of the square at `(0, 0)`, and a line along the
bottom side of the square at `(1, 0)`, which meets the first square at the
point `(1, 0)` only. -/
def contactGraph : LineStringGraph Geom :=
  ⟨[⟨0, cornerLine⟩, ⟨1, .lineString [(1, 0), (2, 0)]⟩]⟩

/-- The entity `westFace` after `computeLineStringNeighbours` on `contactGraph`
with the relation `TOUCHES` and the contact length one half. -/
def westFaceTouched : PolygonEntity Geom :=
  (westFace.computeLineStringNeighbours kernel twoSquares.heap contactGraph .TOUCHES
    (1 / 10) (1 / 2)).2

end Lattice

section BarrierPredicates
variable {G : Type}

/-- The test of the loops over the line entities on one line: it lies within
the buffered boundary (`CONTAINS`) or intersects it (`TOUCHES`). -/
def lineNear (k : Kernel G) (Relation : Relationship) (PolyBuff line : G) : Bool :=
  match Relation with
  | .CONTAINS => k.within line PolyBuff
  | .TOUCHES => k.intersects line PolyBuff
  | .INTERSECTS => false

/-- The criterion of the loops over the edges on one line and one edge: the
line lies within the buffer of the edge (`CONTAINS`), or its contact with the
buffer of the edge is longer than the contact length (`TOUCHES`). -/
def edgeMeets (k : Kernel G) (h : EdgeHeap G) (Relation : Relationship)
    (BufferDistance ContactLength : ℚ) (line : G) (e : EdgeId) : Bool :=
  match h.read e with
  | none => false
  | some E =>
    match Relation with
    | .CONTAINS => k.within line (k.buffer E.line BufferDistance)
    | .TOUCHES => decide (ContactLength < contactLength k BufferDistance line E)
    | .INTERSECTS => false

/-- The edges for which `computeNeighboursWithBarriers` severs a neighbour, in
the order of the two nested loops: for every line entity that passes the test
on the buffered boundary, the edges of the face that meet the criterion. -/
def barrierEdges (k : Kernel G) (h : EdgeHeap G) (Relation : Relationship)
    (BufferDistance ContactLength : ℚ) (PolyBuff : G) (Ls : List (LineStringEntity G))
    (es : List EdgeId) : List EdgeId :=
  Ls.flatMap (fun L =>
    if lineNear k Relation PolyBuff L.line then
      es.filter (edgeMeets k h Relation BufferDistance ContactLength L.line)
    else [])

/-- The neighbour index `m` without the neighbours that share one of the edges
`Q` with the face. -/
def NeighboursMap.without (m : NeighboursMap) (Q : List EdgeId) : NeighboursMap :=
  m.filter (fun p => !(Q.any (fun q => decide (q ∈ p.2))))

/-- The neighbour set `nb` without the faces that, in the index `m`, share one
of the edges `Q` with the face. -/
def neighboursWithout (m : NeighboursMap) (Q : List EdgeId) (nb : List EntityRef) :
    List EntityRef :=
  nb.filter (fun x => !(m.any (fun p => Q.any (fun q => decide (q ∈ p.2)) &&
    decide (x = EntityRef.face p.1))))

/-- The outcome of the test made on one edge by the loops over the edges of
`computeNeighboursWithBarriers`. -/
def edgeTest (k : Kernel G) (h : EdgeHeap G) (Relation : Relationship)
    (BufferDistance ContactLength : ℚ) (line : G) (e : EdgeId) : Except Fault Bool :=
  match h.read e with
  | none => .error (.undefinedBehaviour "deleted edge read")
  | some E =>
    match Relation with
    | .CONTAINS => .ok (k.within line (k.buffer E.line BufferDistance))
    | .TOUCHES =>
      match lengthInterLoop k
          (k.getGeometries (k.intersection line (k.buffer E.line BufferDistance))) 0 with
      | .error f => .error f
      | .ok lengthInter => .ok (decide (lengthInter > ContactLength))
    | .INTERSECTS => .ok false

/-- The common shape of the two loops over the edges of
`computeNeighboursWithBarriers`. -/
def eraseEdgesLoop (h : EdgeHeap G) (test : EdgeId → Except Fault Bool) :
    List EdgeId → PolygonEntity G → Res (PolygonEntity G) Unit
  | [], F => (.ok (), F)
  | e :: rest, F =>
    match test e with
    | .error f => (.error f, F)
    | .ok true =>
      match F.eraseNeighbourOf h e with
      | (.error f, F1) => (.error f, F1)
      | (.ok (), F1) => eraseEdgesLoop h test rest F1
    | .ok false => eraseEdgesLoop h test rest F

end BarrierPredicates

namespace Lattice

/-- The graph of the three squares of the L shape, inserted in the order 0, 1, 2. -/
def lGraph : PolygonGraph Geom := lShape [0, 1, 2]

/-- The entity of the corner square of the L shape, whose neighbours are the
two other squares. -/
def cornerFace : PolygonEntity Geom :=
  lGraph.m_Entities.headD
    { ptr := 0, mp_Feature := ⟨some 0⟩, mp_Polygon := square 0 0, m_PolyEdges := [],
      mp_Neighbours := none, mp_NeighboursMap := none, mp_LineStringNeighboursMap := none }

/-- A line graph with two barriers: one along the side that the corner square
shares with the square at `(1, 0)`, one along the bottom side of the corner
square, which it shares with no square. -/
def barrierGraph : LineStringGraph Geom :=
  ⟨[⟨0, sharedSide⟩, ⟨1, .lineString [(0, 0), (1, 0)]⟩]⟩

/-- The entity `cornerFace` after the computation of its neighbour index. -/
def cornerFaceIndexed : PolygonEntity Geom := (cornerFace.ensureNeighbours lGraph.heap).2

/-- The entity `cornerFace` after `computeNeighboursWithBarriers` on
`barrierGraph` with the relation `CONTAINS`. -/
def cornerFaceBarred : PolygonEntity Geom :=
  (cornerFace.computeNeighboursWithBarriers kernel lGraph.heap barrierGraph .CONTAINS
    (1 / 10) 0).2

end Lattice

/-! ## The downstream neighbour along a line topology -/

/-- The part of the GEOS kernel on points read by
`PolygonEntity::computeNeighbourByLineTopology`. -/
structure PointKernel (G : Type) where
  /-- Evaluates `LineString::getStartPoint()`; `none` is the null pointer
  returned for an empty line. -/
  getStartPoint : G → Option G
  /-- Evaluates `LineString::getEndPoint()`; `none` is the null pointer
  returned for an empty line. -/
  getEndPoint : G → Option G
  /-- Evaluates `a->isWithinDistance(b, distance)`. -/
  isWithinDistance : G → G → ℚ → Bool

section Topology
variable {G : Type}

/-- The function `VectorDataset::isLineType`; a missing layer is a null
pointer. -/
def VectorDataset.isLineType (ds : VectorDataset G) (LayerIndex : Nat) : Except Fault Bool :=
  match ds.mp_DataSource[LayerIndex]? with
  | none => .error (.undefinedBehaviour "null layer dereferenced")
  | some Layer => .ok (decide (Layer.GeomType = .wkbLineString))

/-- Tells whether `dynamic_cast<geos::geom::LineString*>` succeeds. -/
def isLineString (k : Kernel G) (g : G) : Bool :=
  decide (k.getGeometryTypeId g = .GEOS_LINESTRING ∨ k.getGeometryTypeId g = .GEOS_LINEARRING)

/-- The first loop of `computeNeighbourByLineTopology`, over the components of
the collection: the first line whose start point the polygon covers; `none`
when the loop ends with `cover` false. -/
def selectLineLoop (k : Kernel G) (pk : PointKernel G) (Polygon : G) :
    List G → Except Fault (Option G)
  | [] => .ok none
  | GeomL :: rest =>
    if isLineString k GeomL then
      match pk.getStartPoint GeomL with
      | none => .error (.undefinedBehaviour "null point passed to covers")
      | some Point =>
        if k.covers Polygon Point then .ok (some GeomL)
        else selectLineLoop k pk Polygon rest
    else .error (.undefinedBehaviour "null Line dereferenced")

/-- The loop of `computeNeighbourByLineTopology` over the neighbour index: the
first neighbour whose geometry covers the end point and whose identifier is
not that of the face; `Faces` are the entity objects the keys point to. -/
def downFaceLoop (k : Kernel G) (Faces : List (PolygonEntity G)) (self : PolygonEntity G)
    (EndPoint : Option G) : NeighboursMap → Except Fault (Option FaceId)
  | [] => .ok none
  | (g, _) :: rest =>
    match Faces.find? (fun N => N.ptr = g) with
    | none => .error (.undefinedBehaviour "dangling neighbour dereferenced")
    | some N =>
      match EndPoint with
      | none => .error (.undefinedBehaviour "null point passed to covers")
      | some Point =>
        if k.covers N.mp_Polygon Point ∧ self.getOfldId ≠ N.getOfldId then .ok (some g)
        else downFaceLoop k Faces self EndPoint rest

/-- The loop over the parts of `Line->difference(neighbour line)`: the flow
length becomes the length of each part whose end point is within 0.0001 of
the neighbour line and whose start point the polygon covers. -/
def flowLengthLoop (k : Kernel G) (pk : PointKernel G) (Polygon NeighbourLine : G) :
    List G → ℚ → Except Fault ℚ
  | [], FlowLength => .ok FlowLength
  | LinePart :: rest, FlowLength =>
    if isLineString k LinePart then
      match pk.getEndPoint LinePart with
      | none => .error (.undefinedBehaviour "null end point dereferenced")
      | some End =>
        if pk.isWithinDistance End NeighbourLine (1 / 10000) then
          match pk.getStartPoint LinePart with
          | none => .error (.undefinedBehaviour "null point passed to covers")
          | some Start =>
            if k.covers Polygon Start then
              flowLengthLoop k pk Polygon NeighbourLine rest (k.getLength LinePart)
            else flowLengthLoop k pk Polygon NeighbourLine rest FlowLength
        else flowLengthLoop k pk Polygon NeighbourLine rest FlowLength
    else .error (.undefinedBehaviour "null LinePart dereferenced")

/-- The loop of `computeNeighbourByLineTopology` over the line-neighbour map:
the first recorded line entity that intersects the line becomes the
downstream partner, whatever was found before; `Lines` are the line entity
objects the keys point to. -/
def downLineLoop (k : Kernel G) (pk : PointKernel G) (Lines : List (LineStringEntity G))
    (Polygon Line : G) :
    LineStringNeighboursMap → Option EntityRef × ℚ → Except Fault (Option EntityRef × ℚ)
  | [], acc => .ok acc
  | (l, _) :: rest, acc =>
    match Lines.find? (fun R => R.ptr = l) with
    | none => .error (.undefinedBehaviour "dangling line neighbour dereferenced")
    | some R =>
      if k.intersects R.line Line then
        match flowLengthLoop k pk Polygon R.line
            (k.getGeometries (k.difference Line R.line)) acc.2 with
        | .error f => .error f
        | .ok FlowLength => .ok (some (.line l), FlowLength)
      else downLineLoop k pk Lines Polygon Line rest acc

/-- The function `PolygonEntity::computeNeighbourByLineTopology`.  The dataset
is passed by value: the callee works on a copy whose caches are empty (the
failures of the copy of the files are not modelled), and what it does to the
copy is lost at the end of the call.  `isLineType()` and `geometries()` are
called without argument, for the layer 0. -/
def PolygonEntity.computeNeighbourByLineTopology (k : Kernel G) (pk : PointKernel G)
    (dk : DatasetKernel G) (h : EdgeHeap G) (Faces : List (PolygonEntity G))
    (Lines : List (LineStringEntity G)) (F : PolygonEntity G) (LineTopology : VectorDataset G) :
    Res (PolygonEntity G) (Option EntityRef × ℚ) :=
  let Copy : VectorDataset G := { LineTopology with m_Features := [], m_Geometries := [] }
  match Copy.isLineType 0 with
  | .error f => (.error f, F)
  | .ok false =>
    (.error (.exception "PolygonEntity::computeNeighbourByLineTopology"
      "The VectorDataset is not Line Type "), F)
  | .ok true =>
    match F.ensureNeighbours h with
    | (.error f, F1) => (.error f, F1)
    | (.ok (), F1) =>
      match Copy.geometries dk 0 with
      | (.error f, _) => (.error f, F1)
      | (.ok Coll, Copy1) =>
        if !k.intersects F1.mp_Polygon Coll then (.ok (none, 0), F1)
        else
          match Copy1.geometries dk 0 with
          | (.error f, _) => (.error f, F1)
          | (.ok PtIntersect, _) =>
            match selectLineLoop k pk F1.mp_Polygon (k.getGeometries PtIntersect) with
            | .error f => (.error f, F1)
            | .ok none => (.ok (none, 0), F1)
            | .ok (some Line) =>
              match F1.mp_NeighboursMap with
              | none => (.error (.undefinedBehaviour "null mp_NeighboursMap"), F1)
              | some m =>
                match downFaceLoop k Faces F1 (pk.getEndPoint Line) m with
                | .error f => (.error f, F1)
                | .ok Face =>
                  let found : Option EntityRef × ℚ :=
                    match Face with
                    | some g => (some (.face g), k.getLength Line)
                    | none => (none, 0)
                  match F1.mp_LineStringNeighboursMap with
                  | none => (.ok found, F1)
                  | some lm =>
                    match downLineLoop k pk Lines F1.mp_Polygon Line lm found with
                    | .error f => (.error f, F1)
                    | .ok r => (.ok r, F1)

end Topology

section TopologyPredicates
variable {G : Type}

/-- Tells whether the polygon covers the start point of the line. -/
def startCovered (k : Kernel G) (pk : PointKernel G) (Polygon Line : G) : Bool :=
  match pk.getStartPoint Line with
  | some Point => k.covers Polygon Point
  | none => false

/-- Tells whether the geometry of the face object `g` covers the point and the
face has another identifier than `self`. -/
def coversEnd (k : Kernel G) (Faces : List (PolygonEntity G)) (self : PolygonEntity G)
    (End : G) (g : FaceId) : Bool :=
  match Faces.find? (fun N => N.ptr = g) with
  | some N => k.covers N.mp_Polygon End && decide (self.getOfldId ≠ N.getOfldId)
  | none => false

/-- The first face of the neighbour index, in the order of its keys, whose
geometry covers the point and whose identifier is not that of `self`. -/
def downFace (k : Kernel G) (Faces : List (PolygonEntity G)) (self : PolygonEntity G)
    (End : G) (m : NeighboursMap) : Option FaceId :=
  (m.find? (fun p => coversEnd k Faces self End p.1)).map Prod.fst

/-- Tells whether the line entity object `l` is one of `Lines` and its line
does not intersect the line `Line`. -/
def lineApart (k : Kernel G) (Lines : List (LineStringEntity G)) (Line : G) (l : LineId) :
    Bool :=
  match Lines.find? (fun R => R.ptr = l) with
  | some R => !k.intersects R.line Line
  | none => false

end TopologyPredicates

namespace Lattice

/-- Geometries of the lattice with points and collections. -/
inductive FlowGeom where
  | geom (g : Geom)
  | point (p : Pt)
  | collection (gs : List Geom)
deriving DecidableEq, Repr

/-- The corners of a cell. -/
def cornersOf (c : Cell) : List Pt :=
  [(c.1, c.2), (c.1 + 1, c.2), (c.1, c.2 + 1), (c.1 + 1, c.2 + 1)]

/-- The lattice points of a geometry: the ends of its segments and the corners
of its cells. -/
def latticePts (g : Geom) : List Pt :=
  (segsOf g).flatMap (fun s => [s.p, s.q]) ++ (cellsOf g).flatMap cornersOf

/-- The polygons and lines a geometry is made of. -/
def FlowGeom.parts : FlowGeom → List Geom
  | .geom g => [g]
  | .point _ => []
  | .collection gs => gs

/-- Tells whether the lattice point is a point of the geometry. -/
def pointOn (p : Pt) (g : FlowGeom) : Bool :=
  match g with
  | .point q => decide (p = q)
  | g => g.parts.any (fun x => p ∈ latticePts x)

/-- Distance from `v` to the interval from `lo` to `hi`. -/
def gapTo (lo hi v : Nat) : Nat := (lo - v) + (v - hi)

/-- Squared distance from a lattice point to a unit segment. -/
def segDistSq (p : Pt) (s : Seg) : Nat :=
  gapTo s.p.1 s.q.1 p.1 * gapTo s.p.1 s.q.1 p.1 + gapTo s.p.2 s.q.2 p.2 * gapTo s.p.2 s.q.2 p.2

/-- Squared distance from a lattice point to a unit cell. -/
def cellDistSq (p : Pt) (c : Cell) : Nat :=
  gapTo c.1 (c.1 + 1) p.1 * gapTo c.1 (c.1 + 1) p.1
    + gapTo c.2 (c.2 + 1) p.2 * gapTo c.2 (c.2 + 1) p.2

/-- Tells whether the lattice point is within the distance of the geometry. -/
def pointNear (p : Pt) (g : FlowGeom) (distance : ℚ) : Bool :=
  decide (0 ≤ distance) &&
    match g with
    | .point q => decide (((segDistSq p ⟨q.1, q.2, true⟩ : Nat) : ℚ) ≤ distance * distance)
        && decide (((gapTo q.1 q.1 p.1 * gapTo q.1 q.1 p.1
            + gapTo q.2 q.2 p.2 * gapTo q.2 q.2 p.2 : Nat) : ℚ) ≤ distance * distance)
    | g => g.parts.any (fun x =>
        (segsOf x).any (fun s => decide (((segDistSq p s : Nat) : ℚ) ≤ distance * distance)) ||
        (cellsOf x).any (fun c => decide (((cellDistSq p c : Nat) : ℚ) ≤ distance * distance)))

/-- The lattice kernel on geometries, points and collections.  On polygons and
lines it answers as `kernel`; a point is within a geometry when it is one of
its lattice points; a collection intersects what one of its components
intersects.  The constructive operations, which the code applies to polygons
and lines only, give the empty geometry on points and collections. -/
def flowKernel : Kernel FlowGeom where
  getGeometryTypeId g :=
    match g with
    | .geom x => typeId x
    | .point _ => .GEOS_POINT
    | .collection _ => .GEOS_GEOMETRYCOLLECTION
  isEmpty g :=
    match g with
    | .geom x => isEmpty x
    | .point _ => false
    | .collection gs => gs.all isEmpty
  isValid g :=
    match g with
    | .geom x => isValid x
    | .point _ => true
    | .collection gs => gs.all isValid
  getDimension g :=
    match g with
    | .geom x => dimension x
    | .point _ => 0
    | .collection gs => (gs.map dimension).foldl max (-1)
  relate a b pattern :=
    match a, b with
    | .geom x, .geom y => relate x y pattern
    | _, _ => false
  intersection a b :=
    match a, b with
    | .geom x, .geom y => .geom (intersection x y)
    | _, _ => .geom .empty
  difference a b :=
    match a, b with
    | .geom x, .geom y => .geom (difference x y)
    | _, _ => .geom .empty
  getExteriorRing g :=
    match g with
    | .geom x => .geom (exteriorRing x)
    | _ => .geom .empty
  getBoundary g :=
    match g with
    | .geom x => .geom (boundary x)
    | _ => .geom .empty
  buffer g distance :=
    match g with
    | .geom x => .geom (kernel.buffer x distance)
    | _ => .geom .empty
  within a b :=
    match a, b with
    | .point p, y => pointOn p y
    | _, .point _ => false
    | x, y => x.parts.all (fun u => y.parts.any (fun v => within u v))
  intersects a b :=
    match a, b with
    | .point p, y => pointOn p y
    | x, .point q => pointOn q x
    | x, y => x.parts.any (fun u => y.parts.any (fun v => intersects u v))
  covers a b :=
    match b, a with
    | .point p, y => pointOn p y
    | _, .point _ => false
    | x, y => x.parts.all (fun u => y.parts.any (fun v => within u v))
  equals a b :=
    match a, b with
    | .geom x, .geom y => equals x y
    | _, _ => decide (a = b)
  getLength g := ((g.parts.map (fun x => kernel.getLength x)).sum : ℚ)
  getCoordinatesRO g :=
    match g with
    | .point p => [coordinateOf p]
    | g => g.parts.flatMap (fun x => (ptsOf x).map coordinateOf)
  getGeometries g :=
    match g with
    | .geom x => (components x).map FlowGeom.geom
    | .point p => [.point p]
    | .collection gs => gs.map FlowGeom.geom
  createMultiLineString gs :=
    .geom (kernel.createMultiLineString (gs.flatMap FlowGeom.parts))
  getMergedLineStrings g :=
    match g with
    | .geom x => (kernel.getMergedLineStrings x).map FlowGeom.geom
    | _ => []

/-- The points of the lattice lines. -/
def flowPoints : PointKernel FlowGeom where
  getStartPoint g :=
    match g with
    | .geom (.lineString pts) => pts.head?.map FlowGeom.point
    | .geom (.linearRing pts) => pts.head?.map FlowGeom.point
    | _ => none
  getEndPoint g :=
    match g with
    | .geom (.lineString pts) => pts.getLast?.map FlowGeom.point
    | .geom (.linearRing pts) => pts.getLast?.map FlowGeom.point
    | _ => none
  isWithinDistance a b distance :=
    match a with
    | .point p => pointNear p b distance
    | _ => false

/-- The lattice kernel as seen by `VectorDataset`, for layers of lines or
polygons. -/
def flowDatasetKernel : DatasetKernel FlowGeom where
  equals := flowKernel.equals
  isPolygon g :=
    match g with
    | .geom x => isPolygon x
    | _ => false
  getCoordinates := flowKernel.getCoordinatesRO
  Equals a b := decide (a = b)
  Overlaps a b :=
    match a, b with
    | .geom x, .geom y => overlaps x y
    | _, _ => false
  Touches a b :=
    match a, b with
    | .geom x, .geom y => touches x y
    | _, _ => false
  distanceLessThan a b Threshold :=
    match a, b with
    | .geom x, .geom y => distanceLessThan x y Threshold
    | _, _ => false
  isWkbPolygon g :=
    match g with
    | .geom x => isPolygon x
    | _ => false
  exteriorRingNumPoints g :=
    match g with
    | .geom x => (ptsOf (exteriorRing x)).length
    | _ => 0
  isValid := flowKernel.isValid
  createGeometryCollection gs := .collection (gs.flatMap FlowGeom.parts)

/-- The graph of the unit square at `(0, 0)`, with the identifier 1, over the
kernel `flowKernel`. -/
def flowSquare : PolygonGraph FlowGeom :=
  (PolygonGraph.addPolygon flowKernel PolygonGraph.empty (.geom (square 0 0)) ⟨some 1⟩).2

/-- The graph `flowSquare` after the insertion of the unit square at `(1, 0)`,
with the identifier 2. -/
def flowGraph : PolygonGraph FlowGeom :=
  (PolygonGraph.addPolygon flowKernel flowSquare (.geom (square 1 0)) ⟨some 2⟩).2

/-- The entity of the square at `(0, 0)` in `flowGraph`. -/
def flowFace : PolygonEntity FlowGeom :=
  flowGraph.m_Entities.headD
    { ptr := 0, mp_Feature := ⟨some 1⟩, mp_Polygon := .geom (square 0 0), m_PolyEdges := [],
      mp_Neighbours := none, mp_NeighboursMap := none, mp_LineStringNeighboursMap := none }

/-- A line graph with one entity, a river along the side shared by the two
squares. -/
def river : LineStringGraph FlowGeom := ⟨[⟨0, .geom sharedSide⟩]⟩

/-- A line graph with one entity, a ditch along the top side of the square at
`(0, 0)`. -/
def ditch : LineStringGraph FlowGeom := ⟨[⟨0, .geom (.lineString [(0, 1), (1, 1)])⟩]⟩

/-- The entity `flowFace` after `computeLineStringNeighbours` on `river` with
the relation `CONTAINS`: the river is a recorded line neighbour. -/
def flowFaceRiver : PolygonEntity FlowGeom :=
  (flowFace.computeLineStringNeighbours flowKernel flowGraph.heap river .CONTAINS (1 / 10) 0).2

/-- The entity `flowFace` after `computeLineStringNeighbours` on `ditch` with
the relation `CONTAINS`: the ditch is a recorded line neighbour. -/
def flowFaceDitch : PolygonEntity FlowGeom :=
  (flowFace.computeLineStringNeighbours flowKernel flowGraph.heap ditch .CONTAINS (1 / 10) 0).2

/-- The line from `(0, 0)` to `(2, 0)` along the bottom sides of the two
squares: it starts on the square at `(0, 0)` and ends on the square at
`(1, 0)`. -/
def flowLine : Geom := .lineString [(0, 0), (1, 0), (2, 0)]

/-- A data source with one layer of lines. -/
def linesOf (lines : List Geom) : VectorDataset FlowGeom :=
  { mp_DataSource := [⟨.wkbLineString, (List.range lines.length).zip (lines.map FlowGeom.geom)⟩],
    m_Features := [], m_Geometries := [], allocated := 0 }

/-- A line layer with the single line `flowLine`. -/
def flowLayer : VectorDataset FlowGeom := linesOf [flowLine]

/-- A line layer with a single line that starts away from the square at
`(0, 0)` and ends on it. -/
def inflowLayer : VectorDataset FlowGeom := linesOf [.lineString [(2, 0), (1, 0)]]

/-- A line layer with a single line that starts on a corner of the square at
`(0, 0)` and ends away from the two squares. -/
def outflowLayer : VectorDataset FlowGeom :=
  linesOf [.lineString [(1, 0), (2, 0), (3, 0)]]

end Lattice

/-! ## `snapPolygonVertices` and `cleanOverlap` -/

/-- The geometry kernel as used by `cleanOverlap` and by the rebuilding of the
polygon in `snapPolygonVertices`. -/
structure RepairKernel (G : Type) extends DatasetKernel G where
  /-- Evaluates `a->difference(b)`. -/
  difference : G → G → G
  /-- Evaluates `GeometrySnapper(a).snapTo(b, Threshold)`: the geometry `a` with
  its vertices snapped to those of `b`. -/
  snapTo : G → G → ℚ → G
  /-- Evaluates `createPolygon(createLinearRing(CoordSeq), nullptr)`; `none`
  when `createLinearRing` throws. -/
  createPolygon : List Coordinate → Option G

section Repair
variable {G : Type}

/-- The exception thrown by a `catch (std::exception& e)` block that throws a
`FrameworkException` whose message is built around `e.what()`, here the
message of the exception caught. -/
def rethrow (location before after : String) : Fault → Fault
  | .exception _ message => .exception location (before ++ message ++ after)
  | f => f

/-- The call `mp_DataSource->GetLayer(LayerIndex)->SetFeature(Feat)` for a
feature with the given FID and geometry: the feature of the layer with this
FID gets the geometry; when the layer has no feature with this FID nothing
changes (the error code returned is not read). -/
def VectorDataset.setFeature (ds : VectorDataset G) (LayerIndex FID : Nat) (geometry : G) :
    Except Fault (VectorDataset G) :=
  match ds.mp_DataSource[LayerIndex]? with
  | none => .error (.undefinedBehaviour "null layer dereferenced")
  | some Layer =>
    let Layer1 : OGRLayer G :=
      { Layer with features :=
          Layer.features.map (fun p => if p.1 = FID then (FID, geometry) else p) }
    .ok { ds with mp_DataSource := ds.mp_DataSource.set LayerIndex Layer1 }

/-- The call `Feat->SetGeometry(g)` on the cached feature object of address
`ptr`. -/
def setGeometry (m : List (Nat × FeaturesList G)) (ptr : Nat) (geometry : G) :
    List (Nat × FeaturesList G) :=
  m.map (fun e =>
    (e.1, e.2.map (fun p => if p.1.ptr = ptr then ({ p.1 with geometry := geometry }, p.2) else p)))

/-- The lifetime of the geometry objects in the first loop of
`snapPolygonVertices`, over the components of the collection: `a` is the
geometry object of the current feature; a component that is a polygon and is
not equal to the current geometry is deleted after its coordinates were
read. -/
def deleteOthersLoop (k : VertexKernel G) (a : Nat) (Current : G) :
    List (Nat × G) → List Nat → Except Fault (List Nat)
  | [], deleted => .ok deleted
  | (c, v) :: rest, deleted =>
    if c ∈ deleted ∨ a ∈ deleted then .error (.undefinedBehaviour "deleted geometry used")
    else if !k.equals v Current ∧ k.isPolygon v then
      deleteOthersLoop k a Current rest (deleted ++ [c])
    else deleteOthersLoop k a Current rest deleted

/-- One iteration of the loop of `snapPolygonVertices`, for the entry `it` of
the local copy of the feature list.  The collection is that of the layer 0
(`geometries()` is called without argument); its components are the geometry
objects recorded by `parse`, and a cached collection without such a record is
reported as undefined.  The geometry object of the entry is the one made with
its feature; to read a geometry object that was deleted is undefined
behaviour. -/
def snapFeatureStep (k : RepairKernel G) (Threshold : ℚ) (LayerIndex : Nat)
    (ds : VectorDataset G) (it : Feature G × G) : Res (VectorDataset G) Unit :=
  match ds.geometries k.toDatasetKernel 0 with
  | (.error f, ds1) => (.error f, ds1)
  | (.ok _, ds1) =>
    match cacheAt ds1.components 0 with
    | none => (.error (.undefinedBehaviour "components of the collection unknown"), ds1)
    | some Geom =>
      if it.1.ptr ∈ ds1.deleted then
        (.error (.undefinedBehaviour "deleted geometry used"), ds1)
      else
        match deleteOthersLoop k.toVertexKernel it.1.ptr it.2 Geom ds1.deleted with
        | .error f => (.error f, ds1)
        | .ok deleted =>
          let ds2 := { ds1 with deleted := deleted }
          if !k.isPolygon it.2 then
            (.error (.undefinedBehaviour "null CurrentPolygon dereferenced"), ds2)
          else if it.1.ptr ∈ deleted then
            (.error (.undefinedBehaviour "deleted geometry used"), ds2)
          else
            match k.createPolygon
                (snapStep k.toVertexKernel Threshold (Geom.map Prod.snd) it.2) with
            | none =>
              (.error (.exception "geos::util::IllegalArgumentException" "createLinearRing"),
               ds2)
            | some NewPolygon =>
              let ds3 := { ds2 with m_Features := setGeometry ds2.m_Features it.1.ptr NewPolygon }
              match ds3.setFeature LayerIndex it.1.FID NewPolygon with
              | .error f => (.error f, ds3)
              | .ok ds4 =>
                let ds5 := { ds4 with deleted := ds4.deleted ++ [it.1.ptr], m_Geometries := [] }
                match ds5.parse k.toDatasetKernel LayerIndex with
                | (.error f, ds6) =>
                  (.error (rethrow "VectorDataset::snapPolygonVertices"
                    "Unable to parse the VectorDataset (" ")" f), ds6)
                | (.ok (), ds6) => (.ok (), ds6)

/-- The loop of `snapPolygonVertices` over the local copy of the feature
list. -/
def snapFeaturesLoop (k : RepairKernel G) (Threshold : ℚ) (LayerIndex : Nat) :
    FeaturesList G → VectorDataset G → Res (VectorDataset G) Unit
  | [], ds => (.ok (), ds)
  | it :: rest, ds =>
    match snapFeatureStep k Threshold LayerIndex ds it with
    | (.error f, ds1) => (.error f, ds1)
    | (.ok (), ds1) => snapFeaturesLoop k Threshold LayerIndex rest ds1

/-- The function `VectorDataset::snapPolygonVertices`. -/
def VectorDataset.snapPolygonVertices (k : RepairKernel G) (ds : VectorDataset G)
    (Threshold : ℚ) (LayerIndex : Nat) : Res (VectorDataset G) Unit :=
  match ds.features k.toDatasetKernel LayerIndex with
  | (.error f, ds1) => (.error f, ds1)
  | (.ok Features, ds1) => snapFeaturesLoop k Threshold LayerIndex Features ds1

/-- One iteration of the repair loop of `cleanOverlap`: the first pair of the
list is repaired in the layer `LayerIndex`, the caches are cleared, the layer
`LayerIndex` is parsed and the list is computed again by `findOverlap()`,
called without argument, for the layer 0. -/
def repairStep (k : RepairKernel G) (Threshold : ℚ) (LayerIndex : Nat) (ds : VectorDataset G)
    (lOverlaps : FeaturePairs G) : Res (VectorDataset G) (FeaturePairs G) :=
  match lOverlaps.head? with
  | none => (.error (.undefinedBehaviour "front() of an empty list"), ds)
  | some (Feat1, Feat2) =>
    let Diff := k.difference Feat1.geometry Feat2.geometry
    let snappedEntityGeom2 := k.snapTo Feat2.geometry Diff Threshold
    match ds.setFeature LayerIndex Feat1.FID Diff with
    | .error f => (.error f, ds)
    | .ok ds1 =>
      match ds1.setFeature LayerIndex Feat2.FID snappedEntityGeom2 with
      | .error f => (.error f, ds1)
      | .ok ds2 =>
        let ds3 := { ds2 with m_Features := [], m_Geometries := [] }
        match ds3.parse k.toDatasetKernel LayerIndex with
        | (.error f, ds4) =>
          (.error (rethrow "VectorDataset::cleanOverlap"
            "Unable to parse the VectorDataset (" ")" f), ds4)
        | (.ok (), ds4) => ds4.findOverlap k.toDatasetKernel 0

/-- The repair loop of `cleanOverlap`: `lSize` iterations, the number of pairs
found before the first repair. -/
def repairLoop (k : RepairKernel G) (Threshold : ℚ) (LayerIndex : Nat) :
    Nat → VectorDataset G → FeaturePairs G → Res (VectorDataset G) Unit
  | 0, ds, _ => (.ok (), ds)
  | n + 1, ds, lOverlaps =>
    match repairStep k Threshold LayerIndex ds lOverlaps with
    | (.error f, ds1) => (.error f, ds1)
    | (.ok l, ds1) => repairLoop k Threshold LayerIndex n ds1 l

/-- The function `VectorDataset::cleanOverlap`.  `findOverlap()` and
`snapPolygonVertices(Threshold)` are called without layer index, for the
layer 0. -/
def VectorDataset.cleanOverlap (k : RepairKernel G) (ds : VectorDataset G) (Threshold : ℚ)
    (LayerIndex : Nat) : Res (VectorDataset G) Unit :=
  match ds.isPolygonType LayerIndex with
  | .error f => (.error f, ds)
  | .ok false =>
    (.error (.exception "VectorDataset::cleanOverlap" "the VectorDataset is not Polygon type."),
     ds)
  | .ok true =>
    let ds0 := { ds with m_Features := [], m_Geometries := [] }
    match ds0.findOverlap k.toDatasetKernel 0 with
    | (.error f, ds1) => (.error f, ds1)
    | (.ok lOverlaps, ds1) =>
      match repairLoop k Threshold LayerIndex lOverlaps.length ds1 lOverlaps with
      | (.error f, ds2) => (.error f, ds2)
      | (.ok (), ds2) =>
        match ds2.snapPolygonVertices k Threshold 0 with
        | (.error f, ds3) =>
          (.error (rethrow "VectorDataset::cleanOverlap"
            "Unable to clean the VectorDataset ()" ")" f), ds3)
        | (.ok (), ds3) => (.ok (), ds3)

end Repair

namespace Lattice

/-- The lattice point of a coordinate, when it is one. -/
def ptOf (c : Coordinate) : Option Pt :=
  if c.x.den = 1 ∧ c.y.den = 1 ∧ 0 ≤ c.x.num ∧ 0 ≤ c.y.num then
    some (c.x.num.toNat, c.y.num.toNat)
  else none

/-- The lattice points of a coordinate sequence, when all are lattice points. -/
def ptsOfCoordinates : List Coordinate → Option (List Pt)
  | [] => some []
  | c :: rest =>
    match ptOf c, ptsOfCoordinates rest with
    | some p, some ps => some (p :: ps)
    | _, _ => none

/-- The cells enclosed by a closed path of unit steps: the cells of its
bounding box with an odd number of vertical segments of the path on their
left, at their height. -/
def cellsInside (ring : List Pt) : List Cell :=
  let segs := pathSegs ring
  let xs := ring.map Prod.fst
  let ys := ring.map Prod.snd
  let x0 := xs.foldl min (xs.headD 0)
  let x1 := xs.foldl max 0
  let y0 := ys.foldl min (ys.headD 0)
  let y1 := ys.foldl max 0
  ((List.range' y0 (y1 - y0)).flatMap (fun y => (List.range' x0 (x1 - x0)).map (fun x => (x, y)))).filter
    (fun c => (segs.filter (fun s => !s.horizontal && decide (s.y = c.2) && decide (s.x ≤ c.1))).length
      % 2 = 1)

/-- The polygon built from a ring: `none` (the exception of
`createLinearRing`) unless the sequence is closed and has 4 coordinates at
least; the rings of the lattice are the closed paths of unit steps between
lattice points, and `none` is also the answer on other sequences. -/
def createPolygon (coords : List Coordinate) : Option LayerGeom :=
  match ptsOfCoordinates coords with
  | none => none
  | some ring =>
    if 4 ≤ ring.length ∧ ring.head? = ring.getLast? ∧ (pathSegs ring).length + 1 = ring.length then
      some (.inl (.polygon (cellsInside ring) []))
    else none

/-- The lattice kernel as seen by `cleanOverlap`.  The difference of two
polygons keeps the cells of the first that are not cells of the second; for a
threshold below 1 snapping changes nothing, since two vertices of the lattice
closer than 1 are the same point. -/
def repairKernel : RepairKernel LayerGeom where
  toDatasetKernel := datasetKernel
  difference a b :=
    match a, b with
    | .inl x, .inl y =>
      if isPolygon x ∧ isPolygon y then
        .inl (.polygon ((cellsOf x).filter (fun c => c ∉ cellsOf y)) [])
      else .inl (difference x y)
    | _, _ => a
  snapTo a _ _ := a
  createPolygon := createPolygon

deriving instance DecidableEq for OGRLayer

/-- A data source with two polygon layers: the layer 0 holds the square at
`(5, 0)`; the layer 1 holds two rectangles of two cells that share the cell
`(1, 0)`, with the FIDs 0 and 1.  Nothing is parsed yet. -/
def twoLayers : VectorDataset LayerGeom :=
  { mp_DataSource :=
      [⟨.wkbPolygon, [(0, .inl (square 5 0))]⟩,
       ⟨.wkbPolygon, [(0, .inl (.polygon [(0, 0), (1, 0)] [])),
                      (1, .inl (.polygon [(1, 0), (2, 0)] []))]⟩],
    m_Features := [], m_Geometries := [], allocated := 0 }

/-- The dataset `twoLayers` after `cleanOverlap` with the threshold 1/10 on the
layer 1. -/
def twoLayersCleaned : VectorDataset LayerGeom :=
  (twoLayers.cleanOverlap repairKernel (1 / 10) 1).2

end Lattice

/-! ## Nodes of the planar graph, constructors, attributes -/

section Planar
variable {G : Type}

/-- Evaluates `Node::getDegree`: the number of directed edges of the graph that leave
the node. -/
def PolygonGraph.degree (gr : PolygonGraph G) (n : NodeId) : Nat :=
  (gr.dirEdges.filter
    (fun d => (gr.m_NewDirEdges[d]?.map DirectedEdge.fromNode) = some n)).length

/-- The call `PlanarGraph::findNodesOfDegree`. -/
def PolygonGraph.findNodesOfDegree (gr : PolygonGraph G) (degree : Nat) :
    List (Coordinate × NodeId) :=
  gr.nodeMap.filter (fun p => gr.degree p.2 = degree)

/-- The call `PlanarGraph::remove(Node*)` on a node that no directed edge
leaves: its coordinate is erased from the node map. -/
def PolygonGraph.removeNode (gr : PolygonGraph G) (p : Coordinate × NodeId) : PolygonGraph G :=
  { gr with nodeMap := gr.nodeMap.filter (fun q => q.1 ≠ p.1) }

/-- The function `PolygonGraph::removeUnusedNodes`. -/
def PolygonGraph.removeUnusedNodes (gr : PolygonGraph G) : PolygonGraph G :=
  (gr.findNodesOfDegree 0).foldl PolygonGraph.removeNode gr

/-- The loop of the constructors of `PolygonGraph`: the clones of the polygons
and features are inserted in order; an exception of `addPolygon` leaves the
constructor. -/
def insertLoop (k : Kernel G) :
    List (G × OGRFeature) → PolygonGraph G → Res (PolygonGraph G) Unit
  | [], gr => (.ok (), gr)
  | (Polygon, Feat) :: rest, gr =>
    match gr.addPolygon k Polygon Feat with
    | (.error f, gr1) => (.error f, gr1)
    | (.ok _, gr1) => insertLoop k rest gr1

/-- The constructor `PolygonGraph::PolygonGraph(const std::vector<PolygonEntity*>&)`. -/
def PolygonGraph.ofEntities (k : Kernel G) (Entities : List (PolygonEntity G)) :
    Except Fault (PolygonGraph G) :=
  match insertLoop k (Entities.map (fun E => (E.mp_Polygon, E.mp_Feature))) PolygonGraph.empty with
  | (.error f, _) => .error f
  | (.ok (), gr) => .ok gr.removeUnusedNodes

/-- The constructor `PolygonGraph::PolygonGraph(PolygonGraph& Other)`. -/
def PolygonGraph.ofGraph (k : Kernel G) (Other : PolygonGraph G) :
    Except Fault (PolygonGraph G) :=
  PolygonGraph.ofEntities k Other.getEntities

/-- The loop of the constructor from a layer: the geometry of each feature is
cast to a polygon, and a geometry that is not a polygon gives a null pointer,
which `addPolygon` dereferences. -/
def layerLoop (k : Kernel G) :
    List (G × OGRFeature) → PolygonGraph G → Res (PolygonGraph G) Unit
  | [], gr => (.ok (), gr)
  | (GeosGeom, Feat) :: rest, gr =>
    if k.getGeometryTypeId GeosGeom ≠ .GEOS_POLYGON then
      (.error (.undefinedBehaviour "null Polygon dereferenced"), gr)
    else
      match gr.addPolygon k GeosGeom Feat with
      | (.error f, gr1) => (.error f, gr1)
      | (.ok _, gr1) => layerLoop k rest gr1

/-- The constructor `PolygonGraph::PolygonGraph(const GeoVectorValue&)`;
`Layer0` lists the features of the layer 0 in reading order. -/
def PolygonGraph.ofLayer (k : Kernel G) (Layer0 : List (G × OGRFeature)) :
    Except Fault (PolygonGraph G) :=
  match layerLoop k Layer0 PolygonGraph.empty with
  | (.error f, _) => .error f
  | (.ok (), gr) => .ok gr.removeUnusedNodes

/-- The function `LandREntity::getAttributeValue`; `Value` is the output
argument, returned as it is when the attribute is absent. -/
def PolygonEntity.getAttributeValue (E : PolygonEntity G) (AttributeName : String)
    (Value : BoostAny) : Bool × BoostAny :=
  match E.m_Attributes.find? (fun p => p.1 = AttributeName) with
  | some p => (true, p.2)
  | none => (false, Value)

/-- The function `LandREntity::setAttributeValue`. -/
def PolygonEntity.setAttributeValue (E : PolygonEntity G) (AttributeName : String)
    (Value : BoostAny) : Bool × PolygonEntity G :=
  if E.m_Attributes.any (fun p => p.1 = AttributeName) then
    (true, { E with m_Attributes :=
      E.m_Attributes.map (fun p => if p.1 = AttributeName then (AttributeName, Value) else p) })
  else (false, E)

/-- The statement `m_Attributes[AttributeName];` of `addAttribute`: an absent
name enters the table with an empty value. -/
def PolygonEntity.touchAttribute (E : PolygonEntity G) (AttributeName : String) :
    PolygonEntity G :=
  if E.m_Attributes.any (fun p => p.1 = AttributeName) then E
  else { E with m_Attributes := E.m_Attributes ++ [(AttributeName, .empty)] }

/-- The function `PolygonGraph::addAttribute`. -/
def PolygonGraph.addAttribute (gr : PolygonGraph G) (AttributeName : String) : PolygonGraph G :=
  { gr with m_Entities := gr.m_Entities.map (fun E => E.touchAttribute AttributeName) }

/-- The function `PolygonGraph::removeAttribute`. -/
def PolygonGraph.removeAttribute (gr : PolygonGraph G) (AttributeName : String) :
    PolygonGraph G :=
  { gr with m_Entities := gr.m_Entities.map (fun E =>
      { E with m_Attributes := E.m_Attributes.filter (fun p => p.1 ≠ AttributeName) }) }

end Planar

section PlanarPredicates
variable {G : Type}

/-- The graphs `gr` and `gr'` have the same edges, directed edges and nodes. -/
structure SamePlanar (gr gr' : PolygonGraph G) : Prop where
  edges : gr'.edges = gr.edges
  dirEdges : gr'.dirEdges = gr.dirEdges
  nodeMap : gr'.nodeMap = gr.nodeMap
  newNodes : gr'.m_NewNodes = gr.m_NewNodes
  newDirEdges : gr'.m_NewDirEdges = gr.m_NewDirEdges

/-- The graphs reached from the empty graph by calls of `getNode`,
`createEdge`, `remove`, `addPolygon` and `removeUnusedNodes`, whatever their
outcome. -/
inductive Grown (k : Kernel G) : PolygonGraph G → Prop where
  | empty : Grown k PolygonGraph.empty
  | getNode (gr : PolygonGraph G) (c : Coordinate) : Grown k gr → Grown k (gr.getNode c).2
  | createEdge (gr : PolygonGraph G) (LineString : G) :
      Grown k gr → Grown k (gr.createEdge k LineString).2
  | remove (gr : PolygonGraph G) (Edge : EdgeId) : Grown k gr → Grown k (gr.remove Edge)
  | addPolygon (gr : PolygonGraph G) (Polygon : G) (Feat : OGRFeature) :
      Grown k gr → Grown k (gr.addPolygon k Polygon Feat).2
  | removeUnusedNodes (gr : PolygonGraph G) : Grown k gr → Grown k gr.removeUnusedNodes

/-- The nodes of the graph are shared: no two entries of the node map have the
same coordinate, every entry is the node object of its coordinate, and the
node that a directed edge of the graph leaves is an entry of the node map. -/
structure NodesShared (gr : PolygonGraph G) : Prop where
  distinct : (gr.nodeMap.map Prod.fst).Nodup
  coordinate : ∀ p ∈ gr.nodeMap, gr.m_NewNodes[p.2]? = some p.1
  registered : ∀ d ∈ gr.dirEdges, ∃ D, gr.m_NewDirEdges[d]? = some D ∧
    ∃ c, (c, D.fromNode) ∈ gr.nodeMap

end PlanarPredicates

namespace Lattice

/-- A kernel that differs from the lattice kernel in `isEmpty`: a geometry is
empty when it has no vertex, as for GEOS, so that a line string whose
vertices are all the same point is not empty. -/
def vertexKernel : Kernel Geom := { kernel with isEmpty := fun g => decide (ptsOf g = []) }

/-- A line string with two vertices at the same point. -/
def pointLine : Geom := .lineString [(0, 0), (0, 0)]

/-- The entity made by the constructor for the square at `(x, 0)` with the
identifier `id`. -/
def squareEntity (x id : Nat) : PolygonEntity Geom :=
  { ptr := 0, mp_Feature := ⟨some id⟩, mp_Polygon := square x 0, m_PolyEdges := [],
    mp_Neighbours := none, mp_NeighboursMap := none, mp_LineStringNeighboursMap := none }

/-- The graph of the square at `(0, 0)` after `addAttribute("area")`. -/
def areaGraph : PolygonGraph Geom := oneSquare.addAttribute "area"

/-- The entity of the square in `areaGraph`. -/
def areaFace : PolygonEntity Geom := areaGraph.m_Entities.headD loneFace

end Lattice

section SegmentPredicates
variable {G : Type}

/-- The lines for which `removeSegment` creates a replacement edge, for the old
edge line `Old` and the segment: none when the difference is empty, else the
merged lines of the difference that are not empty (`createEdge` returns the
null pointer for an empty line). -/
def replacementLines (k : Kernel G) (Old Segment : G) : List G :=
  if k.isEmpty (k.difference Old Segment) then []
  else ((getMergedLineStringsFromGeometry k (k.difference Old Segment)).getD []).filter
    (fun L => !k.isEmpty L)

end SegmentPredicates

namespace Lattice

/-- The graph in the middle of the insertion of the square at `(1, 0)` into
`oneSquare`, when `addPolygon` calls `removeSegment` for the shared side: the
edge 0 is the ring of the square at `(0, 0)`, the edge 1 the shared edge. -/
def midGraph : PolygonGraph Geom :=
  { (oneSquare.createEdge kernel sharedSide).2 with heap := midInsertion.2 }

/-- The ring of the square at `(0, 0)` as the edge 0 of `midGraph`. -/
def ringEdge : PolygonEdge Geom := ⟨.lineString [(0, 0), (1, 0), (1, 1), (0, 1), (0, 0)], [0]⟩

end Lattice

namespace Lattice

/-- Three rectangles of two cells that all hold the cell `(1, 0)`, with the
FIDs 0, 1 and 2: every two of them overlap. -/
def threeOverlaps : VectorDataset LayerGeom :=
  layerOf [.polygon [(0, 0), (1, 0)] [], .polygon [(1, 0), (2, 0)] [],
    .polygon [(1, 0), (1, 1)] []]

/-- The pairs of FIDs of a result that is a list of pairs of features. -/
def pairFIDs (r : Except Fault (FeaturePairs LayerGeom)) : Except Fault (List (Nat × Nat)) :=
  r.map (fun l => l.map (fun p => (p.1.FID, p.2.FID)))

/-- The first call of `findOverlap` made by `cleanOverlap` on `threeOverlaps`. -/
def threeFound : Res (VectorDataset LayerGeom) (FeaturePairs LayerGeom) :=
  VectorDataset.findOverlap datasetKernel
    { threeOverlaps with m_Features := [], m_Geometries := [] } 0

/-- The first iteration of the repair loop of `cleanOverlap` on `threeOverlaps`. -/
def threeFirst : Res (VectorDataset LayerGeom) (FeaturePairs LayerGeom) :=
  repairStep repairKernel (1 / 10) 0 threeFound.2 (threeFound.1.toOption.getD [])

/-- The second iteration of the repair loop of `cleanOverlap` on `threeOverlaps`. -/
def threeSecond : Res (VectorDataset LayerGeom) (FeaturePairs LayerGeom) :=
  repairStep repairKernel (1 / 10) 0 threeFirst.2 (threeFirst.1.toOption.getD [])

end Lattice

namespace Lattice

/-- The entity of `frame` in the graph `frameOnly`. -/
def frameFace : PolygonEntity Geom :=
  frameOnly.m_Entities.headD
    { ptr := 0, mp_Feature := ⟨some 2⟩, mp_Polygon := frame, m_PolyEdges := [],
      mp_Neighbours := none, mp_NeighboursMap := none, mp_LineStringNeighboursMap := none }

/-- The entity constructed by `addPolygon` for `island`. -/
def islandFace : PolygonEntity Geom :=
  { ptr := 1, mp_Feature := ⟨some 1⟩, mp_Polygon := island, m_PolyEdges := [],
    mp_Neighbours := none, mp_NeighboursMap := none, mp_LineStringNeighboursMap := none }

/-- The state of the insertion of `island` into `frameOnly` when the loop over
the entities starts. -/
def islandInsertion : Insertion Geom :=
  ⟨{ frameOnly with allocatedEntities := frameOnly.allocatedEntities ++ [⟨some 1⟩] },
   islandFace, []⟩

/-- The ring of the hole of `frame`, which is the ring of `island`: the line
shared by the two polygons. -/
def holeRing : Geom := .lineString [(1, 1), (2, 1), (2, 2), (1, 2), (1, 1)]

/-- The state after the step of `addPolygon` for the shared side in the
insertion of the square at `(1, 0)` into `oneSquare`. -/
def eastStep : Insertion Geom × PolygonEntity Geom :=
  (sharedLineStep kernel eastInsertion loneFace sharedSide).2

/-- The state after the step of `addPolygon` for the ring of the hole in the
insertion of `island` into `frameOnly`. -/
def islandStep : Insertion Geom × PolygonEntity Geom :=
  (sharedLineStep kernel islandInsertion frameFace holeRing).2

end Lattice

namespace Lattice

/-- A polygon layer with one feature, the square at `(0, 0)`; nothing is
parsed yet. -/
def oneFeature : VectorDataset LayerGeom := layerOf [square 0 0]

/-- The dataset `oneFeature` after `snapPolygonVertices` with the threshold
1/10 on the layer 0. -/
def oneFeatureSnapped : VectorDataset LayerGeom :=
  (oneFeature.snapPolygonVertices repairKernel (1 / 10) 0).2

/-- The dataset `twoLayers` after `snapPolygonVertices` with the threshold 1/10
on the layer 1. -/
def twoLayersSnapped : VectorDataset LayerGeom :=
  (twoLayers.snapPolygonVertices repairKernel (1 / 10) 1).2

/-- The addresses and the FIDs of the entries of a result that is a feature
list. -/
def entryFIDs (r : Except Fault (FeaturesList LayerGeom)) : Except Fault (List (Nat × Nat)) :=
  r.map (fun l => l.map (fun p => (p.1.ptr, p.1.FID)))

end Lattice

section Validity
variable {G : Type}

/-- The kernel `k` with the validity test replaced by `v`; every other
operation is that of `k`. -/
def Kernel.withValidity (k : Kernel G) (v : G → Bool) : Kernel G := { k with isValid := v }

end Validity

namespace Lattice

/-- The graph holding the polygon `pinched`, which is not valid, with the
identifier 7. -/
def pinchedOnly : PolygonGraph Geom :=
  (PolygonGraph.addPolygon kernel PolygonGraph.empty pinched ⟨some 7⟩).2

end Lattice

/-! # Theorems -/

section GraphLemmas
variable {G : Type}

theorem modify_append_last {α : Type} (l : List α) (x : α) (f : α → α) :
    (l ++ [x]).modify f l.length = l ++ [f x] := by
  induction l with
  | nil => rfl
  | cons a l ih => simpa using ih

@[simp] theorem getNode_heap (gr : PolygonGraph G) (c : Coordinate) :
    (gr.getNode c).2.heap = gr.heap := by
  unfold PolygonGraph.getNode; cases gr.findNode c <;> rfl

@[simp] theorem getNode_entities (gr : PolygonGraph G) (c : Coordinate) :
    (gr.getNode c).2.m_Entities = gr.m_Entities := by
  unfold PolygonGraph.getNode; cases gr.findNode c <;> rfl

@[simp] theorem getNode_bySelfId (gr : PolygonGraph G) (c : Coordinate) :
    (gr.getNode c).2.m_EntitiesBySelfId = gr.m_EntitiesBySelfId := by
  unfold PolygonGraph.getNode; cases gr.findNode c <;> rfl

@[simp] theorem getNode_allocated (gr : PolygonGraph G) (c : Coordinate) :
    (gr.getNode c).2.allocatedEntities = gr.allocatedEntities := by
  unfold PolygonGraph.getNode; cases gr.findNode c <;> rfl

/-- Effect of `createEdge` on the edge table and on the entity tables. -/
theorem createEdge_spec (k : Kernel G) (gr : PolygonGraph G) (L : G) :
    (gr.createEdge k L).2.m_Entities = gr.m_Entities ∧
    (gr.createEdge k L).2.m_EntitiesBySelfId = gr.m_EntitiesBySelfId ∧
    (gr.createEdge k L).2.allocatedEntities = gr.allocatedEntities ∧
    (gr.createEdge k L).2.heap.freed = gr.heap.freed ∧
    (((gr.createEdge k L).1 = .ok (some gr.heap.objects.length) ∧
        (gr.createEdge k L).2.heap.objects = gr.heap.objects ++ [⟨L, []⟩]) ∨
     ((∀ e, (gr.createEdge k L).1 ≠ .ok (some e)) ∧
        (gr.createEdge k L).2.heap.objects = gr.heap.objects)) := by
  unfold PolygonGraph.createEdge
  by_cases he : k.isEmpty L = true
  · simp [he]
  · cases h0 : (removeRepeatedPoints (k.getCoordinatesRO L))[0]? with
    | none => simp [he, h0]
    | some sc =>
      cases h1 : (removeRepeatedPoints (k.getCoordinatesRO L))[1]? with
      | none => simp [he, h0, h1]
      | some d0 => simp [he, h0, h1, EdgeHeap.alloc]

theorem Extends.extRefl (gr : PolygonGraph G) : Extends gr gr [] :=
  ⟨by simp, fun _ h => h, rfl, rfl, rfl⟩

theorem Extends.extTrans {a b c : PolygonGraph G} {x y : List (PolygonEdge G)}
    (h1 : Extends a b x) (h2 : Extends b c y) : Extends a c (x ++ y) :=
  ⟨by rw [h2.objects, h1.objects, List.append_assoc],
   fun e he => h2.freed e (h1.freed e he),
   by rw [h2.entities, h1.entities], by rw [h2.bySelfId, h1.bySelfId],
   by rw [h2.allocated, h1.allocated]⟩

theorem SameFace.faceRefl (E : PolygonEntity G) : SameFace E E := ⟨rfl, rfl, rfl⟩

theorem SameFace.faceTrans {a b c : PolygonEntity G} (h1 : SameFace a b) (h2 : SameFace b c) :
    SameFace a c :=
  ⟨by rw [h2.ptr, h1.ptr], by rw [h2.polygon, h1.polygon], by rw [h2.feature, h1.feature]⟩

/-- The two outcomes of `createEdge` followed by `addEdge` on the new edge:
either one edge object, carrying the face of `E`, is appended to the table and
its index to the edge list of `E`, or nothing is allocated. -/
theorem createEdge_cases (k : Kernel G) (gr : PolygonGraph G) (L : G) :
    (∃ gr1, gr.createEdge k L = (.ok (some gr.heap.objects.length), gr1) ∧
        Extends gr gr1 [⟨L, []⟩] ∧ gr1.heap.freed = gr.heap.freed) ∨
    (∃ r gr1, gr.createEdge k L = (r, gr1) ∧ (∀ e, r ≠ .ok (some e)) ∧
        Extends gr gr1 [] ∧ gr1.heap.freed = gr.heap.freed) := by
  obtain ⟨h1, h2, h3, h4, h5⟩ := createEdge_spec k gr L
  rcases h5 with ⟨h5, h6⟩ | ⟨h5, h6⟩
  · left
    exact ⟨(gr.createEdge k L).2, Prod.ext h5 rfl, ⟨h6, by simp [h4], h1, h2, h3⟩, h4⟩
  · right
    exact ⟨(gr.createEdge k L).1, (gr.createEdge k L).2, rfl, h5,
      ⟨by simp [h6], by simp [h4], h1, h2, h3⟩, h4⟩

/-- Attaching the edge just allocated. -/
theorem addEdge_last (E : PolygonEntity G) (gr gr1 : PolygonGraph G) (x : PolygonEdge G)
    (h : Extends gr gr1 [x]) :
    Extends gr { gr1 with heap := (E.addEdge gr1.heap gr.heap.objects.length).2 }
      [x.addFace E.ptr] ∧
    ({ gr1 with heap := (E.addEdge gr1.heap gr.heap.objects.length).2 } : PolygonGraph G).heap.freed
      = gr1.heap.freed ∧
    SameFace E (E.addEdge gr1.heap gr.heap.objects.length).1 ∧
    (E.addEdge gr1.heap gr.heap.objects.length).1.m_PolyEdges
      = E.m_PolyEdges ++ [gr.heap.objects.length] := by
  refine ⟨⟨?_, ?_, h.entities, h.bySelfId, h.allocated⟩, rfl, ⟨rfl, rfl, rfl⟩, rfl⟩
  · simp [PolygonEntity.addEdge, EdgeHeap.update, h.objects, modify_append_last]
  · intro e he
    exact h.freed e he

end GraphLemmas

section GraphLemmas2
variable {G : Type}

/-- The loop that creates and attaches one edge per line: the edge objects it
allocates carry the face of the entity only. -/
theorem createEdgesLoop_spec (k : Kernel G) (pieces : List G) :
    ∀ (gr : PolygonGraph G) (E : PolygonEntity G) r gr' E',
      createEdgesLoop k pieces (gr, E) = (r, (gr', E')) →
      ∃ added, Extends gr gr' added ∧ gr'.heap.freed = gr.heap.freed ∧ SameFace E E' ∧
        (∀ a ∈ added, a.m_Faces = [E.ptr]) ∧
        (∃ ids, E'.m_PolyEdges = E.m_PolyEdges ++ ids) := by
  induction pieces with
  | nil =>
    intro gr E r gr' E' h
    simp only [createEdgesLoop, Prod.mk.injEq] at h
    obtain ⟨-, rfl, rfl⟩ := h
    exact ⟨[], Extends.extRefl _, rfl, SameFace.faceRefl _, by simp, ⟨[], by simp⟩⟩
  | cons p rest ih =>
    intro gr E r gr' E' h
    rcases createEdge_cases k gr p with ⟨gr1, hc, hext, hfr⟩ | ⟨r1, gr1, hc, hno, hext, hfr⟩
    · simp only [createEdgesLoop, hc] at h
      obtain ⟨hx, hf2, hs, hl⟩ := addEdge_last E gr gr1 _ hext
      obtain ⟨added, ha, hfa, hsa, hfaces, ids, hids⟩ := ih _ _ _ _ _ h
      refine ⟨_ :: added, hx.extTrans ha, by rw [hfa, hf2, hfr], hs.faceTrans hsa, ?_, ?_⟩
      · intro a ha'
        rcases List.mem_cons.1 ha' with rfl | ha'
        · simp [PolygonEdge.addFace]
        · rw [hfaces a ha', hs.ptr]
      · exact ⟨gr.heap.objects.length :: ids, by rw [hids, hl]; simp⟩
    · cases r1 with
      | error f =>
        simp only [createEdgesLoop, hc, Prod.mk.injEq] at h
        obtain ⟨-, rfl, rfl⟩ := h
        exact ⟨[], hext, hfr, SameFace.faceRefl _, by simp, ⟨[], by simp⟩⟩
      | ok o =>
        cases o with
        | some e => exact absurd rfl (hno e)
        | none =>
          simp only [createEdgesLoop, hc] at h
          obtain ⟨added, ha, hfa, hsa, hfaces, hids⟩ := ih _ _ _ _ _ h
          exact ⟨added, by simpa using hext.extTrans ha, by rw [hfa, hfr], hsa, hfaces, hids⟩

end GraphLemmas2

section GraphLemmas3
variable {G : Type}

theorem Kept.of_append {l ids : List EdgeId} {E' : PolygonEntity G} {gr' : PolygonGraph G}
    (h : E'.m_PolyEdges = l ++ ids) : Kept l E' gr' :=
  fun e he => Or.inl (by rw [h]; exact List.mem_append_left _ he)

/-- Removing the old edge keeps every other edge of the entity and releases
the old one. -/
theorem removeOldEdge_spec (gr : PolygonGraph G) (E : PolygonEntity G) (Old : EdgeId)
    r gr' E' (h : removeOldEdge (gr, E) Old = (r, (gr', E'))) :
    Extends gr gr' [] ∧ SameFace E E' ∧ Kept E.m_PolyEdges E' gr' := by
  unfold removeOldEdge PolygonEntity.removeEdge at h
  by_cases hm : Old ∈ E.m_PolyEdges
  · simp only [hm, ↓reduceIte, Prod.mk.injEq] at h
    obtain ⟨-, rfl, rfl⟩ := h
    refine ⟨⟨by simp [PolygonGraph.remove, EdgeHeap.delete], ?_, rfl, rfl, rfl⟩, ⟨rfl, rfl, rfl⟩, ?_⟩
    · intro e he
      simp [PolygonGraph.remove, EdgeHeap.delete, he]
    · intro e he
      by_cases hx : e = Old
      · right; simp [PolygonGraph.remove, EdgeHeap.delete, hx]
      · left
        exact (List.mem_erase_of_ne hx).2 he
  · simp only [hm, ↓reduceIte, Prod.mk.injEq] at h
    obtain ⟨-, rfl, rfl⟩ := h
    exact ⟨⟨by simp [PolygonGraph.remove], fun e he => by simpa [PolygonGraph.remove] using he,
      rfl, rfl, rfl⟩, SameFace.faceRefl _, fun e he => Or.inl he⟩

/-- The edges that `removeSegment` allocates carry the face of the entity only;
every edge of the entity is kept or released. -/
theorem removeSegment_spec (k : Kernel G) (gr : PolygonGraph G) (E : PolygonEntity G) (S : G)
    r gr' E' (h : PolygonGraph.removeSegment k gr E S = (r, (gr', E'))) :
    ∃ added, Extends gr gr' added ∧ SameFace E E' ∧ (∀ a ∈ added, a.m_Faces = [E.ptr]) ∧
      Kept E.m_PolyEdges E' gr' := by
  have triv : ∃ added, Extends gr gr added ∧ SameFace E E ∧ (∀ a ∈ added, a.m_Faces = [E.ptr]) ∧
      Kept E.m_PolyEdges E gr :=
    ⟨[], Extends.extRefl _, SameFace.faceRefl _, by simp, fun e he => Or.inl he⟩
  unfold PolygonGraph.removeSegment at h
  split at h
  · cases h; exact triv
  · cases h; exact triv
  · rename_i OldEdge _
    split at h
    · cases h; exact triv
    · rename_i Old _
      simp only [] at h
      split at h
      · split at h
        · split at h
          · cases h; exact triv
          · rename_i DiffGeoms _
            split at h
            · rename_i f st hloop
              cases h
              obtain ⟨added, ha, -, hs, hf, ids, hids⟩ := createEdgesLoop_spec k _ _ _ _ _ _ hloop
              exact ⟨added, ha, hs, hf, Kept.of_append hids⟩
            · rename_i st hloop
              obtain ⟨gr1, E1⟩ := st
              obtain ⟨added, ha, -, hs, hf, ids, hids⟩ := createEdgesLoop_spec k _ _ _ _ _ _ hloop
              obtain ⟨hx, hs2, hk⟩ := removeOldEdge_spec gr1 E1 OldEdge _ _ _ h
              refine ⟨added, by simpa using ha.extTrans hx, hs.faceTrans hs2, hf, ?_⟩
              intro e he
              exact hk e (by rw [hids]; exact List.mem_append_left _ he)
        · cases h; exact triv
      · obtain ⟨hx, hs2, hk⟩ := removeOldEdge_spec gr E OldEdge _ _ _ h
        exact ⟨[], hx, hs2, by simp, hk⟩

end GraphLemmas3

section GraphLemmas4
variable {G : Type}

theorem Kept.keptTrans {l : List EdgeId} {E1 E2 : PolygonEntity G} {g1 g2 : PolygonGraph G}
    {added : List (PolygonEdge G)}
    (h1 : Kept l E1 g1) (h2 : Kept E1.m_PolyEdges E2 g2) (hx : Extends g1 g2 added) :
    Kept l E2 g2 := by
  intro e he
  rcases h1 e he with h | h
  · exact h2 e h
  · exact Or.inr (hx.freed e h)

/-- One shared line: the outcome of the body of the loop. -/
theorem sharedLineStep_spec (k : Kernel G) (st : Insertion G) (O : PolygonEntity G) (S : G)
    r st' O' (h : sharedLineStep k st O S = (r, (st', O'))) :
    ∃ added, SharedOutcome st st' O O' [S] r added := by
  unfold sharedLineStep at h
  rcases createEdge_cases k st.graph S with ⟨gr1, hc, hext, hfr⟩ | ⟨r1, gr1, hc, hno, hext, hfr⟩
  · simp only [hc] at h
    obtain ⟨hxn, hfn, hsn, hln⟩ := addEdge_last st.NewEntity st.graph gr1 _ hext
    have hxo : Extends st.graph
        { gr1 with heap := (O.addEdge (st.NewEntity.addEdge gr1.heap
          st.graph.heap.objects.length).2 st.graph.heap.objects.length).2 }
        [(PolygonEdge.addFace ⟨S, []⟩ st.NewEntity.ptr).addFace O.ptr] := by
      have := addEdge_last O st.graph
        { gr1 with heap := (st.NewEntity.addEdge gr1.heap st.graph.heap.objects.length).2 } _ hxn
      exact this.1
    have hlo : (O.addEdge (st.NewEntity.addEdge gr1.heap
          st.graph.heap.objects.length).2 st.graph.heap.objects.length).1.m_PolyEdges
        = O.m_PolyEdges ++ [st.graph.heap.objects.length] := rfl
    have hso : SameFace O (O.addEdge (st.NewEntity.addEdge gr1.heap
          st.graph.heap.objects.length).2 st.graph.heap.objects.length).1 := ⟨rfl, rfl, rfl⟩
    generalize hrs : PolygonGraph.removeSegment k _ _ S = rs at h
    obtain ⟨rr, gr2, O2⟩ := rs
    obtain ⟨reps, hxr, hsr, hfr2, hkr⟩ := removeSegment_spec k _ _ S _ _ _ hrs
    have hall : ∀ (sg : List G) (rr' : Except Fault Unit),
        (rr' = .ok () → sg = st.SharedGeoms ++ [S]) →
        (rr' = .ok () → rr = .ok ()) →
        SharedOutcome st ⟨gr2, (st.NewEntity.addEdge gr1.heap st.graph.heap.objects.length).1, sg⟩
          O O2 [S] rr' (⟨S, [st.NewEntity.ptr, O.ptr]⟩ :: reps) := by
      intro sg rr' hsg _
      refine ⟨?_, hso.faceTrans hsr, hsn, ?_, ⟨[st.graph.heap.objects.length], hln⟩, ?_, ?_, ?_,
        by simp⟩
      · simpa [PolygonEdge.addFace] using hxo.extTrans hxr
      · intro e he
        exact hkr e (by rw [hlo]; exact List.mem_append_left _ he)
      · intro a ha
        rcases List.mem_cons.1 ha with rfl | ha
        · right; simp
        · left; rw [hfr2 a ha, hso.ptr]
      · intro j a hj h2
        cases j with
        | zero =>
          refine ⟨by simp [hln], ?_⟩
          simpa using hkr st.graph.heap.objects.length (by rw [hlo]; simp)
        | succ j =>
          simp only [List.getElem?_cons_succ] at hj
          have := hfr2 a (List.getElem?_mem hj)
          rw [this] at h2
          simp at h2
      · intro hr
        refine ⟨?_, hsg hr⟩
        have : reps.filter (fun a => a.m_Faces.length = 2) = [] := by
          rw [List.filter_eq_nil_iff]
          intro a ha
          rw [hfr2 a ha]; simp
        simp [List.filter_cons, this]
    cases rr with
    | error f =>
      simp only [Prod.mk.injEq] at h
      obtain ⟨rfl, rfl, rfl⟩ := h
      exact ⟨_, hall _ _ (by intro h; cases h) (by intro h; cases h)⟩
    | ok u =>
      simp only [Prod.mk.injEq] at h
      obtain ⟨rfl, rfl, rfl⟩ := h
      exact ⟨_, hall _ _ (fun _ => rfl) (fun _ => rfl)⟩
  · have hnone : ∀ (f : Fault), (Except.error f, ({ st with graph := gr1 }, O)) = (r, (st', O')) →
        ∃ added, SharedOutcome st st' O O' [S] r added := by
      intro f h
      simp only [Prod.mk.injEq] at h
      obtain ⟨rfl, rfl, rfl⟩ := h
      refine ⟨[], hext, SameFace.faceRefl _, SameFace.faceRefl _, fun e he => Or.inl he, ⟨[], by simp⟩,
        by simp, by simp, (by intro h; cases h), by simp⟩
    cases r1 with
    | error f => simp only [hc] at h; exact hnone _ h
    | ok o =>
      cases o with
      | some e => exact absurd rfl (hno e)
      | none => simp only [hc] at h; exact hnone _ h

end GraphLemmas4

section GraphLemmas5
variable {G : Type}

/-- No shared line: nothing happens. -/
theorem SharedOutcome.sharedNil (st : Insertion G) (O : PolygonEntity G) :
    SharedOutcome st st O O [] (.ok ()) [] :=
  ⟨Extends.extRefl _, SameFace.faceRefl _, SameFace.faceRefl _, fun _ he => Or.inl he, ⟨[], by simp⟩,
    by simp, by simp, fun _ => by simp, fun _ => rfl⟩

/-- The step for a line raised: the loop over the lines stops there. -/
theorem SharedOutcome.sharedStop {st st' : Insertion G} {O O' : PolygonEntity G} {S : G}
    {f : Fault} {added : List (PolygonEdge G)} (rest : List G)
    (h : SharedOutcome st st' O O' [S] (.error f) added) :
    SharedOutcome st st' O O' (S :: rest) (.error f) added := by
  obtain ⟨h1, h2, h3, h4, h5, h6, h7, -, -⟩ := h
  refine ⟨h1, h2, h3, h4, h5, ?_, h7, (by intro h; cases h), by simp⟩
  intro a ha
  rcases h6 a ha with h | ⟨h, hl⟩
  · exact Or.inl h
  · exact Or.inr ⟨h, by simp at hl; simp [hl]⟩

/-- The step for a line ended normally and the loop goes on with the other
lines. -/
theorem SharedOutcome.sharedCons {st st1 st2 : Insertion G} {O O1 O2 : PolygonEntity G} {S : G}
    {rest : List G} {r : Except Fault Unit} {a1 a2 : List (PolygonEdge G)}
    (h : SharedOutcome st st1 O O1 [S] (.ok ()) a1)
    (h' : SharedOutcome st1 st2 O1 O2 rest r a2) :
    SharedOutcome st st2 O O2 (S :: rest) r (a1 ++ a2) := by
  obtain ⟨x1, s1, n1, k1, ⟨i1, l1⟩, p1, b1, c1, -⟩ := h
  obtain ⟨x2, s2, n2, k2, ⟨i2, l2⟩, p2, b2, c2, -⟩ := h'
  have hlen : st1.graph.heap.objects.length = st.graph.heap.objects.length + a1.length := by
    rw [x1.objects, List.length_append]
  refine ⟨x1.extTrans x2, s1.faceTrans s2, n1.faceTrans n2, Kept.keptTrans k1 k2 x2,
    ⟨i1 ++ i2, by rw [l2, l1, List.append_assoc]⟩, ?_, ?_, ?_, by simp⟩
  · intro a ha
    rcases List.mem_append.1 ha with ha | ha
    · rcases p1 a ha with h | ⟨h, hl⟩
      · exact Or.inl h
      · exact Or.inr ⟨h, by simp at hl; simp [hl]⟩
    · rcases p2 a ha with h | ⟨h, hl⟩
      · exact Or.inl (by rw [h, s1.ptr])
      · exact Or.inr ⟨by rw [h, s1.ptr, n1.ptr], List.mem_cons_of_mem _ hl⟩
  · intro j a hj h2
    by_cases hlt : j < a1.length
    · rw [List.getElem?_append_left hlt] at hj
      obtain ⟨hn, ho⟩ := b1 j a hj h2
      refine ⟨by rw [l2]; exact List.mem_append_left _ hn, ?_⟩
      rcases ho with ho | ho
      · exact k2 _ ho
      · exact Or.inr (x2.freed _ ho)
    · have hge : a1.length ≤ j := Nat.le_of_not_lt hlt
      rw [List.getElem?_append_right hge] at hj
      have := b2 (j - a1.length) a hj h2
      rw [hlen] at this
      have e : st.graph.heap.objects.length + a1.length + (j - a1.length)
          = st.graph.heap.objects.length + j := by omega
      rw [e] at this
      exact this
  · intro hr
    obtain ⟨f1, g1⟩ := c1 rfl
    obtain ⟨f2, g2⟩ := c2 hr
    refine ⟨?_, by rw [g2, g1]; simp⟩
    rw [List.filter_append, List.map_append, f1, f2]
    rfl

/-- The loop over the shared lines of the new entity with one entity. -/
theorem sharedLinesLoop_spec (k : Kernel G) (Ls : List G) :
    ∀ (st : Insertion G) (O : PolygonEntity G) r st' O',
      sharedLinesLoop k Ls (st, O) = (r, (st', O')) →
      ∃ added, SharedOutcome st st' O O' Ls r added := by
  induction Ls with
  | nil =>
    intro st O r st' O' h
    simp only [sharedLinesLoop, Prod.mk.injEq] at h
    obtain ⟨rfl, rfl, rfl⟩ := h
    exact ⟨[], SharedOutcome.sharedNil _ _⟩
  | cons S rest ih =>
    intro st O r st' O' h
    unfold sharedLinesLoop at h
    generalize hs : sharedLineStep k st O S = step at h
    obtain ⟨r1, st1, O1⟩ := step
    obtain ⟨a1, h1⟩ := sharedLineStep_spec k st O S _ _ _ hs
    cases r1 with
    | error f =>
      simp only [Prod.mk.injEq] at h
      obtain ⟨rfl, rfl, rfl⟩ := h
      exact ⟨a1, h1.sharedStop rest⟩
    | ok u =>
      simp only at h
      obtain ⟨a2, h2⟩ := ih _ _ _ _ _ h
      exact ⟨a1 ++ a2, h1.sharedCons h2⟩

end GraphLemmas5

section GraphLemmas6
variable {G : Type}

theorem computeLineIntersectionsWith_congr (k : Kernel G) {N N' O O' : PolygonEntity G}
    (hn : SameFace N N') (ho : SameFace O O') :
    N'.computeLineIntersectionsWith k O' = N.computeLineIntersectionsWith k O := by
  unfold PolygonEntity.computeLineIntersectionsWith
  rw [hn.polygon, ho.polygon]

theorem sharedLinesOf_congr (k : Kernel G) {N N' : PolygonEntity G} (hn : SameFace N N') :
    sharedLinesOf k N' = sharedLinesOf k N := by
  funext O
  unfold sharedLinesOf
  rw [computeLineIntersectionsWith_congr k hn (SameFace.faceRefl O)]

theorem forall₂_sameFace_refl (l : List (PolygonEntity G)) : List.Forall₂ SameFace l l := by
  induction l with
  | nil => exact List.Forall₂.nil
  | cons a l ih => exact List.Forall₂.cons (SameFace.faceRefl a) ih

/-- The body of the loop over the entities. -/
theorem otherEntityStep_spec (k : Kernel G) (st : Insertion G) (O : PolygonEntity G)
    r st' O' (h : otherEntityStep k st O = (r, (st', O'))) :
    (∃ f, st.NewEntity.computeLineIntersectionsWith k O = .error f ∧ r = .error f ∧
      st' = st ∧ O' = O) ∨
    (∃ Ls added, st.NewEntity.computeLineIntersectionsWith k O = .ok Ls ∧
      SharedOutcome st st' O O' Ls r added) := by
  unfold otherEntityStep at h
  cases hc : st.NewEntity.computeLineIntersectionsWith k O with
  | error f =>
    rw [hc] at h
    simp only [Prod.mk.injEq] at h
    obtain ⟨rfl, rfl, rfl⟩ := h
    exact Or.inl ⟨f, rfl, rfl, rfl, rfl⟩
  | ok Ls =>
    rw [hc] at h
    simp only at h
    obtain ⟨added, ha⟩ := sharedLinesLoop_spec k Ls _ _ _ _ _ h
    exact Or.inr ⟨Ls, added, rfl, ha⟩

/-- The loop over no entity. -/
theorem EntitiesOutcome.entNil (k : Kernel G) (st : Insertion G) :
    EntitiesOutcome k st st [] [] (.ok ()) [] :=
  ⟨Extends.extRefl _, SameFace.faceRefl _, List.Forall₂.nil, ⟨[], by simp⟩, by simp, by simp,
    fun _ => ⟨by simp, List.Forall₂.nil⟩⟩

/-- The new entity could not be compared with the first entity. -/
theorem EntitiesOutcome.entFail (k : Kernel G) (st : Insertion G) (O : PolygonEntity G)
    (rest : List (PolygonEntity G)) (f : Fault) :
    EntitiesOutcome k st st (O :: rest) (O :: rest) (.error f) [] :=
  ⟨Extends.extRefl _, SameFace.faceRefl _, forall₂_sameFace_refl _, ⟨[], by simp⟩, by simp, by simp,
    by intro h; cases h⟩

/-- The loop over the shared lines with the first entity raised. -/
theorem EntitiesOutcome.entStop (k : Kernel G) {st st' : Insertion G} {O O' : PolygonEntity G}
    {Ls : List G} {f : Fault} {added : List (PolygonEdge G)} (rest : List (PolygonEntity G))
    (hc : st.NewEntity.computeLineIntersectionsWith k O = .ok Ls)
    (h : SharedOutcome st st' O O' Ls (.error f) added) :
    EntitiesOutcome k st st' (O :: rest) (O' :: rest) (.error f) added := by
  obtain ⟨x1, s1, n1, k1, l1, p1, b1, -, -⟩ := h
  refine ⟨x1, n1, List.Forall₂.cons s1 (forall₂_sameFace_refl _), l1, ?_, ?_, by intro h; cases h⟩
  · intro a ha
    rcases p1 a ha with h | ⟨h, hl⟩
    · left; exact ⟨O, by simp, h⟩
    · right; exact ⟨O, by simp, Ls, hc, h, hl⟩
  · intro j a hj h2
    obtain ⟨hn, ho⟩ := b1 j a hj h2
    refine ⟨hn, O', by simp, ?_, ho⟩
    rcases p1 a (List.getElem?_mem hj) with h | ⟨h, -⟩
    · rw [h] at h2; simp at h2
    · rw [h, s1.ptr]

/-- The first entity was processed and the loop goes on with the others. -/
theorem EntitiesOutcome.entCons (k : Kernel G) {st st1 st2 : Insertion G} {O O1 : PolygonEntity G}
    {Ls : List G} {rest rest2 : List (PolygonEntity G)} {r : Except Fault Unit}
    {a1 a2 : List (PolygonEdge G)}
    (hc : st.NewEntity.computeLineIntersectionsWith k O = .ok Ls)
    (h : SharedOutcome st st1 O O1 Ls (.ok ()) a1)
    (h' : EntitiesOutcome k st1 st2 rest rest2 r a2) :
    EntitiesOutcome k st st2 (O :: rest) (O1 :: rest2) r (a1 ++ a2) := by
  obtain ⟨x1, s1, n1, k1, ⟨i1, l1⟩, p1, b1, c1, d1⟩ := h
  obtain ⟨x2, n2, f2, ⟨i2, l2⟩, p2, b2, c2⟩ := h'
  have hlen : st1.graph.heap.objects.length = st.graph.heap.objects.length + a1.length := by
    rw [x1.objects, List.length_append]
  refine ⟨x1.extTrans x2, n1.faceTrans n2, List.Forall₂.cons s1 f2,
    ⟨i1 ++ i2, by rw [l2, l1, List.append_assoc]⟩, ?_, ?_, ?_⟩
  · intro a ha
    rcases List.mem_append.1 ha with ha | ha
    · rcases p1 a ha with h | ⟨h, hl⟩
      · left; exact ⟨O, by simp, h⟩
      · right; exact ⟨O, by simp, Ls, hc, h, hl⟩
    · rcases p2 a ha with ⟨X, hX, h⟩ | ⟨X, hX, Ls', hc', h, hl⟩
      · exact Or.inl ⟨X, List.mem_cons_of_mem _ hX, h⟩
      · right
        refine ⟨X, List.mem_cons_of_mem _ hX, Ls', ?_, by rw [h, n1.ptr], hl⟩
        rw [← hc']
        exact (computeLineIntersectionsWith_congr k n1 (SameFace.faceRefl X)).symm
  · intro j a hj h2
    by_cases hlt : j < a1.length
    · rw [List.getElem?_append_left hlt] at hj
      obtain ⟨hn, ho⟩ := b1 j a hj h2
      refine ⟨by rw [l2]; exact List.mem_append_left _ hn, O1, by simp, ?_, ?_⟩
      · rcases p1 a (List.getElem?_mem hj) with h | ⟨h, -⟩
        · rw [h] at h2; simp at h2
        · rw [h, s1.ptr]
      · rcases ho with ho | ho
        · exact Or.inl ho
        · exact Or.inr (x2.freed _ ho)
    · have hge : a1.length ≤ j := Nat.le_of_not_lt hlt
      rw [List.getElem?_append_right hge] at hj
      obtain ⟨hn, X, hX, hf, ho⟩ := b2 (j - a1.length) a hj h2
      rw [hlen] at hn ho
      have e : st.graph.heap.objects.length + a1.length + (j - a1.length)
          = st.graph.heap.objects.length + j := by omega
      rw [e] at hn ho
      exact ⟨hn, X, List.mem_cons_of_mem _ hX, by rw [hf, n1.ptr], ho⟩
  · intro hr
    obtain ⟨e1, -⟩ := c1 rfl
    obtain ⟨e2, g2⟩ := c2 hr
    refine ⟨?_, List.Forall₂.cons ⟨Ls, hc, ?_⟩ ?_⟩
    · intro g
      have e2g := e2 g
      rw [n1.ptr, sharedLinesOf_congr k n1] at e2g
      rw [List.filter_append, List.map_append, e2g]
      have hsl : sharedLinesOf k st.NewEntity O = Ls := by
        unfold sharedLinesOf; rw [hc]
      by_cases hg : O.ptr = g
      · have : a1.filter (fun a => a.m_Faces = [st.NewEntity.ptr, g])
            = a1.filter (fun a => a.m_Faces.length = 2) := by
          apply List.filter_congr
          intro a ha
          rcases p1 a ha with h | ⟨h, -⟩
          · simp [h]
          · simp [h, hg]
        rw [this, e1]
        simp [List.filter_cons, hg, hsl]
      · have : a1.filter (fun a => a.m_Faces = [st.NewEntity.ptr, g]) = [] := by
          rw [List.filter_eq_nil_iff]
          intro a ha
          rcases p1 a ha with h | ⟨h, -⟩
          · simp [h]
          · simp [h, hg]
        rw [this]
        simp [List.filter_cons, hg]
    · exact d1
    · refine List.Forall₂.imp ?_ g2
      intro X X' ⟨Ls', hc', hi⟩
      refine ⟨Ls', ?_, hi⟩
      rw [← hc']
      exact (computeLineIntersectionsWith_congr k n1 (SameFace.faceRefl X)).symm

/-- The loop of `addPolygon` over the entities of the graph. -/
theorem entitiesLoop_spec (k : Kernel G) (ents : List (PolygonEntity G)) :
    ∀ (st : Insertion G) r st' ents', entitiesLoop k ents st = (r, (st', ents')) →
      ∃ added, EntitiesOutcome k st st' ents ents' r added := by
  induction ents with
  | nil =>
    intro st r st' ents' h
    simp only [entitiesLoop, Prod.mk.injEq] at h
    obtain ⟨rfl, rfl, rfl⟩ := h
    exact ⟨[], EntitiesOutcome.entNil k _⟩
  | cons O rest ih =>
    intro st r st' ents' h
    unfold entitiesLoop at h
    generalize hs : otherEntityStep k st O = step at h
    obtain ⟨r1, st1, O1⟩ := step
    rcases otherEntityStep_spec k st O _ _ _ hs with
      ⟨f, hc, rfl, rfl, rfl⟩ | ⟨Ls, a1, hc, h1⟩
    · simp only [Prod.mk.injEq] at h
      obtain ⟨rfl, rfl, rfl⟩ := h
      exact ⟨[], EntitiesOutcome.entFail k _ _ _ _⟩
    · cases r1 with
      | error f =>
        simp only [Prod.mk.injEq] at h
        obtain ⟨rfl, rfl, rfl⟩ := h
        exact ⟨a1, EntitiesOutcome.entStop k rest hc h1⟩
      | ok u =>
        simp only at h
        generalize hl : entitiesLoop k rest st1 = loop at h
        obtain ⟨r2, st2, rest2⟩ := loop
        simp only [Prod.mk.injEq] at h
        obtain ⟨rfl, rfl, rfl⟩ := h
        obtain ⟨a2, h2⟩ := ih _ _ _ _ hl
        exact ⟨a1 ++ a2, EntitiesOutcome.entCons k hc h1 h2⟩

end GraphLemmas6

section GraphLemmas7
variable {G : Type}

/-- The constructor of `PolygonEntity.cpp` returns for valid polygons only. -/
theorem PolygonEntity.new_ok (k : Kernel G) (ptr : FaceId) (P : G) (OfldId : Nat)
    (New : PolygonEntity G) (h : PolygonEntity.new k ptr P OfldId = .ok New) :
    k.isValid P = true ∧ New.ptr = ptr ∧ New.mp_Polygon = P ∧
    New.mp_Feature = ⟨some OfldId⟩ ∧ New.m_PolyEdges = [] := by
  unfold PolygonEntity.new at h
  split at h
  · cases h
  · split at h
    · cases h
    · rename_i hv
      cases h
      simp at hv
      exact ⟨hv, rfl, rfl, rfl, rfl⟩

/-- The end of `addPolygon`, after the loop over the entities. -/
theorem addPolygonFinish_spec (k : Kernel G) (P : G) (st : Insertion G) r gr'
    (h : addPolygonFinish k P st = (r, gr')) :
    ∃ New' own, SameFace st.NewEntity New' ∧
      gr'.heap.objects = st.graph.heap.objects ++ own ∧
      gr'.heap.freed = st.graph.heap.freed ∧
      gr'.allocatedEntities = st.graph.allocatedEntities ∧
      (∀ a ∈ own, a.m_Faces = [st.NewEntity.ptr]) ∧
      (∃ ids, New'.m_PolyEdges = st.NewEntity.m_PolyEdges ++ ids) ∧
      ((∃ f, r = .error f ∧ gr'.m_Entities = st.graph.m_Entities) ∨
       (r = .ok st.NewEntity.ptr ∧ gr'.m_Entities = st.graph.m_Entities ++ [New'])) := by
  have hreg : ∀ (s : PolygonGraph G × PolygonEntity G) (own : List (PolygonEdge G)),
      SameFace st.NewEntity s.2 → Extends st.graph s.1 own → s.1.heap.freed = st.graph.heap.freed →
      (∀ a ∈ own, a.m_Faces = [st.NewEntity.ptr]) →
      (∃ ids, s.2.m_PolyEdges = st.NewEntity.m_PolyEdges ++ ids) →
      (match s.2.getSelfId with
        | .error f => (Except.error f, s.1)
        | .ok id =>
          (Except.ok s.2.ptr,
           { s.1 with m_EntitiesBySelfId := mapAssign s.1.m_EntitiesBySelfId id s.2.ptr,
                      m_Entities := s.1.m_Entities ++ [s.2] })) = (r, gr') →
      ∃ New' own, SameFace st.NewEntity New' ∧
        gr'.heap.objects = st.graph.heap.objects ++ own ∧
        gr'.heap.freed = st.graph.heap.freed ∧
        gr'.allocatedEntities = st.graph.allocatedEntities ∧
        (∀ a ∈ own, a.m_Faces = [st.NewEntity.ptr]) ∧
        (∃ ids, New'.m_PolyEdges = st.NewEntity.m_PolyEdges ++ ids) ∧
        ((∃ f, r = .error f ∧ gr'.m_Entities = st.graph.m_Entities) ∨
         (r = .ok st.NewEntity.ptr ∧ gr'.m_Entities = st.graph.m_Entities ++ [New'])) := by
    intro s own hs hx hfr hf hi h
    cases hid : s.2.getSelfId with
    | error f =>
      rw [hid] at h
      simp only [Prod.mk.injEq] at h
      obtain ⟨rfl, rfl⟩ := h
      exact ⟨s.2, own, hs, hx.objects, hfr, hx.allocated, hf, hi, Or.inl ⟨f, rfl, hx.entities⟩⟩
    | ok id =>
      rw [hid] at h
      simp only [Prod.mk.injEq] at h
      obtain ⟨rfl, rfl⟩ := h
      exact ⟨s.2, own, hs, hx.objects, hfr, hx.allocated, hf, hi,
        Or.inr ⟨by rw [hs.ptr], by simp [hx.entities]⟩⟩
  unfold addPolygonFinish at h
  simp only at h
  split at h
  · split at h
    · cases h
      exact ⟨st.NewEntity, [], SameFace.faceRefl _, by simp, rfl, rfl, by simp, ⟨[], by simp⟩,
        Or.inl ⟨_, rfl, rfl⟩⟩
    · rename_i NewLines _
      split at h
      · rename_i f s hloop
        obtain ⟨gx, Nx⟩ := s
        cases h
        obtain ⟨own, hx, hfr, hs, hf, hi⟩ := createEdgesLoop_spec k _ _ _ _ _ _ hloop
        exact ⟨Nx, own, hs, hx.objects, hfr, hx.allocated, hf, hi, Or.inl ⟨f, rfl, hx.entities⟩⟩
      · rename_i s hloop
        obtain ⟨gx, Nx⟩ := s
        obtain ⟨own, hx, hfr, hs, hf, hi⟩ := createEdgesLoop_spec k _ _ _ _ _ _ hloop
        exact hreg (gx, Nx) own hs hx hfr hf hi h
  · exact hreg (st.graph, st.NewEntity) [] (SameFace.faceRefl _) (Extends.extRefl _) rfl (by simp)
      ⟨[], by simp⟩ h

/-- Every call of `addPolygon` has the outcome described by `AddOutcome`. -/
theorem addPolygon_spec (k : Kernel G) (gr : PolygonGraph G) (P : G) (Feat : OGRFeature)
    r gr' (h : gr.addPolygon k P Feat = (r, gr')) :
    ∃ New New' ents' added, AddOutcome k gr P Feat r gr' New New' ents' added := by
  unfold PolygonGraph.addPolygon at h
  simp only at h
  split at h
  · simp only [Prod.mk.injEq] at h
    obtain ⟨rfl, rfl⟩ := h
    exact ⟨_, _, gr.m_Entities, [], rfl, SameFace.faceRefl _, by simp, fun e he => he, rfl,
      forall₂_sameFace_refl _, by simp, Or.inl ⟨_, rfl, rfl⟩⟩
  · unfold PolygonGraph.addPolygonTry at h
    simp only at h
    obtain ⟨New, hn⟩ : ∃ New : PolygonEntity G,
        New = PolygonEntity.ofFeature gr.allocatedEntities.length P Feat := ⟨_, rfl⟩
    rw [← hn] at h
    generalize hl : entitiesLoop k gr.m_Entities _ = loop at h
    obtain ⟨r1, st1, ents1⟩ := loop
    obtain ⟨added, hx, hsn, hfa, ⟨ids, hids⟩, hp, hb, hc⟩ := entitiesLoop_spec k _ _ _ _ _ hl
    simp only at hx hsn hp hb hc hids
    have hprov : ∀ (own : List (PolygonEdge G)), (∀ a ∈ own, a.m_Faces = [New.ptr]) →
        ∀ a ∈ added ++ own, a.m_Faces = [New.ptr] ∨ (∃ O ∈ gr.m_Entities, a.m_Faces = [O.ptr]) ∨
        ∃ O ∈ gr.m_Entities, ∃ Ls, New.computeLineIntersectionsWith k O = .ok Ls ∧
          a.m_Faces = [New.ptr, O.ptr] ∧ a.line ∈ Ls := by
      intro own hown a ha
      rcases List.mem_append.1 ha with ha | ha
      · rcases hp a ha with h | h
        · exact Or.inr (Or.inl h)
        · exact Or.inr (Or.inr h)
      · exact Or.inl (hown a ha)
    cases r1 with
    | error f =>
      simp only [Prod.mk.injEq] at h
      obtain ⟨rfl, rfl⟩ := h
      refine ⟨New, st1.NewEntity, ents1, added, hn, hsn, hx.objects, hx.freed, hx.allocated, hfa,
        ?_, Or.inl ⟨f, rfl, rfl⟩⟩
      simpa using hprov [] (by simp)
    | ok u =>
      simp only at h
      obtain ⟨New', own, hs2, ho, hfr, hal, hf, ⟨ids2, hids2⟩, hreg⟩ :=
        addPolygonFinish_spec k P _ _ _ h
      simp only at hs2 ho hfr hal hf hids2 hreg
      obtain ⟨hc1, hc2⟩ := hc rfl
      have hown : ∀ a ∈ own, a.m_Faces = [New.ptr] := fun a ha => by rw [hf a ha, hsn.ptr]
      refine ⟨New, New', ents1, added ++ own, hn, hsn.faceTrans hs2,
        by rw [ho, hx.objects, List.append_assoc], by rw [hfr]; exact hx.freed,
        by rw [hal, hx.allocated], hfa, hprov own hown, ?_⟩
      rcases hreg with ⟨f, rfl, he⟩ | ⟨rfl, he⟩
      · exact Or.inl ⟨f, rfl, he⟩
      · refine Or.inr ⟨by rw [hsn.ptr], he, ?_, ?_, hc2⟩
        · intro g
          have : own.filter (fun a => a.m_Faces = [New.ptr, g]) = [] := by
            rw [List.filter_eq_nil_iff]
            intro a ha
            rw [hown a ha]; simp
          rw [List.filter_append, this, List.append_nil]
          exact hc1 g
        · intro j a hj h2
          by_cases hlt : j < added.length
          · rw [List.getElem?_append_left hlt] at hj
            obtain ⟨hn', X, hX, hfx, hox⟩ := hb j a hj h2
            refine ⟨by rw [hids2]; exact List.mem_append_left _ hn', X, hX, hfx, ?_⟩
            rw [hfr]
            exact hox
          · rw [List.getElem?_append_right (Nat.le_of_not_lt hlt)] at hj
            have := hown a (List.getElem?_mem hj)
            rw [this] at h2
            simp at h2

end GraphLemmas7

section GraphLemmas8
variable {G : Type}

theorem forall₂_exists_left {α β : Type} {R : α → β → Prop} {l : List α} {l' : List β}
    (h : List.Forall₂ R l l') {y : β} (hy : y ∈ l') : ∃ x ∈ l, R x y := by
  induction h with
  | nil => cases hy
  | cons hr _ ih =>
    rcases List.mem_cons.1 hy with rfl | hy
    · exact ⟨_, by simp, hr⟩
    · obtain ⟨x, hx, hxy⟩ := ih hy
      exact ⟨x, List.mem_cons_of_mem _ hx, hxy⟩

theorem forall₂_ptr_eq {l l' : List (PolygonEntity G)} (h : List.Forall₂ SameFace l l') :
    l'.map PolygonEntity.ptr = l.map PolygonEntity.ptr := by
  induction h with
  | nil => rfl
  | cons hr _ ih => simp [hr.ptr, ih]

theorem eq_of_ptr_eq {l : List (PolygonEntity G)} (hn : (l.map PolygonEntity.ptr).Nodup)
    {a b : PolygonEntity G} (ha : a ∈ l) (hb : b ∈ l) (h : a.ptr = b.ptr) : a = b :=
  List.inj_on_of_nodup_map hn ha hb h

/-- The empty graph is well formed. -/
theorem WellFormed.of_empty (k : Kernel G) : WellFormed k (PolygonGraph.empty : PolygonGraph G) :=
  ⟨by simp [PolygonGraph.empty], by simp [PolygonGraph.empty], by simp [PolygonGraph.empty],
    by simp [PolygonGraph.empty], by simp [PolygonGraph.empty]⟩

/-- A call of `addPolygon` keeps the graph well formed, whatever its outcome. -/
theorem WellFormed.of_addPolygon (k : Kernel G) (gr : PolygonGraph G) (P : G) (Feat : OGRFeature)
    (w : WellFormed k gr) : WellFormed k (gr.addPolygon k P Feat).2 := by
  generalize hres : gr.addPolygon k P Feat = res
  obtain ⟨r, gr'⟩ := res
  obtain ⟨New, New', ents', added, h⟩ := addPolygon_spec k gr P Feat _ _ hres
  · obtain ⟨hn, hs, hobj, hfr, hal, hfa, hprov, hreg⟩ := h
    have hptr : New.ptr = gr.allocatedEntities.length := by rw [hn]; rfl
    simp only
    have hlen : gr'.allocatedEntities.length
        = gr.allocatedEntities.length + 1 := by rw [hal]; simp
    -- the entities after the call, apart from the new one
    have hold : ∀ F ∈ ents', ∃ F0 ∈ gr.m_Entities, SameFace F0 F := fun F hF =>
      forall₂_exists_left hfa hF
    have hents : ∀ F ∈ gr'.m_Entities,
        (∃ F0 ∈ gr.m_Entities, SameFace F0 F) ∨ SameFace New F := by
      intro F hF
      rcases hreg with ⟨f, -, he⟩ | ⟨-, he, -⟩
      · rw [he] at hF; exact Or.inl (hold F hF)
      · rw [he] at hF
        rcases List.mem_append.1 hF with hF | hF
        · exact Or.inl (hold F hF)
        · simp at hF; subst hF; exact Or.inr hs
    have hfaces : ∀ a ∈ added, ∀ p ∈ a.m_Faces, p < gr.allocatedEntities.length + 1 := by
      intro a ha p hp
      rcases hprov a ha with h | ⟨O, hO, h⟩ | ⟨O, hO, Ls, -, h, -⟩
      · rw [h] at hp; simp at hp; unfold FaceId at *; omega
      · rw [h] at hp; simp at hp; have := w.ptrs O hO; unfold FaceId at *; omega
      · rw [h] at hp; simp at hp; have := w.ptrs O hO; unfold FaceId at *; omega
    refine ⟨?_, ?_, ?_, ?_, ?_⟩
    · intro F hF
      rw [hlen]
      rcases hents F hF with ⟨F0, hF0, hsf⟩ | hsf
      · have := w.ptrs F0 hF0; rw [hsf.ptr]; unfold FaceId at *; omega
      · rw [hsf.ptr, hptr]; unfold FaceId at *; omega
    · rcases hreg with ⟨f, -, he⟩ | ⟨-, he, -⟩
      · rw [he, forall₂_ptr_eq hfa]; exact w.nodup
      · rw [he, List.map_append, forall₂_ptr_eq hfa]
        refine List.Nodup.append w.nodup (by simp) ?_
        intro p hp hp'
        simp at hp'
        obtain ⟨F0, hF0, rfl⟩ := List.mem_map.1 hp
        have := w.ptrs F0 hF0
        rw [hp', hs.ptr, hptr] at this
        unfold FaceId at *; omega
    · intro a ha
      rw [hobj] at ha
      rcases List.mem_append.1 ha with ha | ha
      · exact w.shape a ha
      · rcases hprov a ha with h | ⟨O, hO, h⟩ | ⟨O, hO, Ls, -, h, -⟩
        · exact Or.inl ⟨_, h⟩
        · exact Or.inl ⟨_, h⟩
        · refine Or.inr ⟨_, _, h, ?_⟩
          rw [hptr]; exact w.ptrs O hO
    · intro a ha p hp
      rw [hlen]
      rw [hobj] at ha
      rcases List.mem_append.1 ha with ha | ha
      · have := w.faces a ha p hp; unfold FaceId at *; omega
      · exact hfaces a ha p hp
    · intro a ha F hF O hO hf
      rw [hobj] at ha
      rcases List.mem_append.1 ha with ha | ha
      · -- an edge that existed before the call
        have hp := w.faces a ha
        rcases hents F hF with ⟨F0, hF0, hsF⟩ | hsF
        · rcases hents O hO with ⟨O0, hO0, hsO⟩ | hsO
          · obtain ⟨Ls, hc, hl⟩ := w.shared a ha F0 hF0 O0 hO0 (by rw [hf, hsF.ptr, hsO.ptr])
            exact ⟨Ls, by rw [computeLineIntersectionsWith_congr k hsF hsO]; exact hc, hl⟩
          · have := hp O.ptr (by rw [hf]; simp)
            rw [hsO.ptr, hptr] at this; unfold FaceId at *; omega
        · have := hp F.ptr (by rw [hf]; simp)
          rw [hsF.ptr, hptr] at this; unfold FaceId at *; omega
      · rcases hprov a ha with h | ⟨X, hX, h⟩ | ⟨X, hX, Ls, hc, h, hl⟩
        · rw [h] at hf; simp at hf
        · rw [h] at hf; simp at hf
        · rw [h] at hf
          simp only [List.cons.injEq, and_true] at hf
          obtain ⟨hf1, hf2⟩ := hf
          have hFN : SameFace New F := by
            rcases hents F hF with ⟨F0, hF0, hsF⟩ | hsF
            · have := w.ptrs F0 hF0
              rw [← hsF.ptr, ← hf1, hptr] at this; unfold FaceId at *; omega
            · exact hsF
          have hOX : SameFace X O := by
            rcases hents O hO with ⟨O0, hO0, hsO⟩ | hsO
            · have : X = O0 := eq_of_ptr_eq w.nodup hX hO0 (by rw [hf2, hsO.ptr])
              rw [this]; exact hsO
            · have := w.ptrs X hX
              rw [hf2, hsO.ptr, hptr] at this; unfold FaceId at *; omega
          exact ⟨Ls, by rw [computeLineIntersectionsWith_congr k hFN hOX]; exact hc, hl⟩

/-- Every graph produced by `addPolygon` calls is well formed. -/
theorem Built.wellFormed (k : Kernel G) {gr : PolygonGraph G} (h : Built k gr) :
    WellFormed k gr := by
  induction h with
  | empty => exact WellFormed.of_empty k
  | addPolygon gr P Feat _ ih => exact WellFormed.of_addPolygon k gr P Feat ih

end GraphLemmas8

section Claims
variable {G : Type}

theorem forall₂_getElem? {α β : Type} {R : α → β → Prop} {l : List α} {l' : List β}
    (h : List.Forall₂ R l l') : ∀ (i : Nat) (x : α) (y : β),
    l[i]? = some x → l'[i]? = some y → R x y := by
  induction h with
  | nil => intro i x y hx; simp at hx
  | cons hr _ ih =>
    intro i x y hx hy
    cases i with
    | zero => simp at hx hy; subst hx; subst hy; exact hr
    | succ i => simp at hx hy; exact ih i x y hx hy

theorem filter_ptr_singleton {l : List (PolygonEntity G)}
    (hn : (l.map PolygonEntity.ptr).Nodup) {a : PolygonEntity G} (ha : a ∈ l) :
    l.filter (fun O => O.ptr = a.ptr) = [a] := by
  induction l with
  | nil => cases ha
  | cons b l ih =>
    simp only [List.map_cons, List.nodup_cons] at hn
    obtain ⟨hb, hn⟩ := hn
    rcases List.mem_cons.1 ha with rfl | ha
    · have : l.filter (fun O => O.ptr = a.ptr) = [] := by
        rw [List.filter_eq_nil_iff]
        intro x hx
        simp only [decide_eq_true_eq]
        intro hxa
        exact hb (List.mem_map.2 ⟨x, hx, hxa⟩)
      simp [List.filter_cons, this]
    · have hne : b.ptr ≠ a.ptr := by
        intro hba
        exact hb (List.mem_map.2 ⟨a, ha, hba.symm⟩)
      simp [List.filter_cons, hne, ih hn ha]

/-- The part of C1 that holds for every kernel.  A successful `addPolygon` on a
graph built by `addPolygon` registers the new entity after the others and,
for every entity `Other` that was in the graph: the edge objects allocated by the call that carry the two faces (new
entity, `Other`) are exactly one for each shared line of the two, in the order
of the lines (one edge per line, carrying both faces, not one edge per face);
each of them is in the edge list of the new entity, and in the edge list of
`Other` unless `removeSegment` released it; every allocated edge with two faces
is such a shared edge; and an entity without shared line with the new one is
left exactly as it was. -/
theorem addPolygon_one_edge_per_shared_line (k : Kernel G) (gr gr' : PolygonGraph G)
    (Polygon : G) (Feat : OGRFeature) (f : FaceId) (hb : Built k gr)
    (h : gr.addPolygon k Polygon Feat = (.ok f, gr')) :
    ∃ (New : PolygonEntity G) (ents' : List (PolygonEntity G)) (added : List (PolygonEdge G)),
      gr'.m_Entities = ents' ++ [New] ∧ New.ptr = f ∧ New.mp_Polygon = Polygon ∧
      ents'.length = gr.m_Entities.length ∧
      gr'.heap.objects = gr.heap.objects ++ added ∧
      (∀ a ∈ added, a.m_Faces.length = 2 → ∃ O ∈ gr.m_Entities, a.m_Faces = [f, O.ptr]) ∧
      ∀ (i : Nat) (Other Other' : PolygonEntity G),
        gr.m_Entities[i]? = some Other → ents'[i]? = some Other' →
        ∃ SharedLines, New.computeLineIntersectionsWith k Other = .ok SharedLines ∧
          (added.filter (fun a => a.m_Faces = [f, Other.ptr])).map PolygonEdge.line
            = SharedLines ∧
          (∀ j a, added[j]? = some a → a.m_Faces = [f, Other.ptr] →
            gr.heap.objects.length + j ∈ New.m_PolyEdges ∧
            (gr.heap.objects.length + j ∈ Other'.m_PolyEdges ∨
              gr.heap.objects.length + j ∈ gr'.heap.freed)) ∧
          (SharedLines = [] → Other' = Other) := by
  have w := hb.wellFormed k
  obtain ⟨New, New', ents', added, ho⟩ := addPolygon_spec k gr Polygon Feat _ _ h
  · obtain ⟨hn, hs, hobj, hfr, hal, hfa, hprov, hreg⟩ := ho
    have hptr : New.ptr = gr.allocatedEntities.length := by rw [hn]; rfl
    have hpoly : New.mp_Polygon = Polygon := by rw [hn]; rfl
    rcases hreg with ⟨e, he, -⟩ | ⟨hr, hents, hC, hB, hD⟩
    · cases he
    · have hf : f = New.ptr := by
        have := Except.ok.inj hr
        exact this
      subst hf
      refine ⟨New', ents', added, hents, hs.ptr, by rw [hs.polygon, hpoly],
        (List.Forall₂.length_eq hfa).symm, hobj, ?_, ?_⟩
      · intro a ha h2
        rcases hprov a ha with h1 | ⟨O, hO, h1⟩ | ⟨O, hO, Ls, -, h1, -⟩
        · rw [h1] at h2; simp at h2
        · rw [h1] at h2; simp at h2
        · exact ⟨O, hO, h1⟩
      · intro i Other Other' hi hi'
        have hmem : Other ∈ gr.m_Entities := List.getElem?_mem hi
        have hmem' : Other' ∈ ents' := List.getElem?_mem hi'
        obtain ⟨Ls, hc, hnil⟩ := forall₂_getElem? hD i Other Other' hi hi'
        have hso : SameFace Other Other' := forall₂_getElem? hfa i Other Other' hi hi'
        refine ⟨Ls, ?_, ?_, ?_, hnil⟩
        · rw [computeLineIntersectionsWith_congr k hs (SameFace.faceRefl Other)]; exact hc
        · rw [hC Other.ptr, filter_ptr_singleton w.nodup hmem]
          simp [sharedLinesOf, hc]
        · intro j a hj hfaces
          obtain ⟨h1, O', hO', h2, h3⟩ := hB j a hj (by rw [hfaces]; rfl)
          refine ⟨h1, ?_⟩
          have hnd' : (ents'.map PolygonEntity.ptr).Nodup := by
            rw [forall₂_ptr_eq hfa]; exact w.nodup
          have : O' = Other' := by
            apply eq_of_ptr_eq hnd' hO' hmem'
            rw [hfaces] at h2
            simp only [List.cons.injEq, and_true, true_and] at h2
            rw [← h2, hso.ptr]
          rw [← this]
          exact h3

end Claims

/-- The vector returned by `getMergedLineStringsFromGeometry` holds the geometry
itself or its merged lines. -/
theorem getMergedLineStringsFromGeometry_some (k : Kernel G) (g : G) (Ls : List G)
    (h : getMergedLineStringsFromGeometry k g = some Ls) :
    Ls = [g] ∨ Ls = k.getMergedLineStrings g := by
  unfold getMergedLineStringsFromGeometry at h
  cases ht : k.getGeometryTypeId g <;> rw [ht] at h <;> simp at h <;> simp [h]

/-- The lines returned by `computeLineIntersectionsWith` are contained in the
intersection of the two polygons, when the merged lines of a geometry are
contained in it. -/
theorem sharedLine_sub_intersection (k : Kernel G) (sub : G → G → Prop) (hrefl : ∀ g, sub g g)
    (F O : PolygonEntity G)
    (hmerge : ∀ l ∈ k.getMergedLineStrings (k.intersection F.mp_Polygon O.mp_Polygon),
      sub l (k.intersection F.mp_Polygon O.mp_Polygon))
    (Ls : List G) (hc : F.computeLineIntersectionsWith k O = .ok Ls) (l : G) (hl : l ∈ Ls) :
    sub l (k.intersection F.mp_Polygon O.mp_Polygon) := by
  unfold PolygonEntity.computeLineIntersectionsWith at hc
  split at hc
  · cases hm : getMergedLineStringsFromGeometry k (k.intersection F.mp_Polygon O.mp_Polygon) with
    | none => rw [hm] at hc; cases hc
    | some Lines =>
      rw [hm] at hc
      cases hc
      rcases getMergedLineStringsFromGeometry_some k _ _ hm with h | h
      · rw [h] at hl
        simp only [List.mem_singleton] at hl
        rw [hl]
        exact hrefl _
      · rw [h] at hl
        exact hmerge l hl
  · cases hc
    cases hl

/-- The part of C3 that holds for every kernel.  In a graph built by
`addPolygon` calls, an edge whose face list
contains two different entities `F` and `O` of the graph has a line that is one
of the shared lines computed by `computeLineIntersectionsWith` for the two
polygons (in one order or the other); given the kernel contract, for the
polygons of the graph, that the intersection of two polygons is contained in
both and that the merged lines of the intersection are contained in it, the
line of the edge is contained in the polygon of `F` and in the polygon of
`O`. -/
theorem sharedEdge_within_both_polygons (k : Kernel G) (sub : G → G → Prop)
    (hrefl : ∀ g, sub g g) (htrans : ∀ a b c, sub a b → sub b c → sub a c)
    (gr : PolygonGraph G) (hb : Built k gr)
    (hinter : ∀ F ∈ gr.m_Entities, ∀ O ∈ gr.m_Entities,
      sub (k.intersection F.mp_Polygon O.mp_Polygon) F.mp_Polygon ∧
      sub (k.intersection F.mp_Polygon O.mp_Polygon) O.mp_Polygon)
    (hmerge : ∀ F ∈ gr.m_Entities, ∀ O ∈ gr.m_Entities,
      ∀ l ∈ k.getMergedLineStrings (k.intersection F.mp_Polygon O.mp_Polygon),
        sub l (k.intersection F.mp_Polygon O.mp_Polygon))
    (E : PolygonEdge G) (hE : E ∈ gr.heap.objects)
    (F : PolygonEntity G) (hF : F ∈ gr.m_Entities)
    (O : PolygonEntity G) (hO : O ∈ gr.m_Entities)
    (hFE : F.ptr ∈ E.m_Faces) (hOE : O.ptr ∈ E.m_Faces) (hne : F.ptr ≠ O.ptr) :
    ((∃ Ls, F.computeLineIntersectionsWith k O = .ok Ls ∧ E.line ∈ Ls) ∨
     (∃ Ls, O.computeLineIntersectionsWith k F = .ok Ls ∧ E.line ∈ Ls)) ∧
    sub E.line F.mp_Polygon ∧ sub E.line O.mp_Polygon := by
  have w := hb.wellFormed k
  have key : ∀ (A B : PolygonEntity G), A ∈ gr.m_Entities → B ∈ gr.m_Entities →
      E.m_Faces = [A.ptr, B.ptr] →
      (∃ Ls, A.computeLineIntersectionsWith k B = .ok Ls ∧ E.line ∈ Ls) ∧
      sub E.line A.mp_Polygon ∧ sub E.line B.mp_Polygon := by
    intro A B hA hB hf
    obtain ⟨Ls, hc, hl⟩ := w.shared E hE A hA B hB hf
    have hs := sharedLine_sub_intersection k sub hrefl A B (hmerge A hA B hB) Ls hc E.line hl
    exact ⟨⟨Ls, hc, hl⟩, htrans _ _ _ hs (hinter A hA B hB).1, htrans _ _ _ hs (hinter A hA B hB).2⟩
  rcases w.shape E hE with ⟨p, hp⟩ | ⟨p, q, hpq, -⟩
  · rw [hp] at hFE hOE
    simp only [List.mem_singleton] at hFE hOE
    exact absurd (hFE.trans hOE.symm) hne
  · rw [hpq] at hFE hOE
    simp only [List.mem_cons, List.mem_singleton, List.not_mem_nil, or_false] at hFE hOE
    rcases hFE with hFp | hFq
    · rcases hOE with hOp | hOq
      · exact absurd (hFp.trans hOp.symm) hne
      · obtain ⟨h1, h2, h3⟩ := key F O hF hO (by rw [hpq, hFp, hOq])
        exact ⟨Or.inl h1, h2, h3⟩
    · rcases hOE with hOp | hOq
      · obtain ⟨h1, h2, h3⟩ := key O F hO hF (by rw [hpq, hFq, hOp])
        exact ⟨Or.inr h1, h3, h2⟩
      · exact absurd (hFq.trans hOq.symm) hne

/-- The loop of `findEdgeLineIntersectingWith` returns an edge exactly when the
list splits at it into edges that are live and have no 1-dimensional
interior-interior intersection with the segment, and the edge, which is live
and has one. -/
theorem findEdgeLoop_some (k : Kernel G) (h : EdgeHeap G) (S : G) (edges : List EdgeId)
    (e : EdgeId) :
    findEdgeLoop k h S edges = .ok (some e) ↔
    ∃ pre post E, edges = pre ++ e :: post ∧
      (∀ x ∈ pre, ∃ X, h.read x = some X ∧ k.relate S X.line "1********" = false) ∧
      h.read e = some E ∧ k.relate S E.line "1********" = true := by
  induction edges with
  | nil => simp [findEdgeLoop]
  | cons x rest ih =>
    unfold findEdgeLoop
    cases hx : h.read x with
    | none =>
      simp only [false_iff, not_exists, not_and, reduceCtorEq]
      intro pre post E hsplit hpre he
      cases pre with
      | nil =>
        simp only [List.nil_append, List.cons.injEq] at hsplit
        rw [hsplit.1, he] at hx
        cases hx
      | cons y pre =>
        simp only [List.cons_append, List.cons.injEq] at hsplit
        obtain ⟨X, hX, -⟩ := hpre y (by simp)
        rw [hsplit.1, hX] at hx
        cases hx
    | some X =>
      simp only
      by_cases hr : k.relate S X.line "1********" = true
      · simp only [hr, ↓reduceIte, Except.ok.injEq, Option.some.injEq]
        constructor
        · intro hxe
          subst hxe
          exact ⟨[], rest, X, rfl, by simp, hx, hr⟩
        · rintro ⟨pre, post, E, hsplit, hpre, he, hrel⟩
          cases pre with
          | nil =>
            simp only [List.nil_append, List.cons.injEq] at hsplit
            exact hsplit.1
          | cons y pre =>
            simp only [List.cons_append, List.cons.injEq] at hsplit
            obtain ⟨Y, hY, hno⟩ := hpre y (by simp)
            rw [← hsplit.1, hx] at hY
            cases hY
            rw [hr] at hno
            cases hno
      · simp only [hr, Bool.false_eq_true, ↓reduceIte]
        rw [ih]
        constructor
        · rintro ⟨pre, post, E, hsplit, hpre, he, hrel⟩
          refine ⟨x :: pre, post, E, by simp [hsplit], ?_, he, hrel⟩
          intro y hy
          rcases List.mem_cons.1 hy with rfl | hy
          · exact ⟨X, hx, by simpa using hr⟩
          · exact hpre y hy
        · rintro ⟨pre, post, E, hsplit, hpre, he, hrel⟩
          cases pre with
          | nil =>
            simp only [List.nil_append, List.cons.injEq] at hsplit
            rw [hsplit.1, he] at hx
            cases hx
            exact absurd hrel hr
          | cons y pre =>
            simp only [List.cons_append, List.cons.injEq] at hsplit
            exact ⟨pre, post, E, hsplit.2, fun z hz => hpre z (by simp [hz]), he, hrel⟩

/-- The loop of `findEdgeLineIntersectingWith` returns the null result exactly
when every edge of the list is live and none has a 1-dimensional
interior-interior intersection with the segment. -/
theorem findEdgeLoop_none (k : Kernel G) (h : EdgeHeap G) (S : G) (edges : List EdgeId) :
    findEdgeLoop k h S edges = .ok none ↔
    ∀ x ∈ edges, ∃ X, h.read x = some X ∧ k.relate S X.line "1********" = false := by
  induction edges with
  | nil => simp [findEdgeLoop]
  | cons x rest ih =>
    unfold findEdgeLoop
    cases hx : h.read x with
    | none =>
      simp only [false_iff, reduceCtorEq]
      intro hall
      obtain ⟨X, hX, -⟩ := hall x (by simp)
      rw [hX] at hx
      cases hx
    | some X =>
      simp only
      by_cases hr : k.relate S X.line "1********" = true
      · simp only [hr, ↓reduceIte, Except.ok.injEq, false_iff, reduceCtorEq]
        intro hall
        obtain ⟨Y, hY, hno⟩ := hall x (by simp)
        rw [hx] at hY
        cases hY
        rw [hr] at hno
        cases hno
      · simp only [hr, Bool.false_eq_true, ↓reduceIte]
        rw [ih]
        constructor
        · intro hall y hy
          rcases List.mem_cons.1 hy with rfl | hy
          · exact ⟨X, hx, by simpa using hr⟩
          · exact hall y hy
        · intro hall y hy
          exact hall y (List.mem_cons_of_mem _ hy)

/-- C5, amended.  `findEdgeLineIntersectingWith(S)` returns the first edge of the
face, in edge list order, whose line has a 1-dimensional interior-interior
intersection with `S` (pattern `1********`): it returns the edge `e` exactly
when `e` is a live edge of the list with such an intersection and every edge
before it in the list is live and has none; it returns the null result
exactly when every edge is live and none has such an intersection.  So for a
segment inside the edge `e` it returns `e` when no edge listed before `e`
overlaps the segment. -/
theorem findEdgeLineIntersectingWith_first_match (k : Kernel G) (h : EdgeHeap G)
    (F : PolygonEntity G) (S : G) :
    (∀ e, F.findEdgeLineIntersectingWith k h S = .ok (some e) ↔
      ∃ pre post E, F.m_PolyEdges = pre ++ e :: post ∧
        (∀ x ∈ pre, ∃ X, h.read x = some X ∧ k.relate S X.line "1********" = false) ∧
        h.read e = some E ∧ k.relate S E.line "1********" = true) ∧
    (F.findEdgeLineIntersectingWith k h S = .ok none ↔
      ∀ x ∈ F.m_PolyEdges, ∃ X, h.read x = some X ∧ k.relate S X.line "1********" = false) :=
  ⟨fun e => findEdgeLoop_some k h S F.m_PolyEdges e, findEdgeLoop_none k h S F.m_PolyEdges⟩

namespace Lattice

theorem oneSquare_built : Built kernel oneSquare :=
  Built.addPolygon _ _ _ Built.empty

/-- A run of `addPolygon_one_edge_per_shared_line`: the insertion of the square
at `(1, 0)` next to the square at `(0, 0)` returns, and the statement holds for
it. -/
theorem addPolygon_one_edge_per_shared_line_witness :
    Built kernel oneSquare ∧
    PolygonGraph.addPolygon kernel oneSquare (square 1 0) ⟨some 2⟩ = (.ok 1, twoSquares) ∧
    ∃ (New : PolygonEntity Geom) (ents' : List (PolygonEntity Geom))
      (added : List (PolygonEdge Geom)),
      twoSquares.m_Entities = ents' ++ [New] ∧ New.ptr = 1 ∧ New.mp_Polygon = square 1 0 ∧
      ents'.length = oneSquare.m_Entities.length ∧
      twoSquares.heap.objects = oneSquare.heap.objects ++ added ∧
      (∀ a ∈ added, a.m_Faces.length = 2 → ∃ O ∈ oneSquare.m_Entities, a.m_Faces = [1, O.ptr]) ∧
      ∀ (i : Nat) (Other Other' : PolygonEntity Geom),
        oneSquare.m_Entities[i]? = some Other → ents'[i]? = some Other' →
        ∃ SharedLines, New.computeLineIntersectionsWith kernel Other = .ok SharedLines ∧
          (added.filter (fun a => a.m_Faces = [1, Other.ptr])).map PolygonEdge.line
            = SharedLines ∧
          (∀ j a, added[j]? = some a → a.m_Faces = [1, Other.ptr] →
            oneSquare.heap.objects.length + j ∈ New.m_PolyEdges ∧
            (oneSquare.heap.objects.length + j ∈ Other'.m_PolyEdges ∨
              oneSquare.heap.objects.length + j ∈ twoSquares.heap.freed)) ∧
          (SharedLines = [] → Other' = Other) :=
  have h : PolygonGraph.addPolygon kernel oneSquare (square 1 0) ⟨some 2⟩ = (.ok 1, twoSquares) :=
    Prod.ext (by decide!) rfl
  ⟨oneSquare_built, h,
    addPolygon_one_edge_per_shared_line kernel oneSquare twoSquares (square 1 0) ⟨some 2⟩ 1
      oneSquare_built h⟩

/-- C2, failing input.  The unit square `island` and the square frame around
it are valid polygons that touch (common boundary, no common cell) and do not
overlap; both `addPolygon` calls return; in the resulting graph the face of
the frame is not complete: its edges are the shared ring around the hole and
the outer ring, which merge into two lines, so `PolygonGraph::isComplete` is
false. -/
theorem isComplete_false_for_frame_around_island :
    isValid island = true ∧ isValid frame = true ∧
    relate frame island "FFTF1****" = true ∧
    (PolygonGraph.addPolygon kernel PolygonGraph.empty island ⟨some 1⟩).1 = .ok 0 ∧
    (PolygonGraph.addPolygon kernel islandOnly frame ⟨some 2⟩).1 = .ok 1 ∧
    islandThenFrame.m_Entities.map (fun F => (F.mp_Polygon, F.m_PolyEdges))
      = [(island, [1]), (frame, [1, 2])] ∧
    islandThenFrame.m_Entities.map (fun F => F.isComplete kernel islandThenFrame.heap)
      = [.ok true, .ok false] ∧
    PolygonGraph.isComplete kernel islandThenFrame = .ok false := by
  decide!

theorem islandThenFrame_built : Built kernel islandThenFrame :=
  Built.addPolygon _ _ _ (Built.addPolygon _ _ _ Built.empty)

theorem subset_refl (g : Geom) : subset g g = true := by
  simp [subset]

theorem subset_trans (a b c : Geom) (h1 : subset a b = true) (h2 : subset b c = true) :
    subset a c = true := by
  simp only [subset, List.all_eq_true, decide_eq_true_eq] at *
  exact fun s hs => h2 s (h1 s hs)

/-- C3, failing input.  The unit square `island` and the square frame around
it are valid polygons that touch and do not overlap; both `addPolygon` calls
return.  In the resulting graph the edge 1 lists the two faces (the frame,
then the island); its line is the ring of the hole of the frame, which is the
exterior ring of the island but has no part on the exterior ring of the
frame: it is not contained in it. -/
theorem sharedEdge_not_within_exterior_ring :
    isValid island = true ∧ isValid frame = true ∧
    relate frame island "FFTF1****" = true ∧
    (PolygonGraph.addPolygon kernel PolygonGraph.empty island ⟨some 1⟩).1 = .ok 0 ∧
    (PolygonGraph.addPolygon kernel islandOnly frame ⟨some 2⟩).1 = .ok 1 ∧
    islandThenFrame.m_Entities.map (fun F => (F.ptr, F.mp_Polygon, F.m_PolyEdges))
      = [(0, island, [1]), (1, frame, [1, 2])] ∧
    (islandThenFrame.heap.read 1).map (fun E => (E.line, E.m_Faces))
      = some (holeRing, [1, 0]) ∧
    kernel.getExteriorRing island = .linearRing [(1, 1), (2, 1), (2, 2), (1, 2), (1, 1)] ∧
    kernel.getExteriorRing frame
      = .linearRing [(0, 0), (1, 0), (2, 0), (3, 0), (3, 1), (3, 2), (3, 3), (2, 3), (1, 3),
          (0, 3), (0, 2), (0, 1), (0, 0)] ∧
    subset holeRing (kernel.getExteriorRing island) = true ∧
    subset holeRing (kernel.getExteriorRing frame) = false ∧
    (covered holeRing).all (fun sg => sg ∉ covered (kernel.getExteriorRing frame)) = true := by
  decide!

/-- A run of `sharedEdge_within_both_polygons`: the graph of the island and the
frame around it. -/
theorem sharedEdge_within_both_polygons_witness :
    Built kernel islandThenFrame ∧
    ∃ E ∈ islandThenFrame.heap.objects, ∃ F ∈ islandThenFrame.m_Entities,
      ∃ O ∈ islandThenFrame.m_Entities,
        (F.ptr ∈ E.m_Faces ∧ O.ptr ∈ E.m_Faces ∧ F.ptr ≠ O.ptr) ∧
        ((∃ Ls, F.computeLineIntersectionsWith kernel O = .ok Ls ∧ E.line ∈ Ls) ∨
         (∃ Ls, O.computeLineIntersectionsWith kernel F = .ok Ls ∧ E.line ∈ Ls)) ∧
        subset E.line F.mp_Polygon = true ∧ subset E.line O.mp_Polygon = true := by
  have hex : ∃ E ∈ islandThenFrame.heap.objects, ∃ F ∈ islandThenFrame.m_Entities,
      ∃ O ∈ islandThenFrame.m_Entities,
        F.ptr ∈ E.m_Faces ∧ O.ptr ∈ E.m_Faces ∧ F.ptr ≠ O.ptr := by decide!
  have hinter : ∀ F ∈ islandThenFrame.m_Entities, ∀ O ∈ islandThenFrame.m_Entities,
      subset (kernel.intersection F.mp_Polygon O.mp_Polygon) F.mp_Polygon = true ∧
      subset (kernel.intersection F.mp_Polygon O.mp_Polygon) O.mp_Polygon = true := by decide!
  have hmerge : ∀ F ∈ islandThenFrame.m_Entities, ∀ O ∈ islandThenFrame.m_Entities,
      ∀ l ∈ kernel.getMergedLineStrings (kernel.intersection F.mp_Polygon O.mp_Polygon),
        subset l (kernel.intersection F.mp_Polygon O.mp_Polygon) = true := by decide!
  obtain ⟨E, hE, F, hF, O, hO, h1, h2, h3⟩ := hex
  exact ⟨islandThenFrame_built, E, hE, F, hF, O, hO, ⟨h1, h2, h3⟩,
    sharedEdge_within_both_polygons kernel (fun a b => subset a b = true) subset_refl
      subset_trans islandThenFrame islandThenFrame_built hinter hmerge E hE F hF O hO h1 h2 h3⟩

/-- C4, failing input.  The island and the frame around it, inserted in the two
possible orders (all four calls return): with the island first the graph has
2 edges, the two faces are neighbours of each other; with the frame first the
graph has 1 edge, the frame has no neighbour and the edge list of the island
holds an edge that was deleted, so that its neighbours cannot be computed. -/
theorem insertion_order_matters_with_hole :
    (PolygonGraph.addPolygon kernel PolygonGraph.empty island ⟨some 1⟩).1 = .ok 0 ∧
    (PolygonGraph.addPolygon kernel islandOnly frame ⟨some 2⟩).1 = .ok 1 ∧
    (PolygonGraph.addPolygon kernel PolygonGraph.empty frame ⟨some 2⟩).1 = .ok 0 ∧
    (PolygonGraph.addPolygon kernel frameOnly island ⟨some 1⟩).1 = .ok 1 ∧
    islandThenFrame.edges.length = 2 ∧ frameThenIsland.edges.length = 1 ∧
    (neighbourTable islandThenFrame).map (fun t => (t.1, t.2.1))
      = [(1, .ok [2]), (2, .ok [1])] ∧
    (neighbourTable frameThenIsland).map (fun t => (t.1, t.2.1))
      = [(1, .error (.undefinedBehaviour "deleted edge read")), (2, .ok [])] := by
  decide!

/-- The scenario of C4.  The three unit squares of the L shape, in each of the 6
insertion orders: every call returns, the graph has 5 edges and is complete,
the corner square (0) has exactly the squares 1 and 2 as neighbours, each of
these has exactly the corner square as neighbour, and every shared boundary
has length 1. -/
theorem lShape_all_orders :
    lOrders.map (fun order => lShapeOutcomes order PolygonGraph.empty)
      = List.replicate 6 [.ok 0, .ok 1, .ok 2] ∧
    lOrders.map (fun order => (lShape order).edges.length) = List.replicate 6 5 ∧
    lOrders.map (fun order => PolygonGraph.isComplete kernel (lShape order))
      = List.replicate 6 (.ok true) ∧
    lOrders.map (fun order => (neighbourTable (lShape order)).map (fun t => (t.1, t.2.1)))
      = List.replicate 6 [(0, .ok [1, 2]), (1, .ok [0]), (2, .ok [0])] ∧
    lOrders.map (fun order => (neighbourTable (lShape order)).map
        (fun t => (t.1, t.2.2.map (fun l => l.map Prod.fst))))
      = List.replicate 6 [(0, .ok [1, 1]), (1, .ok [1]), (2, .ok [1])] := by
  decide!

/-- C5, counterexample.  In the middle of the insertion of the square at `(1, 0)`
next to the square at `(0, 0)`, the entity of the latter has the edges 0 (its
ring) and 1 (the shared edge); the segment `sharedSide` is the line of the
edge 1, so it lies fully inside the edge 1, and
`findEdgeLineIntersectingWith` returns the edge 0. -/
theorem findEdge_returns_an_earlier_edge :
    midInsertion.1.m_PolyEdges = [0, 1] ∧
    (midInsertion.2.read 1).map PolygonEdge.line = some sharedSide ∧
    kernel.within sharedSide sharedSide = true ∧
    midInsertion.1.findEdgeLineIntersectingWith kernel midInsertion.2 sharedSide
      = .ok (some 0) := by
  decide!

end Lattice

section DatasetLemmas
variable {G : Type}

theorem pairFound_append (l : FeaturePairs G) (x : Feature G × Feature G) (a b : Feature G) :
    pairFound (l ++ [x]) a b = (pairFound l a b || decide (x.1.ptr = a.ptr ∧ x.2.ptr = b.ptr)) := by
  simp [pairFound, List.any_append]

theorem pairFound_false_iff (l : FeaturePairs G) (a b : Feature G) :
    pairFound l a b = false ↔ ∀ p ∈ l, ¬ (p.1.ptr = a.ptr ∧ p.2.ptr = b.ptr) := by
  simp [pairFound]

/-- One execution of the body of the inner loop. -/
theorem pairStep_spec (test : G → G → Bool) (l : FeaturePairs G) (it jt : Feature G) :
    (NoRepeat l → NoRepeat (pairStep test l it jt)) ∧
    (∀ p ∈ pairStep test l it jt, p ∈ l ∨ (p = (it, jt) ∧ test it.geometry jt.geometry = true)) ∧
    (∀ a b, pairFound l a b = true → pairFound (pairStep test l it jt) a b = true) ∧
    (test it.geometry jt.geometry = true →
      pairFound (pairStep test l it jt) it jt = true ∨
      pairFound (pairStep test l it jt) jt it = true) := by
  unfold pairStep
  by_cases ht : test it.geometry jt.geometry = true
  · by_cases hf : pairFound l it jt = false ∧ pairFound l jt it = false
    · have hcond : (!pairFound l it jt) = true ∧ (!pairFound l jt it) = true := by
        simp [hf.1, hf.2]
      simp only [ht, hcond, and_self, ↓reduceIte]
      refine ⟨?_, ?_, ?_, ?_⟩
      · intro hn
        unfold NoRepeat at *
        rw [List.pairwise_append]
        refine ⟨hn, by simp, ?_⟩
        intro p hp q hq
        simp only [List.mem_singleton] at hq
        subst hq
        exact ⟨(pairFound_false_iff l it jt).1 hf.1 p hp,
          (pairFound_false_iff l jt it).1 hf.2 p hp⟩
      · intro p hp
        rcases List.mem_append.1 hp with hp | hp
        · exact Or.inl hp
        · simp only [List.mem_singleton] at hp
          exact Or.inr ⟨hp, trivial⟩
      · intro a b hab
        rw [pairFound_append, hab]; rfl
      · intro _
        left
        rw [pairFound_append]; simp
    · have hcond : ¬ ((!pairFound l it jt) = true ∧ (!pairFound l jt it) = true) := by
        intro hc
        apply hf
        simpa using hc
      simp only [ht, hcond, ↓reduceIte]
      refine ⟨id, fun p hp => Or.inl hp, fun a b h => h, ?_⟩
      intro _
      by_cases h1 : pairFound l it jt = true
      · exact Or.inl h1
      · right
        by_contra h2
        exact hf ⟨by simpa using h1, by simpa using h2⟩
  · simp only [ht, Bool.false_eq_true, ↓reduceIte]
    exact ⟨id, fun p hp => Or.inl hp, fun a b h => h, fun h => absurd h (by simp)⟩

/-- The inner loop of `findOverlap` and `findGap`. -/
theorem pairInnerLoop_spec (test : G → G → Bool) (it : Feature G) (js : FeaturesList G) :
    ∀ l : FeaturePairs G,
    (NoRepeat l → NoRepeat (pairInnerLoop test it js l)) ∧
    (∀ p ∈ pairInnerLoop test it js l, p ∈ l ∨
      (p.1 = it ∧ (∃ jt ∈ js, jt.1 = p.2) ∧ test p.1.geometry p.2.geometry = true)) ∧
    (∀ a b, pairFound l a b = true → pairFound (pairInnerLoop test it js l) a b = true) ∧
    (∀ jt ∈ js, test it.geometry jt.1.geometry = true →
      pairFound (pairInnerLoop test it js l) it jt.1 = true ∨
      pairFound (pairInnerLoop test it js l) jt.1 it = true) := by
  induction js with
  | nil =>
    intro l
    exact ⟨id, fun p hp => Or.inl hp, fun a b h => h, by simp⟩
  | cons j js ih =>
    intro l
    obtain ⟨s1, s2, s3, s4⟩ := pairStep_spec test l it j.1
    obtain ⟨i1, i2, i3, i4⟩ := ih (pairStep test l it j.1)
    unfold pairInnerLoop
    refine ⟨fun h => i1 (s1 h), ?_, fun a b h => i3 a b (s3 a b h), ?_⟩
    · intro p hp
      rcases i2 p hp with hp | ⟨h1, ⟨jt, hjt, h2⟩, h3⟩
      · rcases s2 p hp with hp | ⟨rfl, ht⟩
        · exact Or.inl hp
        · exact Or.inr ⟨rfl, ⟨j, by simp, rfl⟩, ht⟩
      · exact Or.inr ⟨h1, ⟨jt, List.mem_cons_of_mem _ hjt, h2⟩, h3⟩
    · intro jt hjt ht
      rcases List.mem_cons.1 hjt with rfl | hjt
      · rcases s4 ht with h | h
        · exact Or.inl (i3 _ _ h)
        · exact Or.inr (i3 _ _ h)
      · exact i4 jt hjt ht

/-- The outer loop, when `features(LayerIndex)` is read from the cache. -/
theorem pairOuterLoop_cached (k : DatasetKernel G) (test : G → G → Bool) (LayerIndex : Nat)
    (ds : VectorDataset G) (Fs : FeaturesList G)
    (hc : ds.features k LayerIndex = (.ok Fs, ds)) :
    ∀ (its : FeaturesList G) (l : FeaturePairs G),
      pairOuterLoop k test LayerIndex its (ds, l)
        = (.ok (its.foldl (fun l it => pairInnerLoop test it.1 Fs l) l), ds) := by
  intro its
  induction its with
  | nil => intro l; rfl
  | cons it rest ih =>
    intro l
    unfold pairOuterLoop
    rw [hc]
    simp only [List.foldl_cons]
    exact ih _

/-- The two nested loops of `findOverlap` and `findGap`. -/
theorem pairScan_spec (test : G → G → Bool) (Fs : FeaturesList G) (its : FeaturesList G) :
    ∀ l : FeaturePairs G,
    (NoRepeat l → NoRepeat (its.foldl (fun l it => pairInnerLoop test it.1 Fs l) l)) ∧
    (∀ p ∈ its.foldl (fun l it => pairInnerLoop test it.1 Fs l) l, p ∈ l ∨
      ((∃ it ∈ its, it.1 = p.1) ∧ (∃ jt ∈ Fs, jt.1 = p.2) ∧
        test p.1.geometry p.2.geometry = true)) ∧
    (∀ a b, pairFound l a b = true →
      pairFound (its.foldl (fun l it => pairInnerLoop test it.1 Fs l) l) a b = true) ∧
    (∀ it ∈ its, ∀ jt ∈ Fs, test it.1.geometry jt.1.geometry = true →
      pairFound (its.foldl (fun l it => pairInnerLoop test it.1 Fs l) l) it.1 jt.1 = true ∨
      pairFound (its.foldl (fun l it => pairInnerLoop test it.1 Fs l) l) jt.1 it.1 = true) := by
  induction its with
  | nil =>
    intro l
    exact ⟨id, fun p hp => Or.inl hp, fun a b h => h, by simp⟩
  | cons i its ih =>
    intro l
    obtain ⟨s1, s2, s3, s4⟩ := pairInnerLoop_spec test i.1 Fs l
    obtain ⟨i1, i2, i3, i4⟩ := ih (pairInnerLoop test i.1 Fs l)
    simp only [List.foldl_cons]
    refine ⟨fun h => i1 (s1 h), ?_, fun a b h => i3 a b (s3 a b h), ?_⟩
    · intro p hp
      rcases i2 p hp with hp | ⟨⟨it, hit, h1⟩, h2, h3⟩
      · rcases s2 p hp with hp | ⟨h1, h2, h3⟩
        · exact Or.inl hp
        · exact Or.inr ⟨⟨i, by simp, h1.symm⟩, h2, h3⟩
      · exact Or.inr ⟨⟨it, List.mem_cons_of_mem _ hit, h1⟩, h2, h3⟩
    · intro it hit jt hjt ht
      rcases List.mem_cons.1 hit with rfl | hit
      · rcases s4 jt hjt ht with h | h
        · exact Or.inl (i3 _ _ h)
        · exact Or.inr (i3 _ _ h)
      · exact i4 it hit jt hjt ht

end DatasetLemmas

section DatasetLemmas2
variable {G : Type}

theorem cacheAt_pushBack {α : Type} (m : List (Nat × List α)) (key : Nat) (x : α) :
    cacheAt (cachePushBack m key x) key = (cacheAt m key).map (fun l => l ++ [x]) := by
  induction m with
  | nil => rfl
  | cons p m ih =>
    unfold cacheAt cachePushBack at *
    by_cases hp : p.1 = key
    · simp [List.find?, hp]
    · simp only [List.map_cons, hp, ↓reduceIte, List.find?, decide_False]
      exact ih

theorem cacheCount_of_cacheAt {α : Type} (m : List (Nat × α)) (key : Nat) (v : α)
    (h : cacheAt m key = some v) : cacheCount m key = true := by
  unfold cacheAt at h
  unfold cacheCount
  cases hf : m.find? (fun p => decide (p.1 = key)) with
  | none => rw [hf] at h; simp at h
  | some p =>
    have hm := List.mem_of_find?_eq_some hf
    have hk := List.find?_some hf
    exact List.any_eq_true.2 ⟨p, hm, hk⟩

/-- The loop of `parse` appends one clone per feature of the layer, in reading
order, at fresh addresses. -/
theorem parseLoop_spec (k : DatasetKernel G) (LayerIndex : Nat) :
    ∀ (feats : List (Nat × G)) (ds ds' : VectorDataset G) (Geoms Geoms' : List G)
      (l0 : FeaturesList G),
      cacheAt ds.m_Features LayerIndex = some l0 →
      parseLoop k LayerIndex feats (ds, Geoms) = (.ok (), (ds', Geoms')) →
      ∃ added : FeaturesList G, cacheAt ds'.m_Features LayerIndex = some (l0 ++ added) ∧
        added.map (fun p => (p.1.FID, p.1.geometry)) = feats ∧
        added.map (fun p => p.1.ptr) = List.range' ds.allocated feats.length ∧
        ds'.mp_DataSource = ds.mp_DataSource := by
  intro feats
  induction feats with
  | nil =>
    intro ds ds' Geoms Geoms' l0 hc h
    simp only [parseLoop, Prod.mk.injEq, true_and] at h
    obtain ⟨rfl, _⟩ := h
    exact ⟨[], by simpa using hc, rfl, rfl, rfl⟩
  | cons f rest ih =>
    intro ds ds' Geoms Geoms' l0 hc h
    obtain ⟨fid, g⟩ := f
    unfold parseLoop at h
    split at h
    · simp at h
    · split at h
      · simp at h
      · have hc' : cacheAt (cachePushBack ds.m_Features LayerIndex
            ((⟨ds.allocated, fid, g⟩ : Feature G), g)) LayerIndex
            = some (l0 ++ [((⟨ds.allocated, fid, g⟩ : Feature G), g)]) := by
          rw [cacheAt_pushBack, hc]; rfl
        obtain ⟨added, a1, a2, a3, a4⟩ := ih _ ds' _ Geoms' _ hc' h
        refine ⟨((⟨ds.allocated, fid, g⟩ : Feature G), g) :: added, ?_, ?_, ?_, ?_⟩
        · rw [a1]; simp
        · simp [a2]
        · simp only [List.map_cons, a3, List.length_cons]
          rw [List.range'_succ]
        · exact a4

/-- A call of `features` on a layer that is in the cache returns the cached
list and leaves the dataset as it is. -/
theorem features_cached (k : DatasetKernel G) (ds : VectorDataset G) (LayerIndex : Nat)
    (Fs : FeaturesList G) (hc : cacheAt ds.m_Features LayerIndex = some Fs) :
    ds.features k LayerIndex = (.ok Fs, ds) := by
  unfold VectorDataset.features
  simp [cacheCount_of_cacheAt _ _ _ hc, hc]

/-- A call of `parse` that returns appends one clone per feature of the layer
to the cached list of the layer. -/
theorem parse_ok (k : DatasetKernel G) (ds ds' : VectorDataset G) (LayerIndex : Nat)
    (l0 : FeaturesList G)
    (hc : cacheAt (cacheInsert ds.m_Features LayerIndex []) LayerIndex = some l0)
    (h : ds.parse k LayerIndex = (.ok (), ds')) :
    ∃ Layer added, ds.mp_DataSource[LayerIndex]? = some Layer ∧
      cacheAt ds'.m_Features LayerIndex = some (l0 ++ added) ∧
      added.map (fun p => (p.1.FID, p.1.geometry)) = Layer.features ∧
      added.map (fun p => p.1.ptr) = List.range' ds.allocated Layer.features.length ∧
      ds'.mp_DataSource = ds.mp_DataSource := by
  unfold VectorDataset.parse at h
  cases hl : ds.mp_DataSource[LayerIndex]? with
  | none => simp [hl] at h
  | some Layer =>
    simp only [hl] at h
    generalize hp : parseLoop k LayerIndex Layer.features _ = r at h
    obtain ⟨o, ds2, Geoms⟩ := r
    cases o with
    | error f => simp at h
    | ok u =>
      obtain ⟨added, a1, a2, a3, a4⟩ := parseLoop_spec k LayerIndex Layer.features _ ds2 _ Geoms
        l0 hc hp
      simp only at h
      split at h
      · simp at h
      · split at h
        · simp at h
        · simp only [Prod.mk.injEq, true_and] at h
          subst h
          exact ⟨Layer, added, rfl, a1, a2, a3, a4⟩

/-- The first call of `features` after the caches are cleared parses the
layer. -/
theorem features_fresh (k : DatasetKernel G) (ds ds' : VectorDataset G) (LayerIndex : Nat)
    (Fs : FeaturesList G)
    (h : VectorDataset.features k { ds with m_Features := [], m_Geometries := [] } LayerIndex
      = (.ok Fs, ds')) :
    ∃ Layer, ds.mp_DataSource[LayerIndex]? = some Layer ∧
      cacheAt ds'.m_Features LayerIndex = some Fs ∧
      Fs.map (fun p => (p.1.FID, p.1.geometry)) = Layer.features ∧
      Fs.map (fun p => p.1.ptr) = List.range' ds.allocated Layer.features.length := by
  unfold VectorDataset.features at h
  simp only [cacheCount, List.any_nil, Bool.not_false, ↓reduceIte] at h
  generalize hp : VectorDataset.parse k _ LayerIndex = r at h
  obtain ⟨o, ds1⟩ := r
  cases o with
  | error f => simp at h
  | ok u =>
    have hc0 : cacheAt (cacheInsert ([] : List (Nat × FeaturesList G)) LayerIndex [])
        LayerIndex = some [] := by
      simp [cacheInsert, cacheCount, cacheAt]
    obtain ⟨Layer, added, a0, a1, a2, a3, _⟩ := parse_ok k _ ds1 LayerIndex [] hc0 hp
    simp only [List.nil_append] at a1
    simp only [a1, Prod.mk.injEq, Except.ok.injEq] at h
    obtain ⟨rfl, rfl⟩ := h
    exact ⟨Layer, a0, a1, a2, a3⟩

/-- The common shape of `findOverlap` and `findGap`: the features of the layer
are parsed anew, and the list returned holds, without repetition, the pairs of
features on which the test holds. -/
theorem findPairs_spec (k : DatasetKernel G) (test : G → G → Bool) (ds ds' : VectorDataset G)
    (LayerIndex : Nat) (L : FeaturePairs G)
    (h : findPairs k test ds LayerIndex = (.ok L, ds')) :
    ∃ (Layer : OGRLayer G) (Features : FeaturesList G),
      ds.mp_DataSource[LayerIndex]? = some Layer ∧ Layer.GeomType = .wkbPolygon ∧
      cacheAt ds'.m_Features LayerIndex = some Features ∧
      Features.map (fun p => (p.1.FID, p.1.geometry)) = Layer.features ∧
      (Features.map (fun p => p.1.ptr)).Nodup ∧
      NoRepeat L ∧
      (∀ p ∈ L, (∃ A ∈ Features, A.1 = p.1) ∧ (∃ B ∈ Features, B.1 = p.2) ∧
        test p.1.geometry p.2.geometry = true) ∧
      (∀ A ∈ Features, ∀ B ∈ Features, test A.1.geometry B.1.geometry = true →
        pairFound L A.1 B.1 = true ∨ pairFound L B.1 A.1 = true) := by
  unfold findPairs at h
  cases hl : ds.mp_DataSource[LayerIndex]? with
  | none => simp [VectorDataset.isPolygonType, hl] at h
  | some Layer =>
    by_cases ht : Layer.GeomType = .wkbPolygon
    · simp only [VectorDataset.isPolygonType, hl, ht, decide_True] at h
      generalize hf : VectorDataset.features k _ LayerIndex = r at h
      obtain ⟨o, ds1⟩ := r
      cases o with
      | error f => simp at h
      | ok Fs =>
        obtain ⟨Layer', e1, e2, e3, e4⟩ := features_fresh k ds ds1 LayerIndex Fs hf
        rw [hl] at e1
        cases e1
        simp only at h
        rw [pairOuterLoop_cached k test LayerIndex ds1 Fs
          (features_cached k ds1 LayerIndex Fs e2)] at h
        simp only [Prod.mk.injEq, Except.ok.injEq] at h
        obtain ⟨rfl, rfl⟩ := h
        obtain ⟨s1, s2, s3, s4⟩ := pairScan_spec test Fs Fs []
        refine ⟨Layer, Fs, rfl, ht, e2, e3, ?_, s1 List.Pairwise.nil, ?_, s4⟩
        · rw [e4]; exact List.nodup_range' _ _
        · intro p hp
          rcases s2 p hp with hp | hp
          · simp at hp
          · exact hp
    · simp [VectorDataset.isPolygonType, hl, ht] at h

theorem pairCount_eq_zero (l : FeaturePairs G) (a b : Feature G)
    (h : ∀ p ∈ l, ¬ ((p.1.ptr = a.ptr ∧ p.2.ptr = b.ptr) ∨ (p.1.ptr = b.ptr ∧ p.2.ptr = a.ptr))) :
    pairCount l a b = 0 := by
  unfold pairCount
  rw [List.length_eq_zero, List.filter_eq_nil_iff]
  intro p hp
  simpa using h p hp

/-- In a list without repetition a pair that is found, in either orientation,
occurs once. -/
theorem pairCount_eq_one (l : FeaturePairs G) (a b : Feature G) (hn : NoRepeat l)
    (hf : pairFound l a b = true ∨ pairFound l b a = true) : pairCount l a b = 1 := by
  induction l with
  | nil => simp [pairFound] at hf
  | cons p l ih =>
    unfold NoRepeat at hn
    rw [List.pairwise_cons] at hn
    obtain ⟨hp, hn⟩ := hn
    by_cases hm : (p.1.ptr = a.ptr ∧ p.2.ptr = b.ptr) ∨ (p.1.ptr = b.ptr ∧ p.2.ptr = a.ptr)
    · have h0 : pairCount l a b = 0 := by
        apply pairCount_eq_zero
        intro q hq hmq
        obtain ⟨n1, n2⟩ := hp q hq
        rcases hm with ⟨m1, m2⟩ | ⟨m1, m2⟩ <;> rcases hmq with ⟨q1, q2⟩ | ⟨q1, q2⟩
        · exact n1 ⟨m1.trans q1.symm, m2.trans q2.symm⟩
        · exact n2 ⟨m1.trans q2.symm, m2.trans q1.symm⟩
        · exact n2 ⟨m1.trans q2.symm, m2.trans q1.symm⟩
        · exact n1 ⟨m1.trans q1.symm, m2.trans q2.symm⟩
      unfold pairCount at h0 ⊢
      rw [List.filter_cons_of_pos (by simpa using hm), List.length_cons, h0]
    · have hf' : pairFound l a b = true ∨ pairFound l b a = true := by
        rcases hf with hf | hf
        · left
          simp only [pairFound, List.any_cons, Bool.or_eq_true, decide_eq_true_eq] at hf
          rcases hf with hf | hf
          · exact absurd (Or.inl hf) hm
          · simpa [pairFound] using hf
        · right
          simp only [pairFound, List.any_cons, Bool.or_eq_true, decide_eq_true_eq] at hf
          rcases hf with hf | hf
          · exact absurd (Or.inr hf) hm
          · simpa [pairFound] using hf
      have := ih hn hf'
      unfold pairCount at this ⊢
      rw [List.filter_cons_of_neg (by simpa using hm)]
      exact this

end DatasetLemmas2

section DatasetClaims
variable {G : Type}

/-- C6: when `findOverlap` returns on a layer, the layer is a polygon layer whose
features were parsed anew, one feature object per feature of the layer; every
pair of features of the layer whose geometries overlap (kernel predicate
`Overlaps`) is made of two distinct features and occurs exactly once in the
list returned, counting both orientations; every pair of the list is a pair
of distinct features of the layer whose geometries overlap; and no pair of the
list occurs again later in the list, in the same or in the opposite
orientation.  The kernel is assumed to satisfy two facts of the OGC
predicates: geometries that overlap are not equal, and a geometry equals
itself. -/
theorem findOverlap_each_overlapping_pair_once (k : DatasetKernel G) (ds ds' : VectorDataset G)
    (LayerIndex : Nat) (L : FeaturePairs G)
    (hOE : ∀ a b, k.Overlaps a b = true → k.Equals a b = false)
    (hEq : ∀ a, k.Equals a a = true)
    (h : ds.findOverlap k LayerIndex = (.ok L, ds')) :
    ∃ (Layer : OGRLayer G) (Features : FeaturesList G),
      ds.mp_DataSource[LayerIndex]? = some Layer ∧ Layer.GeomType = .wkbPolygon ∧
      cacheAt ds'.m_Features LayerIndex = some Features ∧
      Features.map (fun p => (p.1.FID, p.1.geometry)) = Layer.features ∧
      (Features.map (fun p => p.1.ptr)).Nodup ∧
      (∀ A ∈ Features, ∀ B ∈ Features, k.Overlaps A.1.geometry B.1.geometry = true →
        A.1.ptr ≠ B.1.ptr ∧ pairCount L A.1 B.1 = 1) ∧
      (∀ p ∈ L, (∃ A ∈ Features, A.1 = p.1) ∧ (∃ B ∈ Features, B.1 = p.2) ∧
        p.1.ptr ≠ p.2.ptr ∧ k.Overlaps p.1.geometry p.2.geometry = true) ∧
      NoRepeat L := by
  obtain ⟨Layer, Fs, h1, h2, h3, h4, h5, h6, h7, h8⟩ :=
    findPairs_spec k (overlapTest k) ds ds' LayerIndex L h
  have hirr : ∀ a, k.Overlaps a a = false := by
    intro a
    cases ho : k.Overlaps a a with
    | false => rfl
    | true => have := hOE a a ho; rw [hEq] at this; cases this
  have hdist : ∀ A ∈ Fs, ∀ B ∈ Fs, k.Overlaps A.1.geometry B.1.geometry = true →
      A.1.ptr ≠ B.1.ptr := by
    intro A hA B hB ho hp
    have hAB : A = B := List.inj_on_of_nodup_map h5 hA hB hp
    rw [hAB, hirr] at ho
    cases ho
  refine ⟨Layer, Fs, h1, h2, h3, h4, h5, ?_, ?_, h6⟩
  · intro A hA B hB ho
    refine ⟨hdist A hA B hB ho, pairCount_eq_one L A.1 B.1 h6 (h8 A hA B hB ?_)⟩
    simp [overlapTest, ho, hOE _ _ ho]
  · intro p hp
    obtain ⟨⟨A, hA, eA⟩, ⟨B, hB, eB⟩, ht⟩ := h7 p hp
    have ho : k.Overlaps p.1.geometry p.2.geometry = true := by
      simp only [overlapTest, Bool.and_eq_true] at ht
      exact ht.2
    refine ⟨⟨A, hA, eA⟩, ⟨B, hB, eB⟩, ?_, ho⟩
    rw [← eA, ← eB] at ho ⊢
    exact hdist A hA B hB ho

/-- C7 as amended: when `findGap` returns on a layer, the layer is a polygon
layer whose features were parsed anew; every pair of features of the layer
whose geometries are not equal (kernel predicate `Equals`), do not touch, do
not overlap and are at a distance below the threshold is made of two distinct
features and occurs exactly once in the list returned, counting both
orientations; every pair of the list is such a pair; and no pair of the list
occurs again later in the list, in the same or in the opposite orientation.
The kernel is assumed to tell that a geometry equals itself. -/
theorem findGap_each_unequal_near_pair_once (k : DatasetKernel G) (ds ds' : VectorDataset G)
    (Threshold : ℚ) (LayerIndex : Nat) (L : FeaturePairs G)
    (hEq : ∀ a, k.Equals a a = true)
    (h : ds.findGap k Threshold LayerIndex = (.ok L, ds')) :
    ∃ (Layer : OGRLayer G) (Features : FeaturesList G),
      ds.mp_DataSource[LayerIndex]? = some Layer ∧ Layer.GeomType = .wkbPolygon ∧
      cacheAt ds'.m_Features LayerIndex = some Features ∧
      Features.map (fun p => (p.1.FID, p.1.geometry)) = Layer.features ∧
      (Features.map (fun p => p.1.ptr)).Nodup ∧
      (∀ A ∈ Features, ∀ B ∈ Features, k.Equals A.1.geometry B.1.geometry = false →
        k.Touches A.1.geometry B.1.geometry = false →
        k.Overlaps A.1.geometry B.1.geometry = false →
        k.distanceLessThan A.1.geometry B.1.geometry Threshold = true →
        A.1.ptr ≠ B.1.ptr ∧ pairCount L A.1 B.1 = 1) ∧
      (∀ p ∈ L, (∃ A ∈ Features, A.1 = p.1) ∧ (∃ B ∈ Features, B.1 = p.2) ∧
        p.1.ptr ≠ p.2.ptr ∧ k.Equals p.1.geometry p.2.geometry = false ∧
        k.Touches p.1.geometry p.2.geometry = false ∧
        k.Overlaps p.1.geometry p.2.geometry = false ∧
        k.distanceLessThan p.1.geometry p.2.geometry Threshold = true) ∧
      NoRepeat L := by
  obtain ⟨Layer, Fs, h1, h2, h3, h4, h5, h6, h7, h8⟩ :=
    findPairs_spec k (gapTest k Threshold) ds ds' LayerIndex L h
  have hdist : ∀ A ∈ Fs, ∀ B ∈ Fs, k.Equals A.1.geometry B.1.geometry = false →
      A.1.ptr ≠ B.1.ptr := by
    intro A hA B hB he hp
    have hAB : A = B := List.inj_on_of_nodup_map h5 hA hB hp
    rw [hAB, hEq] at he
    cases he
  refine ⟨Layer, Fs, h1, h2, h3, h4, h5, ?_, ?_, h6⟩
  · intro A hA B hB he ht ho hd
    refine ⟨hdist A hA B hB he, pairCount_eq_one L A.1 B.1 h6 (h8 A hA B hB ?_)⟩
    simp [gapTest, he, ht, ho, hd]
  · intro p hp
    obtain ⟨⟨A, hA, eA⟩, ⟨B, hB, eB⟩, ht⟩ := h7 p hp
    simp only [gapTest, Bool.and_eq_true, Bool.not_eq_true'] at ht
    obtain ⟨⟨⟨he, ht⟩, ho⟩, hd⟩ := ht
    refine ⟨⟨A, hA, eA⟩, ⟨B, hB, eB⟩, ?_, he, ht, ho, hd⟩
    rw [← eA, ← eB] at he ⊢
    exact hdist A hA B hB he

end DatasetClaims

namespace Lattice

theorem datasetKernel_equals_refl (a : LayerGeom) : datasetKernel.Equals a a = true := by
  simp [datasetKernel]

theorem datasetKernel_overlaps_ne (a b : LayerGeom) (h : datasetKernel.Overlaps a b = true) :
    datasetKernel.Equals a b = false := by
  cases a with
  | inr x => simp [datasetKernel] at h
  | inl x =>
    cases b with
    | inr y => simp [datasetKernel] at h
    | inl y =>
      simp only [datasetKernel, overlaps, Bool.and_eq_true, List.any_eq_true,
        decide_eq_true_eq] at h
      obtain ⟨⟨_, c, hc, hn⟩, _⟩ := h
      simp only [datasetKernel, decide_eq_false_iff_not]
      intro he
      cases he
      exact hn hc

/-- Witness of C6: in the layer of two rectangles that share a cell and a
square away from both, `findOverlap` returns the pair of the two rectangles,
once. -/
theorem findOverlap_each_overlapping_pair_once_witness :
    overlapping.findOverlap datasetKernel 0
      = (.ok [(⟨0, 0, .inl (.polygon [(0, 0), (1, 0)] [])⟩,
               ⟨1, 1, .inl (.polygon [(1, 0), (2, 0)] [])⟩)], overlappingParsed) ∧
    ∃ (Layer : OGRLayer LayerGeom) (Features : FeaturesList LayerGeom),
      overlapping.mp_DataSource[0]? = some Layer ∧ Layer.GeomType = .wkbPolygon ∧
      cacheAt overlappingParsed.m_Features 0 = some Features ∧
      Features.map (fun p => (p.1.FID, p.1.geometry)) = Layer.features ∧
      (Features.map (fun p => p.1.ptr)).Nodup ∧
      (∀ A ∈ Features, ∀ B ∈ Features,
        datasetKernel.Overlaps A.1.geometry B.1.geometry = true →
        A.1.ptr ≠ B.1.ptr ∧
        pairCount [(⟨0, 0, .inl (.polygon [(0, 0), (1, 0)] [])⟩,
               ⟨1, 1, .inl (.polygon [(1, 0), (2, 0)] [])⟩)] A.1 B.1 = 1) ∧
      (∀ p ∈ [((⟨0, 0, .inl (.polygon [(0, 0), (1, 0)] [])⟩ : Feature LayerGeom),
               (⟨1, 1, .inl (.polygon [(1, 0), (2, 0)] [])⟩ : Feature LayerGeom))],
        (∃ A ∈ Features, A.1 = p.1) ∧ (∃ B ∈ Features, B.1 = p.2) ∧
        p.1.ptr ≠ p.2.ptr ∧ datasetKernel.Overlaps p.1.geometry p.2.geometry = true) ∧
      NoRepeat [((⟨0, 0, .inl (.polygon [(0, 0), (1, 0)] [])⟩ : Feature LayerGeom),
               (⟨1, 1, .inl (.polygon [(1, 0), (2, 0)] [])⟩ : Feature LayerGeom))] :=
  have h : overlapping.findOverlap datasetKernel 0
      = (.ok [(⟨0, 0, .inl (.polygon [(0, 0), (1, 0)] [])⟩,
               ⟨1, 1, .inl (.polygon [(1, 0), (2, 0)] [])⟩)], overlappingParsed) :=
    Prod.ext (by decide!) rfl
  ⟨h, findOverlap_each_overlapping_pair_once datasetKernel overlapping overlappingParsed 0 _
    datasetKernel_overlaps_ne datasetKernel_equals_refl h⟩

/-- C7, counterexample.  A polygon layer with two features, FID 0 and FID 1,
that have the same square as geometry: the two features are distinct, their
geometries neither touch nor overlap (kernel predicates) and their distance,
zero, is below the threshold 1, yet `findGap` returns the empty list. -/
theorem findGap_misses_features_with_equal_geometries :
    (duplicates.mp_DataSource[0]?).map OGRLayer.features
      = some [(0, .inl (square 0 0)), (1, .inl (square 0 0))] ∧
    datasetKernel.Touches (.inl (square 0 0)) (.inl (square 0 0)) = false ∧
    datasetKernel.Overlaps (.inl (square 0 0)) (.inl (square 0 0)) = false ∧
    datasetKernel.distanceLessThan (.inl (square 0 0)) (.inl (square 0 0)) 1 = true ∧
    (duplicates.findGap datasetKernel 1 0).1 = .ok [] := by
  decide!

/-- Witness of C7 as amended: in the layer of three squares in a row, the first
two one unit apart, `findGap` with the threshold 2 returns the pair of the
first two squares, once. -/
theorem findGap_each_unequal_near_pair_once_witness :
    spaced.findGap datasetKernel 2 0
      = (.ok [(⟨0, 0, .inl (square 0 0)⟩, ⟨1, 1, .inl (square 2 0)⟩)], spacedParsed) ∧
    ∃ (Layer : OGRLayer LayerGeom) (Features : FeaturesList LayerGeom),
      spaced.mp_DataSource[0]? = some Layer ∧ Layer.GeomType = .wkbPolygon ∧
      cacheAt spacedParsed.m_Features 0 = some Features ∧
      Features.map (fun p => (p.1.FID, p.1.geometry)) = Layer.features ∧
      (Features.map (fun p => p.1.ptr)).Nodup ∧
      (∀ A ∈ Features, ∀ B ∈ Features,
        datasetKernel.Equals A.1.geometry B.1.geometry = false →
        datasetKernel.Touches A.1.geometry B.1.geometry = false →
        datasetKernel.Overlaps A.1.geometry B.1.geometry = false →
        datasetKernel.distanceLessThan A.1.geometry B.1.geometry 2 = true →
        A.1.ptr ≠ B.1.ptr ∧
        pairCount [(⟨0, 0, .inl (square 0 0)⟩, ⟨1, 1, .inl (square 2 0)⟩)] A.1 B.1 = 1) ∧
      (∀ p ∈ [((⟨0, 0, .inl (square 0 0)⟩ : Feature LayerGeom),
               (⟨1, 1, .inl (square 2 0)⟩ : Feature LayerGeom))],
        (∃ A ∈ Features, A.1 = p.1) ∧ (∃ B ∈ Features, B.1 = p.2) ∧
        p.1.ptr ≠ p.2.ptr ∧ datasetKernel.Equals p.1.geometry p.2.geometry = false ∧
        datasetKernel.Touches p.1.geometry p.2.geometry = false ∧
        datasetKernel.Overlaps p.1.geometry p.2.geometry = false ∧
        datasetKernel.distanceLessThan p.1.geometry p.2.geometry 2 = true) ∧
      NoRepeat [((⟨0, 0, .inl (square 0 0)⟩ : Feature LayerGeom),
               (⟨1, 1, .inl (square 2 0)⟩ : Feature LayerGeom))] :=
  have h : spaced.findGap datasetKernel 2 0
      = (.ok [(⟨0, 0, .inl (square 0 0)⟩, ⟨1, 1, .inl (square 2 0)⟩)], spacedParsed) :=
    Prod.ext (by decide!) rfl
  ⟨h, findGap_each_unequal_near_pair_once datasetKernel spaced spacedParsed 2 0 _
    datasetKernel_equals_refl h⟩

end Lattice

section ClassifierLemmas
variable {G : Type}

theorem lineEdgeOf_none_of_lt (m : LineStringNeighboursMap) (l : LineId)
    (hs : ∀ p ∈ m, l < p.1) : lineEdgeOf m l = none := by
  unfold lineEdgeOf
  rw [Option.map_eq_none', List.find?_eq_none]
  intro p hp
  have := hs p hp
  simp only [decide_eq_true_eq]
  unfold LineId at *
  omega

/-- The call `insert` on a line-neighbour map keeps the entry of a key that is
present and adds the entry otherwise. -/
theorem insert_spec (l : LineId) (e : Option EdgeId) :
    ∀ m : LineStringNeighboursMap, KeysAscending m →
      KeysAscending (LineStringNeighboursMap.insert m l e) ∧
      (∀ p ∈ LineStringNeighboursMap.insert m l e, p ∈ m ∨ p = (l, e)) ∧
      (∀ l', l' ≠ l → lineEdgeOf (LineStringNeighboursMap.insert m l e) l' = lineEdgeOf m l') ∧
      lineEdgeOf (LineStringNeighboursMap.insert m l e) l
        = (match lineEdgeOf m l with
           | some v => some v
           | none => some e) := by
  intro m
  induction m with
  | nil =>
    intro _
    refine ⟨by simp [KeysAscending, LineStringNeighboursMap.insert], ?_, ?_, ?_⟩
    · intro p hp
      simp only [LineStringNeighboursMap.insert, List.mem_singleton] at hp
      exact Or.inr hp
    · intro l' hl
      simp [LineStringNeighboursMap.insert, lineEdgeOf, List.find?, Ne.symm hl]
    · simp [LineStringNeighboursMap.insert, lineEdgeOf, List.find?]
  | cons p0 rest ih =>
    intro hs
    obtain ⟨l0, e0⟩ := p0
    have hs' := hs
    unfold KeysAscending at hs'
    rw [List.pairwise_cons] at hs'
    obtain ⟨h0, hrest⟩ := hs'
    unfold LineStringNeighboursMap.insert
    by_cases h1 : l = l0
    · subst h1
      rw [if_pos rfl]
      refine ⟨hs, fun p hp => Or.inl hp, fun _ _ => rfl, ?_⟩
      simp [lineEdgeOf, List.find?]
    · simp only [h1, ↓reduceIte]
      by_cases h2 : l < l0
      · simp only [h2, ↓reduceIte]
        refine ⟨?_, ?_, ?_, ?_⟩
        · unfold KeysAscending
          rw [List.pairwise_cons]
          refine ⟨?_, hs⟩
          intro p hp
          rcases List.mem_cons.1 hp with rfl | hp
          · exact h2
          · exact Nat.lt_trans h2 (h0 p hp)
        · intro p hp
          rcases List.mem_cons.1 hp with rfl | hp
          · exact Or.inr rfl
          · exact Or.inl hp
        · intro l' hl
          simp [lineEdgeOf, List.find?, Ne.symm hl]
        · have hnone : lineEdgeOf ((l0, e0) :: rest) l = none := by
            apply lineEdgeOf_none_of_lt
            intro p hp
            rcases List.mem_cons.1 hp with rfl | hp
            · exact h2
            · exact Nat.lt_trans h2 (h0 p hp)
          rw [hnone]
          simp [lineEdgeOf, List.find?]
      · simp only [h2, ↓reduceIte]
        obtain ⟨i1, i2, i3, i4⟩ := ih hrest
        have h3 : l0 < l := by
          unfold LineId at *
          omega
        refine ⟨?_, ?_, ?_, ?_⟩
        · unfold KeysAscending
          rw [List.pairwise_cons]
          refine ⟨?_, i1⟩
          intro p hp
          rcases i2 p hp with hp | rfl
          · exact h0 p hp
          · exact h3
        · intro p hp
          rcases List.mem_cons.1 hp with rfl | hp
          · exact Or.inl (List.mem_cons_self _ _)
          · rcases i2 p hp with hp | rfl
            · exact Or.inl (List.mem_cons_of_mem _ hp)
            · exact Or.inr rfl
        · intro l' hl
          by_cases h4 : l0 = l'
          · simp [lineEdgeOf, List.find?, h4]
          · have := i3 l' hl
            simp only [lineEdgeOf, List.find?, h4, decide_False] at this ⊢
            exact this
        · have h5 : ¬ l0 = l := fun h => h1 h.symm
          simp only [lineEdgeOf, List.find?, h5, decide_False] at i4 ⊢
          exact i4

theorem setInsert_idem (s : List EntityRef) (x : EntityRef) :
    setInsert (setInsert s x) x = setInsert s x := by
  unfold setInsert
  by_cases h : x ∈ s
  · simp [h]
  · simp [h]

theorem mem_setInsert (s : List EntityRef) (x y : EntityRef) :
    y ∈ setInsert s x ↔ y ∈ s ∨ y = x := by
  unfold setInsert
  by_cases h : x ∈ s
  · simp only [h, ↓reduceIte]
    constructor
    · exact Or.inl
    · rintro (h1 | rfl)
      · exact h1
      · exact h
  · simp [h]

/-- A returning call of `recordLineNeighbour` inserts into both containers. -/
theorem recordLineNeighbour_ok (F F' : PolygonEntity G) (LS : LineId) (Edge : Option EdgeId)
    (h : F.recordLineNeighbour LS Edge = (.ok (), F')) :
    ∃ m nb, F.mp_LineStringNeighboursMap = some m ∧ F.mp_Neighbours = some nb ∧
      F'.mp_LineStringNeighboursMap = some (LineStringNeighboursMap.insert m LS Edge) ∧
      F'.mp_Neighbours = some (setInsert nb (.line LS)) ∧
      F'.m_PolyEdges = F.m_PolyEdges ∧ F'.mp_Polygon = F.mp_Polygon := by
  unfold PolygonEntity.recordLineNeighbour at h
  cases hm : F.mp_LineStringNeighboursMap with
  | none => simp [hm] at h
  | some m =>
    cases hn : F.mp_Neighbours with
    | none => simp [hm, hn] at h
    | some nb =>
      simp only [hm, hn, Prod.mk.injEq, true_and] at h
      subst h
      exact ⟨m, nb, rfl, rfl, rfl, rfl, rfl, rfl⟩

/-- The loop over the edges in the `CONTAINS` branch: the line entity is
recorded with the first edge whose buffer contains it, unless it is a key
already. -/
theorem containsEdgesLoop_spec (k : Kernel G) (h : EdgeHeap G) (LS : LineStringEntity G)
    (d : ℚ) :
    ∀ (es : List EdgeId) (F F' : PolygonEntity G) (m : LineStringNeighboursMap),
      F.mp_LineStringNeighboursMap = some m → KeysAscending m →
      containsEdgesLoop k h LS d es F = (.ok (), F') →
      F'.m_PolyEdges = F.m_PolyEdges ∧ F'.mp_Polygon = F.mp_Polygon ∧
      (∃ m', F'.mp_LineStringNeighboursMap = some m' ∧ KeysAscending m' ∧
        (∀ l', l' ≠ LS.ptr → lineEdgeOf m' l' = lineEdgeOf m l') ∧
        lineEdgeOf m' LS.ptr
          = (match lineEdgeOf m LS.ptr with
             | some v => some v
             | none => (edgesAround k h d LS.line es).head?.map some)) ∧
      (edgesAround k h d LS.line es = [] → F'.mp_Neighbours = F.mp_Neighbours) ∧
      (edgesAround k h d LS.line es ≠ [] →
        ∃ nb, F.mp_Neighbours = some nb ∧
          F'.mp_Neighbours = some (setInsert nb (.line LS.ptr))) := by
  intro es
  induction es with
  | nil =>
    intro F F' m hm hs hr
    simp only [containsEdgesLoop, Prod.mk.injEq, true_and] at hr
    subst hr
    refine ⟨rfl, rfl, ⟨m, hm, hs, fun _ _ => rfl, ?_⟩, fun _ => rfl, ?_⟩
    · cases lineEdgeOf m LS.ptr <;> simp [edgesAround]
    · intro hne
      simp [edgesAround] at hne
  | cons e rest ih =>
    intro F F' m hm hs hr
    unfold containsEdgesLoop at hr
    cases hread : h.read e with
    | none => simp [hread] at hr
    | some E =>
      simp only [hread] at hr
      by_cases hw : k.within LS.line (k.buffer E.line d) = true
      · simp only [hw, ↓reduceIte] at hr
        generalize hrec : F.recordLineNeighbour LS.ptr (some e) = r at hr
        obtain ⟨o, F1⟩ := r
        cases o with
        | error f => simp at hr
        | ok u =>
          simp only at hr
          obtain ⟨m0, nb, r1, r2, r3, r4, r5, r6⟩ := recordLineNeighbour_ok F F1 LS.ptr (some e) hrec
          rw [hm] at r1
          cases r1
          obtain ⟨s1, s2, s3, s4⟩ := insert_spec LS.ptr (some e) m hs
          obtain ⟨i1, i2, ⟨m', j1, j2, j3, j4⟩, i3, i4⟩ := ih F1 F' _ r3 s1 hr
          have hea : edgesAround k h d LS.line (e :: rest)
              = e :: edgesAround k h d LS.line rest := by
            unfold edgesAround
            rw [List.filter_cons_of_pos]
            simp [hread, hw]
          refine ⟨i1.trans r5, i2.trans r6, ⟨m', j1, j2, ?_, ?_⟩, ?_, ?_⟩
          · intro l' hl
            rw [j3 l' hl, s3 l' hl]
          · rw [j4, s4, hea]
            cases lineEdgeOf m LS.ptr <;> rfl
          · intro hnil
            rw [hea] at hnil
            cases hnil
          · intro _
            refine ⟨nb, r2, ?_⟩
            by_cases hrest : edgesAround k h d LS.line rest = []
            · rw [i3 hrest, r4]
            · obtain ⟨nb1, n1, n2⟩ := i4 hrest
              rw [r4] at n1
              cases n1
              rw [n2, setInsert_idem]
      · simp only [hw, Bool.false_eq_true, ↓reduceIte] at hr
        have hea : edgesAround k h d LS.line (e :: rest) = edgesAround k h d LS.line rest := by
          unfold edgesAround
          rw [List.filter_cons_of_neg]
          simp [hread, hw]
        rw [hea]
        exact ih F F' m hm hs hr

theorem ensureNeighbours_ok (h : EdgeHeap G) (F F1 : PolygonEntity G)
    (hr : F.ensureNeighbours h = (.ok (), F1)) :
    F1.m_PolyEdges = F.m_PolyEdges ∧ F1.mp_Polygon = F.mp_Polygon := by
  unfold PolygonEntity.ensureNeighbours at hr
  cases hm : F.mp_NeighboursMap with
  | some m =>
    simp only [hm, Prod.mk.injEq, true_and] at hr
    subst hr
    exact ⟨rfl, rfl⟩
  | none =>
    simp only [hm, PolygonEntity.computeNeighbours] at hr
    generalize computeNeighboursLoop h F.ptr F.m_PolyEdges ([], []) = r at hr
    obtain ⟨o, nb, m⟩ := r
    simp only [Prod.mk.injEq] at hr
    obtain ⟨_, rfl⟩ := hr
    exact ⟨rfl, rfl⟩

/-- The loop over the line entities, for the relation `CONTAINS`. -/
theorem lineEntitiesLoop_contains (k : Kernel G) (h : EdgeHeap G) (d c : ℚ) (PolyBuff : G) :
    ∀ (Ls : List (LineStringEntity G)) (F F' : PolygonEntity G) (m : LineStringNeighboursMap),
      F.mp_LineStringNeighboursMap = some m → KeysAscending m →
      lineEntitiesLoop k h .CONTAINS d c PolyBuff Ls F = (.ok (), F') →
      F'.m_PolyEdges = F.m_PolyEdges ∧ F'.mp_Polygon = F.mp_Polygon ∧
      (∃ m', F'.mp_LineStringNeighboursMap = some m' ∧ KeysAscending m' ∧
        (∀ l, l ∉ Ls.map (fun L => L.ptr) → lineEdgeOf m' l = lineEdgeOf m l) ∧
        ((Ls.map (fun L => L.ptr)).Nodup → ∀ L ∈ Ls, lineEdgeOf m L.ptr = none →
          lineEdgeOf m' L.ptr
            = if k.within L.line PolyBuff = true then
                (edgesAround k h d L.line F.m_PolyEdges).head?.map some
              else none)) ∧
      (∀ nb, F.mp_Neighbours = some nb →
        ∃ nb', F'.mp_Neighbours = some nb' ∧ ∀ x ∈ nb, x ∈ nb') ∧
      (∀ L ∈ Ls, k.within L.line PolyBuff = true →
        edgesAround k h d L.line F.m_PolyEdges ≠ [] →
        ∃ nb', F'.mp_Neighbours = some nb' ∧ EntityRef.line L.ptr ∈ nb') := by
  intro Ls
  induction Ls with
  | nil =>
    intro F F' m hm hs hr
    simp only [lineEntitiesLoop, Prod.mk.injEq, true_and] at hr
    subst hr
    exact ⟨rfl, rfl, ⟨m, hm, hs, fun _ _ => rfl, by simp⟩, fun nb hnb => ⟨nb, hnb, fun _ hx => hx⟩,
      by simp⟩
  | cons LS rest ih =>
    intro F F' m hm hs hr
    unfold lineEntitiesLoop at hr
    by_cases hw : k.within LS.line PolyBuff = true
    · simp only [hw, and_self, ↓reduceIte] at hr
      generalize hce : containsEdgesLoop k h LS d F.m_PolyEdges F = r at hr
      obtain ⟨o, F1⟩ := r
      cases o with
      | error f => simp at hr
      | ok u =>
        simp only at hr
        obtain ⟨c1, c2, ⟨m1, c3, c4, c5, c6⟩, c7, c8⟩ :=
          containsEdgesLoop_spec k h LS d F.m_PolyEdges F F1 m hm hs hce
        obtain ⟨i1, i2, ⟨m', j1, j2, j3, j4⟩, i3, i4⟩ := ih F1 F' m1 c3 c4 hr
        have hmono : ∀ nb, F.mp_Neighbours = some nb →
            ∃ nb1, F1.mp_Neighbours = some nb1 ∧ ∀ x ∈ nb, x ∈ nb1 := by
          intro nb hnb
          by_cases hnil : edgesAround k h d LS.line F.m_PolyEdges = []
          · exact ⟨nb, (c7 hnil).trans hnb, fun _ hx => hx⟩
          · obtain ⟨nb0, n1, n2⟩ := c8 hnil
            rw [hnb] at n1
            cases n1
            exact ⟨_, n2, fun x hx => (mem_setInsert _ _ _).2 (Or.inl hx)⟩
        refine ⟨i1.trans c1, i2.trans c2, ⟨m', j1, j2, ?_, ?_⟩, ?_, ?_⟩
        · intro l hl
          simp only [List.map_cons, List.mem_cons, not_or] at hl
          rw [j3 l hl.2, c5 l hl.1]
        · intro hnd L hL hnone
          simp only [List.map_cons, List.nodup_cons] at hnd
          rcases List.mem_cons.1 hL with rfl | hL
          · rw [j3 _ hnd.1, c6, hnone]
            simp [hw]
          · have hne : L.ptr ≠ LS.ptr := by
              intro he
              apply hnd.1
              rw [← he]
              exact List.mem_map.2 ⟨L, hL, rfl⟩
            have := j4 hnd.2 L hL (by rw [c5 _ hne]; exact hnone)
            rw [this, c1]
        · intro nb hnb
          obtain ⟨nb1, n1, n2⟩ := hmono nb hnb
          obtain ⟨nb', n3, n4⟩ := i3 nb1 n1
          exact ⟨nb', n3, fun x hx => n4 x (n2 x hx)⟩
        · intro L hL hwL hne
          rcases List.mem_cons.1 hL with rfl | hL
          · obtain ⟨nb0, n1, n2⟩ := c8 hne
            obtain ⟨nb', n3, n4⟩ := i3 _ n2
            exact ⟨nb', n3, n4 _ ((mem_setInsert _ _ _).2 (Or.inr rfl))⟩
          · rw [← c1] at hne
            exact i4 L hL hwL hne
    · simp only [hw, and_false, false_and, reduceCtorEq, ↓reduceIte] at hr
      obtain ⟨i1, i2, ⟨m', j1, j2, j3, j4⟩, i3, i4⟩ := ih F F' m hm hs hr
      refine ⟨i1, i2, ⟨m', j1, j2, ?_, ?_⟩, i3, ?_⟩
      · intro l hl
        simp only [List.map_cons, List.mem_cons, not_or] at hl
        exact j3 l hl.2
      · intro hnd L hL hnone
        simp only [List.map_cons, List.nodup_cons] at hnd
        rcases List.mem_cons.1 hL with rfl | hL
        · rw [j3 _ hnd.1, hnone]
          simp [hw]
        · exact j4 hnd.2 L hL hnone
      · intro L hL hwL hne
        rcases List.mem_cons.1 hL with rfl | hL
        · exact absurd hwL hw
        · exact i4 L hL hwL hne

end ClassifierLemmas

section ClassifierClaims
variable {G : Type}

/-- C9: the contract violations of the classifiers are raised for every face,
every line graph, every edge table and every buffer distance, and the face is
left as it was before the call (in particular its neighbour set, its
neighbour index and its line-neighbour map):
`computeLineStringNeighbours` raises when the relation is `TOUCHES` and the
contact length is 0; `computeNeighboursWithBarriers` raises when the relation
is `TOUCHES` and the contact length is 0, and raises when the relation is
`INTERSECTS`, for every contact length. -/
theorem classifiers_raise_before_any_change (k : Kernel G) (h : EdgeHeap G)
    (F : PolygonEntity G) (Graph : LineStringGraph G) (BufferDistance : ℚ) :
    F.computeLineStringNeighbours k h Graph .TOUCHES BufferDistance 0
      = (.error (.exception "PolygonEntity::computeLineStringNeighbours"
          "ContactLength must be greater than 0 for LandRTools::TOUCHES relationship"), F) ∧
    F.computeNeighboursWithBarriers k h Graph .TOUCHES BufferDistance 0
      = (.error (.exception "PolygonEntity::computeNeighboursWithBarriers"
          "ContactLength must be greater than 0 for LandRTools::Relationship TOUCHES "), F) ∧
    ∀ ContactLength : ℚ,
      F.computeNeighboursWithBarriers k h Graph .INTERSECTS BufferDistance ContactLength
        = (.error (.exception "PolygonEntity::computeNeighboursWithBarriers"
            "LandRTools::Relationship INTERSECTS is not allowed"), F) := by
  refine ⟨?_, ?_, ?_⟩
  · simp [PolygonEntity.computeLineStringNeighbours]
  · simp [PolygonEntity.computeNeighboursWithBarriers]
  · intro c
    simp [PolygonEntity.computeNeighboursWithBarriers]

/-- C10 as amended: after a call of `computeLineStringNeighbours` that returns,
with the relation `CONTAINS`, on a line graph whose entities are distinct
objects: a line entity `L` that lies within `buffer(boundary(F), d)` and within
`buffer(E, d)` for some edge `E` of `F` is a key of the line-neighbour map and
a member of the neighbour set, and the edge recorded with it is the first edge
`e` of `F`, in the order of `m_PolyEdges`, with `L` within `buffer(e, d)`; a
line entity that does not lie within `buffer(boundary(F), d)`, or lies within
the buffer of no single edge of `F`, is not a key of the map. -/
theorem computeLineStringNeighbours_contains_records_first_edge (k : Kernel G)
    (h : EdgeHeap G) (F F' : PolygonEntity G) (Graph : LineStringGraph G)
    (BufferDistance ContactLength : ℚ)
    (hn : (Graph.entities.map (fun L => L.ptr)).Nodup)
    (hr : F.computeLineStringNeighbours k h Graph .CONTAINS BufferDistance ContactLength
      = (.ok (), F')) :
    F'.m_PolyEdges = F.m_PolyEdges ∧ F'.mp_Polygon = F.mp_Polygon ∧
    ∃ m, F'.mp_LineStringNeighboursMap = some m ∧
      ∀ L ∈ Graph.entities,
        (k.within L.line (k.buffer (k.getBoundary F.mp_Polygon) BufferDistance) = true →
          ∀ e, (edgesAround k h BufferDistance L.line F.m_PolyEdges).head? = some e →
            lineEdgeOf m L.ptr = some (some e) ∧
            (∃ nb, F'.mp_Neighbours = some nb ∧ EntityRef.line L.ptr ∈ nb) ∧
            e ∈ F.m_PolyEdges ∧
            ∃ E, h.read e = some E ∧
              k.within L.line (k.buffer E.line BufferDistance) = true) ∧
        (k.within L.line (k.buffer (k.getBoundary F.mp_Polygon) BufferDistance) = false ∨
          edgesAround k h BufferDistance L.line F.m_PolyEdges = [] →
          lineEdgeOf m L.ptr = none) := by
  unfold PolygonEntity.computeLineStringNeighbours at hr
  have hc : ¬ (Relationship.CONTAINS = Relationship.TOUCHES ∧ ContactLength = 0) :=
    fun hc => by cases hc.1
  simp only [hc, ↓reduceIte] at hr
  generalize hen : F.ensureNeighbours h = r at hr
  obtain ⟨o, F1⟩ := r
  cases o with
  | error f => simp at hr
  | ok u =>
    simp only at hr
    obtain ⟨e1, e2⟩ := ensureNeighbours_ok h F F1 hen
    obtain ⟨i1, i2, ⟨m', j1, j2, j3, j4⟩, i3, i4⟩ :=
      lineEntitiesLoop_contains k h BufferDistance ContactLength _ Graph.entities _ F' []
        rfl List.Pairwise.nil hr
    simp only [PolygonEntity.getBufferedBoundary] at j4 i4
    simp only [e1, e2] at i1 i2 j4 i4
    refine ⟨i1, i2, m', j1, ?_⟩
    intro L hL
    have hlook := j4 hn L hL rfl
    constructor
    · intro hw e he
      rw [hw] at hlook
      simp only [↓reduceIte, he, Option.map_some'] at hlook
      have hmem : e ∈ edgesAround k h BufferDistance L.line F.m_PolyEdges :=
        List.mem_of_mem_head? he
      have hne : edgesAround k h BufferDistance L.line F.m_PolyEdges ≠ [] :=
        List.ne_nil_of_mem hmem
      refine ⟨hlook, i4 L hL hw hne, ?_⟩
      unfold edgesAround at hmem
      rw [List.mem_filter] at hmem
      refine ⟨hmem.1, ?_⟩
      cases hread : h.read e with
      | none => simp [hread] at hmem
      | some E => exact ⟨E, rfl, by simpa [hread] using hmem.2⟩
    · intro hor
      rcases hor with hw | hnil
      · rw [hlook, hw]
        simp
      · rw [hlook, hnil]
        simp

end ClassifierClaims

namespace Lattice

/-- C10, counterexample.  The face of the square at `(0, 0)` in the graph of
the two squares has two edges, the side shared with the other square and the
three other sides.  A line along the shared side and the bottom side lies
within the buffered boundary of the face, but within the buffer of neither
edge: the call with `CONTAINS` returns, the line-neighbour map is empty and the
line entity is not in the neighbour set. -/
theorem line_within_buffered_boundary_not_recorded :
    westFace ∈ twoSquares.m_Entities ∧ westFace.mp_Polygon = square 0 0 ∧
    cornerGraph.entities.map (fun L => L.line) = [cornerLine] ∧
    kernel.within cornerLine (kernel.buffer (kernel.getBoundary westFace.mp_Polygon) (1 / 10))
      = true ∧
    (westFace.computeLineStringNeighbours kernel twoSquares.heap cornerGraph
      .CONTAINS (1 / 10) 0).1 = .ok () ∧
    (westFace.computeLineStringNeighbours kernel twoSquares.heap cornerGraph
      .CONTAINS (1 / 10) 0).2.mp_LineStringNeighboursMap = some [] ∧
    (westFace.computeLineStringNeighbours kernel twoSquares.heap cornerGraph
      .CONTAINS (1 / 10) 0).2.mp_Neighbours = some [.face 1] := by
  decide!

/-- Witness of C10 as amended: the face of the square at `(0, 0)` and the line
graph made of its side shared with the other square and of its bottom side.
The shared side is the edge 1 of the face and is recorded with it; the bottom
side is part of the edge 2, the three other sides, and is recorded with it. -/
theorem computeLineStringNeighbours_contains_records_first_edge_witness :
    westFace.computeLineStringNeighbours kernel twoSquares.heap sidesGraph .CONTAINS (1 / 10) 0
      = (.ok (), westFaceClassified) ∧
    westFaceClassified.mp_LineStringNeighboursMap = some [(0, some 1), (1, some 2)] ∧
    westFaceClassified.mp_Neighbours = some [.face 1, .line 0, .line 1] ∧
    westFaceClassified.m_PolyEdges = westFace.m_PolyEdges ∧
    westFaceClassified.mp_Polygon = westFace.mp_Polygon ∧
    ∃ m, westFaceClassified.mp_LineStringNeighboursMap = some m ∧
      ∀ L ∈ sidesGraph.entities,
        (kernel.within L.line (kernel.buffer (kernel.getBoundary westFace.mp_Polygon) (1 / 10))
            = true →
          ∀ e, (edgesAround kernel twoSquares.heap (1 / 10) L.line westFace.m_PolyEdges).head?
              = some e →
            lineEdgeOf m L.ptr = some (some e) ∧
            (∃ nb, westFaceClassified.mp_Neighbours = some nb ∧ EntityRef.line L.ptr ∈ nb) ∧
            e ∈ westFace.m_PolyEdges ∧
            ∃ E, twoSquares.heap.read e = some E ∧
              kernel.within L.line (kernel.buffer E.line (1 / 10)) = true) ∧
        (kernel.within L.line (kernel.buffer (kernel.getBoundary westFace.mp_Polygon) (1 / 10))
            = false ∨
          edgesAround kernel twoSquares.heap (1 / 10) L.line westFace.m_PolyEdges = [] →
          lineEdgeOf m L.ptr = none) :=
  have hr : westFace.computeLineStringNeighbours kernel twoSquares.heap sidesGraph
      .CONTAINS (1 / 10) 0 = (.ok (), westFaceClassified) := Prod.ext (by decide!) rfl
  ⟨hr, by decide!, by decide!,
    computeLineStringNeighbours_contains_records_first_edge kernel twoSquares.heap westFace
      westFaceClassified sidesGraph (1 / 10) 0 (by decide) hr⟩

end Lattice

section SnapLemmas
variable {G : Type}

/-- The test of the snapping loop holds exactly when the distance between the
two vertices is positive and below the threshold. -/
theorem snapTest_iff (Threshold : ℚ) (v w : Coordinate) :
    snapTest Threshold v w = true ↔
      0 < v.distanceSq w ∧ 0 < Threshold ∧ v.distanceSq w < Threshold * Threshold := by
  unfold snapTest Coordinate.distancePositive Coordinate.distanceBelow Coordinate.equals
  simp only [Bool.and_eq_true, Bool.not_eq_true', decide_eq_false_iff_not, decide_eq_true_eq]
  constructor
  · rintro ⟨⟨_, h1⟩, h2, h3⟩
    exact ⟨h1, h2, h3⟩
  · rintro ⟨h1, h2, h3⟩
    refine ⟨⟨?_, h1⟩, h2, h3⟩
    rintro ⟨hx, hy⟩
    unfold Coordinate.distanceSq at h1
    rw [hx, hy] at h1
    simp at h1

/-- The vector `vCoor`: the coordinates of the polygons of the collection that
are not equal to the current geometry. -/
theorem mem_otherVertices (k : VertexKernel G) (Current : G) :
    ∀ (Geom : List G) (vCoor : List Coordinate) (w : Coordinate),
      w ∈ otherVertices k Current Geom vCoor ↔
        w ∈ vCoor ∨ ∃ g ∈ Geom, k.equals g Current = false ∧ k.isPolygon g = true ∧
          w ∈ k.getCoordinates g := by
  intro Geom
  induction Geom with
  | nil =>
    intro vCoor w
    simp [otherVertices]
  | cons g rest ih =>
    intro vCoor w
    unfold otherVertices
    by_cases he : k.equals g Current = true
    · simp only [he, Bool.not_true, Bool.false_eq_true, ↓reduceIte]
      rw [ih]
      simp [he]
    · have he' : k.equals g Current = false := by simpa using he
      by_cases hp : k.isPolygon g = true
      · simp only [he', Bool.not_false, ↓reduceIte, hp]
        rw [ih]
        simp only [List.mem_append, List.mem_cons, exists_eq_or_imp, he', hp, true_and]
        tauto
      · have hp' : k.isPolygon g = false := by simpa using hp
        simp only [he', Bool.not_false, ↓reduceIte, hp', Bool.false_eq_true]
        rw [ih]
        simp [hp']

/-- The loop over `h`: the vertex of index `j` ends on the last vertex of
`vCoor` that passes the test, when there is one. -/
theorem snapInnerLoop_eq (Threshold : ℚ) (v : Coordinate) (j : Nat) :
    ∀ (ws CoordSeq : List Coordinate),
      snapInnerLoop Threshold v j ws CoordSeq
        = (match (ws.filter (snapTest Threshold v)).getLast? with
           | some w => CoordSeq.set j w
           | none => CoordSeq) := by
  intro ws
  induction ws with
  | nil => intro cs; rfl
  | cons w rest ih =>
    intro cs
    unfold snapInnerLoop
    by_cases ht : snapTest Threshold v w = true
    · simp only [ht, ↓reduceIte, List.filter_cons_of_pos]
      rw [ih]
      cases hl : (rest.filter (snapTest Threshold v)) with
      | nil => simp
      | cons a l =>
        rw [List.getLast?_cons_cons]
        cases hg : (a :: l).getLast? with
        | none => simp at hg
        | some w' => simp [List.set_set]
    · simp only [ht, Bool.false_eq_true, ↓reduceIte]
      rw [ih, List.filter_cons_of_neg ht]

/-- The loop over `j`: every vertex ends on the last vertex of `vCoor` that
passes the test against its original value, or keeps its value. -/
theorem snapOuterLoop_eq (Threshold : ℚ) (vCoor : List Coordinate) :
    ∀ (todo pre : List Coordinate),
      snapOuterLoop Threshold vCoor todo pre.length (pre ++ todo)
        = pre ++ todo.map (fun v => ((vCoor.filter (snapTest Threshold v)).getLast?).getD v) := by
  intro todo
  induction todo with
  | nil => intro pre; simp [snapOuterLoop]
  | cons v rest ih =>
    intro pre
    unfold snapOuterLoop
    rw [snapInnerLoop_eq]
    have hstep : (match (vCoor.filter (snapTest Threshold v)).getLast? with
        | some w => (pre ++ v :: rest).set pre.length w
        | none => pre ++ v :: rest)
        = (pre ++ [((vCoor.filter (snapTest Threshold v)).getLast?).getD v]) ++ rest := by
      cases (vCoor.filter (snapTest Threshold v)).getLast? with
      | none => simp
      | some w => simp
    rw [hstep]
    have := ih (pre ++ [((vCoor.filter (snapTest Threshold v)).getLast?).getD v])
    simp only [List.length_append, List.length_singleton] at this
    rw [this]
    simp

end SnapLemmas

section SnapClaims
variable {G : Type}

/-- C8 as amended: in the snapping step of `snapPolygonVertices` for one
feature with the threshold `T`, the vertices compared with the vertices of the
feature are those of the polygons of the collection that are not equal
(kernel predicate `equals`) to the geometry of the feature.  The step builds a
coordinate sequence of the same length as that of the feature; a vertex `v`
for which one of those vertices is at a distance in `(0, T)` is replaced by
the exact coordinates of such a vertex, the last one in the order of the
collection; a vertex for which none is keeps its coordinates. -/
theorem snapStep_moves_vertex_onto_unequal_geometry (k : VertexKernel G) (Threshold : ℚ)
    (Geom : List G) (CurrentPolygon : G) :
    (snapStep k Threshold Geom CurrentPolygon).length
      = (k.getCoordinates CurrentPolygon).length ∧
    (∀ w, w ∈ otherVertices k CurrentPolygon Geom [] ↔
      ∃ g ∈ Geom, k.equals g CurrentPolygon = false ∧ k.isPolygon g = true ∧
        w ∈ k.getCoordinates g) ∧
    ∀ (j : Nat) (v : Coordinate), (k.getCoordinates CurrentPolygon)[j]? = some v →
      (snapStep k Threshold Geom CurrentPolygon)[j]?
        = some (((otherVertices k CurrentPolygon Geom []).filter
            (snapTest Threshold v)).getLast?.getD v) ∧
      ((∃ w ∈ otherVertices k CurrentPolygon Geom [],
          0 < v.distanceSq w ∧ 0 < Threshold ∧ v.distanceSq w < Threshold * Threshold) →
        ∃ w ∈ otherVertices k CurrentPolygon Geom [],
          (0 < v.distanceSq w ∧ 0 < Threshold ∧ v.distanceSq w < Threshold * Threshold) ∧
          (snapStep k Threshold Geom CurrentPolygon)[j]? = some w) ∧
      ((∀ w ∈ otherVertices k CurrentPolygon Geom [],
          ¬ (0 < v.distanceSq w ∧ 0 < Threshold ∧ v.distanceSq w < Threshold * Threshold)) →
        (snapStep k Threshold Geom CurrentPolygon)[j]? = some v) := by
  have hstep : snapStep k Threshold Geom CurrentPolygon
      = (k.getCoordinates CurrentPolygon).map (fun v =>
          ((otherVertices k CurrentPolygon Geom []).filter
            (snapTest Threshold v)).getLast?.getD v) := by
    unfold snapStep
    have := snapOuterLoop_eq Threshold (otherVertices k CurrentPolygon Geom [])
      (k.getCoordinates CurrentPolygon) []
    simpa using this
  refine ⟨by rw [hstep, List.length_map], ?_, ?_⟩
  · intro w
    rw [mem_otherVertices]
    simp
  · intro j v hv
    have hj : (snapStep k Threshold Geom CurrentPolygon)[j]?
        = some (((otherVertices k CurrentPolygon Geom []).filter
            (snapTest Threshold v)).getLast?.getD v) := by
      rw [hstep, List.getElem?_map, hv]
      rfl
    refine ⟨hj, ?_, ?_⟩
    · rintro ⟨w, hw, hd⟩
      have hmem : w ∈ (otherVertices k CurrentPolygon Geom []).filter (snapTest Threshold v) :=
        List.mem_filter.2 ⟨hw, (snapTest_iff Threshold v w).2 hd⟩
      cases hl : ((otherVertices k CurrentPolygon Geom []).filter
          (snapTest Threshold v)).getLast? with
      | none =>
        rw [List.getLast?_eq_none_iff] at hl
        rw [hl] at hmem
        cases hmem
      | some w' =>
        have hw' := List.mem_of_getLast?_eq_some hl
        rw [List.mem_filter] at hw'
        refine ⟨w', hw'.1, (snapTest_iff Threshold v w').1 hw'.2, ?_⟩
        rw [hj, hl]
        rfl
    · intro hall
      have hnil : (otherVertices k CurrentPolygon Geom []).filter (snapTest Threshold v) = [] := by
        rw [List.filter_eq_nil_iff]
        intro w hw ht
        exact hall w hw ((snapTest_iff Threshold v w).1 ht)
      rw [hj, hnil]
      rfl

end SnapClaims

namespace Plane

/-- C8, counterexample.  Two features have the same thin triangle as geometry.
In the snapping step of the first with the threshold 0.01, its vertex `(0, 0)`
has the vertex `(0.005, 0)` of the other feature at the distance 0.005, yet it
keeps its coordinates: the step leaves the coordinate sequence as it is. -/
theorem snapStep_ignores_features_with_equal_geometry :
    [sliver, sliver][1]? = some sliver ∧
    kernel.getCoordinates sliver = [⟨0, 0⟩, ⟨1 / 200, 0⟩, ⟨1, 1⟩, ⟨0, 0⟩] ∧
    0 < Coordinate.distanceSq ⟨0, 0⟩ ⟨1 / 200, 0⟩ ∧
    Coordinate.distanceSq ⟨0, 0⟩ ⟨1 / 200, 0⟩ < (1 / 100) * (1 / 100) ∧
    snapStep kernel (1 / 100) [sliver, sliver] sliver
      = [⟨0, 0⟩, ⟨1 / 200, 0⟩, ⟨1, 1⟩, ⟨0, 0⟩] := by
  decide!

/-- The scenario of C8: with the threshold 0.01, the vertex `(1, 0)` of the
triangle, 0.005 away from the vertex `(1.005, 0)` of its neighbour, ends
exactly on it; the vertex `(0, 1)`, 0.02 away from the vertex `(0, 1.02)` of
the neighbour, is unmoved, as are the vertices at `(0, 0)`. -/
theorem snapStep_moves_vertex_onto_unequal_geometry_witness :
    Coordinate.distanceSq ⟨1, 0⟩ ⟨201 / 200, 0⟩ = (1 / 200) * (1 / 200) ∧
    Coordinate.distanceSq ⟨0, 1⟩ ⟨0, 51 / 50⟩ = (1 / 50) * (1 / 50) ∧
    snapStep kernel (1 / 100) [triangle, neighbour] triangle
      = [⟨0, 0⟩, ⟨201 / 200, 0⟩, ⟨0, 1⟩, ⟨0, 0⟩] ∧
    ((snapStep kernel (1 / 100) [triangle, neighbour] triangle).length
      = (kernel.getCoordinates triangle).length ∧
    (∀ w, w ∈ otherVertices kernel triangle [triangle, neighbour] [] ↔
      ∃ g ∈ [triangle, neighbour], kernel.equals g triangle = false ∧
        kernel.isPolygon g = true ∧ w ∈ kernel.getCoordinates g) ∧
    ∀ (j : Nat) (v : Coordinate), (kernel.getCoordinates triangle)[j]? = some v →
      (snapStep kernel (1 / 100) [triangle, neighbour] triangle)[j]?
        = some (((otherVertices kernel triangle [triangle, neighbour] []).filter
            (snapTest (1 / 100) v)).getLast?.getD v) ∧
      ((∃ w ∈ otherVertices kernel triangle [triangle, neighbour] [],
          0 < v.distanceSq w ∧ 0 < (1 / 100 : ℚ) ∧
            v.distanceSq w < (1 / 100 : ℚ) * (1 / 100)) →
        ∃ w ∈ otherVertices kernel triangle [triangle, neighbour] [],
          (0 < v.distanceSq w ∧ 0 < (1 / 100 : ℚ) ∧
            v.distanceSq w < (1 / 100 : ℚ) * (1 / 100)) ∧
          (snapStep kernel (1 / 100) [triangle, neighbour] triangle)[j]? = some w) ∧
      ((∀ w ∈ otherVertices kernel triangle [triangle, neighbour] [],
          ¬ (0 < v.distanceSq w ∧ 0 < (1 / 100 : ℚ) ∧
            v.distanceSq w < (1 / 100 : ℚ) * (1 / 100))) →
        (snapStep kernel (1 / 100) [triangle, neighbour] triangle)[j]? = some v)) :=
  ⟨by decide!, by decide!, by decide!,
    snapStep_moves_vertex_onto_unequal_geometry kernel (1 / 100) [triangle, neighbour] triangle⟩

end Plane

section EntityClaims
variable {G : Type}

/-- C18: the outcome of `removeEdge` is an error exactly when the edge is not in
the edge list of the face; the error is then the exception of `removeEdge`,
and the face and the edge table are left as they were: same edge list,
neighbour index and line-neighbour map not reset, edge not released. -/
theorem removeEdge_raises_iff_not_member (F : PolygonEntity G) (h : EdgeHeap G) (Edge : EdgeId) :
    ((∃ f, (F.removeEdge h Edge).1 = .error f) ↔ Edge ∉ F.m_PolyEdges) ∧
    (Edge ∉ F.m_PolyEdges →
      F.removeEdge h Edge
        = (.error (.exception "PolygonEntity::removeEdge" "Edge doesn't exist in Edge vector."),
           (F, h))) := by
  unfold PolygonEntity.removeEdge
  by_cases hm : Edge ∈ F.m_PolyEdges
  · simp [hm]
  · simp [hm]

/-- C19: after `addEdge`, the edge list of the face is the previous list with
the edge appended; the neighbour index and the line-neighbour map are reset;
the object of the edge carries the face as its last face, the other edge
objects are untouched; and the next call of `neighboursAndEdges`, on any edge
table, computes the neighbour index from the new edge list. -/
theorem addEdge_appends_and_invalidates (F : PolygonEntity G) (h : EdgeHeap G) (Edge : EdgeId) :
    (F.addEdge h Edge).1.m_PolyEdges = F.m_PolyEdges ++ [Edge] ∧
    (F.addEdge h Edge).1.mp_NeighboursMap = none ∧
    (F.addEdge h Edge).1.mp_LineStringNeighboursMap = none ∧
    (F.addEdge h Edge).1.ptr = F.ptr ∧
    (F.addEdge h Edge).1.mp_Polygon = F.mp_Polygon ∧
    (∀ X, h.objects[Edge]? = some X →
      (F.addEdge h Edge).2.objects[Edge]? = some (X.addFace F.ptr) ∧
      (X.addFace F.ptr).m_Faces = X.m_Faces ++ [F.ptr] ∧ (X.addFace F.ptr).line = X.line) ∧
    (∀ e : EdgeId, e ≠ Edge → (F.addEdge h Edge).2.objects[e]? = h.objects[e]?) ∧
    (F.addEdge h Edge).2.freed = h.freed ∧
    ∀ h' : EdgeHeap G,
      ((F.addEdge h Edge).1.neighboursAndEdges h').1
        = (match (computeNeighboursLoop h' F.ptr (F.m_PolyEdges ++ [Edge]) ([], [])).1 with
           | .ok () =>
             .ok (computeNeighboursLoop h' F.ptr (F.m_PolyEdges ++ [Edge]) ([], [])).2.2
           | .error f => .error f) := by
  refine ⟨rfl, rfl, rfl, rfl, rfl, ?_, ?_, rfl, ?_⟩
  · intro X hX
    refine ⟨?_, rfl, rfl⟩
    simp [PolygonEntity.addEdge, EdgeHeap.update, List.getElem?_modify, hX]
  · intro e he
    simp only [PolygonEntity.addEdge, EdgeHeap.update, List.getElem?_modify]
    cases h.objects[e]? with
    | none => rfl
    | some X => simp [Ne.symm he]
  · intro h'
    simp only [PolygonEntity.neighboursAndEdges, PolygonEntity.ensureNeighbours,
      PolygonEntity.addEdge, PolygonEntity.computeNeighbours]
    generalize computeNeighboursLoop h' F.ptr (F.m_PolyEdges ++ [Edge]) ([], []) = r
    obtain ⟨o, nb, m⟩ := r
    cases o with
    | error f => rfl
    | ok u => rfl

/-- C20 as amended: when the edge is in the edge list of the face, `removeEdge`
returns; the first occurrence of the edge is taken out of the list and every
other entry is kept in its previous relative order; the edge no longer occurs
in the list when it occurred once; the neighbour index and the line-neighbour
map are reset and the edge is released. -/
theorem removeEdge_erases_first_occurrence (F : PolygonEntity G) (h : EdgeHeap G)
    (Edge : EdgeId) (hm : Edge ∈ F.m_PolyEdges) :
    ∃ F' h', F.removeEdge h Edge = (.ok (), (F', h')) ∧
      (∃ before after, F.m_PolyEdges = before ++ Edge :: after ∧ Edge ∉ before ∧
        F'.m_PolyEdges = before ++ after) ∧
      (F.m_PolyEdges.count Edge = 1 → Edge ∉ F'.m_PolyEdges) ∧
      F'.mp_NeighboursMap = none ∧ F'.mp_LineStringNeighboursMap = none ∧
      F'.ptr = F.ptr ∧ F'.mp_Polygon = F.mp_Polygon ∧
      h'.objects = h.objects ∧ h'.freed = Edge :: h.freed := by
  refine ⟨{ F with m_PolyEdges := F.m_PolyEdges.erase Edge, mp_NeighboursMap := none,
                   mp_LineStringNeighboursMap := none }, h.delete Edge,
    by simp [PolygonEntity.removeEdge, hm], ?_, ?_, rfl, rfl, rfl, rfl, rfl, rfl⟩
  · obtain ⟨l1, l2, h1, h2, h3⟩ := List.exists_erase_eq hm
    exact ⟨l1, l2, h2, h1, h3⟩
  · intro hc
    have : (F.m_PolyEdges.erase Edge).count Edge = 0 := by
      rw [List.count_erase_self, hc]
    exact List.count_eq_zero.1 this

end EntityClaims

namespace Lattice

/-- C20, counterexample: the edge 0 was attached twice to the face; `removeEdge`
returns and the edge still occurs in the edge list of the face. -/
theorem removeEdge_leaves_second_occurrence :
    twiceAttached.1.m_PolyEdges = [0, 0] ∧
    (twiceAttached.1.removeEdge twiceAttached.2 0).1 = .ok () ∧
    (twiceAttached.1.removeEdge twiceAttached.2 0).2.1.m_PolyEdges = [0] ∧
    (0 : EdgeId) ∈ (twiceAttached.1.removeEdge twiceAttached.2 0).2.1.m_PolyEdges := by
  decide!

/-- Witness of C20 as amended: the edge 1 of the face of the square at `(0, 0)`
in the graph of the two squares, whose edge list is `[1, 2]`. -/
theorem removeEdge_erases_first_occurrence_witness :
    westFace.m_PolyEdges = [1, 2] ∧
    ∃ F' h', westFace.removeEdge twoSquares.heap 1 = (.ok (), (F', h')) ∧
      (∃ before after, westFace.m_PolyEdges = before ++ 1 :: after ∧ (1 : EdgeId) ∉ before ∧
        F'.m_PolyEdges = before ++ after) ∧
      (westFace.m_PolyEdges.count 1 = 1 → (1 : EdgeId) ∉ F'.m_PolyEdges) ∧
      F'.mp_NeighboursMap = none ∧ F'.mp_LineStringNeighboursMap = none ∧
      F'.ptr = westFace.ptr ∧ F'.mp_Polygon = westFace.mp_Polygon ∧
      h'.objects = twoSquares.heap.objects ∧ h'.freed = 1 :: twoSquares.heap.freed :=
  ⟨by decide!, removeEdge_erases_first_occurrence westFace twoSquares.heap 1 (by decide!)⟩

end Lattice

section RegistryLemmas
variable {G : Type}

theorem findEdgeLoop_error (k : Kernel G) (h : EdgeHeap G) (S : G) (edges : List EdgeId)
    (f : Fault) (hf : findEdgeLoop k h S edges = .error f) :
    ∃ what, f = .undefinedBehaviour what := by
  induction edges with
  | nil => simp [findEdgeLoop] at hf
  | cons x rest ih =>
    unfold findEdgeLoop at hf
    cases hx : h.read x with
    | none =>
      simp only [hx, Except.error.injEq] at hf
      exact ⟨_, hf.symm⟩
    | some X =>
      simp only [hx] at hf
      by_cases hr : k.relate S X.line "1********" = true
      · simp [hr] at hf
      · simp only [hr, Bool.false_eq_true, ↓reduceIte] at hf
        exact ih hf

theorem createEdge_error (k : Kernel G) (gr : PolygonGraph G) (L : G) (f : Fault)
    (gr1 : PolygonGraph G) (hf : gr.createEdge k L = (.error f, gr1)) :
    ∃ what, f = .undefinedBehaviour what := by
  unfold PolygonGraph.createEdge at hf
  by_cases he : k.isEmpty L = true
  · simp [he] at hf
  · simp only [he, Bool.false_eq_true, ↓reduceIte] at hf
    cases h0 : (removeRepeatedPoints (k.getCoordinatesRO L))[0]? with
    | none =>
      simp only [h0, Prod.mk.injEq, Except.error.injEq] at hf
      exact ⟨_, hf.1.symm⟩
    | some c0 =>
      cases h1 : (removeRepeatedPoints (k.getCoordinatesRO L))[1]? with
      | none =>
        simp only [h0, h1, Prod.mk.injEq, Except.error.injEq] at hf
        exact ⟨_, hf.1.symm⟩
      | some c1 => simp [h0, h1] at hf

theorem createEdgesLoop_error (k : Kernel G) (pieces : List G) :
    ∀ (st st' : PolygonGraph G × PolygonEntity G) (f : Fault),
      createEdgesLoop k pieces st = (.error f, st') → ∃ what, f = .undefinedBehaviour what := by
  induction pieces with
  | nil =>
    intro st st' f hf
    simp [createEdgesLoop] at hf
  | cons p rest ih =>
    intro st st' f hf
    obtain ⟨gr, E⟩ := st
    unfold createEdgesLoop at hf
    generalize hc : gr.createEdge k p = c at hf
    obtain ⟨o, gr1⟩ := c
    cases o with
    | error g =>
      simp only [Prod.mk.injEq, Except.error.injEq] at hf
      obtain ⟨rfl, -⟩ := hf
      exact createEdge_error k gr p g gr1 hc
    | ok oe =>
      cases oe with
      | none => exact ih _ _ _ hf
      | some e => exact ih _ _ _ hf

/-- The exceptions of `removeSegment`: no edge of the entity intersects the
segment, or the difference of the old edge and the segment is not empty and
not line-typed. -/
theorem removeSegment_exception_iff (k : Kernel G) (gr : PolygonGraph G)
    (Entity : PolygonEntity G) (Segment : G) :
    (∃ location message, (PolygonGraph.removeSegment k gr Entity Segment).1
        = .error (.exception location message)) ↔
      (Entity.findEdgeLineIntersectingWith k gr.heap Segment = .ok none ∨
       ∃ OldEdge Old, Entity.findEdgeLineIntersectingWith k gr.heap Segment = .ok (some OldEdge) ∧
         gr.heap.read OldEdge = some Old ∧
         k.isEmpty (k.difference Old.line Segment) = false ∧
         k.getDimension (k.difference Old.line Segment) ≠ Dimension.L) := by
  unfold PolygonGraph.removeSegment
  cases hfind : Entity.findEdgeLineIntersectingWith k gr.heap Segment with
  | error f =>
    obtain ⟨w, rfl⟩ := findEdgeLoop_error k gr.heap Segment Entity.m_PolyEdges f hfind
    simp
  | ok oe =>
    cases oe with
    | none => simp
    | some OldEdge =>
      have hmem : OldEdge ∈ Entity.m_PolyEdges := by
        obtain ⟨pre, post, E, hsplit, -⟩ :=
          (findEdgeLoop_some k gr.heap Segment Entity.m_PolyEdges OldEdge).1 hfind
        rw [hsplit]
        simp
      have hold : ∀ (st : PolygonGraph G × PolygonEntity G), OldEdge ∈ st.2.m_PolyEdges →
          ¬ ∃ location message, (removeOldEdge st OldEdge).1
            = .error (.exception location message) := by
        intro st hst
        simp [removeOldEdge, PolygonEntity.removeEdge, hst]
      cases hread : gr.heap.read OldEdge with
      | none => simp [hread]
      | some Old =>
        simp only [hread, reduceCtorEq, false_or, Except.ok.injEq, Option.some.injEq,
          exists_and_left, exists_eq_left', Option.some.injEq]
        by_cases hemp : k.isEmpty (k.difference Old.line Segment) = true
        · simp only [hemp, Bool.not_true, Bool.false_eq_true, ↓reduceIte, false_and,
            exists_false, iff_false, reduceCtorEq]
          exact hold (gr, Entity) hmem
        · have hemp' : k.isEmpty (k.difference Old.line Segment) = false := by simpa using hemp
          simp only [hemp', Bool.not_false, ↓reduceIte, true_and]
          by_cases hdim : k.getDimension (k.difference Old.line Segment) = Dimension.L
          · simp only [hdim, ↓reduceIte, ne_eq, not_true_eq_false, and_false, exists_false,
              iff_false]
            cases hmerge : getMergedLineStringsFromGeometry k (k.difference Old.line Segment) with
            | none => simp
            | some DiffGeoms =>
              simp only
              generalize hloop : createEdgesLoop k DiffGeoms (gr, Entity) = lp
              obtain ⟨o, gr1, E1⟩ := lp
              cases o with
              | error f =>
                obtain ⟨w, rfl⟩ := createEdgesLoop_error k DiffGeoms _ _ f hloop
                simp
              | ok u =>
                simp only
                apply hold
                obtain ⟨added, -, -, -, -, ids, hids⟩ :=
                  createEdgesLoop_spec k DiffGeoms gr Entity _ _ _ hloop
                simp only [hids, List.mem_append]
                exact Or.inl hmem
          · simp [hdim]

end RegistryLemmas

section RegistryLemmas2
variable {G : Type}

/-- The end of `addPolygon` registers the entity under its `SELF_ID` when it
returns and leaves the index of the identifiers as it was when it raises. -/
theorem addPolygonFinish_registry (k : Kernel G) (P : G) (st : Insertion G) r gr'
    (h : addPolygonFinish k P st = (r, gr')) :
    (∀ f, r = .error f → gr'.m_EntitiesBySelfId = st.graph.m_EntitiesBySelfId) ∧
    (∀ p, r = .ok p → ∃ id, st.NewEntity.mp_Feature.SELF_ID = some id ∧
      gr'.m_EntitiesBySelfId = mapAssign st.graph.m_EntitiesBySelfId id p) := by
  have hreg : ∀ (s : PolygonGraph G × PolygonEntity G),
      s.1.m_EntitiesBySelfId = st.graph.m_EntitiesBySelfId →
      s.2.mp_Feature = st.NewEntity.mp_Feature →
      (match s.2.getSelfId with
        | .error f => (Except.error f, s.1)
        | .ok id =>
          (Except.ok s.2.ptr,
           { s.1 with m_EntitiesBySelfId := mapAssign s.1.m_EntitiesBySelfId id s.2.ptr,
                      m_Entities := s.1.m_Entities ++ [s.2] })) = (r, gr') →
      (∀ f, r = .error f → gr'.m_EntitiesBySelfId = st.graph.m_EntitiesBySelfId) ∧
      (∀ p, r = .ok p → ∃ id, st.NewEntity.mp_Feature.SELF_ID = some id ∧
        gr'.m_EntitiesBySelfId = mapAssign st.graph.m_EntitiesBySelfId id p) := by
    intro s hs hfeat hm
    unfold PolygonEntity.getSelfId at hm
    rw [hfeat] at hm
    cases hid : st.NewEntity.mp_Feature.SELF_ID with
    | none =>
      simp only [hid, Prod.mk.injEq] at hm
      obtain ⟨rfl, rfl⟩ := hm
      exact ⟨fun _ _ => hs, fun p hp => by cases hp⟩
    | some id =>
      simp only [hid, Prod.mk.injEq] at hm
      obtain ⟨rfl, rfl⟩ := hm
      refine ⟨fun f hf => (by cases hf), fun p hp => ?_⟩
      simp only [Except.ok.injEq] at hp
      subst hp
      exact ⟨id, rfl, by rw [hs]⟩
  unfold addPolygonFinish at h
  simp only at h
  split at h
  · split at h
    · simp only [Prod.mk.injEq] at h
      obtain ⟨rfl, rfl⟩ := h
      exact ⟨fun _ _ => rfl, fun p hp => by cases hp⟩
    · rename_i NewLines _
      split at h
      · rename_i f s hloop
        obtain ⟨gx, Nx⟩ := s
        obtain ⟨own, hx, -, -, -, -⟩ := createEdgesLoop_spec k NewLines _ _ _ _ _ hloop
        simp only [Prod.mk.injEq] at h
        obtain ⟨rfl, rfl⟩ := h
        exact ⟨fun _ _ => hx.bySelfId, fun p hp => by cases hp⟩
      · rename_i s hloop
        obtain ⟨gx, Nx⟩ := s
        obtain ⟨own, hx, -, hs, -, -⟩ := createEdgesLoop_spec k NewLines _ _ _ _ _ hloop
        exact hreg (gx, Nx) hx.bySelfId hs.feature h
  · exact hreg (st.graph, st.NewEntity) rfl rfl h

/-- A call of `addPolygon` that raises leaves the index of the identifiers and
the list of the entity objects as they were; a call that returns registers the
new object, under the `SELF_ID` of its feature, and appends it. -/
theorem addPolygon_registry (k : Kernel G) (gr : PolygonGraph G) (P : G) (Feat : OGRFeature)
    r gr' (h : gr.addPolygon k P Feat = (r, gr')) :
    (∀ f, r = .error f → gr'.m_EntitiesBySelfId = gr.m_EntitiesBySelfId ∧
      gr'.m_Entities.map PolygonEntity.ptr = gr.m_Entities.map PolygonEntity.ptr) ∧
    (∀ p, r = .ok p → p = gr.allocatedEntities.length ∧
      ∃ id, Feat.SELF_ID = some id ∧
        gr'.m_EntitiesBySelfId = mapAssign gr.m_EntitiesBySelfId id p ∧
        gr'.m_Entities.map PolygonEntity.ptr = gr.m_Entities.map PolygonEntity.ptr ++ [p]) := by
  have hptrs : ∀ {l l' : List (PolygonEntity G)}, List.Forall₂ SameFace l l' →
      l'.map PolygonEntity.ptr = l.map PolygonEntity.ptr := by
    intro l l' hf
    induction hf with
    | nil => rfl
    | cons hr _ ih => simp [hr.ptr, ih]
  have hspec := addPolygon_spec k gr P Feat r gr' h
  unfold PolygonGraph.addPolygon at h
  simp only at h
  split at h
  · simp only [Prod.mk.injEq] at h
    obtain ⟨rfl, rfl⟩ := h
    exact ⟨fun _ _ => ⟨rfl, rfl⟩, fun p hp => by cases hp⟩
  · unfold PolygonGraph.addPolygonTry at h
    simp only at h
    obtain ⟨N, N', ents', added, hout⟩ := hspec
    · obtain ⟨hn, hs, -, -, -, hfa, -, hreg⟩ := hout
      have hptr : N.ptr = gr.allocatedEntities.length := by rw [hn]; rfl
      have hfeat : N.mp_Feature = Feat := by rw [hn]; rfl
      rw [← hn] at h
      generalize hl : entitiesLoop k gr.m_Entities _ = loop at h
      obtain ⟨r1, st1, ents1⟩ := loop
      obtain ⟨added1, hx, hsn, -, -, -, -, -⟩ := entitiesLoop_spec k _ _ _ _ _ hl
      simp only at hx hsn
      cases r1 with
      | error f =>
        simp only [Prod.mk.injEq] at h
        obtain ⟨rfl, rfl⟩ := h
        refine ⟨fun _ _ => ⟨hx.bySelfId, ?_⟩, fun p hp => by cases hp⟩
        rcases hreg with ⟨_, _, he⟩ | ⟨hr, _⟩
        · rw [he]
          exact hptrs hfa
        · cases hr
      | ok u =>
        simp only at h
        obtain ⟨e1, e2⟩ := addPolygonFinish_registry k P _ _ _ h
        simp only at e1 e2
        constructor
        · intro f hf
          refine ⟨(e1 f hf).trans hx.bySelfId, ?_⟩
          rcases hreg with ⟨_, _, he⟩ | ⟨hr, _⟩
          · rw [he]
            exact hptrs hfa
          · rw [hf] at hr
            cases hr
        · intro p hp
          rcases hreg with ⟨f, hf, _⟩ | ⟨hr, he, _⟩
          · rw [hp] at hf
            cases hf
          · rw [hp] at hr
            simp only [Except.ok.injEq] at hr
            obtain ⟨id, hid, hm⟩ := e2 p hp
            refine ⟨by rw [hr, hptr], id, ?_, ?_, ?_⟩
            · rw [← hfeat, ← hsn.feature]
              exact hid
            · rw [hm, hx.bySelfId]
            · rw [he, List.map_append, hptrs hfa]
              simp [hs.ptr, hr]

/-- The address returned by `getEntity` depends on the index of the identifiers
and on the addresses of the entity objects only. -/
theorem getEntity_ptr (gr : PolygonGraph G) (SelfId : Nat) :
    (gr.getEntity SelfId).map PolygonEntity.ptr
      = (match gr.m_EntitiesBySelfId.find? (fun p => p.1 = SelfId) with
         | some p => if p.2 ∈ gr.m_Entities.map PolygonEntity.ptr then some p.2 else none
         | none => none) := by
  unfold PolygonGraph.getEntity
  cases gr.m_EntitiesBySelfId.find? (fun p => decide (p.1 = SelfId)) with
  | none => rfl
  | some p =>
    simp only
    cases hf : gr.m_Entities.find? (fun F => decide (F.ptr = p.2)) with
    | none =>
      have := List.find?_eq_none.1 hf
      have hn : p.2 ∉ gr.m_Entities.map PolygonEntity.ptr := by
        intro hm
        obtain ⟨F, hF, hp⟩ := List.mem_map.1 hm
        exact this F hF (by simpa using hp)
      simp [hn]
    | some F =>
      have h1 := List.find?_some hf
      have h2 := List.mem_of_find?_eq_some hf
      simp only [decide_eq_true_eq] at h1
      have hm : p.2 ∈ gr.m_Entities.map PolygonEntity.ptr := List.mem_map.2 ⟨F, h2, h1⟩
      simp [hm, h1]

theorem sharedLinesLoop_append (k : Kernel G) (Ls1 Ls2 : List G) :
    ∀ (s s1 : Insertion G × PolygonEntity G),
      sharedLinesLoop k Ls1 s = (.ok (), s1) →
      sharedLinesLoop k (Ls1 ++ Ls2) s = sharedLinesLoop k Ls2 s1 := by
  induction Ls1 with
  | nil =>
    intro s s1 h
    obtain ⟨st, O⟩ := s
    simp only [sharedLinesLoop, Prod.mk.injEq, true_and] at h
    rw [← h]
    rfl
  | cons S rest ih =>
    intro s s1 h
    obtain ⟨st, O⟩ := s
    simp only [List.cons_append, sharedLinesLoop] at h ⊢
    generalize sharedLineStep k st O S = step at h ⊢
    obtain ⟨o, s2⟩ := step
    cases o with
    | error f => simp at h
    | ok u => exact ih _ _ h

theorem entitiesLoop_append (k : Kernel G) (l1 l2 : List (PolygonEntity G)) :
    ∀ (st st1 : Insertion G) (l1' : List (PolygonEntity G)),
      entitiesLoop k l1 st = (.ok (), (st1, l1')) →
      (entitiesLoop k (l1 ++ l2) st).1 = (entitiesLoop k l2 st1).1 := by
  induction l1 with
  | nil =>
    intro st st1 l1' h
    simp only [entitiesLoop, Prod.mk.injEq, true_and] at h
    rw [← h.1]
    rfl
  | cons O rest ih =>
    intro st st1 l1' h
    simp only [List.cons_append, entitiesLoop] at h ⊢
    generalize otherEntityStep k st O = step at h ⊢
    obtain ⟨o, st2, O2⟩ := step
    cases o with
    | error f => simp at h
    | ok u =>
      simp only at h ⊢
      generalize hr : entitiesLoop k rest st2 = lp at h
      obtain ⟨r3, st3, rest3⟩ := lp
      simp only [Prod.mk.injEq] at h
      obtain ⟨rfl, rfl, rfl⟩ := h
      have := ih st2 st3 rest3 hr
      generalize entitiesLoop k (rest ++ l2) st2 = a at this ⊢
      obtain ⟨ra, sa, la⟩ := a
      exact this

end RegistryLemmas2

section RegistryClaims
variable {G : Type}

/-- C16: the outcome of `removeSegment` is an exception in exactly two
situations: no edge of the entity intersects the segment, or the difference
between the old edge that was located and the segment is not empty and not
line-typed.  When a call of `removeSegment` made by `addPolygon` (for the
shared line `S` of the new entity with the entity `O`, after the entities
`before` and the shared lines `Ls1` were processed; the call is reached when
the polygon is valid or the feature has an identifier for the warning) ends
with an error, this error is the outcome of `addPolygon`.  After every call of `addPolygon` that
ends with an error, `getSize` is what it was before the call and `getEntity`
returns, for every identifier, the same entity object (the same address) as
before the call. -/
theorem removeSegment_errors_abort_addPolygon (k : Kernel G) :
    (∀ (gr : PolygonGraph G) (Entity : PolygonEntity G) (Segment : G),
      (∃ location message, (PolygonGraph.removeSegment k gr Entity Segment).1
          = .error (.exception location message)) ↔
        (Entity.findEdgeLineIntersectingWith k gr.heap Segment = .ok none ∨
         ∃ OldEdge Old,
           Entity.findEdgeLineIntersectingWith k gr.heap Segment = .ok (some OldEdge) ∧
           gr.heap.read OldEdge = some Old ∧
           k.isEmpty (k.difference Old.line Segment) = false ∧
           k.getDimension (k.difference Old.line Segment) ≠ Dimension.L)) ∧
    (∀ (gr : PolygonGraph G) (Polygon : G) (Feat : OGRFeature) (New O O2 O3 : PolygonEntity G)
        (before after before' : List (PolygonEntity G)) (st1 st2 : Insertion G)
        (Ls1 Ls2 : List G) (S : G) (e : EdgeId) (gr1 gr2 : PolygonGraph G) (f : Fault),
      New = PolygonEntity.ofFeature gr.allocatedEntities.length Polygon Feat →
      (k.isValid Polygon = true ∨ Feat.SELF_ID ≠ none) →
      gr.m_Entities = before ++ O :: after →
      entitiesLoop k before
        ⟨{ gr with allocatedEntities := gr.allocatedEntities ++ [Feat] }, New, []⟩
        = (.ok (), (st1, before')) →
      st1.NewEntity.computeLineIntersectionsWith k O = .ok (Ls1 ++ S :: Ls2) →
      sharedLinesLoop k Ls1 (st1, O) = (.ok (), (st2, O2)) →
      st2.graph.createEdge k S = (.ok (some e), gr1) →
      PolygonGraph.removeSegment k
        { gr1 with heap := (O2.addEdge (st2.NewEntity.addEdge gr1.heap e).2 e).2 }
        (O2.addEdge (st2.NewEntity.addEdge gr1.heap e).2 e).1 S = (.error f, (gr2, O3)) →
      (gr.addPolygon k Polygon Feat).1 = .error f) ∧
    (∀ (gr gr' : PolygonGraph G) (Polygon : G) (Feat : OGRFeature) (f : Fault),
      gr.addPolygon k Polygon Feat = (.error f, gr') →
      gr'.getSize = gr.getSize ∧
      ∀ SelfId, (gr'.getEntity SelfId).map PolygonEntity.ptr
        = (gr.getEntity SelfId).map PolygonEntity.ptr) := by
  refine ⟨removeSegment_exception_iff k, ?_, ?_⟩
  · intro gr Polygon Feat New O O2 O3 before after before' st1 st2 Ls1 Ls2 S e gr1 gr2 f
      hn hwarn hsplit hbefore hlines hls1 hce hrs
    have hstep : (sharedLineStep k st2 O2 S).1 = .error f := by
      unfold sharedLineStep
      simp only [hce, hrs]
    have hlines2 : (sharedLinesLoop k (Ls1 ++ S :: Ls2) (st1, O)).1 = .error f := by
      rw [sharedLinesLoop_append k Ls1 (S :: Ls2) _ _ hls1]
      simp only [sharedLinesLoop]
      generalize sharedLineStep k st2 O2 S = step at hstep
      obtain ⟨o, s⟩ := step
      simp only at hstep
      subst hstep
      rfl
    have hother : (otherEntityStep k st1 O).1 = .error f := by
      unfold otherEntityStep
      simp only [hlines]
      exact hlines2
    have hloop : (entitiesLoop k gr.m_Entities
        ⟨{ gr with allocatedEntities := gr.allocatedEntities ++ [Feat] }, New, []⟩).1
        = .error f := by
      generalize (⟨{ gr with allocatedEntities := gr.allocatedEntities ++ [Feat] }, New, []⟩ :
        Insertion G) = st0 at hbefore ⊢
      rw [hsplit, entitiesLoop_append k before (O :: after) _ _ _ hbefore]
      simp only [entitiesLoop]
      generalize otherEntityStep k st1 O = step at hother
      obtain ⟨o, s, O'⟩ := step
      simp only at hother
      subst hother
      rfl
    subst hn
    have hw : ∃ w, addPolygonWarning k Polygon
        (PolygonEntity.ofFeature gr.allocatedEntities.length Polygon Feat) = .ok w := by
      unfold addPolygonWarning
      rcases hwarn with hv | hid
      · exact ⟨none, by simp [hv]⟩
      · unfold PolygonEntity.getSelfId PolygonEntity.ofFeature
        cases hs : Feat.SELF_ID with
        | none => exact absurd hs hid
        | some id => exact ⟨if !k.isValid Polygon then some id else none, by
            cases k.isValid Polygon <;> simp [Except.map]⟩
    obtain ⟨w, hw⟩ := hw
    unfold PolygonGraph.addPolygon PolygonGraph.addPolygonTry
    simp only [hw]
    generalize entitiesLoop k gr.m_Entities _ = lp at hloop
    obtain ⟨o, s, ents⟩ := lp
    simp only at hloop
    subst hloop
    rfl
  · intro gr gr' Polygon Feat f h
    obtain ⟨h1, -⟩ := addPolygon_registry k gr Polygon Feat _ _ h
    obtain ⟨hb, hp⟩ := h1 f rfl
    constructor
    · have := congrArg List.length hp
      simpa [PolygonGraph.getSize] using this
    · intro SelfId
      rw [getEntity_ptr, getEntity_ptr, hb, hp]

end RegistryClaims

namespace Lattice

/-- A run of C16: with a kernel that reports the difference as not line-typed,
the insertion of the square at `(1, 0)` next to the square at `(0, 0)` reaches
`removeSegment` for the shared side, which raises its second exception; the
exception is the outcome of `addPolygon`, the size of the graph is still 1 and
no entity is found under the identifier 2. -/
theorem removeSegment_errors_abort_addPolygon_witness :
    (PolygonGraph.addPolygon areaKernel oneSquare (square 1 0) ⟨some 2⟩).1
      = .error (.exception "PolygonGraph::removeSegment"
          "Error when removing segment: difference geometry is not \"Line\" typed.") ∧
    (PolygonGraph.addPolygon areaKernel oneSquare (square 1 0) ⟨some 2⟩).2.getSize = 1 ∧
    ((PolygonGraph.addPolygon areaKernel oneSquare (square 1 0) ⟨some 2⟩).2.getEntity 2).isNone
      = true ∧
    ((PolygonGraph.addPolygon areaKernel oneSquare (square 1 0) ⟨some 2⟩).2.getSize
        = oneSquare.getSize ∧
      ∀ SelfId,
        ((PolygonGraph.addPolygon areaKernel oneSquare (square 1 0) ⟨some 2⟩).2.getEntity
            SelfId).map PolygonEntity.ptr
          = (oneSquare.getEntity SelfId).map PolygonEntity.ptr) :=
  have hrun : (PolygonGraph.addPolygon areaKernel oneSquare (square 1 0) ⟨some 2⟩).1
      = .error (.exception "PolygonGraph::removeSegment"
          "Error when removing segment: difference geometry is not \"Line\" typed.") :=
    (removeSegment_errors_abort_addPolygon areaKernel).2.1 oneSquare (square 1 0) ⟨some 2⟩
      eastFace loneFace loneFace
      (loneFace.addEdge (eastFace.addEdge
        (eastInsertion.graph.createEdge areaKernel sharedSide).2.heap 1).2 1).1
      [] [] [] eastInsertion eastInsertion [] [] sharedSide 1
      (eastInsertion.graph.createEdge areaKernel sharedSide).2
      { (eastInsertion.graph.createEdge areaKernel sharedSide).2 with
          heap := (loneFace.addEdge (eastFace.addEdge
            (eastInsertion.graph.createEdge areaKernel sharedSide).2.heap 1).2 1).2 }
      _ rfl (Or.inl (by decide!)) (by decide!) rfl (by decide!) rfl (Prod.ext (by decide!) rfl)
      (Prod.ext (by decide!) (Prod.ext rfl (by decide!)))
  ⟨hrun, by decide!, by decide!,
    (removeSegment_errors_abort_addPolygon areaKernel).2.2 oneSquare _ (square 1 0) ⟨some 2⟩ _
      (Prod.ext hrun rfl)⟩

end Lattice

section TouchesLemmas
variable {G : Type}

theorem lengthInterLoop_ok (k : Kernel G) :
    ∀ (gs : List G) (acc r : ℚ), lengthInterLoop k gs acc = .ok r →
      r = acc + (gs.map k.getLength).sum := by
  intro gs
  induction gs with
  | nil =>
    intro acc r h
    simp only [lengthInterLoop, Except.ok.injEq] at h
    simp [h]
  | cons g rest ih =>
    intro acc r h
    unfold lengthInterLoop at h
    split at h
    · rw [ih _ _ h]
      simp [add_assoc]
    · cases h

/-- The loop over the edges in the `TOUCHES` branch: the line entity is
recorded with the first edge whose contact with it is longer than the contact
length, unless it is a key already. -/
theorem touchesEdgesLoop_spec (k : Kernel G) (h : EdgeHeap G) (LS : LineStringEntity G)
    (d c : ℚ) :
    ∀ (es : List EdgeId) (F F' : PolygonEntity G) (m : LineStringNeighboursMap),
      F.mp_LineStringNeighboursMap = some m → KeysAscending m →
      touchesEdgesLoop k h LS d c es F = (.ok (), F') →
      F'.m_PolyEdges = F.m_PolyEdges ∧ F'.mp_Polygon = F.mp_Polygon ∧
      (∃ m', F'.mp_LineStringNeighboursMap = some m' ∧ KeysAscending m' ∧
        (∀ l', l' ≠ LS.ptr → lineEdgeOf m' l' = lineEdgeOf m l') ∧
        lineEdgeOf m' LS.ptr
          = (match lineEdgeOf m LS.ptr with
             | some v => some v
             | none => (edgesInContact k h d c LS.line es).head?.map some)) ∧
      (edgesInContact k h d c LS.line es = [] → F'.mp_Neighbours = F.mp_Neighbours) ∧
      (edgesInContact k h d c LS.line es ≠ [] →
        ∃ nb, F.mp_Neighbours = some nb ∧
          F'.mp_Neighbours = some (setInsert nb (.line LS.ptr))) := by
  intro es
  induction es with
  | nil =>
    intro F F' m hm hs hr
    simp only [touchesEdgesLoop, Prod.mk.injEq, true_and] at hr
    subst hr
    refine ⟨rfl, rfl, ⟨m, hm, hs, fun _ _ => rfl, ?_⟩, fun _ => rfl, ?_⟩
    · cases lineEdgeOf m LS.ptr <;> simp [edgesInContact]
    · intro hne
      simp [edgesInContact] at hne
  | cons e rest ih =>
    intro F F' m hm hs hr
    unfold touchesEdgesLoop at hr
    cases hread : h.read e with
    | none => simp [hread] at hr
    | some E =>
      simp only [hread] at hr
      cases hlen : lengthInterLoop k
          (k.getGeometries (k.intersection LS.line (k.buffer E.line d))) 0 with
      | error f => simp [hlen] at hr
      | ok lengthInter =>
        simp only [hlen] at hr
        have hval : lengthInter = contactLength k d LS.line E := by
          rw [lengthInterLoop_ok k _ _ _ hlen]
          simp [contactLength]
        by_cases hw : lengthInter > c
        · simp only [hw, ↓reduceIte] at hr
          generalize hrec : F.recordLineNeighbour LS.ptr (some e) = r at hr
          obtain ⟨o, F1⟩ := r
          cases o with
          | error f => simp at hr
          | ok u =>
            simp only at hr
            obtain ⟨m0, nb, r1, r2, r3, r4, r5, r6⟩ :=
              recordLineNeighbour_ok F F1 LS.ptr (some e) hrec
            rw [hm] at r1
            cases r1
            obtain ⟨s1, s2, s3, s4⟩ := insert_spec LS.ptr (some e) m hs
            obtain ⟨i1, i2, ⟨m', j1, j2, j3, j4⟩, i3, i4⟩ := ih F1 F' _ r3 s1 hr
            have hea : edgesInContact k h d c LS.line (e :: rest)
                = e :: edgesInContact k h d c LS.line rest := by
              unfold edgesInContact
              rw [List.filter_cons_of_pos]
              rw [hval] at hw
              simpa [hread] using hw
            refine ⟨i1.trans r5, i2.trans r6, ⟨m', j1, j2, ?_, ?_⟩, ?_, ?_⟩
            · intro l' hl
              rw [j3 l' hl, s3 l' hl]
            · rw [j4, s4, hea]
              cases lineEdgeOf m LS.ptr <;> rfl
            · intro hnil
              rw [hea] at hnil
              cases hnil
            · intro _
              refine ⟨nb, r2, ?_⟩
              by_cases hrest : edgesInContact k h d c LS.line rest = []
              · rw [i3 hrest, r4]
              · obtain ⟨nb1, n1, n2⟩ := i4 hrest
                rw [r4] at n1
                cases n1
                rw [n2, setInsert_idem]
        · simp only [hw, ↓reduceIte] at hr
          have hea : edgesInContact k h d c LS.line (e :: rest)
              = edgesInContact k h d c LS.line rest := by
            unfold edgesInContact
            rw [List.filter_cons_of_neg]
            rw [hval] at hw
            simpa [hread] using hw
          rw [hea]
          exact ih F F' m hm hs hr

/-- The loop over the line entities, for the relation `TOUCHES`. -/
theorem lineEntitiesLoop_touches (k : Kernel G) (h : EdgeHeap G) (d c : ℚ) (PolyBuff : G) :
    ∀ (Ls : List (LineStringEntity G)) (F F' : PolygonEntity G) (m : LineStringNeighboursMap),
      F.mp_LineStringNeighboursMap = some m → KeysAscending m →
      lineEntitiesLoop k h .TOUCHES d c PolyBuff Ls F = (.ok (), F') →
      F'.m_PolyEdges = F.m_PolyEdges ∧ F'.mp_Polygon = F.mp_Polygon ∧
      (∃ m', F'.mp_LineStringNeighboursMap = some m' ∧ KeysAscending m' ∧
        (∀ l, l ∉ Ls.map (fun L => L.ptr) → lineEdgeOf m' l = lineEdgeOf m l) ∧
        ((Ls.map (fun L => L.ptr)).Nodup → ∀ L ∈ Ls, lineEdgeOf m L.ptr = none →
          lineEdgeOf m' L.ptr
            = if k.intersects L.line PolyBuff = true then
                (edgesInContact k h d c L.line F.m_PolyEdges).head?.map some
              else none)) ∧
      (∀ nb, F.mp_Neighbours = some nb →
        ∃ nb', F'.mp_Neighbours = some nb' ∧ ∀ x ∈ nb, x ∈ nb') ∧
      (∀ L ∈ Ls, k.intersects L.line PolyBuff = true →
        edgesInContact k h d c L.line F.m_PolyEdges ≠ [] →
        ∃ nb', F'.mp_Neighbours = some nb' ∧ EntityRef.line L.ptr ∈ nb') := by
  intro Ls
  induction Ls with
  | nil =>
    intro F F' m hm hs hr
    simp only [lineEntitiesLoop, Prod.mk.injEq, true_and] at hr
    subst hr
    exact ⟨rfl, rfl, ⟨m, hm, hs, fun _ _ => rfl, by simp⟩, fun nb hnb => ⟨nb, hnb, fun _ hx => hx⟩,
      by simp⟩
  | cons LS rest ih =>
    intro F F' m hm hs hr
    unfold lineEntitiesLoop at hr
    by_cases hw : k.intersects LS.line PolyBuff = true
    · simp only [hw, and_self, and_true, false_and, reduceCtorEq, ↓reduceIte] at hr
      generalize hce : touchesEdgesLoop k h LS d c F.m_PolyEdges F = r at hr
      obtain ⟨o, F1⟩ := r
      cases o with
      | error f => simp at hr
      | ok u =>
        simp only at hr
        obtain ⟨c1, c2, ⟨m1, c3, c4, c5, c6⟩, c7, c8⟩ :=
          touchesEdgesLoop_spec k h LS d c F.m_PolyEdges F F1 m hm hs hce
        obtain ⟨i1, i2, ⟨m', j1, j2, j3, j4⟩, i3, i4⟩ := ih F1 F' m1 c3 c4 hr
        have hmono : ∀ nb, F.mp_Neighbours = some nb →
            ∃ nb1, F1.mp_Neighbours = some nb1 ∧ ∀ x ∈ nb, x ∈ nb1 := by
          intro nb hnb
          by_cases hnil : edgesInContact k h d c LS.line F.m_PolyEdges = []
          · exact ⟨nb, (c7 hnil).trans hnb, fun _ hx => hx⟩
          · obtain ⟨nb0, n1, n2⟩ := c8 hnil
            rw [hnb] at n1
            cases n1
            exact ⟨_, n2, fun x hx => (mem_setInsert _ _ _).2 (Or.inl hx)⟩
        refine ⟨i1.trans c1, i2.trans c2, ⟨m', j1, j2, ?_, ?_⟩, ?_, ?_⟩
        · intro l hl
          simp only [List.map_cons, List.mem_cons, not_or] at hl
          rw [j3 l hl.2, c5 l hl.1]
        · intro hnd L hL hnone
          simp only [List.map_cons, List.nodup_cons] at hnd
          rcases List.mem_cons.1 hL with rfl | hL
          · rw [j3 _ hnd.1, c6, hnone]
            simp [hw]
          · have hne : L.ptr ≠ LS.ptr := by
              intro he
              apply hnd.1
              rw [← he]
              exact List.mem_map.2 ⟨L, hL, rfl⟩
            have := j4 hnd.2 L hL (by rw [c5 _ hne]; exact hnone)
            rw [this, c1]
        · intro nb hnb
          obtain ⟨nb1, n1, n2⟩ := hmono nb hnb
          obtain ⟨nb', n3, n4⟩ := i3 nb1 n1
          exact ⟨nb', n3, fun x hx => n4 x (n2 x hx)⟩
        · intro L hL hwL hne
          rcases List.mem_cons.1 hL with rfl | hL
          · obtain ⟨nb0, n1, n2⟩ := c8 hne
            obtain ⟨nb', n3, n4⟩ := i3 _ n2
            exact ⟨nb', n3, n4 _ ((mem_setInsert _ _ _).2 (Or.inr rfl))⟩
          · rw [← c1] at hne
            exact i4 L hL hwL hne
    · simp only [hw, and_false, false_and, reduceCtorEq, ↓reduceIte] at hr
      obtain ⟨i1, i2, ⟨m', j1, j2, j3, j4⟩, i3, i4⟩ := ih F F' m hm hs hr
      refine ⟨i1, i2, ⟨m', j1, j2, ?_, ?_⟩, i3, ?_⟩
      · intro l hl
        simp only [List.map_cons, List.mem_cons, not_or] at hl
        exact j3 l hl.2
      · intro hnd L hL hnone
        simp only [List.map_cons, List.nodup_cons] at hnd
        rcases List.mem_cons.1 hL with rfl | hL
        · rw [j3 _ hnd.1, hnone]
          simp [hw]
        · exact j4 hnd.2 L hL hnone
      · intro L hL hwL hne
        rcases List.mem_cons.1 hL with rfl | hL
        · exact absurd hwL hw
        · exact i4 L hL hwL hne

end TouchesLemmas

section TouchesClaims
variable {G : Type}

/-- C11: after a call of `computeLineStringNeighbours` that returns, with the
relation `TOUCHES`, on a line graph whose entities are distinct objects (the
contact length is then not 0): a line entity `L` is a key of the
line-neighbour map if and only if `L` intersects `buffer(boundary(F), d)` and
the contact length is exceeded for some edge `E` of `F`, that is, the sum of
the lengths of the components of `intersection(L, buffer(E, d))` is strictly
greater than the contact length; the edge recorded with a key is an edge of
`F` for which the contact length is exceeded, the first one in the order of
`m_PolyEdges`, and the line entity is then a member of the neighbour set. -/
theorem computeLineStringNeighbours_touches_iff (k : Kernel G) (h : EdgeHeap G)
    (F F' : PolygonEntity G) (Graph : LineStringGraph G) (BufferDistance ContactLength : ℚ)
    (hn : (Graph.entities.map (fun L => L.ptr)).Nodup)
    (hr : F.computeLineStringNeighbours k h Graph .TOUCHES BufferDistance ContactLength
      = (.ok (), F')) :
    ContactLength ≠ 0 ∧ F'.m_PolyEdges = F.m_PolyEdges ∧ F'.mp_Polygon = F.mp_Polygon ∧
    ∃ m, F'.mp_LineStringNeighboursMap = some m ∧
      ∀ L ∈ Graph.entities,
        ((∃ oe, lineEdgeOf m L.ptr = some oe) ↔
          (k.intersects L.line (k.buffer (k.getBoundary F.mp_Polygon) BufferDistance) = true ∧
            ∃ e ∈ F.m_PolyEdges, ∃ E, h.read e = some E ∧
              ContactLength < contactLength k BufferDistance L.line E)) ∧
        (∀ oe, lineEdgeOf m L.ptr = some oe →
          ∃ e E, oe = some e ∧ e ∈ F.m_PolyEdges ∧ h.read e = some E ∧
            ContactLength < contactLength k BufferDistance L.line E ∧
            (edgesInContact k h BufferDistance ContactLength L.line F.m_PolyEdges).head?
              = some e ∧
            ∃ nb, F'.mp_Neighbours = some nb ∧ EntityRef.line L.ptr ∈ nb) := by
  unfold PolygonEntity.computeLineStringNeighbours at hr
  by_cases hc : ContactLength = 0
  · simp [hc] at hr
  · simp only [hc, and_false, ↓reduceIte] at hr
    generalize hen : F.ensureNeighbours h = r at hr
    obtain ⟨o, F1⟩ := r
    cases o with
    | error f => simp at hr
    | ok u =>
      simp only at hr
      obtain ⟨e1, e2⟩ := ensureNeighbours_ok h F F1 hen
      obtain ⟨i1, i2, ⟨m', j1, j2, j3, j4⟩, i3, i4⟩ :=
        lineEntitiesLoop_touches k h BufferDistance ContactLength _ Graph.entities _ F' []
          rfl List.Pairwise.nil hr
      simp only [PolygonEntity.getBufferedBoundary] at j4 i4
      simp only [e1, e2] at i1 i2 j4 i4
      refine ⟨hc, i1, i2, m', j1, ?_⟩
      intro L hL
      have hlook := j4 hn L hL rfl
      have hmemf : ∀ e, e ∈ edgesInContact k h BufferDistance ContactLength L.line F.m_PolyEdges →
          e ∈ F.m_PolyEdges ∧ ∃ E, h.read e = some E ∧
            ContactLength < contactLength k BufferDistance L.line E := by
        intro e he
        unfold edgesInContact at he
        rw [List.mem_filter] at he
        refine ⟨he.1, ?_⟩
        cases hread : h.read e with
        | none => simp [hread] at he
        | some E => exact ⟨E, rfl, by simpa [hread] using he.2⟩
      have hfromKey : ∀ oe, lineEdgeOf m' L.ptr = some oe →
          k.intersects L.line (k.buffer (k.getBoundary F.mp_Polygon) BufferDistance) = true ∧
          ∃ e, oe = some e ∧
            (edgesInContact k h BufferDistance ContactLength L.line F.m_PolyEdges).head?
              = some e := by
        intro oe hoe
        rw [hlook] at hoe
        by_cases hw : k.intersects L.line
            (k.buffer (k.getBoundary F.mp_Polygon) BufferDistance) = true
        · simp only [hw, ↓reduceIte] at hoe
          cases hh : (edgesInContact k h BufferDistance ContactLength L.line
              F.m_PolyEdges).head? with
          | none => simp [hh] at hoe
          | some e =>
            simp only [hh, Option.map_some', Option.some.injEq] at hoe
            exact ⟨hw, e, hoe.symm, rfl⟩
        · simp [hw] at hoe
      constructor
      · constructor
        · rintro ⟨oe, hoe⟩
          obtain ⟨hw, e, -, hh⟩ := hfromKey oe hoe
          obtain ⟨h1, E, h2, h3⟩ := hmemf e (List.mem_of_mem_head? hh)
          exact ⟨hw, e, h1, E, h2, h3⟩
        · rintro ⟨hw, e, he, E, hE, hlt⟩
          have hmem : e ∈ edgesInContact k h BufferDistance ContactLength L.line
              F.m_PolyEdges := by
            unfold edgesInContact
            rw [List.mem_filter]
            exact ⟨he, by simpa [hE] using hlt⟩
          cases hh : (edgesInContact k h BufferDistance ContactLength L.line
              F.m_PolyEdges).head? with
          | none =>
            rw [List.head?_eq_none_iff] at hh
            rw [hh] at hmem
            cases hmem
          | some e0 =>
            refine ⟨some e0, ?_⟩
            rw [hlook, hw]
            simp [hh]
      · intro oe hoe
        obtain ⟨hw, e, he, hh⟩ := hfromKey oe hoe
        have hmem := List.mem_of_mem_head? hh
        obtain ⟨h1, E, h2, h3⟩ := hmemf e hmem
        exact ⟨e, E, he, h1, h2, h3, hh, i4 L hL hw (List.ne_nil_of_mem hmem)⟩

end TouchesClaims

namespace Lattice

/-- Witness of C11: the face of the square at `(0, 0)`, whose edges are the shared
side (edge 1) and the three other sides (edge 2), and two lines: the first runs
along one unit of each edge, the second meets the face at a point only.  With
the contact length one half the first line is recorded, with the edge 1, and
the second is not; with the contact length 1, which the contact of the first
line equals, nothing is recorded. -/
theorem computeLineStringNeighbours_touches_iff_witness :
    westFace.computeLineStringNeighbours kernel twoSquares.heap contactGraph .TOUCHES
      (1 / 10) (1 / 2) = (.ok (), westFaceTouched) ∧
    westFaceTouched.mp_LineStringNeighboursMap = some [(0, some 1)] ∧
    westFaceTouched.mp_Neighbours = some [.face 1, .line 0] ∧
    (twoSquares.heap.read 1).map (contactLength kernel (1 / 10) cornerLine) = some 1 ∧
    (twoSquares.heap.read 2).map (contactLength kernel (1 / 10) cornerLine) = some 1 ∧
    (westFace.computeLineStringNeighbours kernel twoSquares.heap contactGraph .TOUCHES
      (1 / 10) 1).1 = .ok () ∧
    (westFace.computeLineStringNeighbours kernel twoSquares.heap contactGraph .TOUCHES
      (1 / 10) 1).2.mp_LineStringNeighboursMap = some [] ∧
    ((1 / 2 : ℚ) ≠ 0 ∧ westFaceTouched.m_PolyEdges = westFace.m_PolyEdges ∧
      westFaceTouched.mp_Polygon = westFace.mp_Polygon ∧
      ∃ m, westFaceTouched.mp_LineStringNeighboursMap = some m ∧
        ∀ L ∈ contactGraph.entities,
          ((∃ oe, lineEdgeOf m L.ptr = some oe) ↔
            (kernel.intersects L.line
                (kernel.buffer (kernel.getBoundary westFace.mp_Polygon) (1 / 10)) = true ∧
              ∃ e ∈ westFace.m_PolyEdges, ∃ E, twoSquares.heap.read e = some E ∧
                (1 / 2 : ℚ) < contactLength kernel (1 / 10) L.line E)) ∧
          (∀ oe, lineEdgeOf m L.ptr = some oe →
            ∃ e E, oe = some e ∧ e ∈ westFace.m_PolyEdges ∧ twoSquares.heap.read e = some E ∧
              (1 / 2 : ℚ) < contactLength kernel (1 / 10) L.line E ∧
              (edgesInContact kernel twoSquares.heap (1 / 10) (1 / 2) L.line
                westFace.m_PolyEdges).head? = some e ∧
              ∃ nb, westFaceTouched.mp_Neighbours = some nb ∧ EntityRef.line L.ptr ∈ nb)) :=
  have hr : westFace.computeLineStringNeighbours kernel twoSquares.heap contactGraph .TOUCHES
      (1 / 10) (1 / 2) = (.ok (), westFaceTouched) := Prod.ext (by decide!) rfl
  ⟨hr, by decide!, by decide!, by decide!, by decide!, by decide!, by decide!,
    computeLineStringNeighbours_touches_iff kernel twoSquares.heap westFace westFaceTouched
      contactGraph (1 / 10) (1 / 2) (by decide) hr⟩

end Lattice

section BarrierLemmas
variable {G : Type}

theorem barrierContainsLoop_eq (k : Kernel G) (h : EdgeHeap G) (LS : LineStringEntity G)
    (d c : ℚ) : ∀ (es : List EdgeId) (F : PolygonEntity G),
      barrierContainsLoop k h LS d es F
        = eraseEdgesLoop h (edgeTest k h .CONTAINS d c LS.line) es F := by
  intro es
  induction es with
  | nil => intro F; rfl
  | cons e rest ih =>
    intro F
    unfold barrierContainsLoop eraseEdgesLoop edgeTest
    cases h.read e with
    | none => rfl
    | some E =>
      simp only
      by_cases hw : k.within LS.line (k.buffer E.line d) = true
      · simp only [hw, ↓reduceIte]
        generalize F.eraseNeighbourOf h e = r
        obtain ⟨o, F1⟩ := r
        cases o with
        | error f => rfl
        | ok u => exact ih F1
      · have hw' : k.within LS.line (k.buffer E.line d) = false := by simpa using hw
        simp only [hw', Bool.false_eq_true, ↓reduceIte]
        exact ih F

theorem barrierTouchesLoop_eq (k : Kernel G) (h : EdgeHeap G) (LS : LineStringEntity G)
    (d c : ℚ) : ∀ (es : List EdgeId) (F : PolygonEntity G),
      barrierTouchesLoop k h LS d c es F
        = eraseEdgesLoop h (edgeTest k h .TOUCHES d c LS.line) es F := by
  intro es
  induction es with
  | nil => intro F; rfl
  | cons e rest ih =>
    intro F
    unfold barrierTouchesLoop eraseEdgesLoop edgeTest
    cases h.read e with
    | none => rfl
    | some E =>
      simp only
      cases lengthInterLoop k (k.getGeometries (k.intersection LS.line (k.buffer E.line d))) 0 with
      | error f => rfl
      | ok l =>
        simp only
        by_cases hw : l > c
        · simp only [hw, ↓reduceIte, decide_True]
          generalize F.eraseNeighbourOf h e = r
          obtain ⟨o, F1⟩ := r
          cases o with
          | error f => rfl
          | ok u => exact ih F1
        · simp only [hw, ↓reduceIte, decide_False]
          exact ih F

theorem edgeTest_ok (k : Kernel G) (h : EdgeHeap G) (Relation : Relationship) (d c : ℚ)
    (line : G) (e : EdgeId) (b : Bool) (ht : edgeTest k h Relation d c line e = .ok b) :
    b = edgeMeets k h Relation d c line e := by
  unfold edgeTest at ht
  unfold edgeMeets
  cases hread : h.read e with
  | none => simp [hread] at ht
  | some E =>
    simp only [hread] at ht ⊢
    cases Relation with
    | CONTAINS =>
      simp only [Except.ok.injEq] at ht
      exact ht.symm
    | INTERSECTS =>
      simp only [Except.ok.injEq] at ht
      exact ht.symm
    | TOUCHES =>
      simp only at ht ⊢
      cases hlen : lengthInterLoop k
          (k.getGeometries (k.intersection line (k.buffer E.line d))) 0 with
      | error f => simp [hlen] at ht
      | ok l =>
        simp only [hlen, Except.ok.injEq] at ht
        rw [← ht, lengthInterLoop_ok k _ _ _ hlen]
        simp [contactLength]

end BarrierLemmas

section BarrierLemmas2
variable {G : Type}

theorem without_without (m : NeighboursMap) (Q R : List EdgeId) :
    (m.without Q).without R = m.without (Q ++ R) := by
  unfold NeighboursMap.without
  rw [List.filter_filter]
  apply List.filter_congr
  intro p _
  simp only [List.any_append, Bool.not_or]
  exact Bool.and_comm _ _

theorem neighboursWithout_step (m : NeighboursMap) (Q R : List EdgeId) (nb : List EntityRef) :
    neighboursWithout (m.without Q) R (neighboursWithout m Q nb)
      = neighboursWithout m (Q ++ R) nb := by
  unfold neighboursWithout NeighboursMap.without
  rw [List.filter_filter]
  apply List.filter_congr
  intro x _
  rw [Bool.eq_iff_iff]
  simp only [Bool.and_eq_true, Bool.not_eq_true', List.any_eq_false, List.mem_filter,
    Bool.not_eq_true, List.any_append, Bool.or_eq_true, List.any_eq_true, decide_eq_true_eq,
    not_and, and_imp, not_exists, not_or]
  constructor
  · rintro ⟨h1, h2⟩ p hp hq hx
    by_cases hQ : ∃ q ∈ Q, q ∈ p.2
    · exact h2 p hp hQ hx
    · rcases hq with hq | hq
      · exact hQ hq
      · exact h1 p hp (fun q hq1 hq2 => hQ ⟨q, hq1, hq2⟩) hq hx
  · intro hall
    constructor
    · intro p hp _ hq hx
      exact hall p hp (Or.inr hq) hx
    · intro p hp hq hx
      exact hall p hp (Or.inl hq) hx

theorem without_nil (m : NeighboursMap) : m.without [] = m := by
  unfold NeighboursMap.without
  simp

theorem neighboursWithout_nil (m : NeighboursMap) (nb : List EntityRef) :
    neighboursWithout m [] nb = nb := by
  unfold neighboursWithout
  simp

/-- The two erasures for one edge: when every edge is in the list of at most
one neighbour, the neighbour that shares the edge leaves the index and the
neighbour set. -/
theorem eraseNeighbourOf_spec (h : EdgeHeap G) (F F' : PolygonEntity G) (M : NeighboursMap)
    (e : EdgeId) (hk : (M.map Prod.fst).Nodup)
    (hx : ∀ p ∈ M, ∀ q ∈ M, ∀ e, e ∈ p.2 → e ∈ q.2 → p = q)
    (hM : F.mp_NeighboursMap = some M) (hr : F.eraseNeighbourOf h e = (.ok (), F')) :
    ∃ nb, F.mp_Neighbours = some nb ∧ F'.mp_NeighboursMap = some (M.without [e]) ∧
      F'.mp_Neighbours = some (neighboursWithout M [e] nb) ∧
      F'.m_PolyEdges = F.m_PolyEdges ∧ F'.mp_Polygon = F.mp_Polygon ∧
      F'.mp_LineStringNeighboursMap = F.mp_LineStringNeighboursMap := by
  unfold PolygonEntity.eraseNeighbourOf PolygonEntity.neighbourWithCommonEdge
    PolygonEntity.ensureNeighbours at hr
  simp only [hM, Option.getD_some] at hr
  cases hnb : F.mp_Neighbours with
  | none => simp [hnb] at hr
  | some nb =>
    simp only [hnb, hM, Option.getD_some, Prod.mk.injEq, true_and] at hr
    refine ⟨nb, rfl, ?_⟩
    cases hf : M.find? (fun p => decide (e ∈ p.2)) with
    | none =>
      simp only [hf, Option.map_none'] at hr
      subst hr
      have hnone := List.find?_eq_none.1 hf
      have h1 : M.without [e] = M := by
        unfold NeighboursMap.without
        rw [List.filter_eq_self]
        intro p hp
        have := hnone p hp
        simpa using this
      have h2 : neighboursWithout M [e] nb = nb := by
        unfold neighboursWithout
        rw [List.filter_eq_self]
        intro x _
        simp only [List.any_cons, List.any_nil, Bool.or_false, Bool.not_eq_true',
          List.any_eq_false, Bool.and_eq_true, decide_eq_true_eq, not_and]
        intro p hp hep
        have := hnone p hp
        simp only [decide_eq_true_eq] at this
        exact absurd hep this
      simp [h1, h2, hM, hnb]
    | some p0 =>
      simp only [hf, Option.map_some'] at hr
      subst hr
      have hp0 := List.mem_of_find?_eq_some hf
      have he0 : e ∈ p0.2 := by simpa using List.find?_some hf
      have h1 : NeighboursMap.erase M p0.1 = M.without [e] := by
        unfold NeighboursMap.erase NeighboursMap.without
        apply List.filter_congr
        intro p hp
        rw [Bool.eq_iff_iff]
        simp only [ne_eq, decide_not, Bool.not_eq_true', decide_eq_false_iff_not, List.any_cons,
          List.any_nil, Bool.or_false, decide_eq_true_eq]
        constructor
        · intro hne hep
          exact hne (congrArg Prod.fst (hx p hp p0 hp0 e hep he0))
        · intro hnot heq
          have : p = p0 := List.inj_on_of_nodup_map hk hp hp0 heq
          rw [this] at hnot
          exact hnot he0
      have h2 : setErase nb (.face p0.1) = neighboursWithout M [e] nb := by
        unfold setErase neighboursWithout
        apply List.filter_congr
        intro x _
        rw [Bool.eq_iff_iff]
        simp only [ne_eq, decide_not, Bool.not_eq_true', decide_eq_false_iff_not, List.any_cons,
          List.any_nil, Bool.or_false, List.any_eq_false, Bool.and_eq_true, decide_eq_true_eq,
          not_and]
        constructor
        · intro hne p hp hep hxe
          rw [hx p hp p0 hp0 e hep he0] at hxe
          exact hne hxe
        · intro hall hxe
          exact hall p0 hp0 he0 hxe
      simp [h1, h2]

theorem without_index (M0 : NeighboursMap) (Q : List EdgeId)
    (hk : (M0.map Prod.fst).Nodup)
    (hx : ∀ p ∈ M0, ∀ q ∈ M0, ∀ e, e ∈ p.2 → e ∈ q.2 → p = q) :
    ((M0.without Q).map Prod.fst).Nodup ∧
    ∀ p ∈ M0.without Q, ∀ q ∈ M0.without Q, ∀ e, e ∈ p.2 → e ∈ q.2 → p = q := by
  constructor
  · exact hk.sublist (List.Sublist.map _ (List.filter_sublist _))
  · intro p hp q hq e h1 h2
    exact hx p (List.mem_of_mem_filter hp) q (List.mem_of_mem_filter hq) e h1 h2

/-- The loops over the edges: the neighbours that share an edge meeting the
criterion leave the index and the neighbour set. -/
theorem eraseEdgesLoop_spec (h : EdgeHeap G) (test : EdgeId → Except Fault Bool)
    (crit : EdgeId → Bool) (htest : ∀ e b, test e = .ok b → b = crit e)
    (M0 : NeighboursMap) (nb0 : Option (List EntityRef)) (hk : (M0.map Prod.fst).Nodup)
    (hx : ∀ p ∈ M0, ∀ q ∈ M0, ∀ e, e ∈ p.2 → e ∈ q.2 → p = q) :
    ∀ (es : List EdgeId) (F F' : PolygonEntity G) (Q : List EdgeId),
      F.mp_NeighboursMap = some (M0.without Q) →
      F.mp_Neighbours = nb0.map (neighboursWithout M0 Q) →
      eraseEdgesLoop h test es F = (.ok (), F') →
      F'.mp_NeighboursMap = some (M0.without (Q ++ es.filter crit)) ∧
      F'.mp_Neighbours = nb0.map (neighboursWithout M0 (Q ++ es.filter crit)) ∧
      F'.m_PolyEdges = F.m_PolyEdges ∧ F'.mp_Polygon = F.mp_Polygon ∧
      F'.mp_LineStringNeighboursMap = F.mp_LineStringNeighboursMap := by
  intro es
  induction es with
  | nil =>
    intro F F' Q hM hnb hr
    simp only [eraseEdgesLoop, Prod.mk.injEq, true_and] at hr
    subst hr
    refine ⟨?_, ?_, rfl, rfl, rfl⟩
    · simpa using hM
    · simpa using hnb
  | cons e rest ih =>
    intro F F' Q hM hnb hr
    unfold eraseEdgesLoop at hr
    cases ht : test e with
    | error f => simp [ht] at hr
    | ok b =>
      have hb := htest e b ht
      cases b with
      | false =>
        simp only [ht] at hr
        rw [List.filter_cons_of_neg (by simp [← hb])]
        exact ih F F' Q hM hnb hr
      | true =>
        simp only [ht] at hr
        generalize her : F.eraseNeighbourOf h e = r at hr
        obtain ⟨o, F1⟩ := r
        cases o with
        | error f => simp at hr
        | ok u =>
          simp only at hr
          obtain ⟨hk1, hx1⟩ := without_index M0 Q hk hx
          obtain ⟨nb, n1, n2, n3, n4, n5, n6⟩ :=
            eraseNeighbourOf_spec h F F1 (M0.without Q) e hk1 hx1 hM her
          rw [without_without] at n2
          have hnb1 : F1.mp_Neighbours = nb0.map (neighboursWithout M0 (Q ++ [e])) := by
            rw [n3]
            cases nb0 with
            | none => simp [n1] at hnb
            | some l =>
              simp only [Option.map_some', n1, Option.some.injEq] at hnb ⊢
              rw [hnb, neighboursWithout_step]
          obtain ⟨i1, i2, i3, i4, i5⟩ := ih F1 F' (Q ++ [e]) n2 hnb1 hr
          rw [List.filter_cons_of_pos (by simp [← hb])]
          simp only [List.append_assoc, List.singleton_append] at i1 i2
          exact ⟨i1, i2, i3.trans n4, i4.trans n5, i5.trans n6⟩

/-- The loop over the line entities of `computeNeighboursWithBarriers`. -/
theorem barrierLinesLoop_spec (k : Kernel G) (h : EdgeHeap G) (Relation : Relationship)
    (d c : ℚ) (PolyBuff : G) (M0 : NeighboursMap) (nb0 : Option (List EntityRef))
    (hk : (M0.map Prod.fst).Nodup)
    (hx : ∀ p ∈ M0, ∀ q ∈ M0, ∀ e, e ∈ p.2 → e ∈ q.2 → p = q) :
    ∀ (Ls : List (LineStringEntity G)) (F F' : PolygonEntity G) (Q : List EdgeId),
      F.mp_NeighboursMap = some (M0.without Q) →
      F.mp_Neighbours = nb0.map (neighboursWithout M0 Q) →
      barrierLinesLoop k h Relation d c PolyBuff Ls F = (.ok (), F') →
      F'.mp_NeighboursMap
        = some (M0.without (Q ++ barrierEdges k h Relation d c PolyBuff Ls F.m_PolyEdges)) ∧
      F'.mp_Neighbours = nb0.map
        (neighboursWithout M0 (Q ++ barrierEdges k h Relation d c PolyBuff Ls F.m_PolyEdges)) ∧
      F'.m_PolyEdges = F.m_PolyEdges ∧ F'.mp_Polygon = F.mp_Polygon ∧
      F'.mp_LineStringNeighboursMap = F.mp_LineStringNeighboursMap := by
  intro Ls
  induction Ls with
  | nil =>
    intro F F' Q hM hnb hr
    simp only [barrierLinesLoop, Prod.mk.injEq, true_and] at hr
    subst hr
    refine ⟨?_, ?_, rfl, rfl, rfl⟩
    · simpa [barrierEdges] using hM
    · simpa [barrierEdges] using hnb
  | cons LS rest ih =>
    intro F F' Q hM hnb hr
    have hstep : ∃ F1, eraseEdgesLoop h (edgeTest k h Relation d c LS.line)
          (if lineNear k Relation PolyBuff LS.line then F.m_PolyEdges else []) F = (.ok (), F1) ∧
        barrierLinesLoop k h Relation d c PolyBuff rest F1 = (.ok (), F') := by
      unfold barrierLinesLoop at hr
      cases Relation with
      | CONTAINS =>
        simp only [lineNear, true_and, reduceCtorEq, false_and, ↓reduceIte] at hr ⊢
        by_cases hw : k.within LS.line PolyBuff = true
        · simp only [hw, ↓reduceIte] at hr ⊢
          rw [barrierContainsLoop_eq k h LS d c] at hr
          generalize eraseEdgesLoop h _ F.m_PolyEdges F = r at hr ⊢
          obtain ⟨o, F1⟩ := r
          cases o with
          | error f => simp at hr
          | ok u => exact ⟨F1, rfl, hr⟩
        · simp only [hw, Bool.false_eq_true, ↓reduceIte] at hr ⊢
          exact ⟨F, rfl, hr⟩
      | INTERSECTS =>
        simp only [lineNear, reduceCtorEq, false_and, ↓reduceIte, Bool.false_eq_true] at hr ⊢
        exact ⟨F, rfl, hr⟩
      | TOUCHES =>
        simp only [lineNear, true_and, reduceCtorEq, false_and, ↓reduceIte] at hr ⊢
        by_cases hw : k.intersects LS.line PolyBuff = true
        · simp only [hw, ↓reduceIte] at hr ⊢
          rw [barrierTouchesLoop_eq k h LS d c] at hr
          generalize eraseEdgesLoop h _ F.m_PolyEdges F = r at hr ⊢
          obtain ⟨o, F1⟩ := r
          cases o with
          | error f => simp at hr
          | ok u => exact ⟨F1, rfl, hr⟩
        · simp only [hw, Bool.false_eq_true, ↓reduceIte] at hr ⊢
          exact ⟨F, rfl, hr⟩
    obtain ⟨F1, hs1, hs2⟩ := hstep
    obtain ⟨e1, e2, e3, e4, e5⟩ := eraseEdgesLoop_spec h _
      (edgeMeets k h Relation d c LS.line) (edgeTest_ok k h Relation d c LS.line) M0 nb0 hk hx
      _ F F1 Q hM hnb hs1
    obtain ⟨i1, i2, i3, i4, i5⟩ := ih F1 F' _ e1 e2 hs2
    have hQ : Q ++ barrierEdges k h Relation d c PolyBuff (LS :: rest) F.m_PolyEdges
        = (Q ++ List.filter (edgeMeets k h Relation d c LS.line)
            (if lineNear k Relation PolyBuff LS.line = true then F.m_PolyEdges else []))
          ++ barrierEdges k h Relation d c PolyBuff rest F1.m_PolyEdges := by
      rw [e3]
      unfold barrierEdges
      simp only [List.flatMap_cons, List.append_assoc]
      by_cases hw : lineNear k Relation PolyBuff LS.line = true
      · simp [hw]
      · simp [hw]
    rw [hQ]
    exact ⟨i1, i2, i3.trans e3, i4.trans e4, i5.trans e5⟩

end BarrierLemmas2

section BarrierLemmas3
variable {G : Type}

theorem pushBack_spec (f : FaceId) (e : EdgeId) :
    ∀ m : NeighboursMap, m.Pairwise (fun a b => a.1 < b.1) →
      (NeighboursMap.pushBack m f e).Pairwise (fun a b => a.1 < b.1) ∧
      ∀ p ∈ NeighboursMap.pushBack m f e,
        p ∈ m ∨ (p.1 = f ∧ ∀ x ∈ p.2, x = e ∨ ∃ q ∈ m, q.1 = f ∧ x ∈ q.2) := by
  intro m
  induction m with
  | nil =>
    intro _
    simp [NeighboursMap.pushBack]
  | cons p0 rest ih =>
    intro hs
    obtain ⟨g, es⟩ := p0
    rw [List.pairwise_cons] at hs
    obtain ⟨h0, hrest⟩ := hs
    unfold NeighboursMap.pushBack
    by_cases h1 : f = g
    · subst h1
      simp only [↓reduceIte]
      constructor
      · rw [List.pairwise_cons]
        exact ⟨h0, hrest⟩
      · intro p hp
        rcases List.mem_cons.1 hp with rfl | hp
        · right
          refine ⟨rfl, ?_⟩
          intro x hx
          rcases List.mem_append.1 hx with hx | hx
          · exact Or.inr ⟨(f, es), by simp, rfl, hx⟩
          · left
            simpa using hx
        · exact Or.inl (List.mem_cons_of_mem _ hp)
    · simp only [h1, ↓reduceIte]
      by_cases h2 : f < g
      · simp only [h2, ↓reduceIte]
        constructor
        · rw [List.pairwise_cons]
          refine ⟨?_, List.pairwise_cons.2 ⟨h0, hrest⟩⟩
          intro p hp
          rcases List.mem_cons.1 hp with rfl | hp
          · exact h2
          · exact Nat.lt_trans h2 (h0 p hp)
        · intro p hp
          rcases List.mem_cons.1 hp with rfl | hp
          · right
            exact ⟨rfl, fun x hx => Or.inl (by simpa using hx)⟩
          · exact Or.inl hp
      · simp only [h2, ↓reduceIte]
        obtain ⟨i1, i2⟩ := ih hrest
        have h3 : g < f := by
          unfold FaceId at *
          omega
        constructor
        · rw [List.pairwise_cons]
          refine ⟨?_, i1⟩
          intro p hp
          rcases i2 p hp with hp | ⟨hp, -⟩
          · exact h0 p hp
          · rw [hp]
            exact h3
        · intro p hp
          rcases List.mem_cons.1 hp with rfl | hp
          · exact Or.inl (List.mem_cons_self _ _)
          · rcases i2 p hp with hp | ⟨hp1, hp2⟩
            · exact Or.inl (List.mem_cons_of_mem _ hp)
            · right
              refine ⟨hp1, fun x hx => ?_⟩
              rcases hp2 x hx with hx | ⟨q, hq, hq1, hq2⟩
              · exact Or.inl hx
              · exact Or.inr ⟨q, List.mem_cons_of_mem _ hq, hq1, hq2⟩

/-- The index computed by `computeNeighbours` has distinct keys, and every edge
is in the list of at most one key. -/
theorem computeNeighboursLoop_index (h : EdgeHeap G) (self : FaceId) (other : EdgeId → FaceId) :
    ∀ (es : List EdgeId) (nb nb' : List EntityRef) (m m' : NeighboursMap),
      m.Pairwise (fun a b => a.1 < b.1) → (∀ p ∈ m, ∀ x ∈ p.2, other x = p.1) →
      (∀ e E f0 f1, h.read e = some E → E.m_Faces[0]? = some f0 → E.m_Faces[1]? = some f1 →
        other e = if f0 = self then f1 else f0) →
      computeNeighboursLoop h self es (nb, m) = (.ok (), (nb', m')) →
      m'.Pairwise (fun a b => a.1 < b.1) ∧ (∀ p ∈ m', ∀ x ∈ p.2, other x = p.1) := by
  intro es
  induction es with
  | nil =>
    intro nb nb' m m' hs hi ho hr
    simp only [computeNeighboursLoop, Prod.mk.injEq, true_and] at hr
    obtain ⟨-, rfl⟩ := hr
    exact ⟨hs, hi⟩
  | cons e rest ih =>
    intro nb nb' m m' hs hi ho hr
    unfold computeNeighboursLoop at hr
    cases hread : h.read e with
    | none => simp [hread] at hr
    | some E =>
      simp only [hread] at hr
      by_cases hlen : E.m_Faces.length > 1
      · simp only [hlen, ↓reduceIte] at hr
        cases h0 : E.m_Faces[0]? with
        | none =>
          simp only [h0] at hr
          exact ih _ _ _ _ hs hi ho hr
        | some f0 =>
          cases h1 : E.m_Faces[1]? with
          | none =>
            simp only [h0, h1] at hr
            exact ih _ _ _ _ hs hi ho hr
          | some f1 =>
            simp only [h0, h1] at hr
            obtain ⟨p1, p2⟩ := pushBack_spec (if f0 = self then f1 else f0) e m hs
            refine ih _ _ _ _ p1 ?_ ho hr
            intro p hp x hx
            rcases p2 p hp with hp | ⟨hp1, hp2⟩
            · exact hi p hp x hx
            · rcases hp2 x hx with rfl | ⟨q, hq, hq1, hq2⟩
              · rw [hp1]
                exact ho x E f0 f1 hread h0 h1
              · rw [hp1, ← hq1]
                exact hi q hq x hq2
      · simp only [hlen, ↓reduceIte] at hr
        exact ih _ _ _ _ hs hi ho hr

theorem ensureNeighbours_index (h : EdgeHeap G) (F F1 : PolygonEntity G)
    (hnone : F.mp_NeighboursMap = none) (hr : F.ensureNeighbours h = (.ok (), F1)) :
    ∃ M0, F1.mp_NeighboursMap = some M0 ∧ (M0.map Prod.fst).Nodup ∧
      ∀ p ∈ M0, ∀ q ∈ M0, ∀ e, e ∈ p.2 → e ∈ q.2 → p = q := by
  unfold PolygonEntity.ensureNeighbours at hr
  simp only [hnone, PolygonEntity.computeNeighbours] at hr
  generalize hl : computeNeighboursLoop h F.ptr F.m_PolyEdges ([], []) = r at hr
  obtain ⟨o, nb, m⟩ := r
  simp only [Prod.mk.injEq] at hr
  obtain ⟨rfl, rfl⟩ := hr
  let other : EdgeId → FaceId := fun e =>
    match h.read e with
    | some E =>
      match E.m_Faces[0]?, E.m_Faces[1]? with
      | some f0, some f1 => if f0 = F.ptr then f1 else f0
      | _, _ => 0
    | none => 0
  obtain ⟨hs, hi⟩ := computeNeighboursLoop_index h F.ptr other F.m_PolyEdges [] nb [] m
    List.Pairwise.nil (by simp) (by
      intro e E f0 f1 h1 h2 h3
      simp only [other, h1, h2, h3]) hl
  have hnd : (m.map Prod.fst).Nodup := by
    unfold List.Nodup
    rw [List.pairwise_map]
    exact hs.imp (fun hab => by
      intro heq
      rw [heq] at hab
      exact Nat.lt_irrefl _ hab)
  refine ⟨m, rfl, hnd, ?_⟩
  intro p hp q hq e h1 h2
  exact List.inj_on_of_nodup_map hnd hp hq ((hi p hp e h1).symm.trans (hi q hq e h2))

theorem mem_barrierEdges (k : Kernel G) (h : EdgeHeap G) (Relation : Relationship) (d c : ℚ)
    (PolyBuff : G) (Ls : List (LineStringEntity G)) (es : List EdgeId) (q : EdgeId) :
    q ∈ barrierEdges k h Relation d c PolyBuff Ls es ↔
      ∃ L ∈ Ls, lineNear k Relation PolyBuff L.line = true ∧ q ∈ es ∧
        edgeMeets k h Relation d c L.line q = true := by
  unfold barrierEdges
  rw [List.mem_flatMap]
  constructor
  · rintro ⟨L, hL, hq⟩
    by_cases hw : lineNear k Relation PolyBuff L.line = true
    · rw [if_pos hw, List.mem_filter] at hq
      exact ⟨L, hL, hw, hq.1, hq.2⟩
    · rw [if_neg hw] at hq
      cases hq
  · rintro ⟨L, hL, hw, he, hm⟩
    refine ⟨L, hL, ?_⟩
    rw [if_pos hw, List.mem_filter]
    exact ⟨he, hm⟩

theorem not_mem_without (m : NeighboursMap) (Q : List EdgeId) (p : FaceId × List EdgeId)
    (hp : p ∈ m) : p ∉ m.without Q ↔ ∃ q ∈ Q, q ∈ p.2 := by
  unfold NeighboursMap.without
  rw [List.mem_filter]
  simp only [hp, true_and, Bool.not_eq_true', Bool.not_eq_false, List.any_eq_true,
    decide_eq_true_eq]

end BarrierLemmas3

section BarrierClaims
variable {G : Type}

/-- C12: after a call of `computeNeighboursWithBarriers` that returns (the
relation is then `CONTAINS`, or `TOUCHES` with a contact length other than 0),
on a face whose neighbour index `M0` (the index at hand, or the one computed
at the start of the call) has distinct keys and holds every edge in the list
of at most one neighbour, as every index computed by `computeNeighbours` does:
the neighbour index is `M0` without the neighbours that share with the face
an edge that meets the criterion for some line entity (the line passes the
test on the buffered boundary, and the edge that of the relation); the other
neighbours are kept, in the same order, with the same lists of shared edges;
the neighbour set loses the same faces and nothing else; the edge list, the
polygon and the line-neighbour map of the face are unchanged. -/
theorem computeNeighboursWithBarriers_only_removes (k : Kernel G) (h : EdgeHeap G)
    (F F1 F' : PolygonEntity G) (Graph : LineStringGraph G) (Relation : Relationship)
    (BufferDistance ContactLength : ℚ) (M0 : NeighboursMap)
    (h0 : F.ensureNeighbours h = (.ok (), F1)) (hM : F1.mp_NeighboursMap = some M0)
    (hk : (M0.map Prod.fst).Nodup)
    (hx : ∀ p ∈ M0, ∀ q ∈ M0, ∀ e, e ∈ p.2 → e ∈ q.2 → p = q)
    (hr : F.computeNeighboursWithBarriers k h Graph Relation BufferDistance ContactLength
      = (.ok (), F')) :
    Relation ≠ .INTERSECTS ∧ (Relation = .TOUCHES → ContactLength ≠ 0) ∧
    F'.mp_NeighboursMap = some (M0.without
      (barrierEdges k h Relation BufferDistance ContactLength
        (k.buffer (k.getBoundary F.mp_Polygon) BufferDistance) Graph.entities F.m_PolyEdges)) ∧
    F'.mp_Neighbours = F1.mp_Neighbours.map (neighboursWithout M0
      (barrierEdges k h Relation BufferDistance ContactLength
        (k.buffer (k.getBoundary F.mp_Polygon) BufferDistance) Graph.entities F.m_PolyEdges)) ∧
    (∀ p ∈ M0,
      (p ∉ M0.without (barrierEdges k h Relation BufferDistance ContactLength
          (k.buffer (k.getBoundary F.mp_Polygon) BufferDistance) Graph.entities F.m_PolyEdges)) ↔
      ∃ L ∈ Graph.entities, ∃ e ∈ F.m_PolyEdges, e ∈ p.2 ∧
        lineNear k Relation (k.buffer (k.getBoundary F.mp_Polygon) BufferDistance) L.line = true ∧
        edgeMeets k h Relation BufferDistance ContactLength L.line e = true) ∧
    F'.m_PolyEdges = F.m_PolyEdges ∧ F'.mp_Polygon = F.mp_Polygon ∧
    F'.mp_LineStringNeighboursMap = F1.mp_LineStringNeighboursMap := by
  unfold PolygonEntity.computeNeighboursWithBarriers at hr
  by_cases hc1 : Relation = .TOUCHES ∧ ContactLength = 0
  · simp [hc1] at hr
  · by_cases hc2 : Relation = .INTERSECTS
    · simp [hc2] at hr
    · simp only [hc1, hc2, ↓reduceIte, h0] at hr
      obtain ⟨e1, e2⟩ := ensureNeighbours_ok h F F1 h0
      obtain ⟨i1, i2, i3, i4, i5⟩ := barrierLinesLoop_spec k h Relation BufferDistance
        ContactLength _ M0 F1.mp_Neighbours hk hx Graph.entities F1 F' []
        (by rw [without_nil]; exact hM)
        (by cases F1.mp_Neighbours <;> simp [neighboursWithout_nil]) hr
      simp only [List.nil_append, PolygonEntity.getBufferedBoundary, e1, e2] at i1 i2
      refine ⟨hc2, fun ht hz => hc1 ⟨ht, hz⟩, i1, i2, ?_, i3.trans e1, i4.trans e2, i5⟩
      intro p hp
      rw [not_mem_without M0 _ p hp]
      constructor
      · rintro ⟨q, hq, hqp⟩
        obtain ⟨L, hL, hw, he, hm⟩ := (mem_barrierEdges k h Relation BufferDistance
          ContactLength _ Graph.entities F.m_PolyEdges q).1 hq
        exact ⟨L, hL, q, he, hqp, hw, hm⟩
      · rintro ⟨L, hL, e, he, hep, hw, hm⟩
        exact ⟨e, (mem_barrierEdges k h Relation BufferDistance ContactLength _ Graph.entities
          F.m_PolyEdges e).2 ⟨L, hL, hw, he, hm⟩, hep⟩

end BarrierClaims

namespace Lattice

/-- Witness of C12: the corner square of the L shape has the two other squares
as neighbours, through the edges 1 and 4; its edge 5, the bottom and left
sides, is shared with no square.  A barrier along the edge 1 and a barrier
along the bottom side: the call with `CONTAINS` returns, the square at
`(1, 0)` leaves the neighbour index and the neighbour set, the square at
`(0, 1)` stays with its list of shared edges, and the barrier along the
unshared edge removes nothing. -/
theorem computeNeighboursWithBarriers_only_removes_witness :
    cornerFace.m_PolyEdges = [1, 4, 5] ∧
    cornerFaceIndexed.mp_NeighboursMap = some [(1, [1]), (2, [4])] ∧
    cornerFaceIndexed.mp_Neighbours = some [.face 1, .face 2] ∧
    barrierEdges kernel lGraph.heap .CONTAINS (1 / 10) 0
      (kernel.buffer (kernel.getBoundary cornerFace.mp_Polygon) (1 / 10))
      barrierGraph.entities cornerFace.m_PolyEdges = [1, 5] ∧
    cornerFaceBarred.mp_NeighboursMap = some [(2, [4])] ∧
    cornerFaceBarred.mp_Neighbours = some [.face 2] ∧
    (Relationship.CONTAINS ≠ .INTERSECTS ∧ (Relationship.CONTAINS = .TOUCHES → (0 : ℚ) ≠ 0) ∧
    cornerFaceBarred.mp_NeighboursMap = some (NeighboursMap.without [(1, [1]), (2, [4])]
      (barrierEdges kernel lGraph.heap .CONTAINS (1 / 10) 0
        (kernel.buffer (kernel.getBoundary cornerFace.mp_Polygon) (1 / 10))
        barrierGraph.entities cornerFace.m_PolyEdges)) ∧
    cornerFaceBarred.mp_Neighbours = cornerFaceIndexed.mp_Neighbours.map
      (neighboursWithout [(1, [1]), (2, [4])]
        (barrierEdges kernel lGraph.heap .CONTAINS (1 / 10) 0
          (kernel.buffer (kernel.getBoundary cornerFace.mp_Polygon) (1 / 10))
          barrierGraph.entities cornerFace.m_PolyEdges)) ∧
    (∀ p ∈ ([(1, [1]), (2, [4])] : NeighboursMap),
      (p ∉ NeighboursMap.without [(1, [1]), (2, [4])]
          (barrierEdges kernel lGraph.heap .CONTAINS (1 / 10) 0
            (kernel.buffer (kernel.getBoundary cornerFace.mp_Polygon) (1 / 10))
            barrierGraph.entities cornerFace.m_PolyEdges)) ↔
      ∃ L ∈ barrierGraph.entities, ∃ e ∈ cornerFace.m_PolyEdges, e ∈ p.2 ∧
        lineNear kernel .CONTAINS
          (kernel.buffer (kernel.getBoundary cornerFace.mp_Polygon) (1 / 10)) L.line = true ∧
        edgeMeets kernel lGraph.heap .CONTAINS (1 / 10) 0 L.line e = true) ∧
    cornerFaceBarred.m_PolyEdges = cornerFace.m_PolyEdges ∧
    cornerFaceBarred.mp_Polygon = cornerFace.mp_Polygon ∧
    cornerFaceBarred.mp_LineStringNeighboursMap
      = cornerFaceIndexed.mp_LineStringNeighboursMap) := by
  have h0 : cornerFace.ensureNeighbours lGraph.heap = (.ok (), cornerFaceIndexed) :=
    Prod.ext (by decide!) rfl
  have hM : cornerFaceIndexed.mp_NeighboursMap = some [(1, [1]), (2, [4])] := by decide!
  have hr : cornerFace.computeNeighboursWithBarriers kernel lGraph.heap barrierGraph .CONTAINS
      (1 / 10) 0 = (.ok (), cornerFaceBarred) := Prod.ext (by decide!) rfl
  obtain ⟨M, hM', hk, hx⟩ := ensureNeighbours_index lGraph.heap cornerFace cornerFaceIndexed
    (by decide!) h0
  rw [hM] at hM'
  cases hM'
  exact ⟨by decide!, hM, by decide!, by decide!, by decide!, by decide!,
    computeNeighboursWithBarriers_only_removes kernel lGraph.heap cornerFace cornerFaceIndexed
      cornerFaceBarred barrierGraph .CONTAINS (1 / 10) 0 _ h0 hM hk hx hr⟩

end Lattice

section TopologyLemmas
variable {G : Type}

/-- A call of `geometries` that returns leaves its result in the cache: the
next call returns the same collection and changes nothing. -/
theorem geometries_cached (k : DatasetKernel G) (ds ds1 : VectorDataset G) (LayerIndex : Nat)
    (g : G) (h : ds.geometries k LayerIndex = (.ok g, ds1)) :
    ds1.geometries k LayerIndex = (.ok g, ds1) := by
  have hc : cacheAt ds1.m_Geometries LayerIndex = some g := by
    unfold VectorDataset.geometries at h
    simp only at h
    split at h
    · simp at h
    · rename_i ds2 heq
      cases hat : cacheAt ds2.m_Geometries LayerIndex with
      | none => simp [hat] at h
      | some g2 =>
        simp only [hat, Prod.mk.injEq, Except.ok.injEq] at h
        obtain ⟨rfl, rfl⟩ := h
        exact hat
  unfold VectorDataset.geometries
  simp [cacheCount_of_cacheAt _ _ _ hc, hc]

/-- The selection loop returns the first line whose start point the polygon
covers, when every component is a line with a start point. -/
theorem selectLineLoop_spec (k : Kernel G) (pk : PointKernel G) (Polygon : G) :
    ∀ (ls : List G),
      (∀ L ∈ ls, isLineString k L = true ∧ (pk.getStartPoint L).isSome = true) →
      selectLineLoop k pk Polygon ls = .ok (ls.find? (startCovered k pk Polygon)) := by
  intro ls
  induction ls with
  | nil => intro _; rfl
  | cons L rest ih =>
    intro hc
    obtain ⟨h1, h2⟩ := hc L (List.mem_cons_self _ _)
    have ih' := ih (fun L' hL' => hc L' (List.mem_cons_of_mem _ hL'))
    cases hs : pk.getStartPoint L with
    | none => simp [hs] at h2
    | some Point =>
      unfold selectLineLoop
      cases hcov : k.covers Polygon Point with
      | true => simp [h1, hs, hcov, startCovered, List.find?]
      | false => simp [h1, hs, hcov, startCovered, List.find?, ih']

/-- The loop over the neighbour index returns the first neighbour that covers
the end point and has another identifier, when every key is the address of a
face object. -/
theorem downFaceLoop_spec (k : Kernel G) (Faces : List (PolygonEntity G))
    (self : PolygonEntity G) (End : G) :
    ∀ (m : NeighboursMap),
      (∀ p ∈ m, (Faces.find? (fun N => N.ptr = p.1)).isSome = true) →
      downFaceLoop k Faces self (some End) m = .ok (downFace k Faces self End m) := by
  intro m
  induction m with
  | nil => intro _; rfl
  | cons p rest ih =>
    intro hc
    obtain ⟨g, es⟩ := p
    have h1 := hc (g, es) (List.mem_cons_self _ _)
    have ih' := ih (fun q hq => hc q (List.mem_cons_of_mem _ hq))
    cases hf : Faces.find? (fun N => decide (N.ptr = g)) with
    | none => simp [hf] at h1
    | some N =>
      unfold downFaceLoop
      by_cases hcov : k.covers N.mp_Polygon End = true ∧ self.getOfldId ≠ N.getOfldId
      · simp [hf, hcov, downFace, coversEnd, List.find?]
      · have hb : (k.covers N.mp_Polygon End && decide (self.getOfldId ≠ N.getOfldId)) = false := by
          simp only [ne_eq, not_and, Decidable.not_not] at hcov
          cases hk : k.covers N.mp_Polygon End with
          | false => simp
          | true => simp [hcov hk]
        have hce : coversEnd k Faces self End g = false := by
          unfold coversEnd
          simp only [hf]
          exact hb
        simp only [hf, hcov, ↓reduceIte, ih']
        unfold downFace
        rw [List.find?_cons]
        simp only [hce]

theorem lineApart_spec (k : Kernel G) (Lines : List (LineStringEntity G)) (Line : G)
    (l : LineId) (h : lineApart k Lines Line l = true) :
    ∃ R, Lines.find? (fun R => R.ptr = l) = some R ∧ k.intersects R.line Line = false := by
  unfold lineApart at h
  cases hf : Lines.find? (fun R => decide (R.ptr = l)) with
  | none => simp [hf] at h
  | some R => exact ⟨R, rfl, by simpa [hf] using h⟩

/-- The loop over the line-neighbour map keeps what was found before when no
recorded line intersects the line. -/
theorem downLineLoop_apart (k : Kernel G) (pk : PointKernel G)
    (Lines : List (LineStringEntity G)) (Polygon Line : G) (acc : Option EntityRef × ℚ) :
    ∀ (lm : LineStringNeighboursMap), (∀ p ∈ lm, lineApart k Lines Line p.1 = true) →
      downLineLoop k pk Lines Polygon Line lm acc = .ok acc := by
  intro lm
  induction lm with
  | nil => intro _; rfl
  | cons p rest ih =>
    intro hc
    obtain ⟨l, e⟩ := p
    obtain ⟨R, hR, hi⟩ := lineApart_spec k Lines Line l (hc (l, e) (List.mem_cons_self _ _))
    unfold downLineLoop
    simp only [hR, hi, Bool.false_eq_true, ↓reduceIte]
    exact ih (fun q hq => hc q (List.mem_cons_of_mem _ hq))

/-- The loop over the line-neighbour map stops at the first recorded line that
intersects the line: this line entity is the result, whatever was found
before. -/
theorem downLineLoop_first (k : Kernel G) (pk : PointKernel G)
    (Lines : List (LineStringEntity G)) (Polygon Line : G) (acc : Option EntityRef × ℚ)
    (l : LineId) (e : Option EdgeId) (R : LineStringEntity G) (post : LineStringNeighboursMap)
    (FlowLength : ℚ)
    (hR : Lines.find? (fun R => R.ptr = l) = some R) (hi : k.intersects R.line Line = true)
    (hf : flowLengthLoop k pk Polygon R.line (k.getGeometries (k.difference Line R.line)) acc.2
      = .ok FlowLength) :
    ∀ (pre : LineStringNeighboursMap), (∀ p ∈ pre, lineApart k Lines Line p.1 = true) →
      downLineLoop k pk Lines Polygon Line (pre ++ (l, e) :: post) acc
        = .ok (some (.line l), FlowLength) := by
  intro pre
  induction pre with
  | nil =>
    intro _
    simp only [List.nil_append]
    unfold downLineLoop
    simp only [hR, hi, ↓reduceIte, hf]
  | cons p rest ih =>
    intro hc
    obtain ⟨l2, e2⟩ := p
    obtain ⟨R2, hR2, hi2⟩ := lineApart_spec k Lines Line l2 (hc (l2, e2) (List.mem_cons_self _ _))
    simp only [List.cons_append]
    unfold downLineLoop
    simp only [hR2, hi2, Bool.false_eq_true, ↓reduceIte]
    exact ih (fun q hq => hc q (List.mem_cons_of_mem _ hq))

/-- The value of `computeNeighbourByLineTopology` once a line is selected. -/
theorem computeNeighbourByLineTopology_selected (k : Kernel G) (pk : PointKernel G)
    (dk : DatasetKernel G) (h : EdgeHeap G) (Faces : List (PolygonEntity G))
    (Lines : List (LineStringEntity G)) (F F1 : PolygonEntity G) (LineTopology : VectorDataset G)
    (Coll : G) (Copy1 : VectorDataset G) (Line End : G) (m : NeighboursMap)
    (hline : LineTopology.isLineType 0 = .ok true)
    (hn : F.ensureNeighbours h = (.ok (), F1))
    (hg : VectorDataset.geometries dk
      { LineTopology with m_Features := [], m_Geometries := [] } 0 = (.ok Coll, Copy1))
    (hi : k.intersects F1.mp_Polygon Coll = true)
    (hcomp : ∀ L ∈ k.getGeometries Coll,
      isLineString k L = true ∧ (pk.getStartPoint L).isSome = true)
    (hsel : (k.getGeometries Coll).find? (startCovered k pk F1.mp_Polygon) = some Line)
    (hend : pk.getEndPoint Line = some End)
    (hm : F1.mp_NeighboursMap = some m)
    (hfaces : ∀ p ∈ m, (Faces.find? (fun N => N.ptr = p.1)).isSome = true) :
    F.computeNeighbourByLineTopology k pk dk h Faces Lines LineTopology
      = (match F1.mp_LineStringNeighboursMap with
         | none => (.ok (match downFace k Faces F1 End m with
                         | some g => (some (.face g), k.getLength Line)
                         | none => (none, 0)), F1)
         | some lm =>
           match downLineLoop k pk Lines F1.mp_Polygon Line lm
               (match downFace k Faces F1 End m with
                | some g => (some (.face g), k.getLength Line)
                | none => (none, 0)) with
           | .error f => (.error f, F1)
           | .ok r => (.ok r, F1)) := by
  unfold PolygonEntity.computeNeighbourByLineTopology
  have hline' : VectorDataset.isLineType
      { LineTopology with m_Features := [], m_Geometries := [] } 0 = .ok true := hline
  simp only [hline', hn, hg, hi, Bool.not_true, Bool.false_eq_true, ↓reduceIte,
    geometries_cached dk _ _ _ _ hg, selectLineLoop_spec k pk _ _ hcomp, hsel, hm, hend,
    downFaceLoop_spec k Faces F1 End m hfaces]

/-- The value of `computeNeighbourByLineTopology` when no line of the layer has
its start point covered by the polygon. -/
theorem computeNeighbourByLineTopology_unselected (k : Kernel G) (pk : PointKernel G)
    (dk : DatasetKernel G) (h : EdgeHeap G) (Faces : List (PolygonEntity G))
    (Lines : List (LineStringEntity G)) (F F1 : PolygonEntity G) (LineTopology : VectorDataset G)
    (Coll : G) (Copy1 : VectorDataset G)
    (hline : LineTopology.isLineType 0 = .ok true)
    (hn : F.ensureNeighbours h = (.ok (), F1))
    (hg : VectorDataset.geometries dk
      { LineTopology with m_Features := [], m_Geometries := [] } 0 = (.ok Coll, Copy1))
    (hcomp : ∀ L ∈ k.getGeometries Coll,
      isLineString k L = true ∧ (pk.getStartPoint L).isSome = true)
    (hsel : ∀ L ∈ k.getGeometries Coll, startCovered k pk F1.mp_Polygon L = false) :
    F.computeNeighbourByLineTopology k pk dk h Faces Lines LineTopology
      = (.ok (none, 0), F1) := by
  unfold PolygonEntity.computeNeighbourByLineTopology
  have hline' : VectorDataset.isLineType
      { LineTopology with m_Features := [], m_Geometries := [] } 0 = .ok true := hline
  have hnone : (k.getGeometries Coll).find? (startCovered k pk F1.mp_Polygon) = none := by
    rw [List.find?_eq_none]
    intro L hL
    simp [hsel L hL]
  cases hi : k.intersects F1.mp_Polygon Coll with
  | false => simp only [hline', hn, hg, hi, Bool.not_false, ↓reduceIte]
  | true =>
    simp only [hline', hn, hg, hi, Bool.not_true, Bool.false_eq_true, ↓reduceIte,
      geometries_cached dk _ _ _ _ hg, selectLineLoop_spec k pk _ _ hcomp, hnone]

end TopologyLemmas

section RegistryLemmas
variable {G : Type}

theorem mapAssign_find (m : List (Nat × FaceId)) (key id : Nat) (v : FaceId) :
    (mapAssign m key v).find? (fun p => p.1 = id)
      = if id = key then some (key, v) else m.find? (fun p => p.1 = id) := by
  unfold mapAssign
  have hmap : ∀ (l : List (Nat × FaceId)),
      (l.map (fun p => if p.1 = key then (key, v) else p)).find? (fun p => decide (p.1 = id))
        = if id = key then (if l.any (fun p => decide (p.1 = key)) then some (key, v) else none)
          else l.find? (fun p => decide (p.1 = id)) := by
    intro l
    induction l with
    | nil => simp
    | cons a rest ih =>
      simp only [List.map_cons, List.find?_cons, List.any_cons]
      by_cases hak : a.1 = key
      · by_cases hid : id = key
        · simp [hak, hid]
        · have : ¬ key = id := fun h => hid h.symm
          simp only [hak, ↓reduceIte, this, decide_False, hid, ih]
      · by_cases hid : id = key
        · subst hid
          simp only [hak, ↓reduceIte, decide_False, ih, Bool.false_or]
        · simp only [hak, ↓reduceIte, hid, ih]
  by_cases hany : m.any (fun p => decide (p.1 = key)) = true
  · simp only [hany, ↓reduceIte, hmap]
  · simp only [hany, Bool.false_eq_true, ↓reduceIte, List.find?_append]
    by_cases hid : id = key
    · subst hid
      have : m.find? (fun p => decide (p.1 = id)) = none := by
        rw [List.find?_eq_none]
        intro x hx hxe
        exact hany (List.any_eq_true.2 ⟨x, hx, hxe⟩)
      simp [this]
    · have : ¬ key = id := fun h => hid h.symm
      cases hf : m.find? (fun p => decide (p.1 = id)) with
      | none => simp [hid, this]
      | some q => simp [hid]

theorem mem_mapAssign (m : List (Nat × FaceId)) (key : Nat) (v : FaceId) (q : Nat × FaceId)
    (h : q ∈ mapAssign m key v) : q ∈ m ∨ q = (key, v) := by
  unfold mapAssign at h
  split at h
  · obtain ⟨p, hp, rfl⟩ := List.mem_map.1 h
    by_cases hk : p.1 = key
    · right; simp [hk]
    · left; simpa [hk] using hp
  · rcases List.mem_append.1 h with h | h
    · exact Or.inl h
    · exact Or.inr (by simpa using h)

/-- In a graph produced by `addPolygon` calls, every registered address is the
address of an entity of the graph. -/
theorem Built.registered (k : Kernel G) {gr : PolygonGraph G} (h : Built k gr) :
    ∀ q ∈ gr.m_EntitiesBySelfId, q.2 ∈ gr.m_Entities.map PolygonEntity.ptr := by
  induction h with
  | empty => simp [PolygonGraph.empty]
  | addPolygon gr P Feat _ ih =>
    generalize hres : gr.addPolygon k P Feat = res
    obtain ⟨r, gr'⟩ := res
    obtain ⟨he, ho⟩ := addPolygon_registry k gr P Feat r gr' hres
    intro q hq
    cases r with
    | error f =>
      obtain ⟨h1, h2⟩ := he f rfl
      simp only at hq ⊢
      rw [h2]
      rw [h1] at hq
      exact ih q hq
    | ok p =>
      obtain ⟨_, id, _, h1, h2⟩ := ho p rfl
      simp only at hq ⊢
      rw [h2]
      rw [h1] at hq
      rcases mem_mapAssign _ _ _ _ hq with hq | rfl
      · exact List.mem_append_left _ (ih q hq)
      · simp

/-- After a call of `addPolygon` that returns, `getEntity` finds the new entity
under the identifier of its feature. -/
theorem getEntity_new (k : Kernel G) (gr : PolygonGraph G) (b : Built k gr) (P : G)
    (Feat : OGRFeature) (id : Nat) (f : FaceId)
    (hr : (gr.addPolygon k P Feat).1 = .ok f) (hid : Feat.SELF_ID = some id) :
    ∃ E, (gr.addPolygon k P Feat).2.getEntity id = some E ∧ E.ptr = f ∧
      f = gr.allocatedEntities.length ∧ E.mp_Polygon = P ∧ E.mp_Feature = Feat := by
  generalize hres : gr.addPolygon k P Feat = res at hr
  obtain ⟨r, gr'⟩ := res
  simp only at hr
  subst hr
  obtain ⟨_, ho⟩ := addPolygon_registry k gr P Feat _ gr' hres
  obtain ⟨hf, id', hid', hmap, _⟩ := ho f rfl
  have hidd : id' = id := by rw [hid] at hid'; exact (Option.some.inj hid').symm
  subst hidd
  have w := b.wellFormed k
  obtain ⟨New, New', ents', added, ha⟩ := addPolygon_spec k gr P Feat _ gr' hres
  · obtain ⟨hn, hs, _, _, _, hents, _, hout⟩ := ha
    rcases hout with ⟨e, he, _⟩ | ⟨hok, hE, _⟩
    · cases he
    · have hNew : New.ptr = gr.allocatedEntities.length ∧ New.mp_Polygon = P ∧
          New.mp_Feature = Feat := by
        rw [hn]
        exact ⟨rfl, rfl, rfl⟩
      refine ⟨New', ?_, ?_, hf, ?_, ?_⟩
      · unfold PolygonGraph.getEntity
        simp only
        rw [hmap, mapAssign_find]
        simp only [↓reduceIte, hE, List.find?_append]
        have hnone : ents'.find? (fun F => decide (F.ptr = f)) = none := by
          rw [List.find?_eq_none]
          intro X hX hXe
          have hptr : X.ptr ∈ ents'.map PolygonEntity.ptr := List.mem_map.2 ⟨X, hX, rfl⟩
          rw [forall₂_ptr_eq hents] at hptr
          obtain ⟨Y, hY, hYX⟩ := List.mem_map.1 hptr
          have := w.ptrs Y hY
          have hXf : X.ptr = f := by simpa using hXe
          rw [hYX, hXf, hf] at this
          unfold FaceId at *
          omega
        have hptr : New'.ptr = f := by rw [hs.ptr, hNew.1, hf]
        simp [hnone, hptr]
      · rw [hs.ptr, hNew.1, hf]
      · rw [hs.polygon, hNew.2.1]
      · rw [hs.feature, hNew.2.2]

/-- A call of `addPolygon` changes what `getEntity` finds under an identifier
only when it returns and the identifier is that of the new feature. -/
theorem getEntity_kept (k : Kernel G) (gr : PolygonGraph G) (b : Built k gr) (P : G)
    (Feat : OGRFeature) (id : Nat)
    (h : (∀ f, (gr.addPolygon k P Feat).1 ≠ .ok f) ∨ Feat.SELF_ID ≠ some id) :
    ((gr.addPolygon k P Feat).2.getEntity id).map PolygonEntity.ptr
      = (gr.getEntity id).map PolygonEntity.ptr := by
  generalize hres : gr.addPolygon k P Feat = res at h
  obtain ⟨r, gr'⟩ := res
  simp only at h ⊢
  obtain ⟨he, ho⟩ := addPolygon_registry k gr P Feat r gr' hres
  rw [getEntity_ptr, getEntity_ptr]
  cases r with
  | error f =>
    obtain ⟨h1, h2⟩ := he f rfl
    rw [h1, h2]
  | ok p =>
    obtain ⟨_, id', hid', h1, h2⟩ := ho p rfl
    have hne : ¬ id = id' := by
      rcases h with h | h
      · exact absurd rfl (h p)
      · intro hc; subst hc; exact h hid'
    rw [h1, h2, mapAssign_find]
    simp only [hne, ↓reduceIte]
    cases hf : gr.m_EntitiesBySelfId.find? (fun p => decide (p.1 = id)) with
    | none => rfl
    | some q =>
      have hq := b.registered k q (List.mem_of_find?_eq_some hf)
      simp [hq]

end RegistryLemmas

section TopologyClaims
variable {G : Type}

/-- C13 as amended: let the line selected by `computeNeighbourByLineTopology` be
the first component of the layer, in layer order, whose start point the
polygon of the face covers, and let `g` be the first neighbour of the index,
in the order of its keys, whose geometry covers the end point of the line and
whose identifier is not that of the face.  When the face has no line-neighbour
map, or no recorded line neighbour intersects the selected line, the result is
the pair of `g` and the full length of the line.  When a recorded line
neighbour intersects the selected line, the result is the first such line
entity, with the flow length computed from the parts of the line outside
it: the neighbouring face is not the result. -/
theorem computeNeighbourByLineTopology_face_unless_line_met (k : Kernel G)
    (pk : PointKernel G) (dk : DatasetKernel G) (h : EdgeHeap G)
    (Faces : List (PolygonEntity G)) (Lines : List (LineStringEntity G))
    (F F1 : PolygonEntity G) (LineTopology : VectorDataset G)
    (Coll : G) (Copy1 : VectorDataset G) (Line End : G) (m : NeighboursMap) (g : FaceId)
    (hline : LineTopology.isLineType 0 = .ok true)
    (hn : F.ensureNeighbours h = (.ok (), F1))
    (hg : VectorDataset.geometries dk
      { LineTopology with m_Features := [], m_Geometries := [] } 0 = (.ok Coll, Copy1))
    (hi : k.intersects F1.mp_Polygon Coll = true)
    (hcomp : ∀ L ∈ k.getGeometries Coll,
      isLineString k L = true ∧ (pk.getStartPoint L).isSome = true)
    (hsel : (k.getGeometries Coll).find? (startCovered k pk F1.mp_Polygon) = some Line)
    (hend : pk.getEndPoint Line = some End)
    (hm : F1.mp_NeighboursMap = some m)
    (hfaces : ∀ p ∈ m, (Faces.find? (fun N => N.ptr = p.1)).isSome = true)
    (hG : downFace k Faces F1 End m = some g) :
    ((F1.mp_LineStringNeighboursMap = none ∨
        ∃ lm, F1.mp_LineStringNeighboursMap = some lm ∧
          ∀ p ∈ lm, lineApart k Lines Line p.1 = true) →
      F.computeNeighbourByLineTopology k pk dk h Faces Lines LineTopology
        = (.ok (some (.face g), k.getLength Line), F1)) ∧
    (∀ (pre post : LineStringNeighboursMap) (l : LineId) (e : Option EdgeId)
        (R : LineStringEntity G) (FlowLength : ℚ),
      F1.mp_LineStringNeighboursMap = some (pre ++ (l, e) :: post) →
      (∀ p ∈ pre, lineApart k Lines Line p.1 = true) →
      Lines.find? (fun R => R.ptr = l) = some R →
      k.intersects R.line Line = true →
      flowLengthLoop k pk F1.mp_Polygon R.line (k.getGeometries (k.difference Line R.line))
        (k.getLength Line) = .ok FlowLength →
      F.computeNeighbourByLineTopology k pk dk h Faces Lines LineTopology
        = (.ok (some (.line l), FlowLength), F1)) := by
  have hs := computeNeighbourByLineTopology_selected k pk dk h Faces Lines F F1 LineTopology
    Coll Copy1 Line End m hline hn hg hi hcomp hsel hend hm hfaces
  rw [hG] at hs
  refine ⟨fun hno => ?_, fun pre post l e R FlowLength hlm hpre hR hint hfl => ?_⟩
  · rcases hno with hno | ⟨lm, hlm, hap⟩
    · rw [hs, hno]
    · rw [hs, hlm]
      simp only [downLineLoop_apart k pk Lines F1.mp_Polygon Line _ lm hap]
  · rw [hs, hlm]
    simp only [downLineLoop_first k pk Lines F1.mp_Polygon Line
      (some (.face g), k.getLength Line) l e R post FlowLength hR hint hfl pre hpre]

/-- C14: `getEntity` returns the null pointer for every identifier on the empty
graph; after a call of `addPolygon` on a graph produced by `addPolygon` calls,
`getEntity` returns the new entity (the object just allocated, with the
polygon and the feature of the call) under the identifier of the feature when
the call returned, and what it returned before the call (the same object, or
the null pointer) under every other identifier and after a call that raised.
On a layer of lines that parses, all with a start point, and a face whose
neighbour index is computed, `computeNeighbourByLineTopology` returns the pair
of the null pointer and 0 when the polygon covers the start point of no line
of the layer, and when the end point of the selected line is covered by no
neighbour with another identifier and no recorded line neighbour intersects
the line. -/
theorem lookup_misses_return_not_found (k : Kernel G) (pk : PointKernel G)
    (dk : DatasetKernel G) :
    (∀ id, (PolygonGraph.empty : PolygonGraph G).getEntity id = none) ∧
    (∀ (gr : PolygonGraph G) (Polygon : G) (Feat : OGRFeature) (id : Nat), Built k gr →
      (∀ f, (gr.addPolygon k Polygon Feat).1 = .ok f → Feat.SELF_ID = some id →
        ∃ E, (gr.addPolygon k Polygon Feat).2.getEntity id = some E ∧ E.ptr = f ∧
          f = gr.allocatedEntities.length ∧ E.mp_Polygon = Polygon ∧ E.mp_Feature = Feat) ∧
      (((∀ f, (gr.addPolygon k Polygon Feat).1 ≠ .ok f) ∨ Feat.SELF_ID ≠ some id) →
        ((gr.addPolygon k Polygon Feat).2.getEntity id).map PolygonEntity.ptr
          = (gr.getEntity id).map PolygonEntity.ptr)) ∧
    (∀ (h : EdgeHeap G) (Faces : List (PolygonEntity G)) (Lines : List (LineStringEntity G))
        (F F1 : PolygonEntity G) (LineTopology : VectorDataset G) (Coll : G)
        (Copy1 : VectorDataset G),
      LineTopology.isLineType 0 = .ok true →
      F.ensureNeighbours h = (.ok (), F1) →
      VectorDataset.geometries dk
        { LineTopology with m_Features := [], m_Geometries := [] } 0 = (.ok Coll, Copy1) →
      (∀ L ∈ k.getGeometries Coll,
        isLineString k L = true ∧ (pk.getStartPoint L).isSome = true) →
      ((∀ L ∈ k.getGeometries Coll, startCovered k pk F1.mp_Polygon L = false) →
        F.computeNeighbourByLineTopology k pk dk h Faces Lines LineTopology
          = (.ok (none, 0), F1)) ∧
      (∀ (Line End : G) (m : NeighboursMap),
        (k.getGeometries Coll).find? (startCovered k pk F1.mp_Polygon) = some Line →
        pk.getEndPoint Line = some End →
        F1.mp_NeighboursMap = some m →
        (∀ p ∈ m, (Faces.find? (fun N => N.ptr = p.1)).isSome = true) →
        downFace k Faces F1 End m = none →
        (F1.mp_LineStringNeighboursMap = none ∨
          ∃ lm, F1.mp_LineStringNeighboursMap = some lm ∧
            ∀ p ∈ lm, lineApart k Lines Line p.1 = true) →
        F.computeNeighbourByLineTopology k pk dk h Faces Lines LineTopology
          = (.ok (none, 0), F1))) := by
  refine ⟨fun id => rfl, fun gr Polygon Feat id b => ⟨fun f hr hid =>
    getEntity_new k gr b Polygon Feat id f hr hid, getEntity_kept k gr b Polygon Feat id⟩, ?_⟩
  intro h Faces Lines F F1 LineTopology Coll Copy1 hline hn hg hcomp
  refine ⟨computeNeighbourByLineTopology_unselected k pk dk h Faces Lines F F1 LineTopology
    Coll Copy1 hline hn hg hcomp, ?_⟩
  intro Line End m hsel hend hm hfaces hD hno
  cases hi : k.intersects F1.mp_Polygon Coll with
  | false =>
    unfold PolygonEntity.computeNeighbourByLineTopology
    have hline' : VectorDataset.isLineType
        { LineTopology with m_Features := [], m_Geometries := [] } 0 = .ok true := hline
    simp only [hline', hn, hg, hi, Bool.not_false, ↓reduceIte]
  | true =>
    have hs := computeNeighbourByLineTopology_selected k pk dk h Faces Lines F F1 LineTopology
      Coll Copy1 Line End m hline hn hg hi hcomp hsel hend hm hfaces
    rw [hD] at hs
    rcases hno with hno | ⟨lm, hlm, hap⟩
    · rw [hs, hno]
    · rw [hs, hlm]
      simp only [downLineLoop_apart k pk Lines F1.mp_Polygon Line _ lm hap]

end TopologyClaims

namespace Lattice

/-- The layer `flowLayer` after the call of `geometries` made on the copy. -/
theorem flowLayer_geometries :
    VectorDataset.geometries flowDatasetKernel
      { flowLayer with m_Features := [], m_Geometries := [] } 0
      = (.ok (.collection [flowLine]),
         (VectorDataset.geometries flowDatasetKernel
            { flowLayer with m_Features := [], m_Geometries := [] } 0).2) :=
  Prod.ext (by decide!) rfl

/-- A run of C13.  The face of the square at `(0, 0)` has the square at
`(1, 0)` as neighbour, and the line from `(0, 0)` to `(2, 0)` starts on the
first square and ends on the second.  With the ditch along the top side of the
first square as recorded line neighbour, which the line does not meet, the
result is the neighbouring face and the full length 2 of the line.  With the
river along the shared side as recorded line neighbour, which the line meets
at `(1, 0)`, the result is the river and the length 1 of the part of the line
that ends on it. -/
theorem computeNeighbourByLineTopology_face_unless_line_met_witness :
    flowFaceDitch.computeNeighbourByLineTopology flowKernel flowPoints flowDatasetKernel
        flowGraph.heap flowGraph.m_Entities ditch.entities flowLayer
      = (.ok (some (.face 1), flowKernel.getLength (.geom flowLine)), flowFaceDitch) ∧
    flowKernel.getLength (.geom flowLine) = 2 ∧
    flowFaceRiver.computeNeighbourByLineTopology flowKernel flowPoints flowDatasetKernel
        flowGraph.heap flowGraph.m_Entities river.entities flowLayer
      = (.ok (some (.line 0), 1), flowFaceRiver) :=
  ⟨(computeNeighbourByLineTopology_face_unless_line_met flowKernel flowPoints flowDatasetKernel
      flowGraph.heap flowGraph.m_Entities ditch.entities flowFaceDitch flowFaceDitch flowLayer
      (.collection [flowLine]) _ (.geom flowLine) (.point (2, 0)) [(1, [1])] 1
      (by decide!) (Prod.ext (by decide!) (by decide!)) flowLayer_geometries (by decide!)
      (by decide!) (by decide!) (by decide!) (by decide!) (by decide!) (by decide!)).1
      (Or.inr ⟨[(0, some 2)], by decide!, by decide!⟩),
   by decide!,
   (computeNeighbourByLineTopology_face_unless_line_met flowKernel flowPoints flowDatasetKernel
      flowGraph.heap flowGraph.m_Entities river.entities flowFaceRiver flowFaceRiver flowLayer
      (.collection [flowLine]) _ (.geom flowLine) (.point (2, 0)) [(1, [1])] 1
      (by decide!) (Prod.ext (by decide!) (by decide!)) flowLayer_geometries (by decide!)
      (by decide!) (by decide!) (by decide!) (by decide!) (by decide!) (by decide!)).2
      [] [] 0 (some 1) ⟨0, .geom sharedSide⟩ 1 (by decide!) (by decide!) rfl
      (by decide!) (by decide!)⟩

/-- C13, counterexample.  The face of the square at `(0, 0)` has the square
at `(1, 0)` as neighbour and the river along their shared side as recorded line
neighbour.  The only line of the layer, from `(0, 0)` to `(2, 0)`, starts on
the face and its end point `(2, 0)` is covered by the geometry of the
neighbour, yet the result is not the neighbour with the length 2 of the line:
it is the river, which the line meets at `(1, 0)`, with the length 1. -/
theorem computeNeighbourByLineTopology_prefers_line_entity :
    flowFaceRiver.mp_NeighboursMap = some [(1, [1])] ∧
    flowFaceRiver.mp_LineStringNeighboursMap = some [(0, some 1)] ∧
    flowKernel.getGeometries (.collection [flowLine]) = [.geom flowLine] ∧
    startCovered flowKernel flowPoints flowFaceRiver.mp_Polygon (.geom flowLine) = true ∧
    flowPoints.getEndPoint (.geom flowLine) = some (.point (2, 0)) ∧
    (flowGraph.getEntity 2).map (fun N => flowKernel.covers N.mp_Polygon (.point (2, 0)))
      = some true ∧
    flowKernel.getLength (.geom flowLine) = 2 ∧
    (flowFaceRiver.computeNeighbourByLineTopology flowKernel flowPoints flowDatasetKernel
        flowGraph.heap flowGraph.m_Entities river.entities flowLayer).1
      = .ok (some (.line 0), 1) ∧
    (flowFaceRiver.computeNeighbourByLineTopology flowKernel flowPoints flowDatasetKernel
        flowGraph.heap flowGraph.m_Entities river.entities flowLayer).1
      ≠ .ok (some (.face 1), 2) := by
  refine ⟨by decide!, by decide!, by decide!, by decide!, by decide!, by decide!, by decide!,
    by decide!, by decide!⟩

/-- The layer `inflowLayer` after the call of `geometries` made on the copy. -/
theorem inflowLayer_geometries :
    VectorDataset.geometries flowDatasetKernel
      { inflowLayer with m_Features := [], m_Geometries := [] } 0
      = (.ok (.collection [.lineString [(2, 0), (1, 0)]]),
         (VectorDataset.geometries flowDatasetKernel
            { inflowLayer with m_Features := [], m_Geometries := [] } 0).2) :=
  Prod.ext (by decide!) rfl

/-- The layer `outflowLayer` after the call of `geometries` made on the copy. -/
theorem outflowLayer_geometries :
    VectorDataset.geometries flowDatasetKernel
      { outflowLayer with m_Features := [], m_Geometries := [] } 0
      = (.ok (.collection [.lineString [(1, 0), (2, 0), (3, 0)]]),
         (VectorDataset.geometries flowDatasetKernel
            { outflowLayer with m_Features := [], m_Geometries := [] } 0).2) :=
  Prod.ext (by decide!) rfl

/-- A run of C14.  After the insertion of the square at `(1, 0)` with the
identifier 2 into the graph of the square at `(0, 0)`, `getEntity(2)` returns
the new entity, and `getEntity(3)` returns what it returned before, the null
pointer.  For the face of the square at `(0, 0)`, with the ditch as recorded
line neighbour, the result is the null pointer and 0 on the layer whose only
line starts away from the square, and on the layer whose only line starts on
the square and ends at `(3, 0)`, on no neighbour. -/
theorem lookup_misses_return_not_found_witness :
    (∃ E, flowGraph.getEntity 2 = some E ∧ E.ptr = 1 ∧ 1 = flowSquare.allocatedEntities.length ∧
      E.mp_Polygon = .geom (square 1 0) ∧ E.mp_Feature = ⟨some 2⟩) ∧
    (flowGraph.getEntity 3).map PolygonEntity.ptr = (flowSquare.getEntity 3).map PolygonEntity.ptr ∧
    flowSquare.getEntity 3 = none ∧
    flowFaceDitch.computeNeighbourByLineTopology flowKernel flowPoints flowDatasetKernel
        flowGraph.heap flowGraph.m_Entities ditch.entities inflowLayer
      = (.ok (none, 0), flowFaceDitch) ∧
    flowFaceDitch.computeNeighbourByLineTopology flowKernel flowPoints flowDatasetKernel
        flowGraph.heap flowGraph.m_Entities ditch.entities outflowLayer
      = (.ok (none, 0), flowFaceDitch) :=
  ⟨((lookup_misses_return_not_found flowKernel flowPoints flowDatasetKernel).2.1 flowSquare
      (.geom (square 1 0)) ⟨some 2⟩ 2 (Built.addPolygon _ _ _ Built.empty)).1 1 (by decide!) rfl,
   ((lookup_misses_return_not_found flowKernel flowPoints flowDatasetKernel).2.1 flowSquare
      (.geom (square 1 0)) ⟨some 2⟩ 3 (Built.addPolygon _ _ _ Built.empty)).2
      (Or.inr (by decide)),
   by decide!,
   ((lookup_misses_return_not_found flowKernel flowPoints flowDatasetKernel).2.2 flowGraph.heap
      flowGraph.m_Entities ditch.entities flowFaceDitch flowFaceDitch inflowLayer
      (.collection [.lineString [(2, 0), (1, 0)]]) _ (by decide!)
      (Prod.ext (by decide!) (by decide!)) inflowLayer_geometries (by decide!)).1 (by decide!),
   ((lookup_misses_return_not_found flowKernel flowPoints flowDatasetKernel).2.2 flowGraph.heap
      flowGraph.m_Entities ditch.entities flowFaceDitch flowFaceDitch outflowLayer
      (.collection [.lineString [(1, 0), (2, 0), (3, 0)]]) _ (by decide!)
      (Prod.ext (by decide!) (by decide!)) outflowLayer_geometries (by decide!)).2
      (.geom (.lineString [(1, 0), (2, 0), (3, 0)])) (.point (3, 0)) [(1, [1])]
      (by decide!) (by decide!) (by decide!) (by decide!) (by decide!)
      (Or.inr ⟨[(0, some 2)], by decide!, by decide!⟩)⟩

end Lattice

section RepairLemmas
variable {G : Type}

theorem parseLoop_source (k : DatasetKernel G) (LayerIndex : Nat) :
    ∀ (feats : List (Nat × G)) (st : VectorDataset G × List G),
      (parseLoop k LayerIndex feats st).2.1.mp_DataSource = st.1.mp_DataSource := by
  intro feats
  induction feats with
  | nil => intro st; rfl
  | cons a rest ih =>
    intro st
    obtain ⟨ds, Geoms⟩ := st
    obtain ⟨fid, g⟩ := a
    unfold parseLoop
    split
    · rfl
    · split
      · rfl
      · rw [ih]

/-- The function `parse` does not write to the data source. -/
theorem parse_source (k : DatasetKernel G) (ds : VectorDataset G) (LayerIndex : Nat) :
    (ds.parse k LayerIndex).2.mp_DataSource = ds.mp_DataSource := by
  unfold VectorDataset.parse
  cases hl : ds.mp_DataSource[LayerIndex]? with
  | none => rfl
  | some Layer =>
    simp only
    have hp := parseLoop_source k LayerIndex Layer.features
      ({ ds with m_Features := cacheInsert ds.m_Features LayerIndex [] }, [])
    generalize parseLoop k LayerIndex Layer.features
      ({ ds with m_Features := cacheInsert ds.m_Features LayerIndex [] }, []) = r at hp
    obtain ⟨o, ds2, Geoms⟩ := r
    simp only at hp
    cases o with
    | error f => exact hp
    | ok u =>
      simp only
      split
      · exact hp
      · split
        · exact hp
        · exact hp

/-- The function `features` does not write to the data source. -/
theorem features_source (k : DatasetKernel G) (ds : VectorDataset G) (LayerIndex : Nat) :
    (ds.features k LayerIndex).2.mp_DataSource = ds.mp_DataSource := by
  unfold VectorDataset.features
  simp only
  have hp := parse_source k ds LayerIndex
  split
  · rename_i f ds1 heq
    split at heq
    · rw [← hp, heq]
    · cases heq
  · rename_i ds1 heq
    have : ds1.mp_DataSource = ds.mp_DataSource := by
      split at heq
      · rw [← hp, heq]
      · simp only [Prod.mk.injEq] at heq; rw [← heq.2]
    split
    · exact this
    · exact this

/-- The function `geometries` does not write to the data source. -/
theorem geometries_source (k : DatasetKernel G) (ds : VectorDataset G) (LayerIndex : Nat) :
    (ds.geometries k LayerIndex).2.mp_DataSource = ds.mp_DataSource := by
  unfold VectorDataset.geometries
  simp only
  have hp := parse_source k ds LayerIndex
  split
  · rename_i f ds1 heq
    split at heq
    · rw [← hp, heq]
    · cases heq
  · rename_i ds1 heq
    have : ds1.mp_DataSource = ds.mp_DataSource := by
      split at heq
      · rw [← hp, heq]
      · simp only [Prod.mk.injEq] at heq; rw [← heq.2]
    split
    · exact this
    · exact this

theorem pairOuterLoop_source (k : DatasetKernel G) (test : G → G → Bool) (LayerIndex : Nat) :
    ∀ (Features : FeaturesList G) (st : VectorDataset G × FeaturePairs G),
      (pairOuterLoop k test LayerIndex Features st).2.mp_DataSource = st.1.mp_DataSource := by
  intro Features
  induction Features with
  | nil => intro st; rfl
  | cons it rest ih =>
    intro st
    obtain ⟨ds, l⟩ := st
    unfold pairOuterLoop
    have hf := features_source k ds LayerIndex
    generalize ds.features k LayerIndex = r at hf
    obtain ⟨o, ds1⟩ := r
    cases o with
    | error f => exact hf
    | ok Fs => simp only; rw [ih]; exact hf

/-- The functions `findOverlap` and `findGap` do not write to the data
source. -/
theorem findPairs_source (k : DatasetKernel G) (test : G → G → Bool) (ds : VectorDataset G)
    (LayerIndex : Nat) :
    (findPairs k test ds LayerIndex).2.mp_DataSource = ds.mp_DataSource := by
  unfold findPairs
  cases ds.isPolygonType LayerIndex with
  | error f => rfl
  | ok b =>
    cases b with
    | false => rfl
    | true =>
      simp only
      have hf := features_source k { ds with m_Features := [], m_Geometries := [] } LayerIndex
      generalize VectorDataset.features k { ds with m_Features := [], m_Geometries := [] }
        LayerIndex = r at hf
      obtain ⟨o, ds1⟩ := r
      cases o with
      | error f => exact hf
      | ok Fs => simp only; rw [pairOuterLoop_source]; exact hf

/-- The call `SetFeature` on a layer writes to this layer only. -/
theorem setFeature_other (ds ds' : VectorDataset G) (LayerIndex FID : Nat) (g : G)
    (Other : Nat) (hne : Other ≠ LayerIndex) (h : ds.setFeature LayerIndex FID g = .ok ds') :
    ds'.mp_DataSource[Other]? = ds.mp_DataSource[Other]? := by
  unfold VectorDataset.setFeature at h
  cases hl : ds.mp_DataSource[LayerIndex]? with
  | none => simp [hl] at h
  | some Layer =>
    simp only [hl, Except.ok.injEq] at h
    subst h
    simp only
    rw [List.getElem?_set_ne (fun hc => hne hc.symm)]

theorem snapFeatureStep_other (k : RepairKernel G) (Threshold : ℚ) (LayerIndex : Nat)
    (ds : VectorDataset G) (it : Feature G × G) (Other : Nat) (hne : Other ≠ LayerIndex) :
    (snapFeatureStep k Threshold LayerIndex ds it).2.mp_DataSource[Other]?
      = ds.mp_DataSource[Other]? := by
  unfold snapFeatureStep
  have hg := geometries_source k.toDatasetKernel ds 0
  generalize ds.geometries k.toDatasetKernel 0 = r at hg
  obtain ⟨o, ds1⟩ := r
  simp only at hg
  cases o with
  | error f => simp only; rw [hg]
  | ok Coll =>
    simp only
    cases cacheAt ds1.components 0 with
    | none => simp only; rw [hg]
    | some Geom =>
      simp only
      split
      · simp only; rw [hg]
      · cases deleteOthersLoop k.toVertexKernel it.1.ptr it.2 Geom ds1.deleted with
        | error f => simp only; rw [hg]
        | ok deleted =>
          simp only
          split
          · simp only; rw [hg]
          · split
            · simp only; rw [hg]
            · cases k.createPolygon
                (snapStep k.toVertexKernel Threshold (Geom.map Prod.snd) it.2) with
              | none => simp only; rw [hg]
              | some NewPolygon =>
                simp only
                cases hs : VectorDataset.setFeature
                  { ds1 with deleted := deleted,
                             m_Features := setGeometry ds1.m_Features it.1.ptr NewPolygon }
                  LayerIndex it.1.FID NewPolygon with
                | error f => simp only; rw [hg]
                | ok ds4 =>
                  have h4 := setFeature_other _ ds4 LayerIndex it.1.FID NewPolygon Other hne hs
                  simp only at h4 ⊢
                  split
                  · rename_i f ds6 heq
                    have hp := parse_source k.toDatasetKernel
                      { ds4 with deleted := ds4.deleted ++ [it.1.ptr], m_Geometries := [] }
                      LayerIndex
                    rw [heq] at hp
                    simp only at hp ⊢
                    rw [hp, h4, hg]
                  · rename_i ds6 heq
                    have hp := parse_source k.toDatasetKernel
                      { ds4 with deleted := ds4.deleted ++ [it.1.ptr], m_Geometries := [] }
                      LayerIndex
                    rw [heq] at hp
                    simp only at hp ⊢
                    rw [hp, h4, hg]

theorem snapFeaturesLoop_other (k : RepairKernel G) (Threshold : ℚ) (LayerIndex : Nat)
    (Other : Nat) (hne : Other ≠ LayerIndex) :
    ∀ (Features : FeaturesList G) (ds : VectorDataset G),
      (snapFeaturesLoop k Threshold LayerIndex Features ds).2.mp_DataSource[Other]?
        = ds.mp_DataSource[Other]? := by
  intro Features
  induction Features with
  | nil => intro ds; rfl
  | cons it rest ih =>
    intro ds
    unfold snapFeaturesLoop
    have hs := snapFeatureStep_other k Threshold LayerIndex ds it Other hne
    generalize snapFeatureStep k Threshold LayerIndex ds it = r at hs
    obtain ⟨o, ds1⟩ := r
    cases o with
    | error f => exact hs
    | ok u => simp only; rw [ih]; exact hs

/-- The function `snapPolygonVertices` on a layer writes to this layer only,
whatever its outcome. -/
theorem snapPolygonVertices_other (k : RepairKernel G) (ds : VectorDataset G) (Threshold : ℚ)
    (LayerIndex : Nat) (Other : Nat) (hne : Other ≠ LayerIndex) :
    (ds.snapPolygonVertices k Threshold LayerIndex).2.mp_DataSource[Other]?
      = ds.mp_DataSource[Other]? := by
  unfold VectorDataset.snapPolygonVertices
  have hf := features_source k.toDatasetKernel ds LayerIndex
  generalize ds.features k.toDatasetKernel LayerIndex = r at hf
  obtain ⟨o, ds1⟩ := r
  cases o with
  | error f => simp only at hf ⊢; rw [hf]
  | ok Fs =>
    simp only at hf ⊢
    rw [snapFeaturesLoop_other k Threshold LayerIndex Other hne, hf]

end RepairLemmas

section RepairClaims
variable {G : Type}

/-- The data source after `cleanOverlap` on a layer other than the layer 0,
when `findOverlap` finds no pair on the layer 0: the layer is what it was. -/
theorem cleanOverlap_other (k : RepairKernel G) (ds ds1 : VectorDataset G) (Threshold : ℚ)
    (LayerIndex : Nat) (hL : LayerIndex ≠ 0)
    (h0 : VectorDataset.findOverlap k.toDatasetKernel
      { ds with m_Features := [], m_Geometries := [] } 0 = (.ok [], ds1)) :
    (ds.cleanOverlap k Threshold LayerIndex).2.mp_DataSource[LayerIndex]?
      = ds.mp_DataSource[LayerIndex]? := by
  have h1 : ds1.mp_DataSource = ds.mp_DataSource := by
    have := findPairs_source k.toDatasetKernel (overlapTest k.toDatasetKernel)
      { ds with m_Features := [], m_Geometries := [] } 0
    unfold VectorDataset.findOverlap at h0
    rw [h0] at this
    exact this
  unfold VectorDataset.cleanOverlap
  cases ds.isPolygonType LayerIndex with
  | error f => rfl
  | ok b =>
    cases b with
    | false => rfl
    | true =>
      simp only [h0, List.length_nil, repairLoop]
      have hs := snapPolygonVertices_other k ds1 Threshold 0 LayerIndex hL
      generalize ds1.snapPolygonVertices k Threshold 0 = r at hs
      obtain ⟨o, ds3⟩ := r
      cases o with
      | error f => simp only at hs ⊢; rw [hs, h1]
      | ok u => simp only at hs ⊢; rw [hs, h1]

/-- C17, what the code does: `cleanOverlap` searches the overlapping pairs by
`findOverlap()`, called without layer index, on the layer 0, whatever the
layer it is called for.  When the layer 0 has no overlapping pair and
`cleanOverlap` is called for another layer, which holds two features whose
geometries overlap, then after a call that returns the layer is what it was
and `findOverlap` on the layer does not return the empty list. -/
theorem cleanOverlap_repairs_layer_zero_only (k : RepairKernel G)
    (ds ds1 ds' : VectorDataset G) (Threshold : ℚ) (LayerIndex : Nat) (Layer : OGRLayer G)
    (A B : Nat × G)
    (hL : LayerIndex ≠ 0)
    (h0 : VectorDataset.findOverlap k.toDatasetKernel
      { ds with m_Features := [], m_Geometries := [] } 0 = (.ok [], ds1))
    (hl : ds.mp_DataSource[LayerIndex]? = some Layer)
    (hA : A ∈ Layer.features) (hB : B ∈ Layer.features)
    (hAB : overlapTest k.toDatasetKernel A.2 B.2 = true)
    (hc : ds.cleanOverlap k Threshold LayerIndex = (.ok (), ds')) :
    ds'.mp_DataSource[LayerIndex]? = some Layer ∧
    (ds'.findOverlap k.toDatasetKernel LayerIndex).1 ≠ .ok [] := by
  have hsrc : ds'.mp_DataSource[LayerIndex]? = some Layer := by
    have := cleanOverlap_other k ds ds1 Threshold LayerIndex hL h0
    rw [hc] at this
    rw [← hl]
    exact this
  refine ⟨hsrc, ?_⟩
  intro hne
  generalize hres : ds'.findOverlap k.toDatasetKernel LayerIndex = r at hne
  obtain ⟨o, ds2⟩ := r
  simp only at hne
  subst hne
  unfold VectorDataset.findOverlap at hres
  obtain ⟨Layer', Features, e1, _, _, e4, _, _, _, e8⟩ :=
    findPairs_spec k.toDatasetKernel (overlapTest k.toDatasetKernel) ds' ds2 LayerIndex [] hres
  rw [hsrc] at e1
  cases e1
  rw [← e4] at hA hB
  obtain ⟨A', hA', rfl⟩ := List.mem_map.1 hA
  obtain ⟨B', hB', rfl⟩ := List.mem_map.1 hB
  rcases e8 A' hA' B' hB' hAB with h | h
  · simp [pairFound] at h
  · simp [pairFound] at h

end RepairClaims

namespace Lattice

/-- C17, failing input.  The data source `twoLayers` has the square at `(5, 0)`
in its layer 0 and, in its layer 1, two rectangles that share the cell
`(1, 0)`.  The call of `cleanOverlap` with the threshold 1/10 for the layer 1
returns normally; the layer 1 is what it was, and `findOverlap` on the layer 1
then reports the pair of the features with the FIDs 0 and 1. -/
theorem cleanOverlap_repairs_layer_zero_only_witness :
    twoLayers.cleanOverlap repairKernel (1 / 10) 1 = (.ok (), twoLayersCleaned) ∧
    (twoLayersCleaned.mp_DataSource[1]?
        = some ⟨.wkbPolygon, [(0, .inl (.polygon [(0, 0), (1, 0)] [])),
                               (1, .inl (.polygon [(1, 0), (2, 0)] []))]⟩ ∧
      (twoLayersCleaned.findOverlap repairKernel.toDatasetKernel 1).1 ≠ .ok []) ∧
    (twoLayersCleaned.findOverlap datasetKernel 1).1.map
        (fun l => l.map (fun p => (p.1.FID, p.2.FID))) = .ok [(0, 1)] :=
  ⟨Prod.ext (by decide!) rfl,
   cleanOverlap_repairs_layer_zero_only repairKernel twoLayers
     (VectorDataset.findOverlap datasetKernel
       { twoLayers with m_Features := [], m_Geometries := [] } 0).2
     twoLayersCleaned (1 / 10) 1
     ⟨.wkbPolygon, [(0, .inl (.polygon [(0, 0), (1, 0)] [])),
                    (1, .inl (.polygon [(1, 0), (2, 0)] []))]⟩
     (0, .inl (.polygon [(0, 0), (1, 0)] [])) (1, .inl (.polygon [(1, 0), (2, 0)] []))
     (by decide) (Prod.ext (by decide!) rfl) (by decide!) (List.mem_cons_self _ _)
     (List.mem_cons_of_mem _ (List.mem_cons_self _ _)) (by decide!)
     (Prod.ext (by decide!) rfl),
   by decide!⟩

end Lattice

section MergedClaims
variable {G : Type}

/-- C28, what the code does: `getMergedLineStringFromGeometry` returns the line
when `getMergedLineStringsFromGeometry` yields a vector of exactly one line,
and the null pointer when it yields a vector of zero or several lines.  When
the geometry is of a type other than line string, multi line string, linear
ring or geometry collection, `getMergedLineStringsFromGeometry` yields the
null pointer, and `getMergedLineStringFromGeometry` then calls `size()`
through this null pointer: the behaviour is undefined, no null result is
returned. -/
theorem getMergedLineStringFromGeometry_null_vector (k : Kernel G) (Geom : G) :
    (∀ L, getMergedLineStringsFromGeometry k Geom = some [L] →
      getMergedLineStringFromGeometry k Geom = .ok (some L)) ∧
    (∀ Lines, getMergedLineStringsFromGeometry k Geom = some Lines → Lines.length ≠ 1 →
      getMergedLineStringFromGeometry k Geom = .ok none) ∧
    (getMergedLineStringsFromGeometry k Geom = none ↔
      (k.getGeometryTypeId Geom ≠ .GEOS_LINESTRING ∧
       k.getGeometryTypeId Geom ≠ .GEOS_MULTILINESTRING ∧
       k.getGeometryTypeId Geom ≠ .GEOS_LINEARRING ∧
       k.getGeometryTypeId Geom ≠ .GEOS_GEOMETRYCOLLECTION)) ∧
    (getMergedLineStringsFromGeometry k Geom = none →
      getMergedLineStringFromGeometry k Geom
        = .error (.undefinedBehaviour "Lines->size() on a null pointer")) := by
  refine ⟨?_, ?_, ?_, ?_⟩
  · intro L h
    simp [getMergedLineStringFromGeometry, h]
  · intro Lines h hl
    simp [getMergedLineStringFromGeometry, h, hl]
  · unfold getMergedLineStringsFromGeometry
    cases k.getGeometryTypeId Geom <;> simp
  · intro h
    simp [getMergedLineStringFromGeometry, h]

/-- C29: the snapping step of `snapPolygonVertices` for one feature gives a
sequence with as many coordinates as the coordinate sequence of the current
polygon; every coordinate of the result is a function of the original
coordinate at the same position (the last vertex of the other features that
passes the test against it, else the coordinate itself), the same function at
every position; so equal coordinates at two positions give equal results, and
when the first and the last coordinates of the input are equal, so are the
first and the last coordinates of the result. -/
theorem snapStep_keeps_length_and_closure (k : VertexKernel G) (Threshold : ℚ)
    (Geom : List G) (CurrentPolygon : G) :
    (snapStep k Threshold Geom CurrentPolygon).length
      = (k.getCoordinates CurrentPolygon).length ∧
    snapStep k Threshold Geom CurrentPolygon
      = (k.getCoordinates CurrentPolygon).map (fun v =>
          ((otherVertices k CurrentPolygon Geom []).filter (snapTest Threshold v)).getLast?.getD v) ∧
    (∀ (i j : Nat) (v : Coordinate), (k.getCoordinates CurrentPolygon)[i]? = some v →
      (k.getCoordinates CurrentPolygon)[j]? = some v →
      (snapStep k Threshold Geom CurrentPolygon)[i]?
        = (snapStep k Threshold Geom CurrentPolygon)[j]?) ∧
    ((k.getCoordinates CurrentPolygon).head? = (k.getCoordinates CurrentPolygon).getLast? →
      (snapStep k Threshold Geom CurrentPolygon).head?
        = (snapStep k Threshold Geom CurrentPolygon).getLast?) := by
  have hmap : snapStep k Threshold Geom CurrentPolygon
      = (k.getCoordinates CurrentPolygon).map (fun v =>
          ((otherVertices k CurrentPolygon Geom []).filter (snapTest Threshold v)).getLast?.getD v) := by
    unfold snapStep
    have := snapOuterLoop_eq Threshold (otherVertices k CurrentPolygon Geom [])
      (k.getCoordinates CurrentPolygon) []
    simpa using this
  refine ⟨by rw [hmap, List.length_map], hmap, ?_, ?_⟩
  · intro i j v hi hj
    rw [hmap, List.getElem?_map, List.getElem?_map, hi, hj]
  · intro h
    rw [hmap, List.head?_map, List.getLast?_map, h]

end MergedClaims

namespace Lattice

/-- C28, failing input: the unit square is a polygon, for which
`getMergedLineStringsFromGeometry` yields the null pointer;
`getMergedLineStringFromGeometry` on the square dereferences it. -/
theorem getMergedLineStringFromGeometry_null_vector_witness :
    kernel.getGeometryTypeId (square 0 0) = .GEOS_POLYGON ∧
    getMergedLineStringsFromGeometry kernel (square 0 0) = none ∧
    getMergedLineStringFromGeometry kernel (square 0 0)
      = .error (.undefinedBehaviour "Lines->size() on a null pointer") :=
  ⟨by decide!, by decide!,
   (getMergedLineStringFromGeometry_null_vector kernel (square 0 0)).2.2.2 (by decide!)⟩

end Lattice

namespace Plane

/-- A run of C29: the ring of the triangle is closed; after the step, with the
threshold 0.01, the vertex `(1, 0)` moved onto the vertex `(1.005, 0)` of the
neighbour, the ring has 4 coordinates still and is closed still. -/
theorem snapStep_keeps_length_and_closure_witness :
    (kernel.getCoordinates triangle).head? = (kernel.getCoordinates triangle).getLast? ∧
    snapStep kernel (1 / 100) [triangle, neighbour] triangle
      = [⟨0, 0⟩, ⟨201 / 200, 0⟩, ⟨0, 1⟩, ⟨0, 0⟩] ∧
    (snapStep kernel (1 / 100) [triangle, neighbour] triangle).length = 4 ∧
    (snapStep kernel (1 / 100) [triangle, neighbour] triangle)[0]?
      = (snapStep kernel (1 / 100) [triangle, neighbour] triangle)[3]? ∧
    (snapStep kernel (1 / 100) [triangle, neighbour] triangle).head?
      = (snapStep kernel (1 / 100) [triangle, neighbour] triangle).getLast? :=
  ⟨by decide!, by decide!,
   (snapStep_keeps_length_and_closure kernel (1 / 100) [triangle, neighbour] triangle).1,
   (snapStep_keeps_length_and_closure kernel (1 / 100) [triangle, neighbour] triangle).2.2.1
     0 3 ⟨0, 0⟩ (by decide!) (by decide!),
   (snapStep_keeps_length_and_closure kernel (1 / 100) [triangle, neighbour] triangle).2.2.2
     (by decide!)⟩

end Plane

section NodeLemmas
variable {G : Type}

theorem findNode_append_self (gr : PolygonGraph G) (c : Coordinate) (h : gr.findNode c = none)
    (n : NodeId) :
    (gr.nodeMap ++ [(c, n)]).find? (fun p => p.1 = c) = some (c, n) := by
  unfold PolygonGraph.findNode at h
  have : gr.nodeMap.find? (fun p => decide (p.1 = c)) = none := by
    cases hf : gr.nodeMap.find? (fun p => decide (p.1 = c)) with
    | none => rfl
    | some q => simp [hf] at h
  simp [List.find?_append, this]

/-- After `getNode(c)` the node returned is the node found at `c`. -/
theorem findNode_getNode_self (gr : PolygonGraph G) (c : Coordinate) :
    (gr.getNode c).2.findNode c = some (gr.getNode c).1 := by
  unfold PolygonGraph.getNode
  cases h : gr.findNode c with
  | some n => simpa using h
  | none =>
    simp only
    unfold PolygonGraph.findNode
    simp only
    rw [findNode_append_self gr c h]
    rfl

/-- A call of `getNode` keeps the nodes found before. -/
theorem findNode_getNode_of_some (gr : PolygonGraph G) (c c' : Coordinate) (n : NodeId)
    (h : gr.findNode c' = some n) : (gr.getNode c).2.findNode c' = some n := by
  unfold PolygonGraph.getNode
  cases hc : gr.findNode c with
  | some m => simpa using h
  | none =>
    simp only
    unfold PolygonGraph.findNode at h ⊢
    simp only
    cases hf : gr.nodeMap.find? (fun p => decide (p.1 = c')) with
    | none => simp [hf] at h
    | some q =>
      rw [List.find?_append, hf]
      simpa [hf] using h

/-- A second call of `getNode` at the same coordinate returns the same node
and changes nothing. -/
theorem getNode_twice (gr : PolygonGraph G) (c : Coordinate) :
    (gr.getNode c).2.getNode c = ((gr.getNode c).1, (gr.getNode c).2) := by
  have h := findNode_getNode_self gr c
  generalize gr.getNode c = r at h
  unfold PolygonGraph.getNode
  simp only [h]

/-- The sequence without repeated points has one coordinate at most exactly when
all the coordinates of the sequence are equal. -/
theorem removeRepeatedPoints_length_le_one :
    ∀ (cs : List Coordinate),
      (removeRepeatedPoints cs).length ≤ 1 ↔ ∀ a ∈ cs, ∀ b ∈ cs, a = b := by
  have key : ∀ (n : Nat) (cs : List Coordinate), cs.length = n →
      ((removeRepeatedPoints cs).head? = cs.head?) ∧
      ((removeRepeatedPoints cs).length ≤ 1 ↔ ∀ a ∈ cs, ∀ b ∈ cs, a = b) := by
    intro n
    induction n with
    | zero =>
      intro cs hl
      have : cs = [] := List.length_eq_zero.1 hl
      subst this
      simp [removeRepeatedPoints]
    | succ n ih =>
      intro cs hl
      match cs, hl with
      | [c], _ => simp [removeRepeatedPoints]
      | c :: d :: rest, hl =>
        have hl' : (d :: rest).length = n := by simpa using hl
        obtain ⟨ih1, ih2⟩ := ih (d :: rest) hl'
        unfold removeRepeatedPoints
        by_cases hcd : c = d
        · subst hcd
          simp only [↓reduceIte]
          refine ⟨by rw [ih1]; rfl, ?_⟩
          rw [ih2]
          constructor
          · intro h a ha b hb
            have ha' : a ∈ c :: rest := by
              rcases List.mem_cons.1 ha with rfl | ha
              · exact List.mem_cons_self _ _
              · exact ha
            have hb' : b ∈ c :: rest := by
              rcases List.mem_cons.1 hb with rfl | hb
              · exact List.mem_cons_self _ _
              · exact hb
            exact h a ha' b hb'
          · intro h a ha b hb
            exact h a (List.mem_cons_of_mem _ ha) b (List.mem_cons_of_mem _ hb)
        · simp only [hcd, ↓reduceIte, List.head?_cons, List.length_cons, true_and]
          have hne : removeRepeatedPoints (d :: rest) ≠ [] := by
            intro h0
            rw [h0] at ih1
            simp at ih1
          have hpos : 0 < (removeRepeatedPoints (d :: rest)).length :=
            List.length_pos.2 hne
          constructor
          · intro h; omega
          · intro h
            exact absurd (h c (List.mem_cons_self _ _) d
              (List.mem_cons_of_mem _ (List.mem_cons_self _ _))) hcd
  intro cs
  exact (key cs.length cs rfl).2

/-- A call of `getNode` leaves the edges and the directed edges as they are. -/
@[simp] theorem getNode_newDirEdges (gr : PolygonGraph G) (c : Coordinate) :
    (gr.getNode c).2.m_NewDirEdges = gr.m_NewDirEdges := by
  unfold PolygonGraph.getNode; cases gr.findNode c <;> rfl

@[simp] theorem getNode_dirEdges (gr : PolygonGraph G) (c : Coordinate) :
    (gr.getNode c).2.dirEdges = gr.dirEdges := by
  unfold PolygonGraph.getNode; cases gr.findNode c <;> rfl

@[simp] theorem getNode_edges (gr : PolygonGraph G) (c : Coordinate) :
    (gr.getNode c).2.edges = gr.edges := by
  unfold PolygonGraph.getNode; cases gr.findNode c <;> rfl

/-- The value of `createEdge` on a line that is not empty and has two
coordinates at least once the repeated points are removed. -/
theorem createEdge_proper (k : Kernel G) (gr : PolygonGraph G) (LineString : G)
    (c0 c1 : Coordinate) (rest : List Coordinate) (last d1 : Coordinate)
    (he : k.isEmpty LineString = false)
    (hcs : removeRepeatedPoints (k.getCoordinatesRO LineString) = c0 :: c1 :: rest)
    (hlast : (c0 :: c1 :: rest).getLastD c0 = last)
    (hd1 : (c0 :: c1 :: rest)[(c0 :: c1 :: rest).length - 2]? = some d1) :
    gr.createEdge k LineString
      = (.ok (some gr.heap.objects.length),
         { ((gr.getNode c0).2.getNode last).2 with
             m_NewDirEdges := gr.m_NewDirEdges ++
               [⟨(gr.getNode c0).1, ((gr.getNode c0).2.getNode last).1, c1, true,
                  gr.heap.objects.length⟩,
                ⟨((gr.getNode c0).2.getNode last).1, (gr.getNode c0).1, d1, false,
                  gr.heap.objects.length⟩],
             heap := (gr.heap.alloc LineString).2,
             edges := gr.edges ++ [gr.heap.objects.length],
             dirEdges := gr.dirEdges ++ [gr.m_NewDirEdges.length, gr.m_NewDirEdges.length + 1] }) := by
  unfold PolygonGraph.createEdge
  simp only [he, Bool.false_eq_true, ↓reduceIte, hcs, List.getElem?_cons_zero, hlast,
    List.getElem?_cons_succ, hd1, Option.getD_some, getNode_heap, getNode_newDirEdges,
    getNode_dirEdges, getNode_edges]

end NodeLemmas

section CreateEdgeClaim
variable {G : Type}

/-- C26 as amended: `createEdge` returns the null pointer and leaves the graph
as it is for an empty line.  For a line that is not empty and whose
coordinate sequence without repeated points has two coordinates at least,
it returns a new edge and records exactly two directed edges for it, from
the node of the first coordinate to the node of the last one and back, with
the second and the last but one coordinates as direction points.  For a line
that is not empty and whose sequence has fewer than two coordinates, which
is the case exactly when all its coordinates are equal, `createEdge` reads
the sequence out of its bounds: the behaviour is undefined. -/
theorem createEdge_total_on_lines_with_two_points (k : Kernel G) (gr : PolygonGraph G)
    (LineString : G) :
    (k.isEmpty LineString = true → gr.createEdge k LineString = (.ok none, gr)) ∧
    (k.isEmpty LineString = false →
      2 ≤ (removeRepeatedPoints (k.getCoordinatesRO LineString)).length →
      ∃ gr' s t first last d0 d1,
        gr.createEdge k LineString = (.ok (some gr.heap.objects.length), gr') ∧
        (removeRepeatedPoints (k.getCoordinatesRO LineString)).head? = some first ∧
        (removeRepeatedPoints (k.getCoordinatesRO LineString)).getLast? = some last ∧
        (removeRepeatedPoints (k.getCoordinatesRO LineString))[1]? = some d0 ∧
        (removeRepeatedPoints (k.getCoordinatesRO LineString))[
          (removeRepeatedPoints (k.getCoordinatesRO LineString)).length - 2]? = some d1 ∧
        gr'.findNode first = some s ∧ gr'.findNode last = some t ∧
        gr'.m_NewDirEdges = gr.m_NewDirEdges ++
          [⟨s, t, d0, true, gr.heap.objects.length⟩, ⟨t, s, d1, false, gr.heap.objects.length⟩] ∧
        gr'.dirEdges = gr.dirEdges ++ [gr.m_NewDirEdges.length, gr.m_NewDirEdges.length + 1] ∧
        gr'.edges = gr.edges ++ [gr.heap.objects.length]) ∧
    (k.isEmpty LineString = false →
      (removeRepeatedPoints (k.getCoordinatesRO LineString)).length < 2 →
      ∃ what, (gr.createEdge k LineString).1 = .error (.undefinedBehaviour what)) ∧
    ((removeRepeatedPoints (k.getCoordinatesRO LineString)).length < 2 ↔
      ∀ a ∈ k.getCoordinatesRO LineString, ∀ b ∈ k.getCoordinatesRO LineString, a = b) := by
  refine ⟨?_, ?_, ?_, ?_⟩
  · intro he
    simp [PolygonGraph.createEdge, he]
  · intro he hl
    generalize hcs : removeRepeatedPoints (k.getCoordinatesRO LineString) = cs at hl
    match cs, hl with
    | c0 :: c1 :: rest, _ =>
      have hlast : ∃ last, (c0 :: c1 :: rest).getLast? = some last := by
        cases h : (c0 :: c1 :: rest).getLast? with
        | none => simp at h
        | some l => exact ⟨l, rfl⟩
      obtain ⟨last, hlast⟩ := hlast
      have hd1 : ∃ d1, (c0 :: c1 :: rest)[(c0 :: c1 :: rest).length - 2]? = some d1 := by
        have : (c0 :: c1 :: rest).length - 2 < (c0 :: c1 :: rest).length := by
          simp only [List.length_cons]; omega
        exact ⟨_, List.getElem?_eq_getElem this⟩
      obtain ⟨d1, hd1⟩ := hd1
      have hlastD : (c0 :: c1 :: rest).getLastD c0 = last := by
        rw [List.getLastD_eq_getLast?, hlast]; rfl
      have heq := createEdge_proper k gr LineString c0 c1 rest last d1 he hcs hlastD hd1
      refine ⟨_, (gr.getNode c0).1, ((gr.getNode c0).2.getNode last).1, c0, last, c1, d1,
        heq, rfl, hlast, by simp, hd1, ?_, ?_, ?_, ?_, ?_⟩
      · exact findNode_getNode_of_some _ _ _ _ (findNode_getNode_self gr c0)
      · exact findNode_getNode_self _ last
      · simp
      · simp
      · simp
  · intro he hl
    unfold PolygonGraph.createEdge
    simp only [he, Bool.false_eq_true, ↓reduceIte]
    generalize removeRepeatedPoints (k.getCoordinatesRO LineString) = cs at hl
    match cs, hl with
    | [], _ => exact ⟨_, rfl⟩
    | [c], _ => exact ⟨_, rfl⟩
  · rw [← removeRepeatedPoints_length_le_one]
    omega

end CreateEdgeClaim

section PlanarLemmas
variable {G : Type}

theorem SamePlanar.planarRefl (gr : PolygonGraph G) : SamePlanar gr gr := ⟨rfl, rfl, rfl, rfl, rfl⟩

/-- What holds of the edges and nodes of a graph and is kept by `createEdge`
is kept by the loop that creates the edges of a list of lines. -/
theorem createEdgesLoop_planar (k : Kernel G) (P : PolygonGraph G → Prop)
    (hs : ∀ gr gr', SamePlanar gr gr' → P gr → P gr')
    (hc : ∀ gr L, P gr → P (gr.createEdge k L).2) :
    ∀ (pieces : List G) (gr : PolygonGraph G) (E : PolygonEntity G),
      P gr → P (createEdgesLoop k pieces (gr, E)).2.1 := by
  intro pieces
  induction pieces with
  | nil => intro gr E h; exact h
  | cons p rest ih =>
    intro gr E h
    have h1 := hc gr p h
    unfold createEdgesLoop
    generalize gr.createEdge k p = r at h1
    obtain ⟨o, gr1⟩ := r
    cases o with
    | error f => exact h1
    | ok e =>
      cases e with
      | none => exact ih gr1 E h1
      | some NewEdge =>
        exact ih _ _ (hs gr1 _ ⟨rfl, rfl, rfl, rfl, rfl⟩ h1)

theorem removeOldEdge_planar (P : PolygonGraph G → Prop)
    (hs : ∀ gr gr', SamePlanar gr gr' → P gr → P gr')
    (hr : ∀ gr e, P gr → P (gr.remove e))
    (st : PolygonGraph G × PolygonEntity G) (Old : EdgeId) (h : P st.1) :
    P (removeOldEdge st Old).2.1 := by
  unfold removeOldEdge
  exact hs (st.1.remove Old) _ ⟨rfl, rfl, rfl, rfl, rfl⟩ (hr st.1 Old h)

theorem removeSegment_planar (k : Kernel G) (P : PolygonGraph G → Prop)
    (hs : ∀ gr gr', SamePlanar gr gr' → P gr → P gr')
    (hc : ∀ gr L, P gr → P (gr.createEdge k L).2)
    (hr : ∀ gr e, P gr → P (gr.remove e))
    (gr : PolygonGraph G) (E : PolygonEntity G) (S : G) (h : P gr) :
    P (PolygonGraph.removeSegment k gr E S).2.1 := by
  unfold PolygonGraph.removeSegment
  split
  · exact h
  · exact h
  · split
    · exact h
    · simp only
      split
      · split
        · split
          · exact h
          · rename_i DiffGeoms _
            have hl := createEdgesLoop_planar k P hs hc DiffGeoms gr E h
            generalize createEdgesLoop k DiffGeoms (gr, E) = r at hl
            obtain ⟨o, st⟩ := r
            cases o with
            | error f => exact hl
            | ok u => exact removeOldEdge_planar P hs hr st _ hl
        · exact h
      · exact removeOldEdge_planar P hs hr (gr, E) _ h

theorem sharedLineStep_planar (k : Kernel G) (P : PolygonGraph G → Prop)
    (hs : ∀ gr gr', SamePlanar gr gr' → P gr → P gr')
    (hc : ∀ gr L, P gr → P (gr.createEdge k L).2)
    (hr : ∀ gr e, P gr → P (gr.remove e))
    (st : Insertion G) (O : PolygonEntity G) (S : G) (h : P st.graph) :
    P (sharedLineStep k st O S).2.1.graph := by
  unfold sharedLineStep
  have h1 := hc st.graph S h
  generalize st.graph.createEdge k S = r at h1
  obtain ⟨o, gr1⟩ := r
  cases o with
  | error f => exact h1
  | ok e =>
    cases e with
    | none => exact h1
    | some SharedEdge =>
      simp only
      have h2 := removeSegment_planar k P hs hc hr
        { gr1 with heap := (O.addEdge (st.NewEntity.addEdge gr1.heap SharedEdge).2 SharedEdge).2 }
        (O.addEdge (st.NewEntity.addEdge gr1.heap SharedEdge).2 SharedEdge).1 S
        (hs gr1 _ ⟨rfl, rfl, rfl, rfl, rfl⟩ h1)
      generalize PolygonGraph.removeSegment k
        { gr1 with heap := (O.addEdge (st.NewEntity.addEdge gr1.heap SharedEdge).2 SharedEdge).2 }
        (O.addEdge (st.NewEntity.addEdge gr1.heap SharedEdge).2 SharedEdge).1 S = r2 at h2
      obtain ⟨o2, gr2, O2⟩ := r2
      cases o2 with
      | error f => exact h2
      | ok u => exact h2

theorem sharedLinesLoop_planar (k : Kernel G) (P : PolygonGraph G → Prop)
    (hs : ∀ gr gr', SamePlanar gr gr' → P gr → P gr')
    (hc : ∀ gr L, P gr → P (gr.createEdge k L).2)
    (hr : ∀ gr e, P gr → P (gr.remove e)) :
    ∀ (Ls : List G) (st : Insertion G) (O : PolygonEntity G), P st.graph →
      P (sharedLinesLoop k Ls (st, O)).2.1.graph := by
  intro Ls
  induction Ls with
  | nil => intro st O h; exact h
  | cons S rest ih =>
    intro st O h
    unfold sharedLinesLoop
    have h1 := sharedLineStep_planar k P hs hc hr st O S h
    generalize sharedLineStep k st O S = r at h1
    obtain ⟨o, st1, O1⟩ := r
    cases o with
    | error f => exact h1
    | ok u => exact ih st1 O1 h1

theorem entitiesLoop_planar (k : Kernel G) (P : PolygonGraph G → Prop)
    (hs : ∀ gr gr', SamePlanar gr gr' → P gr → P gr')
    (hc : ∀ gr L, P gr → P (gr.createEdge k L).2)
    (hr : ∀ gr e, P gr → P (gr.remove e)) :
    ∀ (ents : List (PolygonEntity G)) (st : Insertion G), P st.graph →
      P (entitiesLoop k ents st).2.1.graph := by
  intro ents
  induction ents with
  | nil => intro st h; exact h
  | cons O rest ih =>
    intro st h
    unfold entitiesLoop
    have h1 : P (otherEntityStep k st O).2.1.graph := by
      unfold otherEntityStep
      cases st.NewEntity.computeLineIntersectionsWith k O with
      | error f => exact h
      | ok Ls => exact sharedLinesLoop_planar k P hs hc hr Ls st O h
    generalize otherEntityStep k st O = r at h1
    obtain ⟨o, st1, O1⟩ := r
    cases o with
    | error f => exact h1
    | ok u =>
      simp only
      have h2 := ih st1 h1
      generalize entitiesLoop k rest st1 = r2 at h2
      obtain ⟨o2, st2, rest2⟩ := r2
      exact h2

theorem addPolygonFinish_planar (k : Kernel G) (P : PolygonGraph G → Prop)
    (hs : ∀ gr gr', SamePlanar gr gr' → P gr → P gr')
    (hc : ∀ gr L, P gr → P (gr.createEdge k L).2)
    (Polygon : G) (st : Insertion G) (h : P st.graph) :
    P (addPolygonFinish k Polygon st).2 := by
  have hreg : ∀ (s : PolygonGraph G × PolygonEntity G), P s.1 →
      P (match s.2.getSelfId with
        | .error f => ((Except.error f : Except Fault FaceId), s.1)
        | .ok id =>
          (Except.ok s.2.ptr,
           { s.1 with m_EntitiesBySelfId := mapAssign s.1.m_EntitiesBySelfId id s.2.ptr,
                      m_Entities := s.1.m_Entities ++ [s.2] })).2 := by
    intro s h'
    cases s.2.getSelfId with
    | error f => exact h'
    | ok id => exact hs s.1 _ ⟨rfl, rfl, rfl, rfl, rfl⟩ h'
  unfold addPolygonFinish
  simp only
  split
  · split
    · exact h
    · rename_i NewLines _
      have hl := createEdgesLoop_planar k P hs hc NewLines st.graph st.NewEntity h
      generalize createEdgesLoop k NewLines (st.graph, st.NewEntity) = r at hl
      obtain ⟨o, s⟩ := r
      cases o with
      | error f => exact hl
      | ok u => exact hreg s hl
  · exact hreg (st.graph, st.NewEntity) h

/-- What holds of the edges and nodes of a graph and is kept by `createEdge`
and by `remove` is kept by `addPolygon`, whatever its outcome. -/
theorem addPolygon_planar (k : Kernel G) (P : PolygonGraph G → Prop)
    (hs : ∀ gr gr', SamePlanar gr gr' → P gr → P gr')
    (hc : ∀ gr L, P gr → P (gr.createEdge k L).2)
    (hr : ∀ gr e, P gr → P (gr.remove e))
    (gr : PolygonGraph G) (Polygon : G) (Feat : OGRFeature) (h : P gr) :
    P (gr.addPolygon k Polygon Feat).2 := by
  unfold PolygonGraph.addPolygon
  simp only
  have h0 : P { gr with allocatedEntities := gr.allocatedEntities ++ [Feat] } :=
    hs gr _ ⟨rfl, rfl, rfl, rfl, rfl⟩ h
  split
  · exact h0
  · unfold PolygonGraph.addPolygonTry
    simp only
    have hl := entitiesLoop_planar k P hs hc hr gr.m_Entities
      ⟨{ gr with allocatedEntities := gr.allocatedEntities ++ [Feat] },
        PolygonEntity.ofFeature gr.allocatedEntities.length Polygon Feat, []⟩ h0
    generalize entitiesLoop k gr.m_Entities
      ⟨{ gr with allocatedEntities := gr.allocatedEntities ++ [Feat] },
        PolygonEntity.ofFeature gr.allocatedEntities.length Polygon Feat, []⟩ = r at hl
    obtain ⟨o, st, ents⟩ := r
    cases o with
    | error f => exact hs st.graph _ ⟨rfl, rfl, rfl, rfl, rfl⟩ hl
    | ok u =>
      exact addPolygonFinish_planar k P hs hc Polygon _
        (hs st.graph _ ⟨rfl, rfl, rfl, rfl, rfl⟩ hl)

end PlanarLemmas

section SharedLemmas
variable {G : Type}

theorem getElem?_append_two {α : Type} (l : List α) (a b : α) :
    (l ++ [a, b])[l.length]? = some a ∧ (l ++ [a, b])[l.length + 1]? = some b := by
  constructor
  · rw [List.getElem?_append_right (le_refl _)]
    simp
  · rw [List.getElem?_append_right (Nat.le_succ _)]
    simp

theorem mem_nodeMap_of_findNode (gr : PolygonGraph G) (c : Coordinate) (n : NodeId)
    (h : gr.findNode c = some n) : (c, n) ∈ gr.nodeMap := by
  unfold PolygonGraph.findNode at h
  cases hf : gr.nodeMap.find? (fun p => decide (p.1 = c)) with
  | none => simp [hf] at h
  | some q =>
    have hm := List.mem_of_find?_eq_some hf
    have hk := List.find?_some hf
    simp only [hf, Option.map_some', Option.some.injEq] at h
    have : q = (c, n) := by
      obtain ⟨a, b⟩ := q
      simp only at h hk
      simp only [decide_eq_true_eq] at hk
      rw [hk, h]
    rw [← this]
    exact hm

theorem findNode_none_iff (gr : PolygonGraph G) (c : Coordinate) :
    gr.findNode c = none ↔ c ∉ gr.nodeMap.map Prod.fst := by
  unfold PolygonGraph.findNode
  constructor
  · intro h hc
    obtain ⟨p, hp, rfl⟩ := List.mem_map.1 hc
    cases hf : gr.nodeMap.find? (fun q => decide (q.1 = p.1)) with
    | none =>
      have := List.find?_eq_none.1 hf p hp
      simp at this
    | some q => simp [hf] at h
  · intro h
    cases hf : gr.nodeMap.find? (fun q => decide (q.1 = c)) with
    | none => rfl
    | some q =>
      exfalso
      apply h
      have hm := List.mem_of_find?_eq_some hf
      have hk := List.find?_some hf
      simp only [decide_eq_true_eq] at hk
      exact List.mem_map.2 ⟨q, hm, hk⟩

theorem NodesShared.of_emptyGraph : NodesShared (PolygonGraph.empty : PolygonGraph G) :=
  ⟨by simp [PolygonGraph.empty], by simp [PolygonGraph.empty], by simp [PolygonGraph.empty]⟩

theorem NodesShared.of_samePlanar {gr gr' : PolygonGraph G} (h : SamePlanar gr gr')
    (w : NodesShared gr) : NodesShared gr' :=
  ⟨by rw [h.nodeMap]; exact w.distinct,
   by rw [h.nodeMap, h.newNodes]; exact w.coordinate,
   by rw [h.dirEdges, h.newDirEdges, h.nodeMap]; exact w.registered⟩

theorem NodesShared.of_getNode (gr : PolygonGraph G) (c : Coordinate) (w : NodesShared gr) :
    NodesShared (gr.getNode c).2 := by
  unfold PolygonGraph.getNode
  cases h : gr.findNode c with
  | some n => exact w
  | none =>
    simp only
    refine ⟨?_, ?_, ?_⟩
    · simp only [List.map_append, List.map_cons, List.map_nil]
      rw [List.nodup_append]
      refine ⟨w.distinct, by simp, ?_⟩
      intro a ha hb
      simp only [List.mem_singleton] at hb
      subst hb
      exact (findNode_none_iff gr a).1 h ha
    · intro p hp
      simp only at hp ⊢
      rcases List.mem_append.1 hp with hp | hp
      · have := w.coordinate p hp
        have hlt : p.2 < gr.m_NewNodes.length := by
          by_contra hge
          rw [List.getElem?_eq_none (Nat.le_of_not_lt hge)] at this
          cases this
        rw [List.getElem?_append_left hlt]
        exact this
      · simp only [List.mem_singleton] at hp
        subst hp
        simp
    · intro d hd
      obtain ⟨D, hD, c', hc'⟩ := w.registered d hd
      exact ⟨D, hD, c', List.mem_append_left _ hc'⟩

theorem NodesShared.of_createEdge (k : Kernel G) (gr : PolygonGraph G) (L : G)
    (w : NodesShared gr) : NodesShared (gr.createEdge k L).2 := by
  unfold PolygonGraph.createEdge
  split
  · exact w
  · simp only
    split
    · exact w
    · rename_i StartCoordinate _
      have w2 := NodesShared.of_getNode _
        ((removeRepeatedPoints (k.getCoordinatesRO L)).getLastD StartCoordinate)
        (NodesShared.of_getNode gr StartCoordinate w)
      have hs := findNode_getNode_of_some (gr.getNode StartCoordinate).2
        ((removeRepeatedPoints (k.getCoordinatesRO L)).getLastD StartCoordinate) _ _
        (findNode_getNode_self gr StartCoordinate)
      have he := findNode_getNode_self (gr.getNode StartCoordinate).2
        ((removeRepeatedPoints (k.getCoordinatesRO L)).getLastD StartCoordinate)
      generalize ((gr.getNode StartCoordinate).2.getNode
        ((removeRepeatedPoints (k.getCoordinatesRO L)).getLastD StartCoordinate)) = ge at w2 hs he
      generalize (gr.getNode StartCoordinate).1 = s at hs
      split
      · exact w2
      · rename_i d0 _
        simp only
        refine ⟨w2.distinct, w2.coordinate, ?_⟩
        intro d hd
        simp only at hd ⊢
        rcases List.mem_append.1 hd with hd | hd
        · obtain ⟨D, hD, c', hc'⟩ := w2.registered d hd
          have hlt : d < ge.2.m_NewDirEdges.length := by
            by_contra hge
            rw [List.getElem?_eq_none (Nat.le_of_not_lt hge)] at hD
            cases hD
          exact ⟨D, by rw [List.getElem?_append_left hlt]; exact hD, c', hc'⟩
        · simp only [List.mem_cons, List.mem_singleton, List.not_mem_nil, or_false] at hd
          rcases hd with rfl | rfl
          · exact ⟨_, (getElem?_append_two _ _ _).1, StartCoordinate,
              mem_nodeMap_of_findNode _ _ _ hs⟩
          · exact ⟨_, (getElem?_append_two _ _ _).2, _, mem_nodeMap_of_findNode _ _ _ he⟩

theorem NodesShared.of_remove (gr : PolygonGraph G) (e : EdgeId) (w : NodesShared gr) :
    NodesShared (gr.remove e) := by
  refine ⟨w.distinct, w.coordinate, ?_⟩
  intro d hd
  exact w.registered d (List.mem_of_mem_filter hd)

/-- The node map after `removeUnusedNodes`: the entries whose coordinate is
not that of a node of degree 0; nothing else changes. -/
theorem removeUnusedNodes_eq (gr : PolygonGraph G) :
    gr.removeUnusedNodes
      = { gr with
          nodeMap := gr.nodeMap.filter
            (fun q => decide (q.1 ∉ List.map Prod.fst (gr.findNodesOfDegree 0))) } := by
  unfold PolygonGraph.removeUnusedNodes
  have key : ∀ (unused : List (Coordinate × NodeId)) (g : PolygonGraph G),
      unused.foldl PolygonGraph.removeNode g
        = { g with
            nodeMap := g.nodeMap.filter (fun q => decide (q.1 ∉ List.map Prod.fst unused)) } := by
    intro unused
    induction unused with
    | nil => intro g; simp
    | cons p rest ih =>
      intro g
      simp only [List.foldl_cons, ih, PolygonGraph.removeNode, List.filter_filter, List.map_cons,
        List.mem_cons, not_or]
      congr 1
      apply List.filter_congr
      intro q _
      rw [Bool.and_comm, ← Bool.decide_and]
  exact key _ gr

/-- After `removeUnusedNodes` no node of the node map has the degree 0. -/
theorem removeUnusedNodes_degree (gr : PolygonGraph G) :
    ∀ p ∈ gr.removeUnusedNodes.nodeMap, gr.removeUnusedNodes.degree p.2 ≠ 0 := by
  rw [removeUnusedNodes_eq]
  intro p hp
  simp only at hp
  have hm := List.mem_of_mem_filter hp
  have hk := List.of_mem_filter hp
  simp only [decide_eq_true_eq] at hk
  intro h0
  apply hk
  refine List.mem_map.2 ⟨p, ?_, rfl⟩
  unfold PolygonGraph.findNodesOfDegree
  refine List.mem_filter.2 ⟨hm, ?_⟩
  simpa [PolygonGraph.degree] using h0

theorem NodesShared.of_removeUnusedNodes (gr : PolygonGraph G) (w : NodesShared gr) :
    NodesShared gr.removeUnusedNodes := by
  rw [removeUnusedNodes_eq]
  refine ⟨?_, ?_, ?_⟩
  · simp only
    exact w.distinct.sublist ((List.filter_sublist _).map _)
  · intro p hp
    exact w.coordinate p (List.mem_of_mem_filter hp)
  · intro d hd
    simp only at hd ⊢
    obtain ⟨D, hD, c, hc⟩ := w.registered d hd
    refine ⟨D, hD, c, List.mem_filter.2 ⟨hc, ?_⟩⟩
    simp only [decide_eq_true_eq]
    intro hu
    obtain ⟨q, hq, hqc⟩ := List.mem_map.1 hu
    unfold PolygonGraph.findNodesOfDegree at hq
    have hqm := List.mem_of_mem_filter hq
    have hq0 := List.of_mem_filter hq
    simp only [decide_eq_true_eq] at hq0
    have hqn : q = (c, D.fromNode) := by
      have hinj := List.inj_on_of_nodup_map w.distinct hqm hc hqc
      exact hinj
    rw [hqn] at hq0
    simp only at hq0
    unfold PolygonGraph.degree at hq0
    have : d ∈ gr.dirEdges.filter
        (fun d => (gr.m_NewDirEdges[d]?.map DirectedEdge.fromNode) = some D.fromNode) :=
      List.mem_filter.2 ⟨hd, by simp [hD]⟩
    rw [List.length_eq_zero.1 hq0] at this
    cases this

/-- In every graph reached by `getNode`, `createEdge`, `remove`, `addPolygon`
and `removeUnusedNodes` the nodes are shared. -/
theorem Grown.nodesShared (k : Kernel G) {gr : PolygonGraph G} (h : Grown k gr) :
    NodesShared gr := by
  induction h with
  | empty => exact NodesShared.of_emptyGraph
  | getNode gr c _ ih => exact NodesShared.of_getNode gr c ih
  | createEdge gr L _ ih => exact NodesShared.of_createEdge k gr L ih
  | remove gr e _ ih => exact NodesShared.of_remove gr e ih
  | addPolygon gr P Feat _ ih =>
    exact addPolygon_planar k NodesShared (fun _ _ h w => NodesShared.of_samePlanar h w)
      (fun gr L w => NodesShared.of_createEdge k gr L w)
      (fun gr e w => NodesShared.of_remove gr e w) gr P Feat ih
  | removeUnusedNodes gr _ ih => exact NodesShared.of_removeUnusedNodes gr ih

end SharedLemmas

section NodeClaims
variable {G : Type}

theorem findNode_of_mem (gr : PolygonGraph G) (hd : (gr.nodeMap.map Prod.fst).Nodup)
    (c : Coordinate) (n : NodeId) (h : (c, n) ∈ gr.nodeMap) : gr.findNode c = some n := by
  unfold PolygonGraph.findNode
  cases hf : gr.nodeMap.find? (fun p => decide (p.1 = c)) with
  | none =>
    have := List.find?_eq_none.1 hf (c, n) h
    simp at this
  | some q =>
    have hm := List.mem_of_find?_eq_some hf
    have hk := List.find?_some hf
    simp only [decide_eq_true_eq] at hk
    have : q = (c, n) := List.inj_on_of_nodup_map hd hm h hk
    rw [this]
    rfl

theorem insertLoop_grown (k : Kernel G) :
    ∀ (items : List (G × OGRFeature)) (gr : PolygonGraph G), Grown k gr →
      Grown k (insertLoop k items gr).2 := by
  intro items
  induction items with
  | nil => intro gr h; exact h
  | cons a rest ih =>
    intro gr h
    obtain ⟨P, Feat⟩ := a
    unfold insertLoop
    have h1 := Grown.addPolygon gr P Feat h
    generalize gr.addPolygon k P Feat = r at h1
    obtain ⟨o, gr1⟩ := r
    cases o with
    | error f => exact h1
    | ok p => exact ih gr1 h1

theorem layerLoop_grown (k : Kernel G) :
    ∀ (items : List (G × OGRFeature)) (gr : PolygonGraph G), Grown k gr →
      Grown k (layerLoop k items gr).2 := by
  intro items
  induction items with
  | nil => intro gr h; exact h
  | cons a rest ih =>
    intro gr h
    obtain ⟨P, Feat⟩ := a
    unfold layerLoop
    split
    · exact h
    · have h1 := Grown.addPolygon gr P Feat h
      generalize gr.addPolygon k P Feat = r at h1
      obtain ⟨o, gr1⟩ := r
      cases o with
      | error f => exact h1
      | ok p => exact ih gr1 h1

/-- The graph made by the constructor from a vector of entities is the graph
of the insertions after `removeUnusedNodes`. -/
theorem ofEntities_ok (k : Kernel G) (Entities : List (PolygonEntity G)) (gr : PolygonGraph G)
    (h : PolygonGraph.ofEntities k Entities = .ok gr) :
    ∃ gr0, Grown k gr0 ∧ gr = gr0.removeUnusedNodes := by
  unfold PolygonGraph.ofEntities at h
  have hg := insertLoop_grown k (Entities.map (fun E => (E.mp_Polygon, E.mp_Feature)))
    PolygonGraph.empty Grown.empty
  generalize insertLoop k (Entities.map (fun E => (E.mp_Polygon, E.mp_Feature)))
    PolygonGraph.empty = r at h hg
  obtain ⟨o, gr0⟩ := r
  cases o with
  | error f => simp at h
  | ok u =>
    simp only [Except.ok.injEq] at h
    exact ⟨gr0, hg, h.symm⟩

/-- The graph made by the constructor from a layer is the graph of the
insertions after `removeUnusedNodes`. -/
theorem ofLayer_ok (k : Kernel G) (Layer0 : List (G × OGRFeature)) (gr : PolygonGraph G)
    (h : PolygonGraph.ofLayer k Layer0 = .ok gr) :
    ∃ gr0, Grown k gr0 ∧ gr = gr0.removeUnusedNodes := by
  unfold PolygonGraph.ofLayer at h
  have hg := layerLoop_grown k Layer0 PolygonGraph.empty Grown.empty
  generalize layerLoop k Layer0 PolygonGraph.empty = r at h hg
  obtain ⟨o, gr0⟩ := r
  cases o with
  | error f => simp at h
  | ok u =>
    simp only [Except.ok.injEq] at h
    exact ⟨gr0, hg, h.symm⟩

/-- C21 as amended: after `removeUnusedNodes` the graph has no node of degree
0, and its edges and directed edges are what they were.  The three
constructors (from a vector of entities, from another graph, from a layer) end
with `removeUnusedNodes`: when the construction returns, the graph has no node
of degree 0.  The function `addPolygon` does not call `removeUnusedNodes`. -/
theorem constructors_prune_unused_nodes (k : Kernel G) :
    (∀ (gr : PolygonGraph G),
      (∀ p ∈ gr.removeUnusedNodes.nodeMap, gr.removeUnusedNodes.degree p.2 ≠ 0) ∧
      gr.removeUnusedNodes.edges = gr.edges ∧ gr.removeUnusedNodes.dirEdges = gr.dirEdges ∧
      ∀ p, p ∈ gr.removeUnusedNodes.nodeMap →
        p ∈ gr.nodeMap ∧ gr.degree p.2 ≠ 0) ∧
    (∀ (Entities : List (PolygonEntity G)) (gr : PolygonGraph G),
      PolygonGraph.ofEntities k Entities = .ok gr → ∀ p ∈ gr.nodeMap, gr.degree p.2 ≠ 0) ∧
    (∀ (Other gr : PolygonGraph G),
      PolygonGraph.ofGraph k Other = .ok gr → ∀ p ∈ gr.nodeMap, gr.degree p.2 ≠ 0) ∧
    (∀ (Layer0 : List (G × OGRFeature)) (gr : PolygonGraph G),
      PolygonGraph.ofLayer k Layer0 = .ok gr → ∀ p ∈ gr.nodeMap, gr.degree p.2 ≠ 0) := by
  refine ⟨fun gr => ⟨removeUnusedNodes_degree gr, ?_, ?_, ?_⟩, ?_, ?_, ?_⟩
  · rw [removeUnusedNodes_eq]
  · rw [removeUnusedNodes_eq]
  · intro p hp
    have h0 := removeUnusedNodes_degree gr p hp
    rw [removeUnusedNodes_eq] at hp h0
    exact ⟨List.mem_of_mem_filter hp, h0⟩
  · intro Entities gr h
    obtain ⟨gr0, _, rfl⟩ := ofEntities_ok k Entities gr h
    exact removeUnusedNodes_degree gr0
  · intro Other gr h
    obtain ⟨gr0, _, rfl⟩ := ofEntities_ok k Other.getEntities gr h
    exact removeUnusedNodes_degree gr0
  · intro Layer0 gr h
    obtain ⟨gr0, _, rfl⟩ := ofLayer_ok k Layer0 gr h
    exact removeUnusedNodes_degree gr0

/-- C23: in every graph reached from the empty graph by `getNode`,
`createEdge`, `remove`, `addPolygon` and `removeUnusedNodes`, no two nodes of
the node map have the same coordinate, the node that a directed edge of the
graph leaves is the node found at its coordinate, and two directed edges of
the graph that leave nodes with the same coordinate leave the same node.  A
call of `getNode(c)` returns the node found at `c` and changes nothing when
there is one; otherwise it creates one node, recorded at `c`.  A second call
of `getNode(c)` returns the same node and changes nothing. -/
theorem nodes_deduplicated_by_coordinate (k : Kernel G) :
    (∀ (gr : PolygonGraph G), Grown k gr →
      (gr.nodeMap.map Prod.fst).Nodup ∧
      (∀ d ∈ gr.dirEdges, ∃ D c, gr.m_NewDirEdges[d]? = some D ∧
        gr.m_NewNodes[D.fromNode]? = some c ∧ gr.findNode c = some D.fromNode) ∧
      (∀ d ∈ gr.dirEdges, ∀ d' ∈ gr.dirEdges, ∀ (D D' : DirectedEdge) (c : Coordinate),
        gr.m_NewDirEdges[d]? = some D → gr.m_NewDirEdges[d']? = some D' →
        gr.m_NewNodes[D.fromNode]? = some c → gr.m_NewNodes[D'.fromNode]? = some c →
        D.fromNode = D'.fromNode)) ∧
    (∀ (gr : PolygonGraph G) (c : Coordinate) (n : NodeId),
      gr.findNode c = some n → gr.getNode c = (n, gr)) ∧
    (∀ (gr : PolygonGraph G) (c : Coordinate), gr.findNode c = none →
      gr.getNode c = (gr.m_NewNodes.length,
        { gr with m_NewNodes := gr.m_NewNodes ++ [c],
                  nodeMap := gr.nodeMap ++ [(c, gr.m_NewNodes.length)] })) ∧
    (∀ (gr : PolygonGraph G) (c : Coordinate),
      (gr.getNode c).2.findNode c = some (gr.getNode c).1 ∧
      (gr.getNode c).2.getNode c = ((gr.getNode c).1, (gr.getNode c).2)) := by
  refine ⟨?_, ?_, ?_, ?_⟩
  · intro gr hg
    have w := hg.nodesShared k
    have hreg : ∀ d ∈ gr.dirEdges, ∃ D c, gr.m_NewDirEdges[d]? = some D ∧
        gr.m_NewNodes[D.fromNode]? = some c ∧ gr.findNode c = some D.fromNode := by
      intro d hd
      obtain ⟨D, hD, c, hc⟩ := w.registered d hd
      exact ⟨D, c, hD, w.coordinate _ hc, findNode_of_mem gr w.distinct c _ hc⟩
    refine ⟨w.distinct, hreg, ?_⟩
    intro d hd d' hd' D D' c hD hD' hc hc'
    obtain ⟨E, c1, hE, hc1, hf1⟩ := hreg d hd
    obtain ⟨E', c2, hE', hc2, hf2⟩ := hreg d' hd'
    rw [hD] at hE
    cases hE
    rw [hD'] at hE'
    cases hE'
    rw [hc] at hc1
    cases hc1
    rw [hc'] at hc2
    cases hc2
    rw [hf1] at hf2
    exact Option.some.inj hf2
  · intro gr c n h
    simp [PolygonGraph.getNode, h]
  · intro gr c h
    simp [PolygonGraph.getNode, h]
  · intro gr c
    exact ⟨findNode_getNode_self gr c, getNode_twice gr c⟩

end NodeClaims

namespace Lattice

/-- C21, counterexample.  The insertion of the square at `(1, 0)` into the
graph of the square at `(0, 0)` returns; it replaced the ring edge of the
first square, which started and ended at `(0, 0)`, by edges between `(1, 0)`
and `(1, 1)`: in the graph after the call the node at `(0, 0)` has the degree
0. -/
theorem addPolygon_leaves_node_of_degree_zero :
    (PolygonGraph.addPolygon kernel oneSquare (square 1 0) ⟨some 2⟩).1 = .ok 1 ∧
    twoSquares.nodeMap = [(⟨0, 0⟩, 0), (⟨1, 0⟩, 1), (⟨1, 1⟩, 2)] ∧
    twoSquares.degree 0 = 0 ∧
    ∃ p ∈ twoSquares.nodeMap, twoSquares.degree p.2 = 0 :=
  ⟨by decide!, by decide!, by decide!, ⟨(⟨0, 0⟩, 0), by decide!, by decide!⟩⟩

/-- A run of C21: the graph constructed from the entities of the two squares
is the graph of the two insertions without the node at `(0, 0)`; its two
nodes have the degree 3. -/
theorem constructors_prune_unused_nodes_witness :
    (PolygonGraph.ofEntities kernel [squareEntity 0 1, squareEntity 1 2]).toOption.map
        (fun gr => gr.nodeMap.map (fun p => (p.1, gr.degree p.2)))
      = some [(⟨1, 0⟩, 3), (⟨1, 1⟩, 3)] ∧
    PolygonGraph.ofEntities kernel [squareEntity 0 1, squareEntity 1 2]
      = .ok twoSquares.removeUnusedNodes ∧
    ∀ p ∈ twoSquares.removeUnusedNodes.nodeMap, twoSquares.removeUnusedNodes.degree p.2 ≠ 0 :=
  ⟨by decide!, rfl,
   (constructors_prune_unused_nodes kernel).2.1 [squareEntity 0 1, squareEntity 1 2]
     twoSquares.removeUnusedNodes rfl⟩

/-- The graph of the two squares is reached from the empty graph. -/
theorem twoSquares_grown : Grown kernel twoSquares :=
  Grown.addPolygon _ _ _ (Grown.addPolygon _ _ _ Grown.empty)

/-- A run of C23 on the graph of the two squares: the three nodes have three
coordinates; the directed edges 2 and 4, which leave nodes at `(1, 0)`, leave
the same node 1; `getNode` at `(1, 0)` returns the node 1 and changes
nothing, `getNode` at `(5, 5)` creates the node 3. -/
theorem nodes_deduplicated_by_coordinate_witness :
    (twoSquares.nodeMap.map Prod.fst).Nodup ∧
    (∀ (D D' : DirectedEdge) (c : Coordinate),
      twoSquares.m_NewDirEdges[2]? = some D → twoSquares.m_NewDirEdges[4]? = some D' →
      twoSquares.m_NewNodes[D.fromNode]? = some c → twoSquares.m_NewNodes[D'.fromNode]? = some c →
      D.fromNode = D'.fromNode) ∧
    twoSquares.m_NewDirEdges[2]?.map DirectedEdge.fromNode = some 1 ∧
    twoSquares.m_NewDirEdges[4]?.map DirectedEdge.fromNode = some 1 ∧
    twoSquares.getNode ⟨1, 0⟩ = (1, twoSquares) ∧
    (twoSquares.getNode ⟨5, 5⟩).1 = 3 ∧
    (twoSquares.getNode ⟨5, 5⟩).2.getNode ⟨5, 5⟩
      = ((twoSquares.getNode ⟨5, 5⟩).1, (twoSquares.getNode ⟨5, 5⟩).2) :=
  ⟨((nodes_deduplicated_by_coordinate kernel).1 twoSquares twoSquares_grown).1,
   ((nodes_deduplicated_by_coordinate kernel).1 twoSquares twoSquares_grown).2.2
     2 (by decide!) 4 (by decide!),
   by decide!, by decide!,
   (nodes_deduplicated_by_coordinate kernel).2.1 twoSquares ⟨1, 0⟩ 1 (by decide!),
   by decide!,
   ((nodes_deduplicated_by_coordinate kernel).2.2.2 twoSquares ⟨5, 5⟩).2⟩

/-- C26, counterexample.  A line string with two vertices at `(0, 0)` is not
empty; without repeated points its coordinate sequence has one coordinate, and
`createEdge` reads the coordinate of index 1. -/
theorem createEdge_reads_out_of_bounds :
    vertexKernel.isEmpty pointLine = false ∧
    vertexKernel.getCoordinatesRO pointLine = [⟨0, 0⟩, ⟨0, 0⟩] ∧
    removeRepeatedPoints (vertexKernel.getCoordinatesRO pointLine) = [⟨0, 0⟩] ∧
    (PolygonGraph.createEdge vertexKernel PolygonGraph.empty pointLine).1
      = .error (.undefinedBehaviour "Coordinates->getAt(1)") :=
  ⟨by decide!, by decide!, by decide!, by decide!⟩

/-- A run of C26: on the empty graph, `createEdge` for the side from `(1, 0)`
to `(1, 1)` returns the edge 0 and records two directed edges, from the node 0
to the node 1 and back; for the line string whose two vertices are the same
point the behaviour is undefined. -/
theorem createEdge_total_on_lines_with_two_points_witness :
    (∃ gr' s t first last d0 d1,
      PolygonGraph.createEdge vertexKernel PolygonGraph.empty sharedSide
        = (.ok (some 0), gr') ∧
      (removeRepeatedPoints (vertexKernel.getCoordinatesRO sharedSide)).head? = some first ∧
      (removeRepeatedPoints (vertexKernel.getCoordinatesRO sharedSide)).getLast? = some last ∧
      (removeRepeatedPoints (vertexKernel.getCoordinatesRO sharedSide))[1]? = some d0 ∧
      (removeRepeatedPoints (vertexKernel.getCoordinatesRO sharedSide))[
        (removeRepeatedPoints (vertexKernel.getCoordinatesRO sharedSide)).length - 2]? = some d1 ∧
      gr'.findNode first = some s ∧ gr'.findNode last = some t ∧
      gr'.m_NewDirEdges = [⟨s, t, d0, true, 0⟩, ⟨t, s, d1, false, 0⟩] ∧
      gr'.dirEdges = [0, 1] ∧ gr'.edges = [0]) ∧
    (PolygonGraph.createEdge vertexKernel PolygonGraph.empty sharedSide).2.m_NewDirEdges
      = [⟨0, 1, ⟨1, 1⟩, true, 0⟩, ⟨1, 0, ⟨1, 0⟩, false, 0⟩] ∧
    (∃ what, (PolygonGraph.createEdge vertexKernel PolygonGraph.empty pointLine).1
      = .error (.undefinedBehaviour what)) :=
  ⟨(createEdge_total_on_lines_with_two_points vertexKernel PolygonGraph.empty sharedSide).2.1
      (by decide!) (by decide!),
   by decide!,
   (createEdge_total_on_lines_with_two_points vertexKernel PolygonGraph.empty pointLine).2.2.1
      (by decide!) (by decide!)⟩

end Lattice

section AttributeLemmas
variable {G : Type}

theorem find?_map_assign (m : List (String × BoostAny)) (name other : String) (v : BoostAny) :
    (m.map (fun p => if p.1 = name then (name, v) else p)).find? (fun p => p.1 = other)
      = if other = name then
          (if m.any (fun p => p.1 = name) then some (name, v) else none)
        else m.find? (fun p => p.1 = other) := by
  induction m with
  | nil => simp
  | cons a rest ih =>
    simp only [List.map_cons, List.find?_cons, List.any_cons]
    by_cases hak : a.1 = name
    · by_cases hid : other = name
      · simp [hak, hid]
      · have : ¬ name = other := fun h => hid h.symm
        simp only [hak, ↓reduceIte, this, decide_False, hid, ih]
    · by_cases hid : other = name
      · subst hid
        simp only [hak, ↓reduceIte, decide_False, ih, Bool.false_or]
      · simp only [hak, ↓reduceIte, hid, ih]

theorem any_iff_find? (m : List (String × BoostAny)) (name : String) :
    m.any (fun p => p.1 = name) = (m.find? (fun p => p.1 = name)).isSome := by
  induction m with
  | nil => rfl
  | cons a rest ih =>
    simp only [List.any_cons, List.find?_cons]
    by_cases h : a.1 = name
    · simp [h]
    · simp [h, ih]

theorem find?_filter_ne (m : List (String × BoostAny)) (name other : String)
    (hne : other ≠ name) :
    (m.filter (fun p => decide (p.1 ≠ name))).find? (fun p => decide (p.1 = other))
      = m.find? (fun p => decide (p.1 = other)) := by
  induction m with
  | nil => rfl
  | cons a rest ih =>
    by_cases h1 : a.1 = name
    · have h2 : ¬ a.1 = other := by rw [h1]; exact fun h => hne h.symm
      rw [List.filter_cons_of_neg (by simp [h1]), List.find?_cons_of_neg _ (by simp [h2]), ih]
    · rw [List.filter_cons_of_pos (by simp [h1])]
      by_cases h2 : a.1 = other
      · rw [List.find?_cons_of_pos _ (by simp [h2]), List.find?_cons_of_pos _ (by simp [h2])]
      · rw [List.find?_cons_of_neg _ (by simp [h2]), List.find?_cons_of_neg _ (by simp [h2]), ih]

end AttributeLemmas

section AttributeClaims
variable {G : Type}

/-- C30: `setAttributeValue(name, v)` returns true exactly when the name is in
the attribute table; then `getAttributeValue(name)` returns true with the
value `v` and the other attributes read as before; when the name is absent,
`setAttributeValue` returns false and leaves the entity as it is, and
`getAttributeValue(name)` returns false and its output argument as it was.
After `PolygonGraph::addAttribute(name)` every entity has the attribute, with
the value it had before when it had one and the empty value otherwise, and
the other attributes read as before.  After
`PolygonGraph::removeAttribute(name)`, `getAttributeValue(name)` returns false
for every entity and the other attributes read as before. -/
theorem attributes_round_trip (E : PolygonEntity G) (AttributeName : String)
    (Value Out : BoostAny) (gr : PolygonGraph G) :
    ((E.setAttributeValue AttributeName Value).1 = true ↔
      (E.getAttributeValue AttributeName Out).1 = true) ∧
    ((E.getAttributeValue AttributeName Out).1 = true →
      (E.setAttributeValue AttributeName Value).2.getAttributeValue AttributeName Out
        = (true, Value) ∧
      ∀ Other, Other ≠ AttributeName →
        (E.setAttributeValue AttributeName Value).2.getAttributeValue Other Out
          = E.getAttributeValue Other Out) ∧
    ((E.getAttributeValue AttributeName Out).1 = false →
      E.setAttributeValue AttributeName Value = (false, E) ∧
      E.getAttributeValue AttributeName Out = (false, Out)) ∧
    ((gr.addAttribute AttributeName).m_Entities.map PolygonEntity.ptr
        = gr.m_Entities.map PolygonEntity.ptr ∧
      ∀ (j : Nat) (F F' : PolygonEntity G), gr.m_Entities[j]? = some F →
        (gr.addAttribute AttributeName).m_Entities[j]? = some F' →
        (F'.getAttributeValue AttributeName Out).1 = true ∧
        ((F.getAttributeValue AttributeName Out).1 = true →
          F'.getAttributeValue AttributeName Out = F.getAttributeValue AttributeName Out) ∧
        ((F.getAttributeValue AttributeName Out).1 = false →
          F'.getAttributeValue AttributeName Out = (true, .empty)) ∧
        ∀ Other, Other ≠ AttributeName →
          F'.getAttributeValue Other Out = F.getAttributeValue Other Out) ∧
    ((gr.removeAttribute AttributeName).m_Entities.map PolygonEntity.ptr
        = gr.m_Entities.map PolygonEntity.ptr ∧
      (∀ F' ∈ (gr.removeAttribute AttributeName).m_Entities,
        F'.getAttributeValue AttributeName Out = (false, Out)) ∧
      ∀ (j : Nat) (F F' : PolygonEntity G), gr.m_Entities[j]? = some F →
        (gr.removeAttribute AttributeName).m_Entities[j]? = some F' →
        ∀ Other, Other ≠ AttributeName →
          F'.getAttributeValue Other Out = F.getAttributeValue Other Out) := by
  have hget : ∀ (F : PolygonEntity G) (n : String),
      (F.getAttributeValue n Out).1 = F.m_Attributes.any (fun p => p.1 = n) := by
    intro F n
    unfold PolygonEntity.getAttributeValue
    rw [any_iff_find?]
    cases F.m_Attributes.find? (fun p => decide (p.1 = n)) <;> rfl
  refine ⟨?_, ?_, ?_, ?_, ?_⟩
  · rw [hget]
    unfold PolygonEntity.setAttributeValue
    cases E.m_Attributes.any (fun p => decide (p.1 = AttributeName)) <;> simp
  · intro h
    rw [hget] at h
    unfold PolygonEntity.setAttributeValue
    simp only [h, ↓reduceIte]
    constructor
    · unfold PolygonEntity.getAttributeValue
      simp only
      rw [find?_map_assign]
      simp [h]
    · intro Other hne
      unfold PolygonEntity.getAttributeValue
      simp only
      rw [find?_map_assign]
      simp [hne]
  · intro h
    rw [hget] at h
    constructor
    · unfold PolygonEntity.setAttributeValue
      simp [h]
    · unfold PolygonEntity.getAttributeValue
      rw [any_iff_find?] at h
      cases hf : E.m_Attributes.find? (fun p => decide (p.1 = AttributeName)) with
      | none => rfl
      | some q => simp [hf] at h
  · constructor
    · unfold PolygonGraph.addAttribute
      simp only [List.map_map]
      apply List.map_congr_left
      intro F _
      unfold PolygonEntity.touchAttribute
      simp only [Function.comp]
      split <;> rfl
    · intro j F F' hF hF'
      unfold PolygonGraph.addAttribute at hF'
      simp only [List.getElem?_map, hF, Option.map_some', Option.some.injEq] at hF'
      subst hF'
      unfold PolygonEntity.touchAttribute
      by_cases ha : F.m_Attributes.any (fun p => decide (p.1 = AttributeName)) = true
      · rw [if_pos ha]
        refine ⟨by rw [hget]; exact ha, fun _ => rfl, ?_, fun _ _ => rfl⟩
        intro hf
        rw [hget, ha] at hf
        cases hf
      · have ha' : F.m_Attributes.any (fun p => decide (p.1 = AttributeName)) = false :=
          Bool.eq_false_iff.2 ha
        have hnone : F.m_Attributes.find? (fun p => decide (p.1 = AttributeName)) = none := by
          rw [any_iff_find?] at ha'
          cases hf : F.m_Attributes.find? (fun p => decide (p.1 = AttributeName)) with
          | none => rfl
          | some q => simp [hf] at ha'
        rw [if_neg ha]
        have hval : PolygonEntity.getAttributeValue
            { F with m_Attributes := F.m_Attributes ++ [(AttributeName, BoostAny.empty)] }
            AttributeName Out = (true, .empty) := by
          unfold PolygonEntity.getAttributeValue
          simp [List.find?_append, hnone]
        refine ⟨by rw [hval], ?_, fun _ => hval, ?_⟩
        · intro hf
          rw [hget, ha'] at hf
          cases hf
        · intro Other hne
          unfold PolygonEntity.getAttributeValue
          simp only [List.find?_append]
          have : ¬ AttributeName = Other := fun h => hne h.symm
          cases F.m_Attributes.find? (fun p => decide (p.1 = Other)) with
          | none => simp [this]
          | some q => simp
  · refine ⟨?_, ?_, ?_⟩
    · unfold PolygonGraph.removeAttribute
      simp only [List.map_map]
      apply List.map_congr_left
      intro F _
      rfl
    · intro F' hF'
      unfold PolygonGraph.removeAttribute at hF'
      obtain ⟨F, _, rfl⟩ := List.mem_map.1 hF'
      unfold PolygonEntity.getAttributeValue
      simp only
      have : (F.m_Attributes.filter (fun p => decide (p.1 ≠ AttributeName))).find?
          (fun p => decide (p.1 = AttributeName)) = none := by
        rw [List.find?_eq_none]
        intro x hx
        have := List.of_mem_filter hx
        simp only [ne_eq, decide_not, Bool.not_eq_true', decide_eq_false_iff_not] at this
        simpa using this
      rw [this]
    · intro j F F' hF hF' Other hne
      unfold PolygonGraph.removeAttribute at hF'
      simp only [List.getElem?_map, hF, Option.map_some', Option.some.injEq] at hF'
      subst hF'
      unfold PolygonEntity.getAttributeValue
      simp only
      have := find?_filter_ne F.m_Attributes AttributeName Other hne
      rw [this]

end AttributeClaims

namespace Lattice

/-- A run of C30.  After `addAttribute("area")` the entity of the square has
the attribute `area` with the empty value.  Writing 12 to it returns true and
12 is read back; writing to the absent attribute `slope` returns false and
changes nothing, and reading `slope` returns false and leaves the output as it
was; after `removeAttribute("area")` reading `area` returns false. -/
theorem attributes_round_trip_witness :
    areaFace.getAttributeValue "area" (.text "unset") = (true, .empty) ∧
    (areaFace.setAttributeValue "area" (.int 12)).1 = true ∧
    (areaFace.setAttributeValue "area" (.int 12)).2.getAttributeValue "area" (.text "unset")
      = (true, .int 12) ∧
    (areaFace.setAttributeValue "slope" (.int 3) = (false, areaFace) ∧
      areaFace.getAttributeValue "slope" (.text "unset") = (false, .text "unset")) ∧
    (∀ F' ∈ (areaGraph.removeAttribute "area").m_Entities,
      F'.getAttributeValue "area" (.text "unset") = (false, .text "unset")) :=
  ⟨((attributes_round_trip areaFace "area" (.int 12) (.text "unset") oneSquare).2.2.2.1.2
      0 loneFace areaFace (by decide!) (by decide!)).2.2.1 (by decide!),
   (attributes_round_trip areaFace "area" (.int 12) (.text "unset") oneSquare).1.2 (by decide!),
   ((attributes_round_trip areaFace "area" (.int 12) (.text "unset") oneSquare).2.1
      (by decide!)).1,
   (attributes_round_trip areaFace "slope" (.int 3) (.text "unset") oneSquare).2.2.1
      (by decide!),
   (attributes_round_trip areaFace "area" (.int 12) (.text "unset") areaGraph).2.2.2.2.2.1⟩

end Lattice

section SegmentLemmas
variable {G : Type}

/-- The outcomes of a call of `createEdge` that returns: the null pointer and
the same graph for an empty line, else a new edge object at the end of the
table and of the edge list of the graph. -/
theorem createEdge_ok (k : Kernel G) (gr gr1 : PolygonGraph G) (L : G) (o : Option EdgeId)
    (h : gr.createEdge k L = (.ok o, gr1)) :
    (k.isEmpty L = true ∧ o = none ∧ gr1 = gr) ∨
    (k.isEmpty L = false ∧ o = some gr.heap.objects.length ∧
      gr1.heap.objects = gr.heap.objects ++ [⟨L, []⟩] ∧ gr1.heap.freed = gr.heap.freed ∧
      gr1.edges = gr.edges ++ [gr.heap.objects.length]) := by
  unfold PolygonGraph.createEdge at h
  by_cases he : k.isEmpty L = true
  · simp only [he, ↓reduceIte, Prod.mk.injEq, Except.ok.injEq] at h
    exact Or.inl ⟨he, h.1.symm, h.2.symm⟩
  · have he' : k.isEmpty L = false := Bool.eq_false_iff.2 he
    right
    simp only [he', Bool.false_eq_true, ↓reduceIte] at h
    cases h0 : (removeRepeatedPoints (k.getCoordinatesRO L))[0]? with
    | none => simp [h0] at h
    | some sc =>
      cases h1 : (removeRepeatedPoints (k.getCoordinatesRO L))[1]? with
      | none => simp [h0, h1] at h
      | some d0 =>
        simp only [h0, h1, Prod.mk.injEq, Except.ok.injEq] at h
        obtain ⟨h2, h3⟩ := h
        subst h3
        simp only [getNode_heap] at h2
        exact ⟨he', h2.symm, by simp [EdgeHeap.alloc], by simp [EdgeHeap.alloc], by simp⟩

/-- A loop that creates the edges of a list of lines and returns: one edge
object per line that is not empty, carrying the face of the entity, at the
end of the table, of the edge list of the graph and of the edge list of the
entity. -/
theorem createEdgesLoop_ok (k : Kernel G) :
    ∀ (pieces : List G) (gr : PolygonGraph G) (E : PolygonEntity G) (gr' : PolygonGraph G)
      (E' : PolygonEntity G),
      createEdgesLoop k pieces (gr, E) = (.ok (), (gr', E')) →
      gr'.heap.objects = gr.heap.objects
        ++ (pieces.filter (fun L => !k.isEmpty L)).map (fun L => ⟨L, [E.ptr]⟩) ∧
      gr'.heap.freed = gr.heap.freed ∧
      gr'.edges = gr.edges
        ++ List.range' gr.heap.objects.length (pieces.filter (fun L => !k.isEmpty L)).length ∧
      E'.m_PolyEdges = E.m_PolyEdges
        ++ List.range' gr.heap.objects.length (pieces.filter (fun L => !k.isEmpty L)).length ∧
      E'.ptr = E.ptr := by
  intro pieces
  induction pieces with
  | nil =>
    intro gr E gr' E' h
    simp only [createEdgesLoop, Prod.mk.injEq, true_and] at h
    obtain ⟨rfl, rfl⟩ := h
    simp
  | cons p rest ih =>
    intro gr E gr' E' h
    unfold createEdgesLoop at h
    generalize hc : gr.createEdge k p = r at h
    obtain ⟨o, gr1⟩ := r
    cases o with
    | error f => simp at h
    | ok oe =>
      rcases createEdge_ok k gr gr1 p oe hc with ⟨he, rfl, rfl⟩ | ⟨he, rfl, h1, h2, h3⟩
      · simp only at h
        have := ih gr1 E gr' E' h
        simpa [List.filter_cons, he] using this
      · simp only at h
        obtain ⟨a1, a2, a3, a4, a5⟩ := ih _ _ gr' E' h
        simp only [PolygonEntity.addEdge, EdgeHeap.update, h1, modify_append_last,
          PolygonEdge.addFace, List.nil_append, List.length_append, List.length_singleton]
          at a1 a2 a3 a4 a5
        refine ⟨?_, ?_, ?_, ?_, a5⟩
        · rw [a1]
          simp [List.filter_cons, he]
        · rw [a2, h2]
        · rw [a3, h3]
          simp [List.filter_cons, he, List.range'_succ]
        · rw [a4]
          simp [List.filter_cons, he, List.range'_succ]

/-- The value of `removeOldEdge` for an edge of the entity. -/
theorem removeOldEdge_ok (gr : PolygonGraph G) (E : PolygonEntity G) (Old : EdgeId)
    (hm : Old ∈ E.m_PolyEdges) :
    ∃ gr' E', removeOldEdge (gr, E) Old = (.ok (), (gr', E')) ∧
      gr'.heap.objects = gr.heap.objects ∧ gr'.heap.freed = Old :: gr.heap.freed ∧
      gr'.edges = gr.edges.filter (fun e => e ≠ Old) ∧
      E'.m_PolyEdges = E.m_PolyEdges.erase Old ∧ E'.ptr = E.ptr := by
  have hv : removeOldEdge (gr, E) Old
      = (.ok (), ({ gr.remove Old with heap := (gr.remove Old).heap.delete Old },
          { E with m_PolyEdges := E.m_PolyEdges.erase Old, mp_NeighboursMap := none,
                   mp_LineStringNeighboursMap := none })) := by
    unfold removeOldEdge PolygonEntity.removeEdge
    simp only [hm, ↓reduceIte]
  exact ⟨_, _, hv, rfl, rfl, rfl, rfl, rfl⟩

theorem filter_ne_range' (l : List EdgeId) (Old n m : Nat) (hlt : Old < n) :
    (l ++ List.range' n m).filter (fun e => decide (e ≠ Old))
      = l.filter (fun e => decide (e ≠ Old)) ++ List.range' n m := by
  rw [List.filter_append]
  congr 1
  rw [List.filter_eq_self]
  intro a ha
  have := (List.mem_range'_1.1 ha).1
  simp only [ne_eq, decide_not, Bool.not_eq_true', decide_eq_false_iff_not]
  unfold EdgeId at *
  omega

theorem erase_append_range' (l : List EdgeId) (Old n m : Nat) (hm : Old ∈ l) :
    (l ++ List.range' n m).erase Old = l.erase Old ++ List.range' n m :=
  List.erase_append_left _ hm

end SegmentLemmas

section SegmentClaim
variable {G : Type}

/-- C22: let a call of `removeSegment` locate the old edge `O`, whose object is
live, and return.  Then `O` is an edge of the entity; when the difference of
its line and the segment is not empty, the difference is line-typed and
merges into a vector of lines; one edge object is created per merged line
that is not empty (none when the difference is empty), carrying the face of
the entity only, after the existing objects; `O` is released and leaves the
edge list of the graph; the edge list of the entity is its previous list
without the first occurrence of `O`, followed by the new edges.  So when no
merged line is empty, as many edges are created as there are merged lines, and
when `O` occurred once it does not occur any more. -/
theorem removeSegment_replaces_old_edge (k : Kernel G) (gr gr' : PolygonGraph G)
    (Entity Entity' : PolygonEntity G) (Segment : G) (O : EdgeId) (Old : PolygonEdge G)
    (hfind : Entity.findEdgeLineIntersectingWith k gr.heap Segment = .ok (some O))
    (hread : gr.heap.read O = some Old)
    (hret : PolygonGraph.removeSegment k gr Entity Segment = (.ok (), (gr', Entity'))) :
    O ∈ Entity.m_PolyEdges ∧
    (k.isEmpty (k.difference Old.line Segment) = false →
      k.getDimension (k.difference Old.line Segment) = Dimension.L ∧
      ∃ DiffGeoms, getMergedLineStringsFromGeometry k (k.difference Old.line Segment)
          = some DiffGeoms ∧
        ((∀ L ∈ DiffGeoms, k.isEmpty L = false) →
          (replacementLines k Old.line Segment).length = DiffGeoms.length)) ∧
    (k.isEmpty (k.difference Old.line Segment) = true →
      replacementLines k Old.line Segment = []) ∧
    gr'.heap.objects = gr.heap.objects
      ++ (replacementLines k Old.line Segment).map (fun L => ⟨L, [Entity.ptr]⟩) ∧
    gr'.heap.freed = O :: gr.heap.freed ∧
    gr'.edges = gr.edges.filter (fun e => e ≠ O)
      ++ List.range' gr.heap.objects.length (replacementLines k Old.line Segment).length ∧
    Entity'.m_PolyEdges = Entity.m_PolyEdges.erase O
      ++ List.range' gr.heap.objects.length (replacementLines k Old.line Segment).length ∧
    O ∉ gr'.edges ∧
    (Entity.m_PolyEdges.count O = 1 → O ∉ Entity'.m_PolyEdges) := by
  have hmem : O ∈ Entity.m_PolyEdges := by
    obtain ⟨pre, post, E, hsplit, _⟩ :=
      (findEdgeLoop_some k gr.heap Segment Entity.m_PolyEdges O).1 hfind
    rw [hsplit]
    simp
  have hlt : O < gr.heap.objects.length := by
    unfold EdgeHeap.read at hread
    split at hread
    · cases hread
    · by_contra hge
      rw [List.getElem?_eq_none (Nat.le_of_not_lt hge)] at hread
      cases hread
  have hfinal : ∀ (n : Nat),
      gr'.edges = gr.edges.filter (fun e => e ≠ O) ++ List.range' gr.heap.objects.length n →
      Entity'.m_PolyEdges = Entity.m_PolyEdges.erase O ++ List.range' gr.heap.objects.length n →
      O ∉ gr'.edges ∧ (Entity.m_PolyEdges.count O = 1 → O ∉ Entity'.m_PolyEdges) := by
    intro n h1 h2
    have hr : O ∉ List.range' gr.heap.objects.length n := by
      intro hc
      have := (List.mem_range'_1.1 hc).1
      unfold EdgeId at *
      omega
    constructor
    · rw [h1]
      intro hc
      rcases List.mem_append.1 hc with hc | hc
      · have := List.of_mem_filter hc
        simp at this
      · exact hr hc
    · intro hcount
      rw [h2]
      intro hc
      rcases List.mem_append.1 hc with hc | hc
      · have h0 : (Entity.m_PolyEdges.erase O).count O = 0 := by
          rw [List.count_erase_self, hcount]
        exact (List.count_eq_zero.1 h0) hc
      · exact hr hc
  unfold PolygonGraph.removeSegment at hret
  simp only [hfind, hread] at hret
  by_cases he : k.isEmpty (k.difference Old.line Segment) = true
  · simp only [he, Bool.not_true, Bool.false_eq_true, ↓reduceIte] at hret
    obtain ⟨g2, E2, h2, a1, a2, a3, a4, _⟩ := removeOldEdge_ok gr Entity O hmem
    rw [h2] at hret
    simp only [Prod.mk.injEq, true_and] at hret
    obtain ⟨rfl, rfl⟩ := hret
    have hrep : replacementLines k Old.line Segment = [] := by
      simp [replacementLines, he]
    rw [hrep]
    simp only [List.map_nil, List.append_nil, List.length_nil, List.range'_zero]
    obtain ⟨b1, b2⟩ := hfinal 0 (by simpa using a3) (by simpa using a4)
    exact ⟨hmem, fun h => (by rw [he] at h; cases h), fun _ => trivial, a1, a2, a3, a4, b1, b2⟩
  · have he' : k.isEmpty (k.difference Old.line Segment) = false := Bool.eq_false_iff.2 he
    simp only [he', Bool.not_false, ↓reduceIte] at hret
    by_cases hdim : k.getDimension (k.difference Old.line Segment) = Dimension.L
    · simp only [hdim, ↓reduceIte] at hret
      cases hmerge : getMergedLineStringsFromGeometry k (k.difference Old.line Segment) with
      | none => simp [hmerge] at hret
      | some DiffGeoms =>
        simp only [hmerge] at hret
        generalize hloop : createEdgesLoop k DiffGeoms (gr, Entity) = r at hret
        obtain ⟨o, g1, E1⟩ := r
        cases o with
        | error f => simp at hret
        | ok u =>
          simp only at hret
          obtain ⟨c1, c2, c3, c4, c5⟩ := createEdgesLoop_ok k DiffGeoms gr Entity g1 E1 hloop
          have hmem1 : O ∈ E1.m_PolyEdges := by
            rw [c4]; exact List.mem_append_left _ hmem
          obtain ⟨g2, E2, h2, a1, a2, a3, a4, _⟩ := removeOldEdge_ok g1 E1 O hmem1
          rw [h2] at hret
          simp only [Prod.mk.injEq, true_and] at hret
          obtain ⟨rfl, rfl⟩ := hret
          have hrep : replacementLines k Old.line Segment
              = DiffGeoms.filter (fun L => !k.isEmpty L) := by
            simp [replacementLines, he', hmerge]
          rw [hrep]
          have e3 : g2.edges = gr.edges.filter (fun e => e ≠ O)
              ++ List.range' gr.heap.objects.length
                (DiffGeoms.filter (fun L => !k.isEmpty L)).length := by
            rw [a3, c3]
            exact filter_ne_range' _ _ _ _ hlt
          have e4 : E2.m_PolyEdges = Entity.m_PolyEdges.erase O
              ++ List.range' gr.heap.objects.length
                (DiffGeoms.filter (fun L => !k.isEmpty L)).length := by
            rw [a4, c4]
            exact erase_append_range' _ _ _ _ hmem
          obtain ⟨b1, b2⟩ := hfinal _ e3 e4
          refine ⟨hmem, fun _ => ⟨hdim, DiffGeoms, rfl, ?_⟩,
            fun h => (by rw [he'] at h; cases h),
            (by rw [a1, c1]), (by rw [a2, c2]), e3, e4, b1, b2⟩
          intro hall
          rw [List.filter_eq_self.2]
          intro L hL
          simp [hall L hL]
    · simp [hdim] at hret

end SegmentClaim

namespace Lattice

/-- C22, witness.  The call of `removeSegment` made in the insertion of the
square at `(1, 0)` next to the square at `(0, 0)`: the old edge is the ring
of the latter (edge 0), the difference merges into one line, the edge 2 is
created on it for the face 0, and the edge list `[0, 1]` of the entity
becomes `[1, 2]`. -/
theorem removeSegment_replaces_old_edge_witness :
    midInsertion.1.findEdgeLineIntersectingWith kernel midGraph.heap sharedSide = .ok (some 0) ∧
    midGraph.heap.read 0 = some ringEdge ∧
    replacementLines kernel ringEdge.line sharedSide
      = [.lineString [(1, 0), (0, 0), (0, 1), (1, 1)]] ∧
    midInsertion.1.m_PolyEdges = [0, 1] ∧
    (PolygonGraph.removeSegment kernel midGraph midInsertion.1 sharedSide).2.2.m_PolyEdges
      = [1, 2] ∧
    (PolygonGraph.removeSegment kernel midGraph midInsertion.1 sharedSide).2.1.edges = [1, 2] ∧
    (PolygonGraph.removeSegment kernel midGraph midInsertion.1 sharedSide).2.1.heap.objects.length
      = 3 ∧
    0 ∉ (PolygonGraph.removeSegment kernel midGraph midInsertion.1 sharedSide).2.2.m_PolyEdges :=
  have h := removeSegment_replaces_old_edge kernel midGraph
    (PolygonGraph.removeSegment kernel midGraph midInsertion.1 sharedSide).2.1
    midInsertion.1
    (PolygonGraph.removeSegment kernel midGraph midInsertion.1 sharedSide).2.2
    sharedSide 0 ringEdge (by decide!) rfl
    (Prod.ext (by decide!) rfl)
  ⟨by decide!, rfl, by decide!, by decide!, by decide!, by decide!, by decide!,
    h.2.2.2.2.2.2.2.2 (by decide!)⟩

end Lattice

section RepairLoopLemmas
variable {G : Type}

/-- An iteration of the repair loop of `cleanOverlap` that starts with an empty
list of pairs reads the front of the empty list. -/
theorem repairLoop_nil (k : RepairKernel G) (Threshold : ℚ) (LayerIndex n : Nat)
    (ds : VectorDataset G) :
    repairLoop k Threshold LayerIndex (n + 1) ds []
      = (.error (.undefinedBehaviour "front() of an empty list"), ds) := rfl

end RepairLoopLemmas

namespace Lattice

/-- C27, failing input.  On the layer `threeOverlaps`, `findOverlap` finds the
3 pairs (0, 1), (0, 2), (1, 2), so the repair loop of `cleanOverlap` is set to
3 iterations; after the repair of the pair (0, 1) the list computed again
holds the pair (1, 2) only, after the repair of this pair it is empty, and the
third iteration reads the front of the empty list. -/
theorem cleanOverlap_reads_front_of_empty_list :
    pairFIDs threeFound.1 = .ok [(0, 1), (0, 2), (1, 2)] ∧
    pairFIDs threeFirst.1 = .ok [(1, 2)] ∧
    pairFIDs threeSecond.1 = .ok [] ∧
    (repairLoop repairKernel (1 / 10) 0 3 threeFound.2 (threeFound.1.toOption.getD [])).1
      = .error (.undefinedBehaviour "front() of an empty list") ∧
    (threeOverlaps.cleanOverlap repairKernel (1 / 10) 0).1
      = .error (.undefinedBehaviour "front() of an empty list") := by
  decide!

end Lattice

section SharedStepLemmas
variable {G : Type}

/-- A call of `removeSegment` that returns located an edge of the entity,
released it, and left the entity with its previous edge list without the
first occurrence of that edge, followed by edges created by the call. -/
theorem removeSegment_ok (k : Kernel G) (gr gr' : PolygonGraph G)
    (Entity Entity' : PolygonEntity G) (Segment : G)
    (hret : PolygonGraph.removeSegment k gr Entity Segment = (.ok (), (gr', Entity'))) :
    ∃ O n, Entity.findEdgeLineIntersectingWith k gr.heap Segment = .ok (some O) ∧
      gr'.heap.freed = O :: gr.heap.freed ∧
      Entity'.m_PolyEdges
        = Entity.m_PolyEdges.erase O ++ List.range' gr.heap.objects.length n := by
  unfold PolygonGraph.removeSegment at hret
  cases hfind : Entity.findEdgeLineIntersectingWith k gr.heap Segment with
  | error f => simp [hfind] at hret
  | ok o =>
    cases o with
    | none => simp [hfind] at hret
    | some O =>
      obtain ⟨pre, post, Old, hsplit, _, hread, _⟩ :=
        (findEdgeLoop_some k gr.heap Segment Entity.m_PolyEdges O).1 hfind
      have hmem : O ∈ Entity.m_PolyEdges := by
        rw [hsplit]
        simp
      simp only [hfind, hread] at hret
      by_cases he : k.isEmpty (k.difference Old.line Segment) = true
      · simp only [he, Bool.not_true, Bool.false_eq_true, ↓reduceIte] at hret
        obtain ⟨g2, E2, h2, a1, a2, a3, a4, _⟩ := removeOldEdge_ok gr Entity O hmem
        rw [h2] at hret
        simp only [Prod.mk.injEq, true_and] at hret
        obtain ⟨rfl, rfl⟩ := hret
        exact ⟨O, 0, rfl, a2, by simpa using a4⟩
      · have he' : k.isEmpty (k.difference Old.line Segment) = false := Bool.eq_false_iff.2 he
        simp only [he', Bool.not_false, ↓reduceIte] at hret
        by_cases hdim : k.getDimension (k.difference Old.line Segment) = Dimension.L
        · simp only [hdim, ↓reduceIte] at hret
          cases hmerge : getMergedLineStringsFromGeometry k (k.difference Old.line Segment) with
          | none => simp [hmerge] at hret
          | some DiffGeoms =>
            simp only [hmerge] at hret
            generalize hloop : createEdgesLoop k DiffGeoms (gr, Entity) = r at hret
            obtain ⟨o, g1, E1⟩ := r
            cases o with
            | error f => simp at hret
            | ok u =>
              simp only at hret
              obtain ⟨c1, c2, c3, c4, c5⟩ := createEdgesLoop_ok k DiffGeoms gr Entity g1 E1 hloop
              have hmem1 : O ∈ E1.m_PolyEdges := by
                rw [c4]; exact List.mem_append_left _ hmem
              obtain ⟨g2, E2, h2, a1, a2, a3, a4, _⟩ := removeOldEdge_ok g1 E1 O hmem1
              rw [h2] at hret
              simp only [Prod.mk.injEq, true_and] at hret
              obtain ⟨rfl, rfl⟩ := hret
              refine ⟨O, (DiffGeoms.filter (fun L => !k.isEmpty L)).length, rfl,
                by rw [a2, c2], ?_⟩
              rw [a4, c4]
              exact erase_append_range' _ _ _ _ hmem
        · simp [hdim] at hret

/-- A list that ends with an entry absent from its front splits at that entry
in one way only. -/
theorem split_at_last {α : Type} (l pre post : List α) (e : α) (hne : e ∉ l)
    (h : l ++ [e] = pre ++ e :: post) : pre = l ∧ post = [] := by
  induction l generalizing pre with
  | nil =>
    cases pre with
    | nil => simp at h; exact ⟨rfl, h⟩
    | cons a pre =>
      simp only [List.nil_append, List.cons_append, List.cons.injEq] at h
      have := h.2
      cases pre <;> simp at this
  | cons a l ih =>
    cases pre with
    | nil =>
      simp only [List.cons_append, List.nil_append, List.cons.injEq] at h
      exact absurd (by rw [h.1]; exact List.mem_cons_self _ _) hne
    | cons b pre =>
      simp only [List.cons_append, List.cons.injEq] at h
      obtain ⟨h1, h2⟩ := ih pre (fun hc => hne (List.mem_cons_of_mem _ hc)) h.2
      exact ⟨by rw [h.1, h1], h2⟩

end SharedStepLemmas

section SharedStepClaim
variable {G : Type}

/-- C25: let the body of the loop of `addPolygon` over the shared lines return
for the shared line `S` and the existing face `G`, whose edges are objects of
the edge table.  The shared edge `e` created from `S` is the next object of
the table and is appended to the edge list of the new face.  The edge `O`
that `removeSegment` removes and releases is the first edge of the list of
`G` followed by `e` whose line has a 1-dimensional interior intersection with
`S`: it is `e` itself exactly when no live edge of `G` from before the step
has such an intersection; when it is not `e` it belonged to `G` before and
`e` stays in the list of `G`; when it is `e`, the list of `G` loses `e` and
the object of `e` is released while the new face keeps `e`. -/
theorem sharedLineStep_removes_first_edge_on_line (k : Kernel G) (st st' : Insertion G)
    (Other Other' : PolygonEntity G) (S : G)
    (hreg : ∀ x ∈ Other.m_PolyEdges, x < st.graph.heap.objects.length)
    (hret : sharedLineStep k st Other S = (.ok (), (st', Other'))) :
    st'.NewEntity.m_PolyEdges = st.NewEntity.m_PolyEdges ++ [st.graph.heap.objects.length] ∧
    ∃ O : EdgeId,
      st'.graph.heap.freed = O :: st.graph.heap.freed ∧
      (O = st.graph.heap.objects.length ↔
        ∀ x ∈ Other.m_PolyEdges, ∀ X, st.graph.heap.read x = some X →
          k.relate S X.line "1********" = false) ∧
      (O ≠ st.graph.heap.objects.length →
        O ∈ Other.m_PolyEdges ∧ st.graph.heap.objects.length ∈ Other'.m_PolyEdges) ∧
      (O = st.graph.heap.objects.length →
        st.graph.heap.objects.length ∉ Other'.m_PolyEdges ∧
        st.graph.heap.objects.length ∈ st'.NewEntity.m_PolyEdges ∧
        st'.graph.heap.read st.graph.heap.objects.length = none) := by
  unfold sharedLineStep at hret
  generalize hc : st.graph.createEdge k S = r at hret
  obtain ⟨o, gr1⟩ := r
  cases o with
  | error f => simp at hret
  | ok oe =>
    rcases createEdge_ok k st.graph gr1 S oe hc with ⟨he, rfl, rfl⟩ | ⟨he, rfl, h1, h2, h3⟩
    · simp at hret
    · simp only at hret
      generalize hrs : PolygonGraph.removeSegment k
        { gr1 with heap := (Other.addEdge (st.NewEntity.addEdge gr1.heap
            st.graph.heap.objects.length).2 st.graph.heap.objects.length).2 }
        (Other.addEdge (st.NewEntity.addEdge gr1.heap
            st.graph.heap.objects.length).2 st.graph.heap.objects.length).1 S = rs at hret
      obtain ⟨ro, gr2, Other2⟩ := rs
      cases ro with
      | error f => simp at hret
      | ok u =>
        simp only [Prod.mk.injEq, true_and] at hret
        obtain ⟨rfl, rfl⟩ := hret
        obtain ⟨O, n, hfind, hfreed, hlist⟩ := removeSegment_ok k _ gr2 _ Other2 S hrs
        have hobjs : (Other.addEdge (st.NewEntity.addEdge gr1.heap
            st.graph.heap.objects.length).2 st.graph.heap.objects.length).2.objects
            = st.graph.heap.objects
              ++ [((⟨S, []⟩ : PolygonEdge G).addFace st.NewEntity.ptr).addFace Other.ptr] := by
          simp only [PolygonEntity.addEdge, EdgeHeap.update, h1, modify_append_last]
        have hfr : (Other.addEdge (st.NewEntity.addEdge gr1.heap
            st.graph.heap.objects.length).2 st.graph.heap.objects.length).2.freed
            = st.graph.heap.freed := by
          simp only [PolygonEntity.addEdge, EdgeHeap.update, h2]
        have hreadOld : ∀ x, x < st.graph.heap.objects.length →
            (Other.addEdge (st.NewEntity.addEdge gr1.heap
              st.graph.heap.objects.length).2 st.graph.heap.objects.length).2.read x
            = st.graph.heap.read x := by
          intro x hx
          unfold EdgeHeap.read
          rw [hobjs, hfr, List.getElem?_append_left hx]
        have hOtherList : (Other.addEdge (st.NewEntity.addEdge gr1.heap
            st.graph.heap.objects.length).2 st.graph.heap.objects.length).1.m_PolyEdges
            = Other.m_PolyEdges ++ [st.graph.heap.objects.length] := rfl
        have hfresh : st.graph.heap.objects.length ∉ Other.m_PolyEdges := by
          intro hc
          exact absurd (hreg _ hc) (lt_irrefl _)
        simp only at hfreed hlist hfind
        rw [hfr] at hfreed
        rw [hOtherList, hobjs] at hlist
        unfold PolygonEntity.findEdgeLineIntersectingWith at hfind
        rw [hOtherList] at hfind
        obtain ⟨pre, post, E, hsplit, hpre, hreadO, hrel⟩ :=
          (findEdgeLoop_some k _ S _ O).1 hfind
        have hOmem : O ∈ Other.m_PolyEdges ++ [st.graph.heap.objects.length] := by
          rw [hsplit]; simp
        have hiff : O = st.graph.heap.objects.length ↔
            ∀ x ∈ Other.m_PolyEdges, ∀ X, st.graph.heap.read x = some X →
              k.relate S X.line "1********" = false := by
          constructor
          · intro hO x hx X hX
            subst hO
            obtain ⟨hp, _⟩ := split_at_last _ pre post _ hfresh hsplit
            subst hp
            obtain ⟨Y, hY, hrelY⟩ := hpre x hx
            rw [hreadOld x (hreg x hx), hX] at hY
            cases hY
            exact hrelY
          · intro hall
            rcases List.mem_append.1 hOmem with hm | hm
            · rw [hreadOld O (hreg O hm)] at hreadO
              have := hall O hm E hreadO
              rw [hrel] at this
              cases this
            · simpa using hm
        refine ⟨rfl, O, hfreed, hiff, ?_, ?_⟩
        · intro hne
          have hm : O ∈ Other.m_PolyEdges := by
            rcases List.mem_append.1 hOmem with hm | hm
            · exact hm
            · exact absurd (by simpa using hm) hne
          refine ⟨hm, ?_⟩
          rw [hlist]
          apply List.mem_append_left
          rw [List.mem_erase_of_ne (Ne.symm hne)]
          simp
        · intro hO
          subst hO
          refine ⟨?_, by simp [PolygonEntity.addEdge], ?_⟩
          · rw [hlist]
            intro hc
            rcases List.mem_append.1 hc with hc | hc
            · rw [List.erase_append_right _ hfresh] at hc
              rcases List.mem_append.1 hc with hc | hc
              · exact hfresh hc
              · simp at hc
            · have := (List.mem_range'_1.1 hc).1
              simp at this
          · unfold EdgeHeap.read
            rw [hfreed]
            simp

end SharedStepClaim

namespace Lattice

/-- C25, witness and failing input.  In the insertion of the square at `(1, 0)`
next to the square at `(0, 0)` the step for the shared side creates the edge 1
and removes the edge 0, the ring of the existing face, which keeps the edge 1.
In the insertion of `island` into the graph of `frame`, the step for the ring
of the hole creates the edge 1; the only edge of the frame, its outer ring,
does not run along the ring of the hole, so `removeSegment` removes the edge 1
itself: the step returns, the frame is left with the edge 0 only, and the
island keeps the edge 1, whose object is released. -/
theorem sharedLineStep_removes_first_edge_on_line_witness :
    (sharedLineStep kernel eastInsertion loneFace sharedSide).1 = .ok () ∧
    eastStep.1.graph.heap.freed = [0] ∧ eastStep.1.NewEntity.m_PolyEdges = [1] ∧
    1 ∈ eastStep.2.m_PolyEdges ∧
    islandFace.computeLineIntersectionsWith kernel frameFace = .ok [holeRing] ∧
    (sharedLineStep kernel islandInsertion frameFace holeRing).1 = .ok () ∧
    islandStep.1.graph.heap.freed = [1] ∧
    islandStep.1.NewEntity.m_PolyEdges = [1] ∧
    islandStep.2.m_PolyEdges = [0] ∧
    1 ∉ islandStep.2.m_PolyEdges ∧
    islandStep.1.graph.heap.read 1 = none := by
  obtain ⟨_, O, hO, _, hne, _⟩ := sharedLineStep_removes_first_edge_on_line kernel
    eastInsertion eastStep.1 loneFace eastStep.2 sharedSide (by decide!)
    (Prod.ext (by decide!) rfl)
  have hO0 : O = 0 := by
    have h0 : eastStep.1.graph.heap.freed = [0] := by decide!
    rw [h0] at hO
    exact (List.cons.inj hO).1.symm
  subst hO0
  obtain ⟨_, O, hO, _, _, heq⟩ := sharedLineStep_removes_first_edge_on_line kernel
    islandInsertion islandStep.1 frameFace islandStep.2 holeRing (by decide!)
    (Prod.ext (by decide!) rfl)
  have hO1 : O = 1 := by
    have h1 : islandStep.1.graph.heap.freed = [1] := by decide!
    rw [h1] at hO
    exact (List.cons.inj hO).1.symm
  subst hO1
  exact ⟨by decide!, by decide!, by decide!, (hne (by decide)).2, by decide!, by decide!,
    by decide!, by decide!, by decide!, (heq rfl).1, (heq rfl).2.2⟩

end Lattice

section SnapCacheLemmas
variable {G : Type}

theorem cacheAt_insert_self {α : Type} (m : List (Nat × α)) (key : Nat) (v : α) :
    cacheAt (cacheInsert m key v) key = some ((cacheAt m key).getD v) := by
  unfold cacheInsert
  by_cases hc : cacheCount m key = true
  · rw [if_pos hc]
    unfold cacheCount at hc
    obtain ⟨p, hp, hk⟩ := List.any_eq_true.1 hc
    unfold cacheAt
    cases hf : m.find? (fun p => decide (p.1 = key)) with
    | none =>
      have := List.find?_eq_none.1 hf p hp
      exact absurd hk this
    | some q => rfl
  · rw [if_neg hc]
    have hn : m.find? (fun p => decide (p.1 = key)) = none := by
      rw [List.find?_eq_none]
      intro p hp hk
      exact hc (List.any_eq_true.2 ⟨p, hp, hk⟩)
    unfold cacheAt
    rw [List.find?_append, hn]
    simp

theorem cacheAt_insert_other {α : Type} (m : List (Nat × α)) (key other : Nat) (v : α)
    (hne : other ≠ key) : cacheAt (cacheInsert m key v) other = cacheAt m other := by
  unfold cacheInsert
  split
  · rfl
  · unfold cacheAt
    rw [List.find?_append]
    cases hf : m.find? (fun p => decide (p.1 = other)) with
    | none => simp [Ne.symm hne]
    | some q => rfl

theorem cacheAt_pushBack_other {α : Type} (m : List (Nat × List α)) (key other : Nat) (x : α)
    (hne : other ≠ key) : cacheAt (cachePushBack m key x) other = cacheAt m other := by
  induction m with
  | nil => rfl
  | cons p m ih =>
    unfold cacheAt cachePushBack at *
    by_cases hp : p.1 = key
    · have hpo : ¬ p.1 = other := fun h => hne (h.symm.trans hp)
      simp only [List.map_cons, hp, ↓reduceIte, List.find?, hne.symm, decide_False, hpo]
      simpa [hp] using ih
    · by_cases hpo : p.1 = other
      · simp only [List.map_cons, hp, hne, ↓reduceIte, List.find?, hpo, decide_True]
      · simp only [List.map_cons, hp, ↓reduceIte, List.find?, hpo, decide_False]
        exact ih

theorem cacheAt_assign_self {α : Type} (m : List (Nat × α)) (key : Nat) (v : α) :
    cacheAt (cacheAssign m key v) key = some v := by
  unfold cacheAssign
  by_cases hc : cacheCount m key = true
  · rw [if_pos hc]
    unfold cacheCount at hc
    unfold cacheAt
    induction m with
    | nil => simp at hc
    | cons p m ih =>
      by_cases hp : p.1 = key
      · simp [List.find?, hp]
      · simp only [List.map_cons, hp, ↓reduceIte, List.find?, decide_False]
        apply ih
        simpa [hp] using hc
  · rw [if_neg hc]
    have hn : m.find? (fun p => decide (p.1 = key)) = none := by
      rw [List.find?_eq_none]
      intro p hp hk
      exact hc (List.any_eq_true.2 ⟨p, hp, hk⟩)
    unfold cacheAt
    rw [List.find?_append, hn]
    simp

/-- The loop of `parse` writes to the cached feature list of its layer only and
adds one geometry per feature to the local vector. -/
theorem parseLoop_frame (k : DatasetKernel G) (LayerIndex : Nat) :
    ∀ (feats : List (Nat × G)) (ds ds' : VectorDataset G) (Geoms Geoms' : List G),
      parseLoop k LayerIndex feats (ds, Geoms) = (.ok (), (ds', Geoms')) →
      ds'.m_Geometries = ds.m_Geometries ∧ ds'.components = ds.components ∧
      ds'.deleted = ds.deleted ∧
      Geoms'.length = Geoms.length + feats.length ∧
      ∀ L, L ≠ LayerIndex → cacheAt ds'.m_Features L = cacheAt ds.m_Features L := by
  intro feats
  induction feats with
  | nil =>
    intro ds ds' Geoms Geoms' h
    simp only [parseLoop, Prod.mk.injEq, true_and] at h
    obtain ⟨rfl, rfl⟩ := h
    exact ⟨rfl, rfl, rfl, rfl, fun _ _ => rfl⟩
  | cons f rest ih =>
    intro ds ds' Geoms Geoms' h
    obtain ⟨fid, g⟩ := f
    unfold parseLoop at h
    split at h
    · simp at h
    · split at h
      · simp at h
      · obtain ⟨a1, a2, a3, a4, a5⟩ := ih _ ds' _ Geoms' h
        refine ⟨a1, a2, a3, ?_, ?_⟩
        · rw [a4]; simp; omega
        · intro L hL
          rw [a5 L hL]
          exact cacheAt_pushBack_other _ _ _ _ hL

/-- What a call of `parse` that returns does to the caches: the data source is
not written; the cached feature lists of the other layers are kept; the
cached list of the layer, empty when there was none, gets one more entry per
feature of the layer; the layer has a cached collection; and when it had none
before, the collection is new and has one component per feature. -/
theorem parse_caches (k : DatasetKernel G) (ds ds' : VectorDataset G) (LayerIndex : Nat)
    (h : ds.parse k LayerIndex = (.ok (), ds')) :
    ds'.mp_DataSource = ds.mp_DataSource ∧
    (∀ L, L ≠ LayerIndex → cacheAt ds'.m_Features L = cacheAt ds.m_Features L) ∧
    (∃ Layer added, ds.mp_DataSource[LayerIndex]? = some Layer ∧
      cacheAt ds'.m_Features LayerIndex
        = some ((cacheAt ds.m_Features LayerIndex).getD [] ++ added) ∧
      added.length = Layer.features.length ∧
      (cacheCount ds.m_Geometries LayerIndex = false →
        ∃ comps, cacheAt ds'.components LayerIndex = some comps ∧
          comps.length = Layer.features.length)) ∧
    (∃ g, cacheAt ds'.m_Geometries LayerIndex = some g) := by
  obtain ⟨Layer, added, b1, b2, b3, b4, b5⟩ := parse_ok k ds ds' LayerIndex _
    (cacheAt_insert_self ds.m_Features LayerIndex []) h
  unfold VectorDataset.parse at h
  simp only [b1] at h
  generalize hp : parseLoop k LayerIndex Layer.features _ = r at h
  obtain ⟨o, ds2, Geoms⟩ := r
  cases o with
  | error f => simp at h
  | ok u =>
    obtain ⟨c1, c2, c3, c4, c5⟩ := parseLoop_frame k LayerIndex Layer.features _ ds2 _ Geoms hp
    simp only at h c1 c2 c3 c4 c5
    split at h
    · simp at h
    · rename_i Coll hColl
      split at h
      · simp at h
      · simp only [Prod.mk.injEq, true_and] at h
        subst h
        refine ⟨b5, ?_, ⟨Layer, added, b1, b2, ?_, ?_⟩, ⟨Coll, hColl⟩⟩
        · intro L hL
          simp only
          rw [c5 L hL]
          exact cacheAt_insert_other _ _ _ _ hL
        · have := congrArg List.length b3
          simpa using this
        · intro hcount
          simp only [c1, hcount, Bool.false_eq_true, ↓reduceIte]
          refine ⟨_, cacheAt_assign_self _ _ _, ?_⟩
          simp [c4]

/-- A call of `geometries` that returns does not write to the data source and
does not shorten a cached feature list. -/
theorem geometries_caches (k : DatasetKernel G) (ds ds1 : VectorDataset G) (Index L : Nat)
    (g : G) (l : FeaturesList G) (hc : cacheAt ds.m_Features L = some l)
    (h : ds.geometries k Index = (.ok g, ds1)) :
    ds1.mp_DataSource = ds.mp_DataSource ∧
    ∃ l1, cacheAt ds1.m_Features L = some l1 ∧ l.length ≤ l1.length := by
  unfold VectorDataset.geometries at h
  simp only at h
  by_cases hcount : cacheCount ds.m_Geometries Index = true
  · simp only [hcount, Bool.not_true, Bool.false_eq_true, ↓reduceIte] at h
    cases hat : cacheAt ds.m_Geometries Index with
    | none => simp [hat] at h
    | some g2 =>
      simp only [hat, Prod.mk.injEq, Except.ok.injEq] at h
      obtain ⟨_, rfl⟩ := h
      exact ⟨rfl, l, hc, le_refl _⟩
  · have hcount' : cacheCount ds.m_Geometries Index = false := Bool.eq_false_iff.2 hcount
    simp only [hcount', Bool.not_false, ↓reduceIte] at h
    generalize hp : ds.parse k Index = r at h
    obtain ⟨o, ds2⟩ := r
    cases o with
    | error f => simp at h
    | ok u =>
      simp only at h
      cases hat : cacheAt ds2.m_Geometries Index with
      | none => simp [hat] at h
      | some g2 =>
        simp only [hat, Prod.mk.injEq, Except.ok.injEq] at h
        obtain ⟨_, rfl⟩ := h
        obtain ⟨p1, p2, ⟨Layer, added, p3, p4, p5, _⟩, _⟩ := parse_caches k ds ds2 Index hp
        refine ⟨p1, ?_⟩
        by_cases hL : L = Index
        · subst hL
          rw [hc] at p4
          exact ⟨_, p4, by simp⟩
        · exact ⟨l, by rw [p2 L hL]; exact hc, le_refl _⟩

theorem cacheAt_setGeometry (m : List (Nat × FeaturesList G)) (ptr L : Nat) (g : G)
    (l : FeaturesList G) (hc : cacheAt m L = some l) :
    ∃ l1, cacheAt (setGeometry m ptr g) L = some l1 ∧ l1.length = l.length := by
  induction m with
  | nil => simp [cacheAt] at hc
  | cons p m ih =>
    unfold cacheAt setGeometry at *
    by_cases hp : p.1 = L
    · simp only [List.find?, hp, decide_True, Option.map_some', Option.some.injEq] at hc
      subst hc
      simp [List.find?, hp]
    · simp only [List.find?, hp, decide_False] at hc
      simp only [List.map_cons, List.find?, hp, decide_False]
      exact ih hc

/-- The call `SetFeature` keeps the number of features of the layer and does
not touch the caches. -/
theorem setFeature_self (ds ds' : VectorDataset G) (LayerIndex FID : Nat) (g : G)
    (Layer : OGRLayer G) (hl : ds.mp_DataSource[LayerIndex]? = some Layer)
    (h : ds.setFeature LayerIndex FID g = .ok ds') :
    (∃ Layer1, ds'.mp_DataSource[LayerIndex]? = some Layer1 ∧
      Layer1.features.length = Layer.features.length) ∧
    ds'.m_Features = ds.m_Features ∧ ds'.m_Geometries = ds.m_Geometries ∧
    ds'.components = ds.components := by
  unfold VectorDataset.setFeature at h
  simp only [hl, Except.ok.injEq] at h
  subst h
  have hlt : LayerIndex < ds.mp_DataSource.length := by
    by_contra hge
    rw [List.getElem?_eq_none (Nat.le_of_not_lt hge)] at hl
    cases hl
  refine ⟨⟨{ Layer with features :=
      Layer.features.map (fun p => if p.1 = FID then (FID, g) else p) }, ?_, ?_⟩, rfl, rfl, rfl⟩
  · simp only
    rw [List.getElem?_set_self hlt]
  · simp

/-- One iteration of the loop of `snapPolygonVertices` that returns keeps the
number of features of the layer, appends at least one entry per feature of the
layer to the cached feature list of the layer, and leaves a cached collection
with one component per feature. -/
theorem snapFeatureStep_grows (k : RepairKernel G) (Threshold : ℚ) (LayerIndex : Nat)
    (ds ds' : VectorDataset G) (it : Feature G × G) (Layer : OGRLayer G) (l : FeaturesList G)
    (hl : ds.mp_DataSource[LayerIndex]? = some Layer)
    (hc : cacheAt ds.m_Features LayerIndex = some l)
    (h : snapFeatureStep k Threshold LayerIndex ds it = (.ok (), ds')) :
    (∃ Layer1, ds'.mp_DataSource[LayerIndex]? = some Layer1 ∧
      Layer1.features.length = Layer.features.length) ∧
    (∃ l1, cacheAt ds'.m_Features LayerIndex = some l1 ∧
      l.length + Layer.features.length ≤ l1.length) ∧
    (∃ g, cacheAt ds'.m_Geometries LayerIndex = some g) ∧
    (∃ comps, cacheAt ds'.components LayerIndex = some comps ∧
      comps.length = Layer.features.length) := by
  unfold snapFeatureStep at h
  generalize hg : ds.geometries k.toDatasetKernel 0 = r at h
  obtain ⟨o, ds1⟩ := r
  cases o with
  | error f => simp at h
  | ok Coll =>
    obtain ⟨g1, l1, g2, g3⟩ := geometries_caches k.toDatasetKernel ds ds1 0 LayerIndex Coll l hc hg
    simp only at h
    cases hcomp : cacheAt ds1.components 0 with
    | none => simp [hcomp] at h
    | some Geom =>
      simp only [hcomp] at h
      split at h
      · simp at h
      · cases hdel : deleteOthersLoop k.toVertexKernel it.1.ptr it.2 Geom ds1.deleted with
        | error f => simp [hdel] at h
        | ok deleted =>
          simp only [hdel] at h
          split at h
          · simp at h
          · split at h
            · simp at h
            · cases hcp : k.createPolygon
                (snapStep k.toVertexKernel Threshold (Geom.map Prod.snd) it.2) with
              | none => simp [hcp] at h
              | some NewPolygon =>
                simp only [hcp] at h
                cases hs : VectorDataset.setFeature
                  { ds1 with deleted := deleted,
                             m_Features := setGeometry ds1.m_Features it.1.ptr NewPolygon }
                  LayerIndex it.1.FID NewPolygon with
                | error f => simp [hs] at h
                | ok ds4 =>
                  simp only [hs] at h
                  obtain ⟨⟨Layer1, s1, s2⟩, s3, s4, s5⟩ := setFeature_self _ ds4 LayerIndex
                    it.1.FID NewPolygon Layer (by simp only; rw [g1]; exact hl) hs
                  obtain ⟨l2, t1, t2⟩ := cacheAt_setGeometry ds1.m_Features it.1.ptr LayerIndex
                    NewPolygon l1 g2
                  generalize hp : VectorDataset.parse k.toDatasetKernel
                    { ds4 with deleted := ds4.deleted ++ [it.1.ptr], m_Geometries := [] }
                    LayerIndex = rp at h
                  obtain ⟨op, ds6⟩ := rp
                  cases op with
                  | error f => simp at h
                  | ok u =>
                    simp only [Prod.mk.injEq, true_and] at h
                    subst h
                    obtain ⟨p1, _, ⟨Layer2, added, p3, p4, p5, p6⟩, p7⟩ :=
                      parse_caches k.toDatasetKernel _ ds6 LayerIndex hp
                    simp only at p1 p3 p4 p6
                    rw [s1] at p3
                    cases p3
                    rw [s3] at p4
                    simp only at p4
                    rw [t1] at p4
                    refine ⟨⟨Layer1, by rw [p1]; exact s1, s2⟩, ⟨_, p4, ?_⟩, p7, ?_⟩
                    · simp only [Option.getD_some, List.length_append, t2, p5, s2]
                      omega
                    · obtain ⟨comps, q1, q2⟩ := p6 rfl
                      exact ⟨comps, q1, q2.trans s2⟩

/-- The loop of `snapPolygonVertices`, when it returns: every iteration adds at
least one entry per feature of the layer to the cached feature list. -/
theorem snapFeaturesLoop_grows (k : RepairKernel G) (Threshold : ℚ) (LayerIndex : Nat) :
    ∀ (Features : FeaturesList G) (ds ds' : VectorDataset G) (Layer : OGRLayer G)
      (l : FeaturesList G),
      ds.mp_DataSource[LayerIndex]? = some Layer →
      cacheAt ds.m_Features LayerIndex = some l →
      snapFeaturesLoop k Threshold LayerIndex Features ds = (.ok (), ds') →
      (∃ Layer1, ds'.mp_DataSource[LayerIndex]? = some Layer1 ∧
        Layer1.features.length = Layer.features.length) ∧
      (∃ l1, cacheAt ds'.m_Features LayerIndex = some l1 ∧
        l.length + Features.length * Layer.features.length ≤ l1.length) ∧
      (Features ≠ [] →
        (∃ g, cacheAt ds'.m_Geometries LayerIndex = some g) ∧
        (∃ comps, cacheAt ds'.components LayerIndex = some comps ∧
          comps.length = Layer.features.length)) := by
  intro Features
  induction Features with
  | nil =>
    intro ds ds' Layer l hl hc h
    simp only [snapFeaturesLoop, Prod.mk.injEq, true_and] at h
    subst h
    exact ⟨⟨Layer, hl, rfl⟩, ⟨l, hc, by simp⟩, fun hne => absurd rfl hne⟩
  | cons it rest ih =>
    intro ds ds' Layer l hl hc h
    unfold snapFeaturesLoop at h
    generalize hs : snapFeatureStep k Threshold LayerIndex ds it = r at h
    obtain ⟨o, ds1⟩ := r
    cases o with
    | error f => simp at h
    | ok u =>
      simp only at h
      obtain ⟨⟨Layer1, a1, a2⟩, ⟨l1, a3, a4⟩, a5, a6⟩ :=
        snapFeatureStep_grows k Threshold LayerIndex ds ds1 it Layer l hl hc hs
      obtain ⟨⟨Layer2, b1, b2⟩, ⟨l2, b3, b4⟩, b5⟩ := ih ds1 ds' Layer1 l1 a1 a3 h
      refine ⟨⟨Layer2, b1, b2.trans a2⟩, ⟨l2, b3, ?_⟩, fun _ => ?_⟩
      · rw [a2] at b4
        simp only [List.length_cons]
        have : (rest.length + 1) * Layer.features.length
            = rest.length * Layer.features.length + Layer.features.length := by ring
        omega
      · cases rest with
        | nil =>
          simp only [snapFeaturesLoop, Prod.mk.injEq, true_and] at h
          subst h
          exact ⟨a5, a6⟩
        | cons it2 rest2 =>
          obtain ⟨c1, comps, c2, c3⟩ := b5 (by simp)
          exact ⟨c1, comps, c2, c3.trans a2⟩

end SnapCacheLemmas

section SnapCacheClaim
variable {G : Type}

theorem cacheAt_none_of_count {α : Type} (m : List (Nat × α)) (key : Nat)
    (h : cacheCount m key = false) : cacheAt m key = none := by
  unfold cacheAt
  have hn : m.find? (fun p => decide (p.1 = key)) = none := by
    rw [List.find?_eq_none]
    intro p hp hk
    unfold cacheCount at h
    have : m.any (fun p => decide (p.1 = key)) = true := List.any_eq_true.2 ⟨p, hp, hk⟩
    rw [h] at this
    cases this
  rw [hn]
  rfl

/-- A call of `geometries` on a layer that is in the cache returns the cached
collection and leaves the dataset as it is. -/
theorem geometries_of_cached (k : DatasetKernel G) (ds : VectorDataset G) (LayerIndex : Nat)
    (g : G) (hc : cacheAt ds.m_Geometries LayerIndex = some g) :
    ds.geometries k LayerIndex = (.ok g, ds) := by
  unfold VectorDataset.geometries
  simp [cacheCount_of_cacheAt _ _ _ hc, hc]

/-- A call of `features` that returns, on a layer whose cached list, if any,
has one entry per feature: the result has one entry per feature and is the
cached list afterwards. -/
theorem features_ok_length (k : DatasetKernel G) (ds ds1 : VectorDataset G) (LayerIndex : Nat)
    (Layer : OGRLayer G) (Fs : FeaturesList G)
    (hl : ds.mp_DataSource[LayerIndex]? = some Layer)
    (hcache : ∀ l, cacheAt ds.m_Features LayerIndex = some l →
      l.length = Layer.features.length)
    (h : ds.features k LayerIndex = (.ok Fs, ds1)) :
    ds1.mp_DataSource = ds.mp_DataSource ∧ cacheAt ds1.m_Features LayerIndex = some Fs ∧
    Fs.length = Layer.features.length := by
  unfold VectorDataset.features at h
  simp only at h
  by_cases hcount : cacheCount ds.m_Features LayerIndex = true
  · simp only [hcount, Bool.not_true, Bool.false_eq_true, ↓reduceIte] at h
    cases hat : cacheAt ds.m_Features LayerIndex with
    | none => simp [hat] at h
    | some l =>
      simp only [hat, Prod.mk.injEq, Except.ok.injEq] at h
      obtain ⟨rfl, rfl⟩ := h
      exact ⟨rfl, hat, hcache l hat⟩
  · have hcount' : cacheCount ds.m_Features LayerIndex = false := Bool.eq_false_iff.2 hcount
    simp only [hcount', Bool.not_false, ↓reduceIte] at h
    generalize hp : ds.parse k LayerIndex = r at h
    obtain ⟨o, ds2⟩ := r
    cases o with
    | error f => simp at h
    | ok u =>
      simp only at h
      cases hat : cacheAt ds2.m_Features LayerIndex with
      | none => simp [hat] at h
      | some l =>
        simp only [hat, Prod.mk.injEq, Except.ok.injEq] at h
        obtain ⟨rfl, rfl⟩ := h
        obtain ⟨p1, _, ⟨Layer2, added, p3, p4, p5, _⟩, _⟩ := parse_caches k ds ds2 LayerIndex hp
        rw [hl] at p3
        cases p3
        rw [cacheAt_none_of_count _ _ hcount', hat] at p4
        simp only [Option.getD_none, List.nil_append, Option.some.injEq] at p4
        subst p4
        exact ⟨p1, hat, p5⟩

/-- C24: let `snapPolygonVertices` return on a layer with `n` features, `n` at
least 1, whose cached feature list, if there is one, has `n` entries.  Then the
layer still has `n` features, `geometries` returns the cached collection, which
has `n` components, and `features` returns the cached list, which has at least
`n + n * n` entries: every iteration cleared the geometry cache only and
parsed the layer again, and `parse` appended its `n` entries to the cached
list.  So the feature list is longer than the collection. -/
theorem snapPolygonVertices_appends_to_cached_features (k : RepairKernel G)
    (ds ds' : VectorDataset G) (Threshold : ℚ) (LayerIndex : Nat) (Layer : OGRLayer G)
    (hl : ds.mp_DataSource[LayerIndex]? = some Layer)
    (hn : 0 < Layer.features.length)
    (hcache : ∀ l, cacheAt ds.m_Features LayerIndex = some l →
      l.length = Layer.features.length)
    (hret : ds.snapPolygonVertices k Threshold LayerIndex = (.ok (), ds')) :
    ∃ Layer1 Fs Coll comps,
      ds'.mp_DataSource[LayerIndex]? = some Layer1 ∧
      Layer1.features.length = Layer.features.length ∧
      ds'.features k.toDatasetKernel LayerIndex = (.ok Fs, ds') ∧
      ds'.geometries k.toDatasetKernel LayerIndex = (.ok Coll, ds') ∧
      cacheAt ds'.components LayerIndex = some comps ∧
      comps.length = Layer.features.length ∧
      Layer.features.length + Layer.features.length * Layer.features.length ≤ Fs.length ∧
      comps.length < Fs.length := by
  unfold VectorDataset.snapPolygonVertices at hret
  generalize hf : ds.features k.toDatasetKernel LayerIndex = r at hret
  obtain ⟨o, ds1⟩ := r
  cases o with
  | error f => simp at hret
  | ok Fs0 =>
    simp only at hret
    obtain ⟨f1, f2, f3⟩ := features_ok_length k.toDatasetKernel ds ds1 LayerIndex Layer Fs0 hl
      hcache hf
    have hne : Fs0 ≠ [] := by
      intro hc
      rw [hc] at f3
      simp at f3
      omega
    obtain ⟨⟨Layer1, a1, a2⟩, ⟨Fs, a3, a4⟩, a5⟩ :=
      snapFeaturesLoop_grows k Threshold LayerIndex Fs0 ds1 ds' Layer Fs0
        (by rw [f1]; exact hl) f2 hret
    obtain ⟨⟨Coll, b1⟩, comps, b2, b3⟩ := a5 hne
    rw [f3] at a4
    have hpos : 0 < Layer.features.length * Layer.features.length := Nat.mul_pos hn hn
    exact ⟨Layer1, Fs, Coll, comps, a1, a2, features_cached _ _ _ _ a3,
      geometries_of_cached _ _ _ _ b1, b2, b3, a4, by omega⟩

end SnapCacheClaim

namespace Lattice

/-- C24, witness and failing input.  On the layer `oneFeature`, which holds one
polygon and was not parsed yet, `snapPolygonVertices` returns; the layer still
has one feature and the collection one component, and `features` then lists
the feature with the FID 0 twice, at the addresses 0 and 1.  On the layer 1 of
`twoLayers`, with two features, the call returns and `features` lists 6
entries, each of the two FIDs three times. -/
theorem snapPolygonVertices_appends_to_cached_features_witness :
    (oneFeature.snapPolygonVertices repairKernel (1 / 10) 0).1 = .ok () ∧
    oneFeatureSnapped.mp_DataSource.map (fun l => l.features.length) = [1] ∧
    oneFeatureSnapped.components.map (fun p => (p.1, p.2.length)) = [(0, 1)] ∧
    entryFIDs (oneFeatureSnapped.features datasetKernel 0).1 = .ok [(0, 0), (1, 0)] ∧
    (twoLayers.snapPolygonVertices repairKernel (1 / 10) 1).1 = .ok () ∧
    entryFIDs (twoLayersSnapped.features datasetKernel 1).1
      = .ok [(0, 0), (1, 1), (3, 0), (4, 1), (6, 0), (7, 1)] ∧
    ∃ Fs comps, (oneFeatureSnapped.features datasetKernel 0).1 = .ok Fs ∧
      cacheAt oneFeatureSnapped.components 0 = some comps ∧ comps.length < Fs.length := by
  obtain ⟨_, Fs, _, comps, _, _, h1, _, h2, _, _, h3⟩ :=
    snapPolygonVertices_appends_to_cached_features repairKernel oneFeature oneFeatureSnapped
      (1 / 10) 0 ⟨.wkbPolygon, [(0, .inl (square 0 0))]⟩ rfl (by decide)
      (fun l hc => (by cases hc)) (Prod.ext (by decide!) rfl)
  exact ⟨by decide!, by decide!, by decide!, by decide!, by decide!, by decide!,
    Fs, comps, (by rw [show datasetKernel = repairKernel.toDatasetKernel from rfl, h1]), h2, h3⟩

end Lattice

section ValidityLemmas
variable {G : Type}

theorem getMerged_withValidity (k : Kernel G) (v : G → Bool) (g : G) :
    getMergedLineStringsFromGeometry (k.withValidity v) g
      = getMergedLineStringsFromGeometry k g := rfl

theorem computeLineIntersectionsWith_withValidity (k : Kernel G) (v : G → Bool)
    (F O : PolygonEntity G) :
    F.computeLineIntersectionsWith (k.withValidity v) O = F.computeLineIntersectionsWith k O :=
  rfl

theorem createEdge_withValidity (k : Kernel G) (v : G → Bool) (gr : PolygonGraph G) (L : G) :
    gr.createEdge (k.withValidity v) L = gr.createEdge k L := rfl

theorem findEdgeLoop_withValidity (k : Kernel G) (v : G → Bool) (h : EdgeHeap G) (S : G) :
    ∀ edges, findEdgeLoop (k.withValidity v) h S edges = findEdgeLoop k h S edges := by
  intro edges
  induction edges with
  | nil => rfl
  | cons e rest ih =>
    unfold findEdgeLoop
    rw [ih]
    rfl

theorem createEdgesLoop_withValidity (k : Kernel G) (v : G → Bool) :
    ∀ (pieces : List G) (st : PolygonGraph G × PolygonEntity G),
      createEdgesLoop (k.withValidity v) pieces st = createEdgesLoop k pieces st := by
  intro pieces
  induction pieces with
  | nil => intro st; rfl
  | cons p rest ih =>
    intro st
    obtain ⟨gr, E⟩ := st
    unfold createEdgesLoop
    rw [createEdge_withValidity]
    simp only [ih]

theorem removeSegment_withValidity (k : Kernel G) (v : G → Bool) (gr : PolygonGraph G)
    (E : PolygonEntity G) (S : G) :
    PolygonGraph.removeSegment (k.withValidity v) gr E S = PolygonGraph.removeSegment k gr E S := by
  unfold PolygonGraph.removeSegment PolygonEntity.findEdgeLineIntersectingWith
  rw [findEdgeLoop_withValidity]
  simp only [getMerged_withValidity, createEdgesLoop_withValidity]
  rfl

theorem sharedLineStep_withValidity (k : Kernel G) (v : G → Bool) (st : Insertion G)
    (O : PolygonEntity G) (S : G) :
    sharedLineStep (k.withValidity v) st O S = sharedLineStep k st O S := by
  unfold sharedLineStep
  simp only [createEdge_withValidity, removeSegment_withValidity]

theorem sharedLinesLoop_withValidity (k : Kernel G) (v : G → Bool) :
    ∀ (Ls : List G) (st : Insertion G × PolygonEntity G),
      sharedLinesLoop (k.withValidity v) Ls st = sharedLinesLoop k Ls st := by
  intro Ls
  induction Ls with
  | nil => intro st; rfl
  | cons S rest ih =>
    intro st
    obtain ⟨s, O⟩ := st
    unfold sharedLinesLoop
    rw [sharedLineStep_withValidity]
    simp only [ih]

theorem otherEntityStep_withValidity (k : Kernel G) (v : G → Bool) (st : Insertion G)
    (O : PolygonEntity G) :
    otherEntityStep (k.withValidity v) st O = otherEntityStep k st O := by
  unfold otherEntityStep
  simp only [computeLineIntersectionsWith_withValidity, sharedLinesLoop_withValidity]

theorem entitiesLoop_withValidity (k : Kernel G) (v : G → Bool) :
    ∀ (ents : List (PolygonEntity G)) (st : Insertion G),
      entitiesLoop (k.withValidity v) ents st = entitiesLoop k ents st := by
  intro ents
  induction ents with
  | nil => intro st; rfl
  | cons O rest ih =>
    intro st
    unfold entitiesLoop
    rw [otherEntityStep_withValidity]
    simp only [ih]

theorem addPolygonFinish_withValidity (k : Kernel G) (v : G → Bool) (P : G)
    (st : Insertion G) :
    addPolygonFinish (k.withValidity v) P st = addPolygonFinish k P st := by
  unfold addPolygonFinish
  simp only [getMerged_withValidity, createEdgesLoop_withValidity]
  rfl

/-- The `try` block of `addPolygon` does not use the validity test. -/
theorem addPolygonTry_withValidity (k : Kernel G) (v : G → Bool) (gr0 : PolygonGraph G)
    (P : G) (New : PolygonEntity G) :
    PolygonGraph.addPolygonTry (k.withValidity v) gr0 P New
      = PolygonGraph.addPolygonTry k gr0 P New := by
  unfold PolygonGraph.addPolygonTry
  simp only [entitiesLoop_withValidity, addPolygonFinish_withValidity]

end ValidityLemmas

section ValidityClaim
variable {G : Type}

/-- C15: for a polygon that fails the validity check of the kernel, inserted
with a feature that has an identifier into a graph built by `addPolygon`
calls: the warning is written, with the identifier; the outcome of
`addPolygon` is the outcome of its `try` block for the entity made of the
polygon and the feature, and it is the same with any other
validity test in place of that of the kernel, in particular with one that
accepts the polygon: no error of the call is due to the failed check, which
only leads to the warning.  When the call returns, `getSize` has grown by one
and `getEntity` returns, for the identifier of the feature, the new entity,
which holds the polygon and the feature. -/
theorem addPolygon_inserts_invalid_polygon (k : Kernel G) (gr : PolygonGraph G) (Polygon : G)
    (Feat : OGRFeature) (id : Nat) (hb : Built k gr)
    (hinv : k.isValid Polygon = false) (hid : Feat.SELF_ID = some id) :
    addPolygonWarning k Polygon
        (PolygonEntity.ofFeature gr.allocatedEntities.length Polygon Feat) = .ok (some id) ∧
    gr.addPolygon k Polygon Feat
      = PolygonGraph.addPolygonTry k
          { gr with allocatedEntities := gr.allocatedEntities ++ [Feat] } Polygon
          (PolygonEntity.ofFeature gr.allocatedEntities.length Polygon Feat) ∧
    (∀ v : G → Bool,
      gr.addPolygon (k.withValidity v) Polygon Feat = gr.addPolygon k Polygon Feat) ∧
    (∀ (f : FaceId) (gr' : PolygonGraph G), gr.addPolygon k Polygon Feat = (.ok f, gr') →
      gr'.getSize = gr.getSize + 1 ∧
      ∃ F, gr'.getEntity id = some F ∧ F ∈ gr'.m_Entities ∧ F.ptr = f ∧
        F.mp_Polygon = Polygon ∧ F.mp_Feature = Feat) := by
  have hself : (PolygonEntity.ofFeature gr.allocatedEntities.length Polygon Feat).getSelfId
      = .ok id := by
    unfold PolygonEntity.getSelfId PolygonEntity.ofFeature
    simp only [hid]
  have htry : ∀ k' : Kernel G, gr.addPolygon k' Polygon Feat
      = PolygonGraph.addPolygonTry k'
          { gr with allocatedEntities := gr.allocatedEntities ++ [Feat] } Polygon
          (PolygonEntity.ofFeature gr.allocatedEntities.length Polygon Feat) := by
    intro k'
    unfold PolygonGraph.addPolygon addPolygonWarning
    simp only [hself, Except.map]
    cases k'.isValid Polygon <;> rfl
  refine ⟨?_, htry k, ?_, ?_⟩
  · unfold addPolygonWarning
    simp [hinv, hself, Except.map]
  · intro v
    rw [htry, htry, addPolygonTry_withValidity]
  · intro f gr' h
    obtain ⟨_, ho⟩ := addPolygon_registry k gr Polygon Feat _ gr' h
    obtain ⟨_, id', _, _, hptrs⟩ := ho f rfl
    constructor
    · have := congrArg List.length hptrs
      simpa [PolygonGraph.getSize] using this
    · have hr : (gr.addPolygon k Polygon Feat).1 = .ok f := by rw [h]
      obtain ⟨E, h1, h2, _, h4, h5⟩ := getEntity_new k gr hb Polygon Feat id f hr hid
      rw [h] at h1
      refine ⟨E, h1, ?_, h2, h4, h5⟩
      unfold PolygonGraph.getEntity at h1
      split at h1
      · exact List.mem_of_find?_eq_some h1
      · cases h1

end ValidityClaim

namespace Lattice

/-- C15, witness: the rectangle `pinched` fails the validity check; its
insertion into the empty graph with the identifier 7 returns the face 0; the
graph then has one entity, found under the identifier 7, which holds the
polygon; with a feature without identifier the call ends with the exception of
`getSelfId`, raised by the warning.  The constructor from an identifier of
`PolygonEntity.cpp`, which `addPolygon` does not call, rejects the polygon. -/
theorem addPolygon_inserts_invalid_polygon_witness :
    kernel.isValid pinched = false ∧
    PolygonEntity.new kernel 0 pinched 7
      = .error (.exception "PolygonEntity::PolygonEntity" "Polygon is not valid") ∧
    PolygonGraph.addPolygon kernel PolygonGraph.empty pinched ⟨some 7⟩ = (.ok 0, pinchedOnly) ∧
    pinchedOnly.getSize = 1 ∧
    (pinchedOnly.getEntity 7).map (fun F => (F.ptr, F.mp_Polygon, F.m_PolyEdges))
      = some (0, pinched, [0]) ∧
    (PolygonGraph.addPolygon kernel PolygonGraph.empty pinched ⟨none⟩).1
      = .error (.exception "LandREntity::getSelfId" "Cannot get SELF_ID field.") ∧
    (pinchedOnly.getSize = PolygonGraph.getSize (PolygonGraph.empty : PolygonGraph Geom) + 1 ∧
      ∃ F, pinchedOnly.getEntity 7 = some F ∧ F ∈ pinchedOnly.m_Entities ∧ F.ptr = 0 ∧
        F.mp_Polygon = pinched ∧ F.mp_Feature = ⟨some 7⟩) :=
  have h : PolygonGraph.addPolygon kernel PolygonGraph.empty pinched ⟨some 7⟩
      = (.ok 0, pinchedOnly) := Prod.ext (by decide!) rfl
  ⟨by decide!, by decide!, h, by decide!, by decide!, by decide!,
    (addPolygon_inserts_invalid_polygon kernel PolygonGraph.empty pinched ⟨some 7⟩ 7
      Built.empty (by decide!) rfl).2.2.2 0 pinchedOnly h⟩

end Lattice

namespace Lattice

/-- C1, failing input.  The square frame and the unit square `island` that
fills its hole are valid polygons that touch and do not overlap.  The
insertion of `island` into the graph of `frame` returns.  The two polygons
have one shared line, the ring of the hole; one edge object is allocated by
the call, the edge 1, made from this line and carrying both faces.  After the
call the edge is in the edge list of the new face, but not in the edge list
of the face of the frame, which is `[0]` as before the call, and the object
of the edge is released: `removeSegment` removed the shared edge itself. -/
theorem addPolygon_drops_shared_edge_from_existing_face :
    isValid island = true ∧ isValid frame = true ∧
    relate island frame "FFTF1****" = true ∧
    (PolygonGraph.addPolygon kernel PolygonGraph.empty frame ⟨some 2⟩).1 = .ok 0 ∧
    frameOnly.m_Entities.map (fun F => (F.ptr, F.mp_Polygon, F.m_PolyEdges))
      = [(0, frame, [0])] ∧
    (PolygonGraph.addPolygon kernel frameOnly island ⟨some 1⟩).1 = .ok 1 ∧
    islandFace.computeLineIntersectionsWith kernel frameFace = .ok [holeRing] ∧
    frameThenIsland.heap.objects.length = frameOnly.heap.objects.length + 1 ∧
    frameThenIsland.heap.objects[1]?.map (fun E => (E.line, E.m_Faces))
      = some (holeRing, [1, 0]) ∧
    frameThenIsland.m_Entities.map (fun F => (F.ptr, F.mp_Polygon, F.m_PolyEdges))
      = [(0, frame, [0]), (1, island, [1])] ∧
    frameThenIsland.heap.freed = [1] ∧
    (frameThenIsland.heap.read 1).isNone = true ∧
    frameThenIsland.edges = [0] := by
  decide!

end Lattice

end Landr
